import Mathlib

/-!
# libctf type handling (`libctf/ctf-types.c`, `libctf/ctf-api.c`)

A shallow embedding of the type-graph engine of libctf: type-ID / storage-index
arithmetic, parent/child ownership of IDs, type resolution through
typedef/qualifier chains, the cursor and callback iterators (members, types,
variables, enumerators, errors and warnings), size, alignment and encoding, the
rendering of type names, type comparison and compatibility, the recursive visit,
and the dict-wide flags and error lists of `ctf-api.c`.

Conventions of the embedding.

* `uint32_t` and `ctf_id_t` (`unsigned long`, 64 bits) values are natural numbers;
  every C operation that can wrap is written with an explicit reduction modulo
  `2^32` or `2^64`.
* A `ctf_dict_t *` is modelled by the value of the dict it points to.  A dict and
  its parent form a two-level graph, so the parent is stored by value in the
  child (`ctf_parent`), and identity of pointers is identity of `ctf_addr`.
* `assert` failures and exhausted fuel are `none`.
* Signed quantities (`ssize_t`, `int`) are integers.  The product of
  `ctf_type_size`, which can leave the range of `ssize_t` for arrays of arrays, is
  reduced to 64 bits in two's complement; sums and the other products are exact.
  Conversions between `size_t` and `ssize_t` are written out.
* A C string is a `String` whose characters are its bytes.
-/

namespace Ctf

/-! ## Machine arithmetic -/

/-- Truncation to `uint32_t`. -/
def u32 (x : Nat) : Nat := x % 4294967296

/-- Subtraction of two `uint32_t` values, wrapping modulo `2^32`. -/
def sub32 (a b : Nat) : Nat := (a % 4294967296 + (4294967296 - b % 4294967296)) % 4294967296

/-- Subtraction of two 64-bit unsigned values, wrapping modulo `2^64`. -/
def sub64 (a b : Nat) : Nat :=
  (a % 18446744073709551616 + (18446744073709551616 - b % 18446744073709551616))
    % 18446744073709551616

/-- Addition of two `uint32_t` values, wrapping modulo `2^32`. -/
def add32 (a b : Nat) : Nat := (a + b) % 4294967296

/-- Addition of two 64-bit unsigned values (`size_t`, `unsigned long`), wrapping
modulo `2^64`. -/
def add64 (a b : Nat) : Nat := (a + b) % 18446744073709551616

/-- Conversion of a 64-bit unsigned value to `int64_t` (two's complement). -/
def int64 (x : Nat) : Int :=
  if x % 18446744073709551616 < 9223372036854775808 then (x % 18446744073709551616 : Nat)
  else ((x % 18446744073709551616 : Nat) : Int) - 18446744073709551616

/-- The failure sentinel `CTF_ERR` of the functions that return a type ID:
`(ctf_id_t) -1L`, all 64 bits set. -/
def CTF_ERR : Nat := 18446744073709551615

/-! ## Data model -/

/-- The kind tags `CTF_K_*` that `ctf-types.c` switches on. -/
inductive ctf_kind
  | CTF_K_UNKNOWN | CTF_K_INTEGER | CTF_K_FLOAT | CTF_K_POINTER | CTF_K_ARRAY
  | CTF_K_FUNCTION | CTF_K_STRUCT | CTF_K_UNION | CTF_K_ENUM | CTF_K_ENUM64
  | CTF_K_FORWARD | CTF_K_TYPEDEF | CTF_K_VOLATILE | CTF_K_CONST | CTF_K_RESTRICT
  | CTF_K_SLICE | CTF_K_VAR
  deriving DecidableEq, Repr

/-- The error codes stored in `ctf_errno`; `OK` is the value 0 of a fresh dict. -/
inductive ctf_error
  | OK | ENOMEM | EINVAL
  | ECTF_BADFLAG | ECTF_BADID | ECTF_CORRUPT | ECTF_INCOMPLETE | ECTF_INTERNAL
  | ECTF_NAMELEN | ECTF_NEXT_END | ECTF_NEXT_WRONGFP | ECTF_NEXT_WRONGFUN
  | ECTF_NOENUMNAM | ECTF_NOMEMBNAM | ECTF_NONREPRESENTABLE | ECTF_NOPARENT
  | ECTF_NOTARRAY | ECTF_NOTENUM | ECTF_NOTFUNC | ECTF_NOTINTFP | ECTF_NOTREF
  | ECTF_NOTSOU | ECTF_NOTSUE | ECTF_NOTYPE
  deriving DecidableEq, Repr

/-- One element `ctf_member_t` of the member array of a struct or union; the name
is the string that `ctf_strptr` yields for `ctm_name`. -/
structure ctf_member_t where
  ctm_name : String := ""
  ctm_type : Nat := 0
  ctm_offset : Nat := 0
  deriving DecidableEq, Repr

/-- One element `ctf_enum_t` of the enumerator array of a `CTF_K_ENUM`: the name is
the string that `ctf_strptr` yields for `cte_name`, and `cte_value` is the number
the 32-bit field holds (so that the conversion to `int64_t` leaves it as it is). -/
structure ctf_enum_t where
  cte_name : String := ""
  cte_value : Int := 0
  deriving DecidableEq, Repr

/-- One element `ctf_enum64_t` of the enumerator array of a `CTF_K_ENUM64`: the name
and the two `uint32_t` halves of the value. -/
structure ctf_enum64_t where
  cte_name : String := ""
  cte_val_low : Nat := 0
  cte_val_high : Nat := 0
  deriving DecidableEq, Repr

/-- The payload `ctf_array_t` of a `CTF_K_ARRAY`: element type, index type and
number of elements. -/
structure ctf_array_t where
  cta_contents : Nat := 0
  cta_index : Nat := 0
  cta_nelems : Nat := 0
  deriving DecidableEq, Repr

/-- A type record as `ctf_lookup_by_id` hands it out: the kind (`LCTF_KIND`), the
`ctt_type` of the suffix record, the `CTF_INFO_KFLAG` and root-visibility bits,
whether a `CTF_K_BIG` prefix precedes the record, and the variable-length
payload (member array, slice descriptor, enumerator array of either width,
argument array of a function, array descriptor, the `uint32_t` data word of an
integer or float).  `ctt_size` is the size in bytes that `ctf_get_ctt_size` reports
for the record. -/
structure ctf_type_t where
  kind : ctf_kind := ctf_kind.CTF_K_UNKNOWN
  ctt_type : Nat := 0
  ctt_name : String := ""
  kflag : Bool := false
  isroot : Bool := true
  big : Bool := false
  members : List ctf_member_t := []
  cts_type : Nat := 0
  enumerators : List ctf_enum_t := []
  enumerators64 : List ctf_enum64_t := []
  args : List Nat := []
  ctt_size : Nat := 0
  array : ctf_array_t := {}
  encoding_data : Nat := 0
  cts_offset : Nat := 0
  cts_bits : Nat := 0
  deriving DecidableEq, Repr

/-- An entry `ctf_err_warning_t` of a dict's error/warning list. -/
structure ctf_err_warning_t where
  cew_is_warning : Bool
  cew_text : String
  deriving DecidableEq, Repr

/-- One element `ctf_varent_t` of the static variable array `ctf_vars`. -/
structure ctf_varent_t where
  ctv_name : String := ""
  ctv_type : Nat := 0
  deriving DecidableEq, Repr

/-- One node `ctf_dvdef_t` of the list `ctf_dvdefs` of dynamically added variables. -/
structure ctf_dvdef_t where
  dvd_name : String := ""
  dvd_type : Nat := 0
  deriving DecidableEq, Repr

/-- The fields of a `ctf_dict_t` other than the parent pointer.  `ctf_addr` is the
address of the dict, `LCTF_CHILD` and `LCTF_NO_STR` are the bits of `ctf_flags`,
`cth_parent_typemax` is the field of `ctf_header`; the type counters are `uint32_t`.
`ctf_types` is the table behind `LCTF_INDEX_TO_TYPEPTR`, indexed by storage index
(slot 0 is never a type); `ctf_dthash` lists the IDs that index the dynamic-type
hash.  `ctf_vars` is the static variable array (its length is `ctf_nvars`) and
`ctf_dvdefs` the list of dynamic variables; `ctd_pointer` is the pointer size of
the data model, `ctf_dmodel->ctd_pointer`.  `ctf_flags` holds the bits of the
`uint32_t` flag word other than `LCTF_CHILD` and `LCTF_NO_STR`. -/
structure ctf_dict_core where
  ctf_addr : Nat := 0
  LCTF_CHILD : Bool := false
  LCTF_NO_STR : Bool := false
  cth_parent_typemax : Nat := 0
  ctf_stypes : Nat := 0
  ctf_typemax : Nat := 0
  ctf_nprovtypes : Nat := 0
  ctf_provtypemax : Nat := 0
  ctf_idmax : Nat := 0
  ctf_dthash : List Nat := []
  ctf_types : List ctf_type_t := []
  ctf_errno : ctf_error := ctf_error.OK
  ctf_errs_warnings : List ctf_err_warning_t := []
  ctf_vars : List ctf_varent_t := []
  ctf_dvdefs : List ctf_dvdef_t := []
  ctd_pointer : Nat := 8
  ctf_flags : Nat := 0
  deriving DecidableEq, Repr

/-- A dict together with its attached parent, if any (`fp->ctf_parent`). -/
structure ctf_dict_t extends ctf_dict_core where
  ctf_parent : Option ctf_dict_core := none
  deriving DecidableEq, Repr

/-- The dict a parent pointer points to: a parent has no parent of its own. -/
def ctf_dict_core.dict (p : ctf_dict_core) : ctf_dict_t := { p with ctf_parent := none }

/-! ## Parent / child ownership of type IDs -/

/-- `ctf_type_isparent`: non-zero when `id` is a type of the parent. -/
def ctf_type_isparent (fp : ctf_dict_t) (id : Nat) : Nat :=
  if !fp.LCTF_CHILD then 1
  else match fp.ctf_parent with
    | none => if fp.cth_parent_typemax ≥ id then 1 else 0
    | some parent =>
      if id ≤ parent.ctf_idmax then 1
      else if id ≥ parent.ctf_provtypemax then
        (if id ∈ fp.ctf_dthash then 0 else 1)
      else 0

/-- `ctf_type_ischild`: the negation of `ctf_type_isparent`. -/
def ctf_type_ischild (fp : ctf_dict_t) (id : Nat) : Nat :=
  if ctf_type_isparent fp id = 0 then 1 else 0

/-- `ctf_get_dict`: the native dict of a type, which is the parent pointer (possibly
`NULL`, here `none`) for a parent type seen from a child. -/
def ctf_get_dict (fp : ctf_dict_t) (type : Nat) : Option ctf_dict_t :=
  if fp.LCTF_CHILD && ctf_type_isparent fp type != 0 then
    fp.ctf_parent.map ctf_dict_core.dict
  else some fp

/-! ## Index / ID arithmetic -/

/-- `ctf_type_to_index_internal`.  The two `assert`s fail (result `none`) on a
child dict asked about an ID at or below `cth_parent_typemax`. -/
def ctf_type_to_index_internal (fp : ctf_dict_t) (type : Nat) : Option Nat :=
  let idx := u32 type
  if fp.LCTF_CHILD && !(type > fp.cth_parent_typemax) then none
  else
    let idx := if fp.LCTF_CHILD then sub32 idx fp.cth_parent_typemax else idx
    if idx ≤ fp.ctf_stypes then some idx
    else if fp.LCTF_CHILD then some idx
    else if idx ≤ sub32 fp.ctf_typemax fp.ctf_nprovtypes then some (u32 type)
    else some (u32 (sub64 fp.ctf_typemax (sub64 type fp.ctf_provtypemax)))

/-- `ctf_type_to_index` (built without `ENABLE_LIBCTF_HASH_DEBUGGING`). -/
def ctf_type_to_index (fp : ctf_dict_t) (type : Nat) : Option Nat :=
  ctf_type_to_index_internal fp type

/-- `ctf_index_to_type`. -/
def ctf_index_to_type (fp : ctf_dict_t) (idx : Nat) : Nat :=
  if fp.LCTF_CHILD then add32 idx fp.cth_parent_typemax
  else if idx ≤ sub32 fp.ctf_typemax fp.ctf_nprovtypes then idx
  else add32 fp.ctf_provtypemax (sub32 fp.ctf_typemax idx)

/-- The counters of a dict are `uint32_t` values laid out as the comment in
`ctf_type_to_index_internal` describes: static types, then dynamic
non-provisional types up to `ctf_typemax - ctf_nprovtypes`, then provisional types
whose IDs `ctf_provtypemax ..` lie above every non-provisional ID and inside the
32-bit ID space; a child's own IDs `cth_parent_typemax + 1 ..` fit in 32 bits. -/
def ctf_dict_layout (fp : ctf_dict_t) : Prop :=
  fp.ctf_typemax < 4294967296 ∧ fp.ctf_stypes + fp.ctf_nprovtypes ≤ fp.ctf_typemax ∧
  (fp.LCTF_CHILD = true → fp.cth_parent_typemax + fp.ctf_typemax < 4294967296) ∧
  (fp.LCTF_CHILD = false →
    fp.ctf_provtypemax + fp.ctf_nprovtypes ≤ 4294967296 ∧
    (0 < fp.ctf_nprovtypes → fp.ctf_typemax - fp.ctf_nprovtypes < fp.ctf_provtypemax))

instance (fp : ctf_dict_t) : Decidable (ctf_dict_layout fp) := by
  unfold ctf_dict_layout; infer_instance

/-- Validity of a type ID: in a root dict a static ID, a dynamic non-provisional
ID, or a provisional ID; in a child dict an ID strictly above
`cth_parent_typemax`. IDs are 32-bit quantities. -/
def ctf_valid_id (fp : ctf_dict_t) (id : Nat) : Prop :=
  id < 4294967296 ∧
  (if fp.LCTF_CHILD then fp.cth_parent_typemax < id
   else id ≤ fp.ctf_stypes ∨ id ≤ fp.ctf_typemax - fp.ctf_nprovtypes ∨
        (fp.ctf_provtypemax ≤ id ∧ id < fp.ctf_provtypemax + fp.ctf_nprovtypes))

instance (fp : ctf_dict_t) (id : Nat) : Decidable (ctf_valid_id fp id) := by
  unfold ctf_valid_id; infer_instance

/-- The attached parent is the dict the child was built against: the child's
`cth_parent_typemax` does not exceed the parent's highest non-provisional ID. -/
def ctf_parent_linked (fp : ctf_dict_t) : Prop :=
  ∀ p, fp.ctf_parent = some p → fp.cth_parent_typemax ≤ p.ctf_idmax

/-! ## Error reporting (`ctf-api.c`) -/

/-- The value a call returns, with the dict the caller passed as the call left it. -/
structure ctf_ret (α : Type) where
  val : α
  fp : ctf_dict_t
  deriving DecidableEq, Repr

/-- `ctf_errno`: the error code last stored in the dict. -/
def ctf_errno (fp : ctf_dict_t) : ctf_error := fp.ctf_errno

/-- `ctf_set_errno`: store the error code, return `-1`. -/
def ctf_set_errno (fp : ctf_dict_t) (err : ctf_error) : ctf_ret Int :=
  ⟨-1, { fp with ctf_errno := err }⟩

/-- `ctf_set_typed_errno`: store the error code, return `CTF_ERR`. -/
def ctf_set_typed_errno (fp : ctf_dict_t) (err : ctf_error) : ctf_ret Nat :=
  ⟨CTF_ERR, { fp with ctf_errno := err }⟩

/-- `ctf_err_warn` on a dict: append one record to the dict's error/warning list.
The two allocations are taken to succeed; `err` only reaches the debug stream. -/
def ctf_err_warn (fp : ctf_dict_t) (is_warning : Bool) (_err : ctf_error) (text : String) :
    ctf_dict_t :=
  { fp with ctf_errs_warnings := fp.ctf_errs_warnings ++ [⟨is_warning, text⟩] }

/-- The `%lx` rendering of a type ID in a diagnostic. -/
def ctf_fmt_lx (n : Nat) : String := String.mk (Nat.toDigits 16 n)

/-! ## Type lookup -/

/-- `LCTF_INDEX_TO_TYPEPTR`: the record in storage slot `idx`. -/
def LCTF_INDEX_TO_TYPEPTR (fp : ctf_dict_t) (idx : Nat) : ctf_type_t :=
  fp.ctf_types.getD idx {}

/-- What `ctf_lookup_by_id (&fp, type, &suffix)` leaves behind on success: the dict
`*fpp` now points to, whether that is the parent of the dict passed in, and the
record found. -/
structure ctf_lookup_t where
  fp : ctf_dict_t
  up : Bool
  tp : ctf_type_t
  deriving DecidableEq, Repr

/-- Modelled from the spec: `ctf_lookup_by_id` lives in `ctf-lookup.c`, which is not
among the sources.  A type ID resolves to a storage record via the index
arithmetic, in the native dict of the ID (`ctf_get_dict`); a child without its
parent fails with `ECTF_NOPARENT`, and ID 0 or an index beyond `ctf_typemax` fails
with `ECTF_BADID`. -/
def ctf_lookup_by_id (fp : ctf_dict_t) (type : Nat) : Except ctf_error ctf_lookup_t :=
  match ctf_get_dict fp type with
  | none => .error .ECTF_NOPARENT
  | some d =>
    match ctf_type_to_index d type with
    | none => .error .ECTF_BADID
    | some idx =>
      if 0 < type ∧ idx ≤ d.ctf_typemax then
        .ok ⟨d, fp.LCTF_CHILD && ctf_type_isparent fp type != 0, LCTF_INDEX_TO_TYPEPTR d idx⟩
      else .error .ECTF_BADID

/-- A failed `ctf_lookup_by_id (&fp, ...)` stores its error in the dict `fp` points
to at that moment: the dict the caller was given, or (`up`) its parent. -/
def ctf_lookup_errno (ofp : ctf_dict_t) (up : Bool) (err : ctf_error) : ctf_dict_t :=
  if up then
    { ofp with ctf_parent := ofp.ctf_parent.map fun p => { p with ctf_errno := err } }
  else { ofp with ctf_errno := err }

/-! ## Type resolution -/

/-- The kinds `ctf_type_resolve` follows: `CTF_K_TYPEDEF`, `CTF_K_VOLATILE`,
`CTF_K_CONST`, `CTF_K_RESTRICT` and `CTF_K_VAR`. -/
def ctf_kind.is_ref : ctf_kind → Bool
  | .CTF_K_TYPEDEF | .CTF_K_VOLATILE | .CTF_K_CONST | .CTF_K_RESTRICT | .CTF_K_VAR => true
  | _ => false

/-- The cycle report of `ctf_type_resolve_nonrepresentable`: one error record on
the dict of the call, then `ctf_set_typed_errno (ofp, ECTF_CORRUPT)`. -/
def ctf_cycle_detected (ofp : ctf_dict_t) (otype : Nat) : ctf_ret Nat :=
  ctf_set_typed_errno
    (ctf_err_warn ofp false .ECTF_CORRUPT ("type " ++ ctf_fmt_lx otype ++ " cycle detected"))
    .ECTF_CORRUPT

/-- The `while` loop of `ctf_type_resolve_nonrepresentable`, one lookup per unit of
fuel.  `ofp` and `otype` are the dict and type of the call, `fp` (with `up` saying
whether it is the parent of `ofp`), `type` and `prev` the loop variables. -/
def ctf_type_resolve_loop (allow_zero : Bool) (ofp : ctf_dict_t) (otype : Nat) :
    Nat → ctf_dict_t → Bool → Nat → Nat → Option (ctf_ret Nat)
  | 0, _, _, _, _ => none
  | fuel + 1, fp, up, type, prev =>
    match ctf_lookup_by_id fp type with
    | .error e => some ⟨CTF_ERR, ctf_lookup_errno ofp up e⟩
    | .ok l =>
      if l.tp.kind.is_ref then
        if l.tp.ctt_type = type ∨ l.tp.ctt_type = otype ∨ l.tp.ctt_type = prev then
          some (ctf_cycle_detected ofp otype)
        else if l.tp.ctt_type = 0 then
          (if allow_zero then some ⟨0, ofp⟩
           else some (ctf_set_typed_errno ofp .ECTF_NONREPRESENTABLE))
        else
          ctf_type_resolve_loop allow_zero ofp otype fuel l.fp (up || l.up) l.tp.ctt_type type
      else if l.tp.kind = .CTF_K_UNKNOWN then
        some (ctf_set_typed_errno ofp .ECTF_NONREPRESENTABLE)
      else some ⟨type, ofp⟩

/-- `ctf_type_resolve_nonrepresentable`; `none` when `fuel` lookups do not reach a
`return`. -/
def ctf_type_resolve_nonrepresentable (fuel : Nat) (fp : ctf_dict_t) (type : Nat)
    (allow_zero : Bool) : Option (ctf_ret Nat) :=
  if type = 0 then
    (if allow_zero then some ⟨0, fp⟩
     else some (ctf_set_typed_errno fp .ECTF_NONREPRESENTABLE))
  else ctf_type_resolve_loop allow_zero fp type fuel fp false type type

/-- `ctf_type_resolve`. -/
def ctf_type_resolve (fuel : Nat) (fp : ctf_dict_t) (type : Nat) : Option (ctf_ret Nat) :=
  ctf_type_resolve_nonrepresentable fuel fp type false

/-- The state reached from `type`, looked up from `fp`, by following exactly `n`
typedef/qualifier links: the dict the lookups have moved to, whether that is the
parent, and the type ID the last link refers to. -/
def ctf_follow : Nat → ctf_dict_t → Bool → Nat → Option (ctf_dict_t × Bool × Nat)
  | 0, fp, up, type => some (fp, up, type)
  | n + 1, fp, up, type =>
    match ctf_lookup_by_id fp type with
    | .error _ => none
    | .ok l =>
      if l.tp.kind.is_ref then ctf_follow n l.fp (up || l.up) l.tp.ctt_type else none

/-- The type IDs met on the way when following up to `n` links from `type`. -/
def ctf_path : Nat → ctf_dict_t → Nat → List Nat
  | 0, _, type => [type]
  | n + 1, fp, type =>
    match ctf_lookup_by_id fp type with
    | .error _ => [type]
    | .ok l => if l.tp.kind.is_ref then type :: ctf_path n l.fp l.tp.ctt_type else [type]

/-! ## The dict a lookup has moved to -/

/-- The dict a local `fp` points to after lookups on `ofp`: `ofp` itself, or (`up`)
its parent. -/
def ctf_cur (ofp : ctf_dict_t) (up : Bool) : ctf_dict_t :=
  if up then (match ofp.ctf_parent with
    | some p => p.dict
    | none => ofp)
  else ofp

/-- The dict `ofp` after a callee changed the dict `ctf_cur ofp up` into `fp'`. -/
def ctf_put (ofp : ctf_dict_t) (up : Bool) (fp' : ctf_dict_t) : ctf_dict_t :=
  if up then { ofp with ctf_parent := ofp.ctf_parent.map fun _ => fp'.toctf_dict_core }
  else fp'

/-- Modelled from the spec: `ctf_dynamic_type` is not among the sources.  It
"returns a mutable record if the ID denotes a dynamically-added type", in the
native dict of the ID: the record (`dtd_buf`, with its payload `dtd_vlen`) of a type
whose ID is in the dynamic-type hash. -/
def ctf_dynamic_type (fp : ctf_dict_t) (type : Nat) : Option ctf_type_t :=
  match ctf_get_dict fp type with
  | none => none
  | some d =>
    if type ∈ d.ctf_dthash then (ctf_type_to_index d type).map (LCTF_INDEX_TO_TYPEPTR d)
    else none

/-! ## Kind and reference queries -/

/-- `ctf_type_reference`: the type a pointer, typedef, qualifier or slice refers
to. -/
def ctf_type_reference (fp : ctf_dict_t) (type : Nat) : ctf_ret Nat :=
  match ctf_lookup_by_id fp type with
  | .error e => ⟨CTF_ERR, ctf_lookup_errno fp false e⟩
  | .ok l =>
    match l.tp.kind with
    | .CTF_K_POINTER | .CTF_K_TYPEDEF | .CTF_K_VOLATILE | .CTF_K_CONST | .CTF_K_RESTRICT =>
      ⟨l.tp.ctt_type, fp⟩
    | .CTF_K_SLICE =>
      match ctf_dynamic_type fp type with
      | none => ⟨l.tp.cts_type, fp⟩
      | some dtd => ⟨dtd.cts_type, fp⟩
    | _ => ctf_set_typed_errno fp .ECTF_NOTREF

/-- `ctf_type_kind_unsliced`; `none` is the return value `-1`. -/
def ctf_type_kind_unsliced (fp : ctf_dict_t) (type : Nat) : ctf_ret (Option ctf_kind) :=
  match ctf_lookup_by_id fp type with
  | .error e => ⟨none, ctf_lookup_errno fp false e⟩
  | .ok l => ⟨some l.tp.kind, fp⟩

/-- `ctf_type_kind`: a slice has the kind of the type it slices. -/
def ctf_type_kind (fp : ctf_dict_t) (type : Nat) : ctf_ret (Option ctf_kind) :=
  let k := ctf_type_kind_unsliced fp type
  match k.val with
  | none => ⟨none, k.fp⟩
  | some kind =>
    if kind = .CTF_K_SLICE then
      let r := ctf_type_reference k.fp type
      if r.val = CTF_ERR then ⟨none, r.fp⟩
      else ctf_type_kind_unsliced r.fp r.val
    else ⟨some kind, k.fp⟩

/-! ## Resolution through slices -/

/-- The `do ... while` loop of `ctf_type_resolve_unsliced`: `ofp` is the dict of the
call as changed so far, `up` says whether the local `fp` has moved to the parent,
`tp` and `resolved_type` are the loop variables. -/
def ctf_type_resolve_unsliced_loop :
    Nat → ctf_dict_t → Bool → ctf_type_t → Nat → Option (ctf_ret Nat)
  | 0, _, _, _, _ => none
  | fuel + 1, ofp, up, tp, resolved_type =>
    let fp := ctf_cur ofp up
    let r := if tp.kind = .CTF_K_SLICE then ctf_type_reference fp resolved_type
             else ⟨resolved_type, fp⟩
    if tp.kind = .CTF_K_SLICE ∧ r.val = CTF_ERR then
      some (ctf_set_typed_errno (ctf_put ofp up r.fp) (ctf_errno r.fp))
    else
      let type := r.val
      match ctf_type_resolve fuel r.fp type with
      | none => none
      | some rr =>
        if rr.val = CTF_ERR then some ⟨CTF_ERR, ctf_put ofp up rr.fp⟩
        else
          match ctf_lookup_by_id rr.fp rr.val with
          | .error e => some ⟨CTF_ERR, ctf_put ofp up (ctf_lookup_errno rr.fp false e)⟩
          | .ok l =>
            if l.tp.kind = .CTF_K_SLICE then
              ctf_type_resolve_unsliced_loop fuel (ctf_put ofp up rr.fp) (up || l.up) l.tp rr.val
            else some ⟨type, ctf_put ofp up rr.fp⟩

/-- `ctf_type_resolve_unsliced`. -/
def ctf_type_resolve_unsliced (fuel : Nat) (fp : ctf_dict_t) (type : Nat) :
    Option (ctf_ret Nat) :=
  match ctf_type_resolve fuel fp type with
  | none => none
  | some r =>
    if r.val = CTF_ERR then some ⟨CTF_ERR, r.fp⟩
    else
      match ctf_lookup_by_id r.fp r.val with
      | .error e => some ⟨CTF_ERR, ctf_lookup_errno r.fp false e⟩
      | .ok l => ctf_type_resolve_unsliced_loop fuel r.fp l.up l.tp r.val

/-! ## Member iteration -/

/-- The `*_next` function an iterator was created by (`ctn_iter_fun`). -/
inductive ctf_iter_fun
  | ctf_member_next | ctf_enum_next | ctf_type_next | ctf_variable_next | ctf_errwarning_next
  deriving DecidableEq, Repr

/-- One `ctf_next_t`, without its `ctn_next` pointer: an iterator `*it` is the list of
the `ctf_next_t` linked through `ctn_next`, outermost first, and `NULL` is `[]`.
`ctn_fp` is the address of the dict in `cu.ctn_fp`; `ctn_dtd` identifies the dynamic
type definition in `u.ctn_dtd` by its type ID and by whether it lives in the
parent.  The pointers `u.ctn_en`, `u.ctn_en64` and `u.ctn_dvd` are the parts of
their array or list that lie ahead (`ctn_dvd = []` is `NULL`). -/
structure ctf_next_t where
  ctn_iter_fun : ctf_iter_fun
  ctn_fp : Nat
  ctn_tp : ctf_type_t := {}
  ctn_dtd : Option (Bool × Nat) := none
  ctn_type : Nat := 0
  ctn_n : Nat := 0
  ctn_size : Int := 0
  ctn_increment : Int := 0
  ctn_en : List ctf_enum_t := []
  ctn_en64 : List ctf_enum64_t := []
  ctn_dvd : List ctf_dvdef_t := []
  deriving DecidableEq, Repr

/-- Modelled from the spec: the constant `CTF_MN_RECURSE` is declared in
`ctf-api.h`, which is not among the sources; it is the flag that "controls whether
anonymous-aggregate recursion happens automatically". -/
def CTF_MN_RECURSE : Nat := 1

/-- Modelled from the spec: the macro `CTF_MEMBER_BIT_SIZE` is defined in `ctf.h`,
which is not among the sources.  A member of a struct with the kind flag set has an
"optional bit width", packed with the bit offset into `ctm_offset`: the width is
taken to be the upper 8 bits. -/
def CTF_MEMBER_BIT_SIZE (val : Nat) : Nat := val / 16777216

/-- Modelled from the spec: the macro `CTF_MEMBER_BIT_OFFSET` is defined in `ctf.h`,
which is not among the sources; the bit offset is taken to be the lower 24 bits of
`ctm_offset`. -/
def CTF_MEMBER_BIT_OFFSET (val : Nat) : Nat := val % 16777216

/-- `LCTF_VLEN`: the number of elements of the variable-length payload; the member
array of a record has exactly that many elements. -/
def LCTF_VLEN (tp : ctf_type_t) : Nat := tp.members.length

/-- `ctf_vlen`: the member array and its length, from the dynamic type definition
of `type` if there is one and else from the record `tp`. -/
def ctf_vlen (fp : ctf_dict_t) (type : Nat) (tp : ctf_type_t) : List ctf_member_t × Nat :=
  match ctf_dynamic_type fp type with
  | some dtd => (dtd.members, LCTF_VLEN dtd)
  | none => (tp.members, LCTF_VLEN tp)

/-- `ctf_assert_fail_internal`: `ECTF_INTERNAL` and one error record. -/
def ctf_assert_fail_internal (fp : ctf_dict_t) (text : String) : ctf_dict_t :=
  ctf_err_warn (ctf_set_errno fp .ECTF_INTERNAL).fp false .OK text

/-- What a call of `ctf_member_next` leaves behind: the return value (an offset, or
`-1`), the iterator slot `*it`, the values written through `name`, `membtype` and
`bit_width` if any, and the dict the call was made on. -/
structure ctf_member_ret where
  ret : Int
  it : List ctf_next_t
  name : Option String := none
  membtype : Option Nat := none
  bit_width : Option Int := none
  fp : ctf_dict_t
  deriving DecidableEq, Repr

/-- The `if (!i)` block of `ctf_member_next`: an existing iterator is used with the
type as passed; otherwise the type is resolved and looked up and, if it is a struct
or union, the iterator is created (`ctf_next_create` is taken to succeed). -/
def ctf_member_next_open (fuel : Nat) (ofp : ctf_dict_t) (type : Nat) (it : List ctf_next_t) :
    Option (Except ctf_member_ret (ctf_dict_t × Nat × ctf_next_t × List ctf_next_t)) :=
  match it with
  | i :: sub => some (.ok (ofp, type, i, sub))
  | [] =>
    match ctf_type_resolve fuel ofp type with
    | none => none
    | some r =>
      if r.val = CTF_ERR then some (.error { ret := -1, it := [], fp := r.fp })
      else
        match ctf_lookup_by_id r.fp r.val with
        | .error e => some (.error { ret := -1, it := [], fp := ctf_lookup_errno r.fp false e })
        | .ok l =>
          if l.tp.kind ≠ .CTF_K_STRUCT ∧ l.tp.kind ≠ .CTF_K_UNION then
            some (.error { ret := -1, it := [], fp := (ctf_set_errno r.fp .ECTF_NOTSOU).fp })
          else
            some (.ok (r.fp, r.val,
              { ctn_iter_fun := .ctf_member_next, ctn_fp := ofp.ctf_addr, ctn_tp := l.tp,
                ctn_dtd := (ctf_dynamic_type l.fp r.val).map fun _ => (l.up, r.val),
                ctn_n := 0 }, []))

/-- The test `membname[0] == 0 && (ctf_type_kind (...) == CTF_K_STRUCT ||
ctf_type_kind (...) == CTF_K_UNION)` on the dict `fp`. -/
def ctf_member_is_anon_sou (fp : ctf_dict_t) (memb : ctf_member_t) : ctf_ret Bool :=
  if memb.ctm_name = "" then
    let k1 := ctf_type_kind fp memb.ctm_type
    if k1.val = some .CTF_K_STRUCT then ⟨true, k1.fp⟩
    else
      let k2 := ctf_type_kind k1.fp memb.ctm_type
      ⟨decide (k2.val = some .CTF_K_UNION), k2.fp⟩
  else ⟨false, fp⟩

/-- The part of `ctf_member_next` that returns the top-level member `memb`: name,
type, bit width and offset (accumulated in `ctn_size` under a `CTF_K_BIG` prefix),
and the note in `ctn_type` / `ctn_increment` that an unnamed struct or union member
is to be descended into. -/
def ctf_member_emit (ofp : ctf_dict_t) (up : Bool) (flags : Nat) (i : ctf_next_t)
    (sub : List ctf_next_t) (memb : ctf_member_t) : ctf_member_ret :=
  let bit_width : Int :=
    if i.ctn_tp.kflag then (CTF_MEMBER_BIT_SIZE memb.ctm_offset : Int) else 0
  let offset0 : Int :=
    if i.ctn_tp.kflag then (CTF_MEMBER_BIT_OFFSET memb.ctm_offset : Int) else memb.ctm_offset
  let ctn_size : Int := if i.ctn_tp.big then i.ctn_size + offset0 else i.ctn_size
  let offset : Int := if i.ctn_tp.big then ctn_size else offset0
  let a := ctf_member_is_anon_sou (ctf_cur ofp up) memb
  let ctn_type : Nat :=
    if a.val = true ∧ flags &&& CTF_MN_RECURSE ≠ 0 then memb.ctm_type else 0
  { ret := offset,
    it := { i with ctn_size := ctn_size, ctn_type := ctn_type, ctn_n := i.ctn_n + 1,
                   ctn_increment := if ctn_type ≠ 0 then offset else i.ctn_increment } :: sub,
    name := some memb.ctm_name, membtype := some memb.ctm_type, bit_width := some bit_width,
    fp := ctf_put ofp up a.fp }

/-- The code of `ctf_member_next` from the label `retry` on.  `sub_next` is the
recursive call on the sub-struct, `vlen` and `nmemb` the member array, `up` says
whether the native dict of the type is the parent of `ofp`; `i :: sub` is the
iterator. -/
def ctf_member_next_retry
    (sub_next : ctf_dict_t → Nat → List ctf_next_t → Option ctf_member_ret)
    (vlen : List ctf_member_t) (nmemb : Nat) (flags : Nat) (up : Bool) :
    Nat → ctf_dict_t → ctf_next_t → List ctf_next_t → Option ctf_member_ret
  | 0, _, _, _ => none
  | k + 1, ofp, i, sub =>
    if i.ctn_type = 0 then
      if i.ctn_n ≥ nmemb then
        some { ret := -1, it := [], fp := (ctf_set_errno ofp .ECTF_NEXT_END).fp }
      else
        let memb := vlen.getD i.ctn_n {}
        if memb.ctm_name = "" ∧ memb.ctm_type = 0 then
          ctf_member_next_retry sub_next vlen nmemb flags up k ofp
            { i with ctn_n := i.ctn_n + 1 } sub
        else some (ctf_member_emit ofp up flags i sub memb)
    else
      match sub_next (ctf_cur ofp up) i.ctn_type sub with
      | none => none
      | some r =>
        if r.ret ≥ 0 then
          some { ret := r.ret + i.ctn_increment, it := i :: r.it, name := r.name,
                 membtype := r.membtype, bit_width := r.bit_width, fp := ctf_put ofp up r.fp }
        else if ctf_errno r.fp ≠ .ECTF_NEXT_END then
          some { ret := r.ret, it := [], name := r.name, membtype := r.membtype,
                 bit_width := r.bit_width,
                 fp := (ctf_set_errno (ctf_put ofp up r.fp) (ctf_errno r.fp)).fp }
        else if r.it ≠ [] then
          let fp2 := ctf_assert_fail_internal r.fp "libctf assertion failed: i->ctn_next == NULL"
          some { ret := -1, it := i :: r.it, name := r.name, membtype := r.membtype,
                 bit_width := r.bit_width,
                 fp := (ctf_set_errno (ctf_put ofp up fp2) (ctf_errno fp2)).fp }
        else
          ctf_member_next_retry sub_next vlen nmemb flags up k (ctf_put ofp up r.fp)
            { i with ctn_type := 0 } []

/-- The code of `ctf_member_next` between the `if (!i)` block and the label
`retry`: the checks of the iterator against the function and the dict, the native
dict of the type, the member array, and the refresh of `ctn_tp` from the dynamic
type definition. -/
def ctf_member_next_body
    (sub_next : ctf_dict_t → Nat → List ctf_next_t → Option ctf_member_ret)
    (fuel : Nat) (ofp : ctf_dict_t) (type : Nat) (i : ctf_next_t) (sub : List ctf_next_t)
    (flags : Nat) : Option ctf_member_ret :=
  if i.ctn_iter_fun ≠ .ctf_member_next then
    some { ret := -1, it := i :: sub, fp := (ctf_set_errno ofp .ECTF_NEXT_WRONGFUN).fp }
  else if ofp.ctf_addr ≠ i.ctn_fp then
    some { ret := -1, it := i :: sub, fp := (ctf_set_errno ofp .ECTF_NEXT_WRONGFP).fp }
  else
    match ctf_get_dict ofp type with
    | none =>
      some { ret := -1, it := i :: sub, fp := (ctf_set_errno ofp .ECTF_NOPARENT).fp }
    | some fp =>
      let up := ofp.LCTF_CHILD && ctf_type_isparent ofp type != 0
      let v := ctf_vlen fp type i.ctn_tp
      let i := { i with ctn_tp := match i.ctn_dtd with
        | some d => (ctf_dynamic_type (ctf_cur ofp d.1) d.2).getD i.ctn_tp
        | none => i.ctn_tp }
      ctf_member_next_retry sub_next v.1 v.2 flags up fuel ofp i sub

/-- `ctf_member_next (fp, type, &it, &name, &membtype, &bit_width, flags)`; `none`
when `fuel` does not suffice. -/
def ctf_member_next : Nat → ctf_dict_t → Nat → List ctf_next_t → Nat → Option ctf_member_ret
  | 0, _, _, _, _ => none
  | fuel + 1, ofp, type, it, flags =>
    if ofp.LCTF_NO_STR then
      some { ret := -1, it := it, fp := (ctf_set_errno ofp .ECTF_NOPARENT).fp }
    else
      match ctf_member_next_open fuel ofp type it with
      | none => none
      | some (.error r) => some r
      | some (.ok (ofp, type, i, sub)) =>
        ctf_member_next_body (fun fp' t s => ctf_member_next fuel fp' t s flags)
          fuel ofp type i sub flags

/-- The sequence of items that repeated calls of `ctf_member_next` return, starting
from the iterator `it`, until a call returns a negative value (the loop of
`ctf_member_iter`, with the flags as a parameter), and the dict after that call.
`n` bounds the number of calls, `fuel` is the fuel of each call. -/
def ctf_member_next_all : Nat → Nat → ctf_dict_t → Nat → Nat → List ctf_next_t →
    Option (List (String × Nat × Int) × ctf_dict_t)
  | 0, _, _, _, _, _ => none
  | n + 1, fuel, fp, type, flags, it =>
    match ctf_member_next fuel fp type it flags with
    | none => none
    | some r =>
      if r.ret < 0 then some ([], r.fp)
      else
        match ctf_member_next_all n fuel r.fp type flags r.it with
        | none => none
        | some (items, fp') =>
          some ((r.name.getD "", r.membtype.getD 0, r.ret) :: items, fp')

/-- A dict without its error state: error code and error list cleared, in the
dict and in its parent.  Two dicts with the same image hold the same types. -/
def ctf_dict_core.noerr (p : ctf_dict_core) : ctf_dict_core :=
  { p with ctf_errno := .OK, ctf_errs_warnings := [] }

/-- See `ctf_dict_core.noerr`. -/
def ctf_noerr (fp : ctf_dict_t) : ctf_dict_t :=
  { fp with ctf_errno := .OK, ctf_errs_warnings := [],
            ctf_parent := fp.ctf_parent.map ctf_dict_core.noerr }

/-- The members of a member array that are no padding (padding: empty name and
member type 0), as (name, type) pairs in declaration order. -/
def ctf_direct_members (members : List ctf_member_t) : List (String × Nat) :=
  (members.filter fun m => !(decide (m.ctm_name = "" ∧ m.ctm_type = 0))).map
    fun m => (m.ctm_name, m.ctm_type)

/-- The outputs of a call are those of a member that is no padding: a name and a
member type were written, and not an empty name together with type 0. -/
def ctf_member_good (r : ctf_member_ret) : Prop :=
  ∃ nm mt, r.name = some nm ∧ r.membtype = some mt ∧ ¬(nm = "" ∧ mt = 0)

/-- The direct members from position `k` on that are no padding. -/
def ctf_direct_from (members : List ctf_member_t) (k : Nat) : List (String × Nat) :=
  ctf_direct_members (members.drop k)

/-- An iterator of `ctf_member_next` over the type `type` of the dict `fp0`, found
there as `l`: it belongs to this function and this dict, it holds the record of the
type (unless the type is dynamic, in which case the record is read afresh on each
call), and its running offsets are not negative. -/
def ctf_member_inv (fp0 : ctf_dict_t) (type : Nat) (l : ctf_lookup_t) (i : ctf_next_t) : Prop :=
  i.ctn_iter_fun = .ctf_member_next ∧ i.ctn_fp = fp0.ctf_addr ∧
  (ctf_dynamic_type l.fp type = none → i.ctn_tp = l.tp ∧ i.ctn_dtd = none) ∧
  0 ≤ i.ctn_size ∧ 0 ≤ i.ctn_increment

/-- The effect of one call made at position `k` of the member array: it fails, and
if it fails with `ECTF_NEXT_END` no direct member was left to return; or it returns
an item and leaves an iterator (satisfying `inv`) at a position from which the
remaining direct members are the same, or the same less the item returned. -/
def ctf_member_step (members : List ctf_member_t) (inv : ctf_next_t → Prop) (k : Nat)
    (r : ctf_member_ret) : Prop :=
  (r.ret < 0 ∧ (r.fp.ctf_errno = .ECTF_NEXT_END → ctf_direct_from members k = [])) ∨
  (0 ≤ r.ret ∧ ∃ i' sub', r.it = i' :: sub' ∧ inv i' ∧
    (ctf_direct_from members k = ctf_direct_from members i'.ctn_n ∨
     ctf_direct_from members k =
       (r.name.getD "", r.membtype.getD 0) :: ctf_direct_from members i'.ctn_n))

/-- The position `ctn_n` of an iterator, 0 for the iterator not yet created. -/
def ctf_it_n (it : List ctf_next_t) : Nat :=
  match it with
  | [] => 0
  | i :: _ => i.ctn_n

/-- The state between two calls of an iteration over the type `type` of `fp0`:
before the first call the dict is `fp0` and the slot is empty; later the dict
differs from `fp0` in its error state only and the slot holds an iterator over the
type. -/
def ctf_member_pre (fp0 : ctf_dict_t) (type : Nat) (l : ctf_lookup_t) (ofp : ctf_dict_t)
    (it : List ctf_next_t) : Prop :=
  match it with
  | [] => ofp = fp0
  | i :: _ => ctf_noerr ofp = ctf_noerr fp0 ∧ ctf_member_inv fp0 type l i

/-! ## Type iteration -/

/-- What a call of `ctf_type_next` leaves behind: the return value (a type ID, or
`CTF_ERR`), the iterator slot `*it`, the value written through `flag` if any, and
the dict. -/
structure ctf_type_next_ret where
  ret : Nat
  it : List ctf_next_t
  flag : Option Bool := none
  fp : ctf_dict_t
  deriving DecidableEq, Repr

/-- The `while` loop of `ctf_type_next` and the code after it, one storage index
per unit of fuel; `i :: sub` is the iterator. -/
def ctf_type_next_loop (fp : ctf_dict_t) (want_hidden : Int) (sub : List ctf_next_t) :
    Nat → ctf_next_t → Option ctf_type_next_ret
  | 0, _ => none
  | k + 1, i =>
    if i.ctn_type ≤ fp.ctf_typemax then
      let tp := LCTF_INDEX_TO_TYPEPTR fp i.ctn_type
      if want_hidden = 0 ∧ tp.isroot = false then
        ctf_type_next_loop fp want_hidden sub k { i with ctn_type := i.ctn_type + 1 }
      else
        some { ret := ctf_index_to_type fp (u32 i.ctn_type),
               it := { i with ctn_type := i.ctn_type + 1 } :: sub,
               flag := some tp.isroot, fp := fp }
    else
      some { ret := (ctf_set_typed_errno fp .ECTF_NEXT_END).val, it := [],
             fp := (ctf_set_typed_errno fp .ECTF_NEXT_END).fp }

/-- `ctf_type_next (fp, &it, &flag, want_hidden)`; `ctf_next_create` is taken to
succeed, and `none` means that `fuel` does not suffice. -/
def ctf_type_next (fuel : Nat) (fp : ctf_dict_t) (it : List ctf_next_t) (want_hidden : Int) :
    Option ctf_type_next_ret :=
  let i : ctf_next_t := match it with
    | [] => { ctn_iter_fun := .ctf_type_next, ctn_fp := fp.ctf_addr, ctn_type := 1 }
    | i :: _ => i
  let sub : List ctf_next_t := it.tail
  if i.ctn_iter_fun ≠ .ctf_type_next then
    some { ret := (ctf_set_typed_errno fp .ECTF_NEXT_WRONGFUN).val, it := i :: sub,
           fp := (ctf_set_typed_errno fp .ECTF_NEXT_WRONGFUN).fp }
  else if fp.ctf_addr ≠ i.ctn_fp then
    some { ret := (ctf_set_typed_errno fp .ECTF_NEXT_WRONGFP).val, it := i :: sub,
           fp := (ctf_set_typed_errno fp .ECTF_NEXT_WRONGFP).fp }
  else ctf_type_next_loop fp want_hidden sub fuel i

/-- The loop of `ctf_type_iter_all` and `ctf_type_iter`: the (type ID, flag) pairs
that repeated calls of `ctf_type_next` return until a call returns `CTF_ERR`, and
the dict after that call.  `n` bounds the number of calls. -/
def ctf_type_next_all : Nat → Nat → ctf_dict_t → List ctf_next_t → Int →
    Option (List (Nat × Bool) × ctf_dict_t)
  | 0, _, _, _, _ => none
  | n + 1, fuel, fp, it, want_hidden =>
    match ctf_type_next fuel fp it want_hidden with
    | none => none
    | some r =>
      if r.ret = CTF_ERR then some ([], r.fp)
      else
        match ctf_type_next_all n fuel r.fp r.it want_hidden with
        | none => none
        | some (items, fp') => some ((r.ret, r.flag.getD false) :: items, fp')

/-! ## Variable iteration -/

/-- What a call of `ctf_variable_next` leaves behind: the return value (a type ID,
or `CTF_ERR`), the iterator slot `*it`, the value written through `name` if any, and
the dict. -/
structure ctf_variable_ret where
  ret : Nat
  it : List ctf_next_t
  name : Option String := none
  fp : ctf_dict_t
  deriving DecidableEq, Repr

/-- The field `ctf_nvars`: the number of elements of `ctf_vars`. -/
def ctf_nvars (fp : ctf_dict_t) : Nat := fp.ctf_vars.length

/-- `ctf_variable_next (fp, &it, &name)`; `ctf_next_create` is taken to succeed. -/
def ctf_variable_next (fp : ctf_dict_t) (it : List ctf_next_t) : ctf_variable_ret :=
  if fp.LCTF_CHILD = true ∧ fp.ctf_parent = none then
    { ret := (ctf_set_typed_errno fp .ECTF_NOPARENT).val, it := it,
      fp := (ctf_set_typed_errno fp .ECTF_NOPARENT).fp }
  else
    let i : ctf_next_t := match it with
      | [] => { ctn_iter_fun := .ctf_variable_next, ctn_fp := fp.ctf_addr,
                ctn_dvd := fp.ctf_dvdefs }
      | i :: _ => i
    let sub : List ctf_next_t := it.tail
    if i.ctn_iter_fun ≠ .ctf_variable_next then
      { ret := (ctf_set_typed_errno fp .ECTF_NEXT_WRONGFUN).val, it := i :: sub,
        fp := (ctf_set_typed_errno fp .ECTF_NEXT_WRONGFUN).fp }
    else if fp.ctf_addr ≠ i.ctn_fp then
      { ret := (ctf_set_typed_errno fp .ECTF_NEXT_WRONGFP).val, it := i :: sub,
        fp := (ctf_set_typed_errno fp .ECTF_NEXT_WRONGFP).fp }
    else if i.ctn_n < ctf_nvars fp then
      { ret := (fp.ctf_vars.getD i.ctn_n {}).ctv_type,
        it := { i with ctn_n := i.ctn_n + 1 } :: sub,
        name := some (fp.ctf_vars.getD i.ctn_n {}).ctv_name, fp := fp }
    else
      match i.ctn_dvd with
      | [] =>
        { ret := (ctf_set_typed_errno fp .ECTF_NEXT_END).val, it := [],
          fp := (ctf_set_typed_errno fp .ECTF_NEXT_END).fp }
      | d :: rest =>
        { ret := d.dvd_type, it := { i with ctn_dvd := rest } :: sub,
          name := some d.dvd_name, fp := fp }

/-- The loop of `ctf_variable_iter`: the (name, type ID) pairs that repeated calls
of `ctf_variable_next` return until a call returns `CTF_ERR`, and the dict after
that call.  `n` bounds the number of calls. -/
def ctf_variable_next_all : Nat → ctf_dict_t → List ctf_next_t →
    Option (List (String × Nat) × ctf_dict_t)
  | 0, _, _ => none
  | n + 1, fp, it =>
    if (ctf_variable_next fp it).ret = CTF_ERR then some ([], (ctf_variable_next fp it).fp)
    else
      match ctf_variable_next_all n (ctf_variable_next fp it).fp (ctf_variable_next fp it).it with
      | none => none
      | some (items, fp') =>
        some ((((ctf_variable_next fp it).name).getD "", (ctf_variable_next fp it).ret) :: items,
              fp')

/-! ## Error and warning iteration (`ctf-api.c`) -/

/-- What a call of `ctf_errwarning_next` on a dict leaves behind: the text returned
(`none` is `NULL`), the iterator slot `*it`, the values written through `is_warning`
and `errp` if any, and the dict. -/
structure ctf_errwarning_ret where
  ret : Option String
  it : List ctf_next_t
  is_warning : Option Bool := none
  errp : Option ctf_error := none
  fp : ctf_dict_t
  deriving DecidableEq, Repr

/-- `ctf_errwarning_next (fp, &it, &is_warning, errp)` with `fp` not `NULL`;
`has_errp` says whether `errp` is not `NULL`.  An error of the call itself goes to
`*errp` if there is one and to the dict otherwise; `ctf_next_create` is taken to
succeed. -/
def ctf_errwarning_next (fp : ctf_dict_t) (it : List ctf_next_t) (has_errp : Bool) :
    ctf_errwarning_ret :=
  let i : ctf_next_t := match it with
    | [] => { ctn_iter_fun := .ctf_errwarning_next, ctn_fp := fp.ctf_addr }
    | i :: _ => i
  let sub : List ctf_next_t := it.tail
  let fail (e : ctf_error) (it' : List ctf_next_t) : ctf_errwarning_ret :=
    if has_errp then { ret := none, it := it', errp := some e, fp := fp }
    else { ret := none, it := it', fp := (ctf_set_errno fp e).fp }
  if i.ctn_iter_fun ≠ .ctf_errwarning_next then fail .ECTF_NEXT_WRONGFUN (i :: sub)
  else if fp.ctf_addr ≠ i.ctn_fp then fail .ECTF_NEXT_WRONGFP (i :: sub)
  else
    match fp.ctf_errs_warnings with
    | [] => fail .ECTF_NEXT_END []
    | cew :: rest =>
      { ret := some cew.cew_text, it := i :: sub, is_warning := some cew.cew_is_warning,
        fp := { fp with ctf_errs_warnings := rest } }

/-! ## Enumerator iteration and lookup -/

/-- `LCTF_VLEN` of the record of an enum: the number of elements of its enumerator
array, of the width that the kind selects. -/
def LCTF_VLEN_enum (tp : ctf_type_t) : Nat :=
  if tp.kind = .CTF_K_ENUM64 then tp.enumerators64.length else tp.enumerators.length

/-- `ctf_vlen` at the call sites that cast the payload to `ctf_enum_t *` or to
`ctf_enum64_t *`: the record whose payload is handed out (the dynamic type
definition of `type` if there is one, else `tp`) and the length. -/
def ctf_vlen_enum (fp : ctf_dict_t) (type : Nat) (tp : ctf_type_t) : ctf_type_t × Nat :=
  match ctf_dynamic_type fp type with
  | some dtd => (dtd, LCTF_VLEN_enum dtd)
  | none => (tp, LCTF_VLEN_enum tp)

/-- The value of a 64-bit enumerator:
`((uint64_t) cte_val_high) << 32 | cte_val_low`, stored into an `int64_t`. -/
def ctf_enum64_value (e : ctf_enum64_t) : Int :=
  int64 (((u32 e.cte_val_high * 4294967296) % 18446744073709551616) ||| u32 e.cte_val_low)

/-- What a call of `ctf_enum_next` leaves behind: the name returned (`none` is
`NULL`), the iterator slot `*it`, the value written through `val` if any, and the
dict. -/
structure ctf_enum_ret where
  ret : Option String
  it : List ctf_next_t
  val : Option Int := none
  fp : ctf_dict_t
  deriving DecidableEq, Repr

/-- The `if (!i)` block of `ctf_enum_next`: an existing iterator is used with the
type as passed; otherwise the type is resolved through slices, its kind is checked
and the iterator is created over the enumerator array (`ctf_next_create` is taken
to succeed). -/
def ctf_enum_next_open (fuel : Nat) (ofp : ctf_dict_t) (type : Nat) (it : List ctf_next_t) :
    Option (Except ctf_enum_ret (ctf_dict_t × Nat × ctf_next_t × List ctf_next_t)) :=
  match it with
  | i :: sub => some (.ok (ofp, type, i, sub))
  | [] =>
    match ctf_type_resolve_unsliced fuel ofp type with
    | none => none
    | some r =>
      if r.val = CTF_ERR then some (.error { ret := none, it := [], fp := r.fp })
      else
        let k := ctf_type_kind r.fp r.val
        if k.val ≠ some .CTF_K_ENUM ∧ k.val ≠ some .CTF_K_ENUM64 then
          some (.error { ret := none, it := [], fp := (ctf_set_errno k.fp .ECTF_NOTENUM).fp })
        else
          match ctf_lookup_by_id k.fp r.val with
          | .error e =>
            some (.error { ret := none, it := [], fp := ctf_lookup_errno k.fp false e })
          | .ok l =>
            let en := ctf_vlen_enum l.fp r.val l.tp
            some (.ok (k.fp, r.val,
              { ctn_iter_fun := .ctf_enum_next, ctn_fp := ofp.ctf_addr, ctn_n := en.2,
                ctn_en := if k.val = some .CTF_K_ENUM then en.1.enumerators else [],
                ctn_en64 := if k.val = some .CTF_K_ENUM then [] else en.1.enumerators64 }, []))

/-- The code of `ctf_enum_next` after the `if (!i)` block.  `none`: the element
read lies beyond the array the iterator was created over. -/
def ctf_enum_next_body (ofp : ctf_dict_t) (type : Nat) (i : ctf_next_t)
    (sub : List ctf_next_t) : Option ctf_enum_ret :=
  if i.ctn_iter_fun ≠ .ctf_enum_next then
    some { ret := none, it := i :: sub, fp := (ctf_set_errno ofp .ECTF_NEXT_WRONGFUN).fp }
  else if ofp.ctf_addr ≠ i.ctn_fp then
    some { ret := none, it := i :: sub, fp := (ctf_set_errno ofp .ECTF_NEXT_WRONGFP).fp }
  else
    match ctf_get_dict ofp type with
    | none =>
      some { ret := none, it := i :: sub, fp := (ctf_set_errno ofp .ECTF_NOPARENT).fp }
    | some fp =>
      let up := ofp.LCTF_CHILD && ctf_type_isparent ofp type != 0
      if i.ctn_n = 0 then
        some { ret := none, it := [], fp := (ctf_set_errno ofp .ECTF_NEXT_END).fp }
      else
        let k := ctf_type_kind fp type
        if k.val = some .CTF_K_ENUM then
          match i.ctn_en with
          | [] => none
          | e :: rest =>
            some { ret := some e.cte_name, val := some e.cte_value,
                   it := { i with ctn_en := rest, ctn_n := i.ctn_n - 1 } :: sub,
                   fp := ctf_put ofp up k.fp }
        else
          match i.ctn_en64 with
          | [] => none
          | e :: rest =>
            some { ret := some e.cte_name, val := some (ctf_enum64_value e),
                   it := { i with ctn_en64 := rest, ctn_n := i.ctn_n - 1 } :: sub,
                   fp := ctf_put ofp up k.fp }

/-- `ctf_enum_next (fp, type, &it, &val)`; `none` when `fuel` does not suffice. -/
def ctf_enum_next (fuel : Nat) (ofp : ctf_dict_t) (type : Nat) (it : List ctf_next_t) :
    Option ctf_enum_ret :=
  if ofp.LCTF_NO_STR then
    some { ret := none, it := it, fp := (ctf_set_errno ofp .ECTF_NOPARENT).fp }
  else
    match ctf_enum_next_open fuel ofp type it with
    | none => none
    | some (.error r) => some r
    | some (.ok (ofp, type, i, sub)) => ctf_enum_next_body ofp type i sub

/-- The loop of `ctf_enum_iter`: the (name, value) pairs that repeated calls of
`ctf_enum_next` return until a call returns `NULL`, and the dict after that call.
`n` bounds the number of calls. -/
def ctf_enum_next_all : Nat → Nat → ctf_dict_t → Nat → List ctf_next_t →
    Option (List (String × Int) × ctf_dict_t)
  | 0, _, _, _, _ => none
  | n + 1, fuel, fp, type, it =>
    match ctf_enum_next fuel fp type it with
    | none => none
    | some r =>
      match r.ret with
      | none => some ([], r.fp)
      | some name =>
        match ctf_enum_next_all n fuel r.fp type r.it with
        | none => none
        | some (items, fp') => some ((name, r.val.getD 0) :: items, fp')

/-- The common start of `ctf_enum_name` and `ctf_enum_value`: the type is resolved
through slices and looked up, and must be an enum of either width.  The result is
the record whose enumerator array is scanned and the number of its elements,
together with the dict of the call after these steps. -/
def ctf_enum_lookup (fuel : Nat) (ofp : ctf_dict_t) (type : Nat) :
    Option (Except ctf_dict_t (ctf_dict_t × ctf_kind × ctf_type_t × Nat)) :=
  if ofp.LCTF_NO_STR then some (.error (ctf_set_errno ofp .ECTF_NOPARENT).fp)
  else
    match ctf_type_resolve_unsliced fuel ofp type with
    | none => none
    | some r =>
      if r.val = CTF_ERR then some (.error r.fp)
      else
        match ctf_lookup_by_id r.fp r.val with
        | .error e => some (.error (ctf_lookup_errno r.fp false e))
        | .ok l =>
          if l.tp.kind ≠ .CTF_K_ENUM ∧ l.tp.kind ≠ .CTF_K_ENUM64 then
            some (.error (ctf_set_errno r.fp .ECTF_NOTENUM).fp)
          else
            some (.ok (r.fp, l.tp.kind, (ctf_vlen_enum l.fp r.val l.tp).1,
                       (ctf_vlen_enum l.fp r.val l.tp).2))

/-- `ctf_enum_name (fp, type, value)`: the name of the first of the `n` enumerators
whose value is `value`; `none` as value is `NULL`. -/
def ctf_enum_name (fuel : Nat) (ofp : ctf_dict_t) (type : Nat) (value : Int) :
    Option (ctf_ret (Option String)) :=
  match ctf_enum_lookup fuel ofp type with
  | none => none
  | some (.error fp') => some ⟨none, fp'⟩
  | some (.ok (fp', kind, en, n)) =>
    if kind = .CTF_K_ENUM then
      match (en.enumerators.take n).find? fun ep => decide (ep.cte_value = value) with
      | some ep => some ⟨some ep.cte_name, fp'⟩
      | none => some ⟨none, (ctf_set_errno fp' .ECTF_NOENUMNAM).fp⟩
    else
      match (en.enumerators64.take n).find? fun ep => decide (ctf_enum64_value ep = value) with
      | some ep => some ⟨some ep.cte_name, fp'⟩
      | none => some ⟨none, (ctf_set_errno fp' .ECTF_NOENUMNAM).fp⟩

/-- What a call of `ctf_enum_value` leaves behind: the return value, the value
written through `valp` if any, and the dict. -/
structure ctf_enum_value_ret where
  ret : Int
  valp : Option Int := none
  fp : ctf_dict_t
  deriving DecidableEq, Repr

/-- `ctf_enum_value (fp, type, name, &val)`: the value of the first of the `n`
enumerators whose name is `name`. -/
def ctf_enum_value (fuel : Nat) (ofp : ctf_dict_t) (type : Nat) (name : String) :
    Option ctf_enum_value_ret :=
  match ctf_enum_lookup fuel ofp type with
  | none => none
  | some (.error fp') => some { ret := -1, fp := fp' }
  | some (.ok (fp', kind, en, n)) =>
    if kind = .CTF_K_ENUM then
      match (en.enumerators.take n).find? fun ep => decide (ep.cte_name = name) with
      | some ep => some { ret := 0, valp := some ep.cte_value, fp := fp' }
      | none => some { ret := -1, fp := (ctf_set_errno fp' .ECTF_NOENUMNAM).fp }
    else
      match (en.enumerators64.take n).find? fun ep => decide (ep.cte_name = name) with
      | some ep => some { ret := 0, valp := some (ctf_enum64_value ep), fp := fp' }
      | none => some { ret := -1, fp := (ctf_set_errno fp' .ECTF_NOENUMNAM).fp }

/-- The (name, value) pairs of the enumerators of the record of an enum, in stored
order. -/
def ctf_enum_pairs (tp : ctf_type_t) : List (String × Int) :=
  if tp.kind = .CTF_K_ENUM64 then tp.enumerators64.map fun e => (e.cte_name, ctf_enum64_value e)
  else tp.enumerators.map fun e => (e.cte_name, e.cte_value)

/-! ## Function types -/

/-- The result structure `ctf_funcinfo_t`. -/
structure ctf_funcinfo_t where
  ctc_return : Nat
  ctc_argc : Nat
  ctc_flags : Nat
  deriving DecidableEq, Repr

/-- Modelled from the spec: the constant `CTF_FUNC_VARARG` is declared in
`ctf-api.h`, which is not among the sources; it is the flag that marks a function
as "variadic". -/
def CTF_FUNC_VARARG : Nat := 1

/-- `LCTF_INFO_VLEN` of the record of a function: the number of argument slots. -/
def LCTF_INFO_VLEN (tp : ctf_type_t) : Nat := tp.args.length

/-- What a call of `ctf_func_type_info` leaves behind: the return value, `*fip` if
it was written, and the dict. -/
structure ctf_func_type_info_ret where
  ret : Int
  fip : Option ctf_funcinfo_t := none
  fp : ctf_dict_t
  deriving DecidableEq, Repr

/-- `ctf_func_type_info (fp, type, &fip)`; `none` when `fuel` does not suffice or the
last argument slot lies beyond the argument array. -/
def ctf_func_type_info (fuel : Nat) (ofp : ctf_dict_t) (type : Nat) :
    Option ctf_func_type_info_ret :=
  match ctf_type_resolve fuel ofp type with
  | none => none
  | some r =>
    if r.val = CTF_ERR then some { ret := -1, fp := r.fp }
    else
      match ctf_lookup_by_id r.fp r.val with
      | .error e => some { ret := -1, fp := ctf_lookup_errno r.fp false e }
      | .ok l =>
        if l.tp.kind ≠ .CTF_K_FUNCTION then
          some { ret := -1, fp := (ctf_set_errno r.fp .ECTF_NOTFUNC).fp }
        else
          let argc := LCTF_INFO_VLEN l.tp
          let args := match ctf_dynamic_type l.fp r.val with
            | none => l.tp.args
            | some dtd => dtd.args
          if argc ≠ 0 then
            match args.get? (argc - 1) with
            | none => none
            | some last =>
              if last = 0 then
                some { ret := 0, fp := r.fp,
                       fip := some { ctc_return := l.tp.ctt_type, ctc_argc := argc - 1,
                                     ctc_flags := 0 ||| CTF_FUNC_VARARG } }
              else
                some { ret := 0, fp := r.fp,
                       fip := some { ctc_return := l.tp.ctt_type, ctc_argc := argc,
                                     ctc_flags := 0 } }
          else
            some { ret := 0, fp := r.fp,
                   fip := some { ctc_return := l.tp.ctt_type, ctc_argc := argc,
                                 ctc_flags := 0 } }

/-! ## Member lookup by name -/

/-- The result structure `ctf_membinfo_t`. -/
structure ctf_membinfo_t where
  ctm_type : Nat
  ctm_offset : Nat
  ctm_bit_width : Int
  deriving DecidableEq, Repr

/-- What a call of `ctf_member_info` leaves behind: the return value, `*mip` if it
was written, and the dict. -/
structure ctf_member_info_ret where
  ret : Int
  mip : Option ctf_membinfo_t := none
  fp : ctf_dict_t
  deriving DecidableEq, Repr

/-- The `for` loop of `ctf_member_info` and the `return` after it.  `info` is the
recursive call, `up` says whether the native dict of the type is the parent of
`ofp`, `n` is the loop counter and `total_offset` the running sum.  The member
looked at is `(ctf_member_t *) vlen` in every round: the loop advances neither
`vlen` nor an index into it. -/
def ctf_member_info_loop (info : ctf_dict_t → Nat → Option ctf_member_info_ret)
    (up big kflag : Bool) (vlen : List ctf_member_t) (name : String) :
    Nat → Nat → ctf_dict_t → Option ctf_member_info_ret
  | 0, _, ofp => some { ret := -1, fp := (ctf_set_errno ofp .ECTF_NOMEMBNAM).fp }
  | n + 1, total_offset, ofp =>
    match vlen.head? with
    | none => none
    | some memb =>
      let offset := if kflag then CTF_MEMBER_BIT_OFFSET memb.ctm_offset else memb.ctm_offset
      let bit_width : Int := if kflag then (CTF_MEMBER_BIT_SIZE memb.ctm_offset : Int) else 0
      let total_offset := add64 total_offset offset
      let a := ctf_member_is_anon_sou (ctf_cur ofp up) memb
      let ofp1 := ctf_put ofp up a.fp
      let ordinary (ofp2 : ctf_dict_t) : Option ctf_member_info_ret :=
        if memb.ctm_name = name then
          some { ret := 0, fp := ofp2,
                 mip := some { ctm_type := memb.ctm_type,
                               ctm_offset := if big then add64 total_offset memb.ctm_offset
                                             else memb.ctm_offset,
                               ctm_bit_width := bit_width } }
        else ctf_member_info_loop info up big kflag vlen name n total_offset ofp2
      if a.val then
        match info (ctf_cur ofp1 up) memb.ctm_type with
        | none => none
        | some r =>
          if r.ret = 0 then
            some { ret := 0, fp := ctf_put ofp1 up r.fp,
                   mip := r.mip.map fun m =>
                     { m with ctm_offset :=
                         add64 m.ctm_offset (if big then offset else total_offset) } }
          else ordinary (ctf_put ofp1 up r.fp)
      else ordinary ofp1

/-- `ctf_member_info (fp, type, name, &mip)`; `none` when `fuel` does not suffice. -/
def ctf_member_info : Nat → ctf_dict_t → Nat → String → Option ctf_member_info_ret
  | 0, _, _, _ => none
  | fuel + 1, ofp, type, name =>
    if ofp.LCTF_NO_STR then some { ret := -1, fp := (ctf_set_errno ofp .ECTF_NOPARENT).fp }
    else
      match ctf_type_resolve fuel ofp type with
      | none => none
      | some r =>
        if r.val = CTF_ERR then some { ret := -1, fp := r.fp }
        else
          match ctf_lookup_by_id r.fp r.val with
          | .error e => some { ret := -1, fp := ctf_lookup_errno r.fp false e }
          | .ok l =>
            if l.tp.kind ≠ .CTF_K_STRUCT ∧ l.tp.kind ≠ .CTF_K_UNION then
              some { ret := -1, fp := (ctf_set_errno r.fp .ECTF_NOTSOU).fp }
            else
              ctf_member_info_loop (fun fp' t => ctf_member_info fuel fp' t name)
                l.up l.tp.big l.tp.kflag (ctf_vlen l.fp r.val l.tp).1 name
                (ctf_vlen l.fp r.val l.tp).2 0 r.fp

/-! ## Example dicts -/

/-- A root dict with two static types, one dynamic non-provisional type and two
provisional types numbered down from the top of the 32-bit ID space. -/
def root_prov_dict : ctf_dict_t :=
  { ctf_addr := 1, ctf_stypes := 2, ctf_typemax := 5, ctf_nprovtypes := 2,
    ctf_provtypemax := 4294967294, ctf_idmax := 3 }

/-- A child dict, not yet attached to a parent that holds 10 types, with three
types of its own. -/
def child_dict : ctf_dict_t :=
  { ctf_addr := 2, LCTF_CHILD := true, cth_parent_typemax := 10, ctf_stypes := 3,
    ctf_typemax := 3 }

/-- The child `child_dict` attached to a parent with 10 non-provisional types. -/
def child_dict_attached : ctf_dict_t :=
  { child_dict with
    ctf_parent := some { ctf_addr := 3, ctf_stypes := 10, ctf_typemax := 10, ctf_idmax := 10,
                         ctf_provtypemax := 4294967295 } }

/-- A root dict with the chain `const (3) → typedef (2) → int (1)`. -/
def chain_dict : ctf_dict_t :=
  { ctf_addr := 4, ctf_stypes := 3, ctf_typemax := 3, ctf_idmax := 3,
    ctf_provtypemax := 4294967295,
    ctf_types := [{}, { kind := .CTF_K_INTEGER, ctt_name := "int" },
                  { kind := .CTF_K_TYPEDEF, ctt_type := 1, ctt_name := "int_t" },
                  { kind := .CTF_K_CONST, ctt_type := 2 }] }

/-- A root dict whose typedefs form the cycle `2 → 3 → 4 → 2`, entered from the
typedef 1. -/
def rho_dict : ctf_dict_t :=
  { ctf_addr := 5, ctf_stypes := 4, ctf_typemax := 4, ctf_idmax := 4,
    ctf_provtypemax := 4294967295,
    ctf_types := [{}, { kind := .CTF_K_TYPEDEF, ctt_type := 2, ctt_name := "a" },
                  { kind := .CTF_K_TYPEDEF, ctt_type := 3, ctt_name := "b" },
                  { kind := .CTF_K_TYPEDEF, ctt_type := 4, ctt_name := "c" },
                  { kind := .CTF_K_TYPEDEF, ctt_type := 2, ctt_name := "d" }] }

/-- A root dict with the two-cycle `1 → 2 → 1` and the self-loop `3 → 3`. -/
def cycle_dict : ctf_dict_t :=
  { ctf_addr := 6, ctf_stypes := 3, ctf_typemax := 3, ctf_idmax := 3,
    ctf_provtypemax := 4294967295,
    ctf_types := [{}, { kind := .CTF_K_TYPEDEF, ctt_type := 2, ctt_name := "a" },
                  { kind := .CTF_K_CONST, ctt_type := 1 },
                  { kind := .CTF_K_VOLATILE, ctt_type := 3 }] }

/-- A root dict with a forward (1), a typedef of it (2), a type of unknown kind
(3), a typedef of that (4) and a typedef of the absent type 0 (5). -/
def forward_dict : ctf_dict_t :=
  { ctf_addr := 7, ctf_stypes := 5, ctf_typemax := 5, ctf_idmax := 5,
    ctf_provtypemax := 4294967295,
    ctf_types := [{}, { kind := .CTF_K_FORWARD, ctt_name := "s" },
                  { kind := .CTF_K_TYPEDEF, ctt_type := 1, ctt_name := "s_t" },
                  { kind := .CTF_K_UNKNOWN },
                  { kind := .CTF_K_TYPEDEF, ctt_type := 3, ctt_name := "u_t" },
                  { kind := .CTF_K_TYPEDEF, ctt_type := 0, ctt_name := "void_t" }] }

/-- A root dict with the enum 1, the typedef 2 of it and the slice 3 of that
typedef. -/
def slice_dict : ctf_dict_t :=
  { ctf_addr := 8, ctf_stypes := 3, ctf_typemax := 3, ctf_idmax := 3,
    ctf_provtypemax := 4294967295,
    ctf_types := [{}, { kind := .CTF_K_ENUM, ctt_name := "e" },
                  { kind := .CTF_K_TYPEDEF, ctt_type := 1, ctt_name := "e_t" },
                  { kind := .CTF_K_SLICE, cts_type := 2 }] }

/-- A root dict with `int` (1), the struct 2 `{ int b; }` and the struct 3
`{ int a; <padding>; struct 2 <unnamed> at bit 32; int c at bit 64; }`. -/
def struct_dict : ctf_dict_t :=
  { ctf_addr := 9, ctf_stypes := 3, ctf_typemax := 3, ctf_idmax := 3,
    ctf_provtypemax := 4294967295,
    ctf_types := [{}, { kind := .CTF_K_INTEGER, ctt_name := "int" },
                  { kind := .CTF_K_STRUCT,
                    members := [{ ctm_name := "b", ctm_type := 1, ctm_offset := 0 }] },
                  { kind := .CTF_K_STRUCT, ctt_name := "outer",
                    members := [{ ctm_name := "a", ctm_type := 1, ctm_offset := 0 },
                                { ctm_name := "", ctm_type := 0, ctm_offset := 0 },
                                { ctm_name := "", ctm_type := 2, ctm_offset := 32 },
                                { ctm_name := "c", ctm_type := 1, ctm_offset := 64 }] }] }

/-! ## Whole-dict iteration and function types: auxiliary definitions and example dicts -/

/-- Whether whole-dict iteration returns the type in storage slot `idx`. -/
def ctf_type_visible (fp : ctf_dict_t) (want_hidden : Int) (idx : Nat) : Bool :=
  decide (want_hidden ≠ 0) || (LCTF_INDEX_TO_TYPEPTR fp idx).isroot

/-- The (type ID, root-visibility) pairs of the storage slots `start .. ctf_typemax`
that whole-dict iteration returns, in increasing order of the slot. -/
def ctf_type_list (fp : ctf_dict_t) (want_hidden : Int) (start : Nat) : List (Nat × Bool) :=
  ((List.range' start (fp.ctf_typemax + 1 - start)).filter (ctf_type_visible fp want_hidden)).map
    fun idx => (ctf_index_to_type fp idx, (LCTF_INDEX_TO_TYPEPTR fp idx).isroot)

/-- The position of an iterator of `ctf_type_next`: the storage slot it looks at
next, 1 for the iterator not yet created. -/
def ctf_type_it_pos (it : List ctf_next_t) : Nat :=
  match it with
  | [] => 1
  | i :: _ => i.ctn_type

/-- The slot holds no iterator, or an iterator of `ctf_type_next` on the dict at
a position of at least 1. -/
def ctf_type_it_ok (fp : ctf_dict_t) (it : List ctf_next_t) : Prop :=
  match it with
  | [] => True
  | i :: _ => i.ctn_iter_fun = .ctf_type_next ∧ i.ctn_fp = fp.ctf_addr ∧ 1 ≤ i.ctn_type

/-- The IDs of the types of a child lie apart from those of its attached parent:
the parent's non-provisional IDs end at or below `cth_parent_typemax`, and an ID
of the child that reaches into the parent's provisional range is that of a dynamic
type of the child. -/
def ctf_child_ids_own (fp : ctf_dict_t) : Prop :=
  ∀ p, fp.ctf_parent = some p → p.ctf_idmax ≤ fp.cth_parent_typemax ∧
    ∀ id, fp.cth_parent_typemax < id → id ≤ fp.cth_parent_typemax + fp.ctf_typemax →
      id < p.ctf_provtypemax ∨ id ∈ fp.ctf_dthash

/-- A root dict with four types, of which the struct 2 is not root-visible. -/
def hidden_dict : ctf_dict_t :=
  { ctf_addr := 10, ctf_stypes := 4, ctf_typemax := 4, ctf_idmax := 4,
    ctf_provtypemax := 4294967295,
    ctf_types := [{}, { kind := .CTF_K_INTEGER, ctt_name := "int" },
                  { kind := .CTF_K_STRUCT, ctt_name := "s", isroot := false },
                  { kind := .CTF_K_POINTER, ctt_type := 1 },
                  { kind := .CTF_K_TYPEDEF, ctt_type := 1, ctt_name := "t" }] }

/-- A child dict with two types of its own (IDs 11 and 12, the second hidden),
attached to a parent that holds the IDs 1 to 10. -/
def child_types_dict : ctf_dict_t :=
  { ctf_addr := 11, LCTF_CHILD := true, cth_parent_typemax := 10, ctf_stypes := 2,
    ctf_typemax := 2,
    ctf_types := [{}, { kind := .CTF_K_POINTER, ctt_type := 1 },
                  { kind := .CTF_K_CONST, ctt_type := 11, isroot := false }],
    ctf_parent := some { ctf_addr := 12, ctf_stypes := 10, ctf_typemax := 10, ctf_idmax := 10,
                         ctf_provtypemax := 4294967295 } }

/-- A root dict with `int` (1), the function type 2 `int (int, ...)`, the function
type 3 `int (int, int)`, the function type 4 `int ()` and the typedef 5 of the
function type 2. -/
def func_dict : ctf_dict_t :=
  { ctf_addr := 13, ctf_stypes := 5, ctf_typemax := 5, ctf_idmax := 5,
    ctf_provtypemax := 4294967295,
    ctf_types := [{}, { kind := .CTF_K_INTEGER, ctt_name := "int" },
                  { kind := .CTF_K_FUNCTION, ctt_type := 1, args := [1, 0] },
                  { kind := .CTF_K_FUNCTION, ctt_type := 1, args := [1, 1] },
                  { kind := .CTF_K_FUNCTION, ctt_type := 1 },
                  { kind := .CTF_K_TYPEDEF, ctt_type := 2, ctt_name := "f_t" }] }

/-! ## Recursive member iteration: the flattened member list -/

/-- The flattened members of the member array `ms` of the record `tp`, whose native
dict is `fp`: every member that is no padding with its offset from the start
(accumulated from `size` under a `CTF_K_BIG` prefix), and, under `CTF_MN_RECURSE`,
each unnamed struct or union member followed by the flattened members `sub` gives
for its type, shifted by the offset of the unnamed member.  `none`: `sub` gives no
list for such a type. -/
def ctf_member_flat_from (sub : ctf_dict_t → Nat → Option (List (String × Nat × Int)))
    (fp : ctf_dict_t) (tp : ctf_type_t) (flags : Nat) :
    List ctf_member_t → Int → Option (List (String × Nat × Int))
  | [], _ => some []
  | m :: ms, size =>
    if m.ctm_name = "" ∧ m.ctm_type = 0 then ctf_member_flat_from sub fp tp flags ms size
    else
      let offset0 : Int :=
        if tp.kflag then (CTF_MEMBER_BIT_OFFSET m.ctm_offset : Int) else m.ctm_offset
      let size' : Int := if tp.big then size + offset0 else size
      let offset : Int := if tp.big then size' else offset0
      match ctf_member_flat_from sub fp tp flags ms size' with
      | none => none
      | some rest =>
        if (ctf_member_is_anon_sou fp m).val = true ∧ flags &&& CTF_MN_RECURSE ≠ 0 then
          match sub fp m.ctm_type with
          | none => none
          | some inner =>
            some ((m.ctm_name, m.ctm_type, offset) ::
              (inner.map fun x => (x.1, x.2.1, x.2.2 + offset)) ++ rest)
        else some ((m.ctm_name, m.ctm_type, offset) :: rest)

/-- The flattened members of the struct or union `type` of the dict `fp`, in the
order of a traversal that descends `d - 1` levels at most into unnamed struct or
union members.  `none`: the dict has `LCTF_NO_STR` set, the type is not found or is
no struct or union itself, or the nesting is deeper than `d - 1`. -/
def ctf_member_flat (flags : Nat) : Nat → ctf_dict_t → Nat → Option (List (String × Nat × Int))
  | 0, _, _ => none
  | d + 1, fp, type =>
    if fp.LCTF_NO_STR = true ∨ type = CTF_ERR then none
    else
      match ctf_lookup_by_id fp type with
      | .error _ => none
      | .ok l =>
        if l.tp.kind = .CTF_K_STRUCT ∨ l.tp.kind = .CTF_K_UNION then
          ctf_member_flat_from (fun fp' t => ctf_member_flat flags d fp' t) l.fp l.tp flags
            l.tp.members 0
        else none

/-- An iterator of `ctf_member_next` over the type `type` of the dict `fp0`, found
there as `l`: it belongs to this function and this dict, it points to the dynamic
type definition of the type if there is one and to the record of the type
otherwise, and its running offsets are not negative. -/
def ctf_member_iter (fp0 : ctf_dict_t) (type : Nat) (l : ctf_lookup_t) (i : ctf_next_t) : Prop :=
  i.ctn_iter_fun = .ctf_member_next ∧ i.ctn_fp = fp0.ctf_addr ∧
  i.ctn_dtd = (ctf_dynamic_type l.fp type).map (fun _ => (l.up, type)) ∧
  (ctf_dynamic_type l.fp type = none → i.ctn_tp = l.tp) ∧
  0 ≤ i.ctn_size ∧ 0 ≤ i.ctn_increment

/-- The items `L` that an iteration over the type `type` of the dict `fp0` has
still to return when the slot holds `it`: before the first call, the flattened
members of the type; later, what is left of the unnamed member that the iterator is
inside of (shifted by the offset of that member), and then the flattened members
from the position of the iterator on. -/
def ctf_member_at (flags : Nat) :
    Nat → ctf_dict_t → Nat → List ctf_next_t → List (String × Nat × Int) → Prop
  | d, fp0, type, [], L => ctf_member_flat flags d fp0 type = some L
  | 0, _, _, _ :: _, _ => False
  | d + 1, fp0, type, i :: sub, L =>
    fp0.LCTF_NO_STR = false ∧
    ∃ l, ctf_lookup_by_id fp0 type = .ok l ∧ ctf_member_iter fp0 type l i ∧
      ∃ Ltop, ctf_member_flat_from (fun fp' t => ctf_member_flat flags d fp' t) l.fp l.tp flags
          (l.tp.members.drop i.ctn_n) i.ctn_size = some Ltop ∧
        ((i.ctn_type = 0 ∧ sub = [] ∧ L = Ltop) ∨
         (i.ctn_type ≠ 0 ∧ ∃ Lsub, ctf_member_at flags d l.fp i.ctn_type sub Lsub ∧
            L = (Lsub.map fun x => (x.1, x.2.1, x.2.2 + i.ctn_increment)) ++ Ltop))

/-- What a call of `ctf_member_next` does when the items `L` are still to be
returned: it returns the first of them and leaves an iterator for the rest, or, if
there is none, ends the iteration. -/
def ctf_member_post (flags d : Nat) (fp0 : ctf_dict_t) (type : Nat)
    (L : List (String × Nat × Int)) (r : ctf_member_ret) : Prop :=
  ctf_noerr r.fp = ctf_noerr fp0 ∧
  match L with
  | [] => r.ret = -1 ∧ r.it = [] ∧ r.fp.ctf_errno = .ECTF_NEXT_END
  | x :: L' => r.ret = x.2.2 ∧ 0 ≤ r.ret ∧ r.name = some x.1 ∧ r.membtype = some x.2.1 ∧
      r.it ≠ [] ∧ ctf_member_at flags d fp0 type r.it L'

/-! ## Unnamed members: example dict and offsets -/

/-- A root dict with `int` (1), the struct 2 `{ int b; }` and the struct 3
`{ int a; struct 2 <unnamed> at bit 32; }`, that is
`struct { int a; struct { int b; }; }` with a 32-bit `int`. -/
def anon_dict : ctf_dict_t :=
  { ctf_addr := 14, ctf_stypes := 3, ctf_typemax := 3, ctf_idmax := 3,
    ctf_provtypemax := 4294967295,
    ctf_types := [{}, { kind := .CTF_K_INTEGER, ctt_name := "int" },
                  { kind := .CTF_K_STRUCT,
                    members := [{ ctm_name := "b", ctm_type := 1, ctm_offset := 0 }] },
                  { kind := .CTF_K_STRUCT, ctt_name := "outer",
                    members := [{ ctm_name := "a", ctm_type := 1, ctm_offset := 0 },
                                { ctm_name := "", ctm_type := 2, ctm_offset := 32 }] }] }

/-- The bit offset that the field `ctm_offset` of a member of the record `tp`
holds. -/
def ctf_member_bit_offset (tp : ctf_type_t) (m : ctf_member_t) : Nat :=
  if tp.kflag then CTF_MEMBER_BIT_OFFSET m.ctm_offset else m.ctm_offset

/-! ## Member lookup and cursor checks: example dicts -/

/-- A root dict with `int` (1) and the struct 2 `{ int a; int c; }`, `c` at bit
32. -/
def pair_dict : ctf_dict_t :=
  { ctf_addr := 15, ctf_stypes := 2, ctf_typemax := 2, ctf_idmax := 2,
    ctf_provtypemax := 4294967295,
    ctf_types := [{}, { kind := .CTF_K_INTEGER, ctt_name := "int" },
                  { kind := .CTF_K_STRUCT, ctt_name := "pair",
                    members := [{ ctm_name := "a", ctm_type := 1, ctm_offset := 0 },
                                { ctm_name := "c", ctm_type := 1, ctm_offset := 32 }] }] }

/-- A child dict that is not attached to its parent and has `LCTF_NO_STR` set: its
strings are not available yet. -/
def nostr_dict : ctf_dict_t :=
  { ctf_addr := 16, LCTF_CHILD := true, LCTF_NO_STR := true, cth_parent_typemax := 3 }

/-! ## Enumerator iteration: states and example dict -/

/-- The state of an iteration with `ctf_enum_next` over an enum found as `l` from
the dict `fp0`, when the pairs `rest` are still to be returned: the slot is empty
and `rest` are all the pairs of the enum, or the slot holds an iterator of this
function and this dict whose array pointer and counter stand for `rest`. -/
def ctf_enum_at (fp0 : ctf_dict_t) (l : ctf_lookup_t) (it : List ctf_next_t)
    (rest : List (String × Int)) : Prop :=
  match it with
  | [] => rest = ctf_enum_pairs l.tp
  | i :: _ => i.ctn_iter_fun = .ctf_enum_next ∧ i.ctn_fp = fp0.ctf_addr ∧
      i.ctn_n = rest.length ∧
      (l.tp.kind = .CTF_K_ENUM → rest = i.ctn_en.map fun e => (e.cte_name, e.cte_value)) ∧
      (l.tp.kind = .CTF_K_ENUM64 →
        rest = i.ctn_en64.map fun e => (e.cte_name, ctf_enum64_value e))

/-- What a call of `ctf_enum_next` does when the pairs `rest` are still to be
returned: it returns the first of them and leaves an iterator for the others, or,
if there is none, ends the iteration. -/
def ctf_enum_post (fp0 : ctf_dict_t) (l : ctf_lookup_t) (rest : List (String × Int))
    (r : ctf_enum_ret) : Prop :=
  ctf_noerr r.fp = ctf_noerr fp0 ∧
  match rest with
  | [] => r.ret = none ∧ r.it = [] ∧ r.fp.ctf_errno = .ECTF_NEXT_END
  | x :: rest' => r.ret = some x.1 ∧ r.val = some x.2 ∧ ctf_enum_at fp0 l r.it rest'

/-- A root dict with the enum 1 `{ RED = 0, GREEN = 1, LIME = 1, NEG = -2 }`, the
64-bit enum 2 `{ BIG = 2^32, ALL = -1 }`, `int` (3) and the typedef 4 of the
enum 1. -/
def enum_dict : ctf_dict_t :=
  { ctf_addr := 17, ctf_stypes := 4, ctf_typemax := 4, ctf_idmax := 4,
    ctf_provtypemax := 4294967295,
    ctf_types := [{}, { kind := .CTF_K_ENUM, ctt_name := "color",
                        enumerators := [{ cte_name := "RED", cte_value := 0 },
                                        { cte_name := "GREEN", cte_value := 1 },
                                        { cte_name := "LIME", cte_value := 1 },
                                        { cte_name := "NEG", cte_value := -2 }] },
                  { kind := .CTF_K_ENUM64, ctt_name := "wide",
                    enumerators64 := [{ cte_name := "BIG", cte_val_low := 0, cte_val_high := 1 },
                                      { cte_name := "ALL", cte_val_low := 4294967295,
                                        cte_val_high := 4294967295 }] },
                  { kind := .CTF_K_INTEGER, ctt_name := "int" },
                  { kind := .CTF_K_TYPEDEF, ctt_type := 1, ctt_name := "color_t" }] }

/-! ## End of iteration: the ending call, and variables -/

/-- The call that ends the loop of `ctf_type_iter`: the result of the first of
repeated calls of `ctf_type_next` that returns `CTF_ERR`.  `n` bounds the number of
calls. -/
def ctf_type_next_end : Nat → Nat → ctf_dict_t → List ctf_next_t → Int →
    Option ctf_type_next_ret
  | 0, _, _, _, _ => none
  | n + 1, fuel, fp, it, want_hidden =>
    match ctf_type_next fuel fp it want_hidden with
    | none => none
    | some r =>
      if r.ret = CTF_ERR then some r else ctf_type_next_end n fuel r.fp r.it want_hidden

/-- The call that ends the loop of `ctf_enum_iter`: the result of the first of
repeated calls of `ctf_enum_next` that returns `NULL`. -/
def ctf_enum_next_end : Nat → Nat → ctf_dict_t → Nat → List ctf_next_t → Option ctf_enum_ret
  | 0, _, _, _, _ => none
  | n + 1, fuel, fp, type, it =>
    match ctf_enum_next fuel fp type it with
    | none => none
    | some r =>
      match r.ret with
      | none => some r
      | some _ => ctf_enum_next_end n fuel r.fp type r.it

/-- The call that ends the loop of `ctf_member_iter`: the result of the first of
repeated calls of `ctf_member_next` that returns a negative value. -/
def ctf_member_next_end : Nat → Nat → ctf_dict_t → Nat → Nat → List ctf_next_t →
    Option ctf_member_ret
  | 0, _, _, _, _, _ => none
  | n + 1, fuel, fp, type, flags, it =>
    match ctf_member_next fuel fp type it flags with
    | none => none
    | some r =>
      if r.ret < 0 then some r else ctf_member_next_end n fuel r.fp type flags r.it

/-- The call that ends the loop of `ctf_variable_iter`: the result of the first of
repeated calls of `ctf_variable_next` that returns `CTF_ERR`. -/
def ctf_variable_next_end : Nat → ctf_dict_t → List ctf_next_t → Option ctf_variable_ret
  | 0, _, _ => none
  | n + 1, fp, it =>
    if (ctf_variable_next fp it).ret = CTF_ERR then some (ctf_variable_next fp it)
    else ctf_variable_next_end n (ctf_variable_next fp it).fp (ctf_variable_next fp it).it

/-- The variables that an iteration with `ctf_variable_next` has still to return
when the slot holds `it`: the rest of the variable section, then the rest of the
list of dynamic variables. -/
def ctf_variable_list (fp : ctf_dict_t) (it : List ctf_next_t) : List (String × Nat) :=
  match it with
  | [] => (fp.ctf_vars.map fun v => (v.ctv_name, v.ctv_type)) ++
          fp.ctf_dvdefs.map fun d => (d.dvd_name, d.dvd_type)
  | i :: _ => ((fp.ctf_vars.drop i.ctn_n).map fun v => (v.ctv_name, v.ctv_type)) ++
          i.ctn_dvd.map fun d => (d.dvd_name, d.dvd_type)

/-- The slot holds no iterator, or an iterator of `ctf_variable_next` on the
dict. -/
def ctf_variable_it_ok (fp : ctf_dict_t) (it : List ctf_next_t) : Prop :=
  match it with
  | [] => True
  | i :: _ => i.ctn_iter_fun = .ctf_variable_next ∧ i.ctn_fp = fp.ctf_addr

/-- A root dict with `int` (1), the variables `x` and `y` in the variable section
and the dynamic variable `z`, all of type `int`. -/
def var_dict : ctf_dict_t :=
  { ctf_addr := 18, ctf_stypes := 1, ctf_typemax := 1, ctf_idmax := 1,
    ctf_provtypemax := 4294967295,
    ctf_types := [{}, { kind := .CTF_K_INTEGER, ctt_name := "int" }],
    ctf_vars := [{ ctv_name := "x", ctv_type := 1 }, { ctv_name := "y", ctv_type := 1 }],
    ctf_dvdefs := [{ dvd_name := "z", dvd_type := 1 }] }

/-! ## Function arguments, sizes, alignments and encodings -/

/-- What a call of `ctf_func_type_args` leaves behind: the return value, the array
`argv` of the caller, and the dict. -/
structure ctf_func_type_args_ret where
  ret : Int
  argv : List Nat
  fp : ctf_dict_t
  deriving DecidableEq, Repr

/-- The loop `for (...; argc != 0; argc--) *argv++ = *args++;`; `none` when it
leaves one of the two arrays. -/
def ctf_copy_args : Nat → List Nat → List Nat → Option (List Nat)
  | 0, _, argv => some argv
  | n + 1, a :: args, _ :: argv => (ctf_copy_args n args argv).map fun rest => a :: rest
  | _ + 1, _, _ => none

/-- `ctf_func_type_args (fp, type, argc, argv)`; the list `argv` is the array of the
caller, in its full length. -/
def ctf_func_type_args (fuel : Nat) (ofp : ctf_dict_t) (type : Nat) (argc : Nat)
    (argv : List Nat) : Option ctf_func_type_args_ret :=
  match ctf_func_type_info fuel ofp type with
  | none => none
  | some i =>
    if i.ret < 0 then some { ret := -1, argv := argv, fp := i.fp }
    else
      match i.fip with
      | none => none
      | some f =>
        match ctf_type_resolve fuel i.fp type with
        | none => none
        | some r =>
          if r.val = CTF_ERR then some { ret := -1, argv := argv, fp := r.fp }
          else
            match ctf_lookup_by_id r.fp r.val with
            | .error e => some { ret := -1, argv := argv, fp := ctf_lookup_errno r.fp false e }
            | .ok l =>
              let args := match ctf_dynamic_type l.fp r.val with
                | none => l.tp.args
                | some dtd => dtd.args
              match ctf_copy_args (min argc f.ctc_argc) args argv with
              | none => none
              | some argv' => some { ret := 0, argv := argv', fp := r.fp }

/-- Modelled from the spec: `ctf_get_ctt_size` is not among the sources; it reads "a
stored bit-size field converted to bytes", here the field `ctt_size` of the record. -/
def ctf_get_ctt_size (tp : ctf_type_t) : Int := tp.ctt_size

/-- The result structure `ctf_arinfo_t`. -/
structure ctf_arinfo_t where
  ctr_contents : Nat
  ctr_index : Nat
  ctr_nelems : Nat
  deriving DecidableEq, Repr

/-- What a call of `ctf_array_info` leaves behind: the return value, `*arp` if it
was written, and the dict. -/
structure ctf_array_info_ret where
  ret : Int
  arp : Option ctf_arinfo_t := none
  fp : ctf_dict_t
  deriving DecidableEq, Repr

/-- `ctf_array_info (fp, type, &arp)`. -/
def ctf_array_info (ofp : ctf_dict_t) (type : Nat) : ctf_array_info_ret :=
  match ctf_lookup_by_id ofp type with
  | .error e => { ret := -1, fp := ctf_lookup_errno ofp false e }
  | .ok l =>
    if l.tp.kind ≠ .CTF_K_ARRAY then { ret := -1, fp := (ctf_set_errno ofp .ECTF_NOTARRAY).fp }
    else
      let ap := match ctf_dynamic_type ofp type with
        | some dtd => dtd.array
        | none => l.tp.array
      { ret := 0, fp := ofp,
        arp := some { ctr_contents := ap.cta_contents, ctr_index := ap.cta_index,
                      ctr_nelems := ap.cta_nelems } }

/-- `ctf_type_size (fp, type)`; `none` when `fuel` does not suffice.  The product
`size * ar.ctr_nelems` of the array case is computed in `ssize_t`: it is the exact
product reduced to 64 bits in two's complement (`int64`), which is what the
compiled multiplication gives when the exact product does not fit. -/
def ctf_type_size : Nat → ctf_dict_t → Nat → Option (ctf_ret Int)
  | 0, _, _ => none
  | fuel + 1, ofp, type =>
    match ctf_type_resolve fuel ofp type with
    | none => none
    | some r =>
      if r.val = CTF_ERR then some ⟨-1, r.fp⟩
      else
        match ctf_lookup_by_id r.fp r.val with
        | .error e => some ⟨-1, ctf_lookup_errno r.fp false e⟩
        | .ok l =>
          match l.tp.kind with
          | .CTF_K_POINTER => some ⟨l.fp.ctd_pointer, r.fp⟩
          | .CTF_K_FUNCTION => some ⟨0, r.fp⟩
          | .CTF_K_ARRAY =>
            if ctf_get_ctt_size l.tp > 0 then some ⟨ctf_get_ctt_size l.tp, r.fp⟩
            else
              let a := ctf_array_info r.fp r.val
              if a.ret < 0 then some ⟨-1, a.fp⟩
              else
                match a.arp with
                | none => none
                | some ar =>
                  match ctf_type_size fuel a.fp ar.ctr_contents with
                  | none => none
                  | some s =>
                    if s.val < 0 then some ⟨-1, s.fp⟩
                    else some ⟨int64 (s.val.toNat * ar.ctr_nelems), s.fp⟩
          | .CTF_K_FORWARD => some (ctf_set_errno r.fp .ECTF_INCOMPLETE)
          | _ => some ⟨ctf_get_ctt_size l.tp, r.fp⟩

/-- Conversion of an `ssize_t` to `size_t`. -/
def size_t_of (x : Int) : Nat := (x % 18446744073709551616).toNat

/-- The `for` loop of `ctf_type_align` over the members `memb[i]`, `memb[i + 1]`, ...;
`align` is the recursive call, `n` the loop counter and `a` the running maximum (a
`size_t`). -/
def ctf_type_align_loop (align : ctf_dict_t → Nat → Option (ctf_ret Int))
    (memb : List ctf_member_t) : Nat → Nat → Nat → ctf_dict_t → Option (ctf_ret Nat)
  | 0, _, a, ofp => some ⟨a, ofp⟩
  | n + 1, i, a, ofp =>
    match memb.get? i with
    | none => none
    | some m =>
      match align ofp m.ctm_type with
      | none => none
      | some am => ctf_type_align_loop align memb n (i + 1) (max a (size_t_of am.val)) am.fp

/-- `ctf_type_align (fp, type)`; `none` when `fuel` does not suffice. -/
def ctf_type_align : Nat → ctf_dict_t → Nat → Option (ctf_ret Int)
  | 0, _, _ => none
  | fuel + 1, ofp, type =>
    match ctf_type_resolve fuel ofp type with
    | none => none
    | some r =>
      if r.val = CTF_ERR then some ⟨-1, r.fp⟩
      else
        match ctf_lookup_by_id r.fp r.val with
        | .error e => some ⟨-1, ctf_lookup_errno r.fp false e⟩
        | .ok l =>
          match l.tp.kind with
          | .CTF_K_POINTER | .CTF_K_FUNCTION => some ⟨l.fp.ctd_pointer, r.fp⟩
          | .CTF_K_ARRAY =>
            let a := ctf_array_info r.fp r.val
            if a.ret < 0 then some ⟨-1, a.fp⟩
            else
              match a.arp with
              | none => none
              | some ar => ctf_type_align fuel a.fp ar.ctr_contents
          | .CTF_K_STRUCT | .CTF_K_UNION =>
            let v := ctf_vlen l.fp r.val l.tp
            let n := if l.tp.kind = .CTF_K_STRUCT then min v.2 1 else v.2
            match ctf_type_align_loop (ctf_type_align fuel) v.1 n 0 0 r.fp with
            | none => none
            | some x => some ⟨int64 x.val, x.fp⟩
          | .CTF_K_FORWARD => some (ctf_set_errno r.fp .ECTF_INCOMPLETE)
          | _ => some ⟨ctf_get_ctt_size l.tp, r.fp⟩

/-- The result structure `ctf_encoding_t`. -/
structure ctf_encoding_t where
  cte_format : Nat := 0
  cte_offset : Nat := 0
  cte_bits : Nat := 0
  deriving DecidableEq, Repr

/-- Modelled from the spec: the macros `CTF_INT_ENCODING` and `CTF_FP_ENCODING` are
defined in `ctf.h`, which is not among the sources.  The data word of an integer or
float holds its "encoding/offset/bit-width"; the encoding is taken to be the upper 8
bits. -/
def CTF_INT_ENCODING (data : Nat) : Nat := (data / 16777216) % 256

/-- Modelled from the spec: `CTF_INT_OFFSET` and `CTF_FP_OFFSET` (`ctf.h`), taken to
be the bits 16 to 23 of the data word. -/
def CTF_INT_OFFSET (data : Nat) : Nat := (data / 65536) % 256

/-- Modelled from the spec: `CTF_INT_BITS` and `CTF_FP_BITS` (`ctf.h`), taken to be
the lower 16 bits of the data word. -/
def CTF_INT_BITS (data : Nat) : Nat := data % 65536

/-- Modelled from the spec: the constant `CTF_INT_SIGNED` (`ctf.h`), the encoding
bit of a signed integer. -/
def CTF_INT_SIGNED : Nat := 1

/-- What a call of `ctf_type_encoding` leaves behind: the return value, `*ep` if it
was written, and the dict. -/
structure ctf_type_encoding_ret where
  ret : Int
  ep : Option ctf_encoding_t := none
  fp : ctf_dict_t
  deriving DecidableEq, Repr

/-- `ctf_type_encoding (fp, type, &ep)`; `none` when `fuel` does not suffice.  The
kind flag of an enum is read from the record found. -/
def ctf_type_encoding : Nat → ctf_dict_t → Nat → Option ctf_type_encoding_ret
  | 0, _, _ => none
  | fuel + 1, ofp, type =>
    match ctf_lookup_by_id ofp type with
    | .error e => some { ret := -1, fp := ctf_lookup_errno ofp false e }
    | .ok l =>
      let vlen := match ctf_dynamic_type ofp type with
        | some dtd => dtd
        | none => l.tp
      match l.tp.kind with
      | .CTF_K_INTEGER | .CTF_K_FLOAT =>
        some { ret := 0, fp := ofp,
               ep := some { cte_format := CTF_INT_ENCODING (u32 vlen.encoding_data),
                            cte_offset := CTF_INT_OFFSET (u32 vlen.encoding_data),
                            cte_bits := CTF_INT_BITS (u32 vlen.encoding_data) } }
      | .CTF_K_ENUM | .CTF_K_ENUM64 =>
        some { ret := 0, fp := ofp,
               ep := some { cte_format := if l.tp.kflag then CTF_INT_SIGNED else 0,
                            cte_offset := 0, cte_bits := 0 } }
      | .CTF_K_SLICE =>
        match ctf_type_resolve fuel ofp vlen.cts_type with
        | none => none
        | some u =>
          if u.val = CTF_ERR then some { ret := -1, fp := u.fp }
          else
            match ctf_type_encoding fuel u.fp u.val with
            | none => none
            | some e =>
              if e.ret < 0 then some { ret := -1, fp := e.fp }
              else
                match e.ep with
                | none => none
                | some ue =>
                  some { ret := 0, fp := e.fp,
                         ep := some { cte_format := ue.cte_format,
                                      cte_offset := vlen.cts_offset,
                                      cte_bits := vlen.cts_bits } }
      | _ => some { ret := -1, fp := (ctf_set_errno ofp .ECTF_NOTINTFP).fp }

/-- A root dict with a 4-byte `int` (1) of 32 bits, a pointer to it (2), the array 3
of 5 `int` with no recorded size, the struct 4 `{ int a; int *p; }` of 16 bytes, the
union 5 `{ int a; int *p; }`, a forward (6), the typedef 7 of the array 3, a
function type (8), the array 9 of 3 pointers with the recorded size 100, an enum
(10) of 4 bytes and the array 11 of 2 forwards. -/
def size_dict : ctf_dict_t :=
  { ctf_addr := 19, ctf_stypes := 11, ctf_typemax := 11, ctf_idmax := 11,
    ctf_provtypemax := 4294967295,
    ctf_types := [{}, { kind := .CTF_K_INTEGER, ctt_name := "int", ctt_size := 4,
                        encoding_data := 16777248 },
                  { kind := .CTF_K_POINTER, ctt_type := 1 },
                  { kind := .CTF_K_ARRAY,
                    array := { cta_contents := 1, cta_index := 1, cta_nelems := 5 } },
                  { kind := .CTF_K_STRUCT, ctt_name := "s", ctt_size := 16,
                    members := [{ ctm_name := "a", ctm_type := 1, ctm_offset := 0 },
                                { ctm_name := "p", ctm_type := 2, ctm_offset := 64 }] },
                  { kind := .CTF_K_UNION, ctt_name := "u", ctt_size := 8,
                    members := [{ ctm_name := "a", ctm_type := 1, ctm_offset := 0 },
                                { ctm_name := "p", ctm_type := 2, ctm_offset := 0 }] },
                  { kind := .CTF_K_FORWARD, ctt_name := "f" },
                  { kind := .CTF_K_TYPEDEF, ctt_name := "arr_t", ctt_type := 3 },
                  { kind := .CTF_K_FUNCTION, ctt_type := 1 },
                  { kind := .CTF_K_ARRAY, ctt_size := 100,
                    array := { cta_contents := 2, cta_index := 1, cta_nelems := 3 } },
                  { kind := .CTF_K_ENUM, ctt_name := "e", ctt_size := 4,
                    enumerators := [{ cte_name := "A", cte_value := 0 }] },
                  { kind := .CTF_K_ARRAY,
                    array := { cta_contents := 6, cta_index := 1, cta_nelems := 2 } }] }

/-- A root dict with `char` (1) of 1 byte, the array 2 of 4294967295 `char`, the
array 3 of 4294967295 arrays 2, and the array 4 of 2 arrays 3; no array has a
recorded size. -/
def big_dict : ctf_dict_t :=
  { ctf_addr := 29, ctf_stypes := 4, ctf_typemax := 4, ctf_idmax := 4,
    ctf_provtypemax := 4294967295,
    ctf_types := [{}, { kind := .CTF_K_INTEGER, ctt_name := "char", ctt_size := 1,
                        encoding_data := 8 },
                  { kind := .CTF_K_ARRAY,
                    array := { cta_contents := 1, cta_index := 1, cta_nelems := 4294967295 } },
                  { kind := .CTF_K_ARRAY,
                    array := { cta_contents := 2, cta_index := 1, cta_nelems := 4294967295 } },
                  { kind := .CTF_K_ARRAY,
                    array := { cta_contents := 3, cta_index := 1, cta_nelems := 2 } }] }

/-! ## Comparison and compatibility -/

/-- The address of the dict `ctf_get_dict (fp, type)` returns, 0 for `NULL`. -/
def ctf_get_dict_addr (fp : ctf_dict_t) (type : Nat) : Nat :=
  match ctf_get_dict fp type with
  | some d => d.ctf_addr
  | none => 0

/-- `ctf_type_cmp (lfp, ltype, rfp, rtype)`; the pointers are compared through the
addresses of the dicts. -/
def ctf_type_cmp (lfp : ctf_dict_t) (ltype : Nat) (rfp : ctf_dict_t) (rtype : Nat) : Int :=
  let rval : Int := if ltype < rtype then -1 else if ltype > rtype then 1 else 0
  if lfp.ctf_addr = rfp.ctf_addr then rval
  else
    let la := if lfp.ctf_parent ≠ none then ctf_get_dict_addr lfp ltype else lfp.ctf_addr
    let ra := if rfp.ctf_parent ≠ none then ctf_get_dict_addr rfp rtype else rfp.ctf_addr
    if la < ra then -1
    else if la > ra then 1
    else rval

/-- What a call of `ctf_type_compat` leaves behind: the return value and the two
dicts.  The dicts are kept apart also when `lfp` and `rfp` point to the same dict;
no value computed during the call depends on the error state of a dict. -/
structure ctf_type_compat_ret where
  ret : Int
  lfp : ctf_dict_t
  rfp : ctf_dict_t
  deriving DecidableEq, Repr

/-- The part of `ctf_type_compat` from the two `ctf_lookup_by_id` calls on: `compat`
is the recursive call, `L` and `R` are the dicts of the call, `ltype` and `rtype` the
resolved types and `lkind` and `rkind` their kinds.  After the lookups the local
`lfp` and `rfp` point to the native dicts of the two types. -/
def ctf_type_compat_switch
    (compat : ctf_dict_t → Nat → ctf_dict_t → Nat → Option ctf_type_compat_ret)
    (fuel : Nat) (L : ctf_dict_t) (ltype : Nat) (lkind : ctf_kind)
    (R : ctf_dict_t) (rtype : Nat) (rkind : ctf_kind) : Option ctf_type_compat_ret :=
  let ll := ctf_lookup_by_id L ltype
  let rl := ctf_lookup_by_id R rtype
  let lup : Bool := match ll with
    | .ok l => l.up
    | .error _ => false
  let rup : Bool := match rl with
    | .ok l => l.up
    | .error _ => false
  let L : ctf_dict_t := match ll with
    | .ok _ => L
    | .error e => ctf_lookup_errno L false e
  let R : ctf_dict_t := match rl with
    | .ok _ => R
    | .error e => ctf_lookup_errno R false e
  let same_names : Bool := match ll, rl with
    | .ok l, .ok r => decide (l.tp.ctt_name = r.tp.ctt_name)
    | _, _ => false
  if ((lkind = .CTF_K_ENUM ∨ lkind = .CTF_K_ENUM64) ∧ rkind = .CTF_K_INTEGER) ∨
     ((rkind = .CTF_K_ENUM ∨ lkind = .CTF_K_ENUM64) ∧ lkind = .CTF_K_INTEGER) then
    some ⟨1, L, R⟩
  else if lkind ≠ rkind then some ⟨0, L, R⟩
  else
    match lkind with
    | .CTF_K_INTEGER | .CTF_K_FLOAT =>
      match ctf_type_encoding fuel (ctf_cur L lup) ltype with
      | none => none
      | some le =>
        if le.ret ≠ 0 then some ⟨0, ctf_put L lup le.fp, R⟩
        else
          match ctf_type_encoding fuel (ctf_cur R rup) rtype with
          | none => none
          | some re =>
            some ⟨if re.ret = 0 ∧ le.ep.getD {} = re.ep.getD {} then 1 else 0,
                  ctf_put L lup le.fp, ctf_put R rup re.fp⟩
    | .CTF_K_POINTER =>
      let lref := ctf_type_reference (ctf_cur L lup) ltype
      let rref := ctf_type_reference (ctf_cur R rup) rtype
      match compat lref.fp lref.val rref.fp rref.val with
      | none => none
      | some c => some ⟨c.ret, ctf_put L lup c.lfp, ctf_put R rup c.rfp⟩
    | .CTF_K_ARRAY =>
      let la := ctf_array_info (ctf_cur L lup) ltype
      if la.ret ≠ 0 then some ⟨0, ctf_put L lup la.fp, R⟩
      else
        let ra := ctf_array_info (ctf_cur R rup) rtype
        if ra.ret ≠ 0 then some ⟨0, ctf_put L lup la.fp, ctf_put R rup ra.fp⟩
        else
          match la.arp, ra.arp with
          | some la', some ra' =>
            if la'.ctr_nelems ≠ ra'.ctr_nelems then
              some ⟨0, ctf_put L lup la.fp, ctf_put R rup ra.fp⟩
            else
              match compat la.fp la'.ctr_contents ra.fp ra'.ctr_contents with
              | none => none
              | some c1 =>
                if c1.ret = 0 then some ⟨0, ctf_put L lup c1.lfp, ctf_put R rup c1.rfp⟩
                else
                  match compat c1.lfp la'.ctr_index c1.rfp ra'.ctr_index with
                  | none => none
                  | some c2 =>
                    some ⟨if c2.ret ≠ 0 then 1 else 0,
                          ctf_put L lup c2.lfp, ctf_put R rup c2.rfp⟩
          | _, _ => none
    | .CTF_K_STRUCT | .CTF_K_UNION =>
      if same_names then
        match ctf_type_size fuel (ctf_cur L lup) ltype with
        | none => none
        | some sl =>
          match ctf_type_size fuel (ctf_cur R rup) rtype with
          | none => none
          | some sr =>
            some ⟨if sl.val = sr.val then 1 else 0, ctf_put L lup sl.fp, ctf_put R rup sr.fp⟩
      else some ⟨0, L, R⟩
    | .CTF_K_ENUM64 | .CTF_K_ENUM =>
      match ctf_type_encoding fuel (ctf_cur L lup) ltype with
      | none => none
      | some le =>
        match ctf_type_encoding fuel (ctf_cur R rup) rtype with
        | none => none
        | some re =>
          if le.ret ≠ re.ret ∨ (le.ret = 0 ∧ le.ep.getD {} ≠ re.ep.getD {}) then
            some ⟨0, ctf_put L lup le.fp, ctf_put R rup re.fp⟩
          else
            some ⟨if same_names then 1 else 0, ctf_put L lup le.fp, ctf_put R rup re.fp⟩
    | .CTF_K_FORWARD => some ⟨if same_names then 1 else 0, L, R⟩
    | _ => some ⟨0, L, R⟩

/-- `ctf_type_compat (lfp, ltype, rfp, rtype)`; `none` when `fuel` does not
suffice. -/
def ctf_type_compat : Nat → ctf_dict_t → Nat → ctf_dict_t → Nat → Option ctf_type_compat_ret
  | 0, _, _, _, _ => none
  | fuel + 1, lfp, ltype, rfp, rtype =>
    if lfp.LCTF_NO_STR then some ⟨-1, (ctf_set_errno lfp .ECTF_NOPARENT).fp, rfp⟩
    else if rfp.LCTF_NO_STR then some ⟨-1, lfp, (ctf_set_errno rfp .ECTF_NOPARENT).fp⟩
    else if ctf_type_isparent lfp ltype ≠ 0 ∧ lfp.ctf_parent = none then
      some ⟨-1, lfp, (ctf_set_errno rfp .ECTF_NOPARENT).fp⟩
    else if ctf_type_isparent rfp rtype ≠ 0 ∧ rfp.ctf_parent = none then
      some ⟨-1, lfp, (ctf_set_errno rfp .ECTF_NOPARENT).fp⟩
    else if ctf_type_cmp lfp ltype rfp rtype = 0 then some ⟨1, lfp, rfp⟩
    else
      match ctf_type_resolve fuel lfp ltype with
      | none => none
      | some lr =>
        match ctf_type_resolve fuel rfp rtype with
        | none => none
        | some rr =>
          if lr.val = CTF_ERR ∨ rr.val = CTF_ERR then some ⟨-1, lr.fp, rr.fp⟩
          else
            let lk := ctf_type_kind lr.fp lr.val
            let rk := ctf_type_kind rr.fp rr.val
            match lk.val, rk.val with
            | some lkind, some rkind =>
              ctf_type_compat_switch (ctf_type_compat fuel) fuel lk.fp lr.val lkind
                rk.fp rr.val rkind
            | _, _ => some ⟨-1, lk.fp, rk.fp⟩

/-- The parent of the example child dicts below; it holds the types 1 to 3. -/
def compat_parent : ctf_dict_core :=
  { ctf_addr := 20, ctf_stypes := 3, ctf_typemax := 3, ctf_idmax := 3,
    ctf_provtypemax := 4294967295,
    ctf_types := [{}, { kind := .CTF_K_INTEGER, ctt_name := "int", ctt_size := 4,
                        encoding_data := 16777248 },
                  { kind := .CTF_K_POINTER, ctt_type := 1 },
                  { kind := .CTF_K_STRUCT, ctt_name := "s", ctt_size := 8 }] }

/-- A child dict, attached to `compat_parent`, with the types 4 `int`, 5 (a 32-bit
enum `e`), 6 (a 64-bit enum `e64`), 7 `struct s` of 8 bytes, 8 `struct s` of 12
bytes, 9 `struct t` of 8 bytes, 10 `union s` of 8 bytes, and the typedef 11 of the
struct 7. -/
def compat_dict : ctf_dict_t :=
  { ctf_addr := 21, LCTF_CHILD := true, cth_parent_typemax := 3, ctf_stypes := 8,
    ctf_typemax := 8, ctf_idmax := 11, ctf_provtypemax := 4294967295,
    ctf_types := [{}, { kind := .CTF_K_INTEGER, ctt_name := "int", ctt_size := 4,
                        encoding_data := 16777248 },
                  { kind := .CTF_K_ENUM, ctt_name := "e", ctt_size := 4,
                    enumerators := [{ cte_name := "A", cte_value := 0 }] },
                  { kind := .CTF_K_ENUM64, ctt_name := "e64", ctt_size := 8,
                    enumerators64 := [{ cte_name := "B", cte_val_low := 0, cte_val_high := 1 }] },
                  { kind := .CTF_K_STRUCT, ctt_name := "s", ctt_size := 8 },
                  { kind := .CTF_K_STRUCT, ctt_name := "s", ctt_size := 12 },
                  { kind := .CTF_K_STRUCT, ctt_name := "t", ctt_size := 8 },
                  { kind := .CTF_K_UNION, ctt_name := "s", ctt_size := 8 },
                  { kind := .CTF_K_TYPEDEF, ctt_name := "s_t", ctt_type := 7 }],
    ctf_parent := some compat_parent }

/-- A second child dict attached to `compat_parent`, with the types 4 (a 64-bit
enum `e64`) and 5 `struct s` of 8 bytes. -/
def compat_dict2 : ctf_dict_t :=
  { ctf_addr := 22, LCTF_CHILD := true, cth_parent_typemax := 3, ctf_stypes := 2,
    ctf_typemax := 2, ctf_idmax := 5, ctf_provtypemax := 4294967295,
    ctf_types := [{}, { kind := .CTF_K_ENUM64, ctt_name := "e64", ctt_size := 8,
                        enumerators64 := [{ cte_name := "B", cte_val_low := 0, cte_val_high := 1 }] },
                  { kind := .CTF_K_STRUCT, ctt_name := "s", ctt_size := 8 }],
    ctf_parent := some compat_parent }

/-- A root dict with two records `struct s` of 8 bytes (1 and 2), `union s` of 8
bytes (3) and `struct t` of 8 bytes (4). -/
def sou_dict : ctf_dict_t :=
  { ctf_addr := 31, ctf_stypes := 4, ctf_typemax := 4, ctf_idmax := 4,
    ctf_provtypemax := 4294967295,
    ctf_types := [{}, { kind := .CTF_K_STRUCT, ctt_name := "s", ctt_size := 8 },
                  { kind := .CTF_K_STRUCT, ctt_name := "s", ctt_size := 8 },
                  { kind := .CTF_K_UNION, ctt_name := "s", ctt_size := 8 },
                  { kind := .CTF_K_STRUCT, ctt_name := "t", ctt_size := 8 }] }

/-! ## Declarator rendering -/

/-- Modelled from the spec: the numeric values of the kind tags `CTF_K_*` are defined
in `ctf.h`, which is not among the sources; they are taken to be distinct numbers, in
the order of the enumeration. -/
def ctf_kind.toNat : ctf_kind → Nat
  | .CTF_K_UNKNOWN => 0 | .CTF_K_INTEGER => 1 | .CTF_K_FLOAT => 2 | .CTF_K_POINTER => 3
  | .CTF_K_ARRAY => 4 | .CTF_K_FUNCTION => 5 | .CTF_K_STRUCT => 6 | .CTF_K_UNION => 7
  | .CTF_K_ENUM => 8 | .CTF_K_ENUM64 => 9 | .CTF_K_FORWARD => 10 | .CTF_K_TYPEDEF => 11
  | .CTF_K_VOLATILE => 12 | .CTF_K_CONST => 13 | .CTF_K_RESTRICT => 14 | .CTF_K_SLICE => 15
  | .CTF_K_VAR => 16

/-- `ctf_type_kind_forwarded`: the kind as a number, and for a forward the number in
`ctt_type`; `none` is the return value `-1`. -/
def ctf_type_kind_forwarded (fp : ctf_dict_t) (type : Nat) : ctf_ret (Option Nat) :=
  let k := ctf_type_kind fp type
  match k.val with
  | none => ⟨none, k.fp⟩
  | some kind =>
    if kind ≠ .CTF_K_FORWARD then ⟨some kind.toNat, k.fp⟩
    else
      match ctf_lookup_by_id k.fp type with
      | .error e => ⟨none, ctf_lookup_errno k.fp false e⟩
      | .ok l => ⟨some l.tp.ctt_type, k.fp⟩

/-- Modelled from the spec: the precedence classes `CTF_PREC_*` are declared in
`ctf-impl.h`, which is not among the sources.  The renderer groups the nodes "by
lexical precedence class (base name, pointer, array, function ...)", in this
order. -/
def CTF_PREC_BASE : Nat := 0

/-- See `CTF_PREC_BASE`. -/
def CTF_PREC_POINTER : Nat := 1

/-- See `CTF_PREC_BASE`. -/
def CTF_PREC_ARRAY : Nat := 2

/-- See `CTF_PREC_BASE`. -/
def CTF_PREC_FUNCTION : Nat := 3

/-- See `CTF_PREC_BASE`: the number of precedence classes. -/
def CTF_PREC_MAX : Nat := 4

/-- One node `ctf_decl_node_t` of the declaration stack: the fields `cd_type`,
`cd_kind` and `cd_n` that `ctf_type_aname` reads. -/
structure ctf_decl_node_t where
  cd_type : Nat
  cd_kind : ctf_kind
  cd_n : Nat
  deriving DecidableEq, Repr

/-- The declaration stack `ctf_decl_t`: the node lists `cd_nodes` and the numbers
`cd_order`, one per precedence class, the error `cd_err` (`none` is 0) and the text
printed so far; `cd_qualp` and `cd_ordp` are the running precedence of qualifiers
and the running order number.  Allocation is taken to succeed, so that `cd_enomem`
stays 0. -/
structure ctf_decl_t where
  cd_nodes : List (List ctf_decl_node_t)
  cd_order : List Int
  cd_qualp : Nat
  cd_ordp : Int
  cd_err : Option ctf_error
  cd_buf : String
  deriving DecidableEq, Repr

/-- Modelled from the spec: `ctf_decl_init` (`ctf-decl.c`) is not among the sources.
An empty stack: no nodes, no class seen yet (order number below `CTF_PREC_BASE`),
qualifiers at the base class. -/
def ctf_decl_init : ctf_decl_t :=
  { cd_nodes := [[], [], [], []], cd_order := [-1, -1, -1, -1], cd_qualp := CTF_PREC_BASE,
    cd_ordp := CTF_PREC_BASE, cd_err := none, cd_buf := "" }

/-- Modelled from the spec: the end of `ctf_decl_push`, which puts the node of one
type on the stack.  The first node of a class gives the class the next order number
("graph order"); a pointer raises the class that later qualifiers go to; a
qualifier of a base type goes before the type specifier, every other node to the
end of the list of its class. -/
def ctf_decl_push_node (cd : ctf_decl_t) (type : Nat) (kind : ctf_kind) (n : Nat) (prec : Nat)
    (is_qual : Bool) : ctf_decl_t :=
  let node : ctf_decl_node_t := { cd_type := type, cd_kind := kind, cd_n := n }
  let first := (cd.cd_nodes.getD prec []).isEmpty
  let cd_order := if first then cd.cd_order.set prec cd.cd_ordp else cd.cd_order
  let cd_ordp := if first then cd.cd_ordp + 1 else cd.cd_ordp
  let cd_qualp := if prec > cd.cd_qualp ∧ prec < CTF_PREC_ARRAY then prec else cd.cd_qualp
  let nodes := if is_qual ∧ prec = CTF_PREC_BASE then node :: cd.cd_nodes.getD prec []
               else cd.cd_nodes.getD prec [] ++ [node]
  { cd with cd_nodes := cd.cd_nodes.set prec nodes, cd_order := cd_order, cd_ordp := cd_ordp,
            cd_qualp := cd_qualp }

/-- Modelled from the spec: `ctf_decl_push` (`ctf-decl.c`) is not among the sources.
It produces the "ordered list of graph nodes grouped by lexical precedence class"
by "walking the type graph" from the type to its base: the type referred to is
pushed first, then the node of the type itself, in the class of its kind (array,
function, pointer, base; a qualifier in the class qualifiers go to at that point).
A typedef with a name is a base type; a typedef without a name and a slice have no
node of their own.  A failed lookup is recorded in `cd_err`.  The result is the
stack and the dict `fp` as the call left it; `none` when `fuel` does not suffice. -/
def ctf_decl_push : Nat → ctf_decl_t → ctf_dict_t → Nat → Option (ctf_decl_t × ctf_dict_t)
  | 0, _, _, _ => none
  | fuel + 1, cd, fp, type =>
    match ctf_lookup_by_id fp type with
    | .error e => some ({ cd with cd_err := some e }, ctf_lookup_errno fp false e)
    | .ok l =>
      match l.tp.kind with
      | .CTF_K_ARRAY =>
        let a := ctf_array_info l.fp type
        match a.arp with
        | none => none
        | some ar =>
          match ctf_decl_push fuel cd a.fp ar.ctr_contents with
          | none => none
          | some (cd', fp') =>
            some (ctf_decl_push_node cd' type l.tp.kind ar.ctr_nelems CTF_PREC_ARRAY false,
                  ctf_put fp l.up fp')
      | .CTF_K_TYPEDEF =>
        if l.tp.ctt_name = "" then
          match ctf_decl_push fuel cd l.fp l.tp.ctt_type with
          | none => none
          | some (cd', fp') => some (cd', ctf_put fp l.up fp')
        else some (ctf_decl_push_node cd type l.tp.kind 1 CTF_PREC_BASE false, fp)
      | .CTF_K_FUNCTION =>
        match ctf_decl_push fuel cd l.fp l.tp.ctt_type with
        | none => none
        | some (cd', fp') =>
          some (ctf_decl_push_node cd' type l.tp.kind 1 CTF_PREC_FUNCTION false,
                ctf_put fp l.up fp')
      | .CTF_K_POINTER =>
        match ctf_decl_push fuel cd l.fp l.tp.ctt_type with
        | none => none
        | some (cd', fp') =>
          some (ctf_decl_push_node cd' type l.tp.kind 1 CTF_PREC_POINTER false,
                ctf_put fp l.up fp')
      | .CTF_K_SLICE =>
        let r := ctf_type_reference l.fp type
        match ctf_decl_push fuel cd r.fp r.val with
        | none => none
        | some (cd', fp') => some (cd', ctf_put fp l.up fp')
      | .CTF_K_VOLATILE | .CTF_K_CONST | .CTF_K_RESTRICT =>
        match ctf_decl_push fuel cd l.fp l.tp.ctt_type with
        | none => none
        | some (cd', fp') =>
          some (ctf_decl_push_node cd' type l.tp.kind 1 cd'.cd_qualp true, ctf_put fp l.up fp')
      | _ => some (ctf_decl_push_node cd type l.tp.kind 1 CTF_PREC_BASE false, fp)

/-- The state of the two nested loops of `ctf_type_aname`: the text printed so far
(`ctf_decl_sprintf` appends to it), the kind `k` of the node before, the class `lp`
that is still to be opened with a parenthesis (`none` is `-1`), and the dict. -/
structure ctf_aname_state where
  buf : String
  k : ctf_kind
  lp : Option Nat
  fp : ctf_dict_t
  deriving DecidableEq, Repr

/-- The loop over the arguments of a function type in `ctf_type_aname`: `aname` is
the recursive call, `rfp` the dict of the function type, `argv` what is left of the
argument array.  The result is the text appended and the dict, or the dict of a
failed call. -/
def ctf_type_aname_args (aname : ctf_dict_t → Nat → Option (ctf_ret (Option String)))
    (vararg : Bool) : List Nat → String → ctf_dict_t → Option (Except ctf_dict_t (String × ctf_dict_t))
  | [], buf, rfp => some (.ok (buf, rfp))
  | a :: rest, buf, rfp =>
    match aname rfp a with
    | none => none
    | some r =>
      match r.val with
      | none => some (.error r.fp)
      | some arg =>
        let buf := buf ++ arg
        let buf := if rest ≠ [] ∨ vararg then buf ++ ", " else buf
        ctf_type_aname_args aname vararg rest buf r.fp

/-- The body of the inner loop of `ctf_type_aname` for the node `cdp` at precedence
`prec`.  The result is the new state, or the dict of a call that returns `NULL`;
`none` when the record of the node is not found or `fuel` does not suffice. -/
def ctf_type_aname_node (aname : ctf_dict_t → Nat → Option (ctf_ret (Option String)))
    (fuel : Nat) (prec : Nat) (st : ctf_aname_state) (cdp : ctf_decl_node_t) :
    Option (Except ctf_dict_t ctf_aname_state) :=
  match ctf_lookup_by_id st.fp cdp.cd_type with
  | .error _ => none
  | .ok l =>
    let name := l.tp.ctt_name
    let buf := if st.k ≠ .CTF_K_POINTER ∧ st.k ≠ .CTF_K_ARRAY then st.buf ++ " " else st.buf
    let buf := if st.lp = some prec then buf ++ "(" else buf
    let lp := if st.lp = some prec then none else st.lp
    let done (buf : String) (fp : ctf_dict_t) : Option (Except ctf_dict_t ctf_aname_state) :=
      some (.ok { buf := buf, k := cdp.cd_kind, lp := lp, fp := fp })
    match cdp.cd_kind with
    | .CTF_K_INTEGER | .CTF_K_FLOAT | .CTF_K_TYPEDEF =>
      if name = "" then some (.error (ctf_set_errno st.fp .ECTF_CORRUPT).fp)
      else done (buf ++ name) st.fp
    | .CTF_K_POINTER => done (buf ++ "*") st.fp
    | .CTF_K_ARRAY => done (buf ++ "[" ++ toString cdp.cd_n ++ "]") st.fp
    | .CTF_K_FUNCTION =>
      match ctf_func_type_info fuel l.fp cdp.cd_type with
      | none => none
      | some i =>
        if i.ret < 0 then
          some (.error (ctf_set_errno (ctf_put st.fp l.up i.fp) (ctf_errno i.fp)).fp)
        else
          match i.fip with
          | none => none
          | some fi =>
            match ctf_func_type_args fuel i.fp cdp.cd_type fi.ctc_argc
                    (List.replicate fi.ctc_argc 0) with
            | none => none
            | some a =>
              if a.ret < 0 then
                some (.error (ctf_set_errno (ctf_put st.fp l.up a.fp) (ctf_errno a.fp)).fp)
              else
                match ctf_type_aname_args aname (decide (fi.ctc_flags &&& CTF_FUNC_VARARG ≠ 0))
                        a.argv (buf ++ "(*) (") a.fp with
                | none => none
                | some (.error rfp) =>
                  some (.error (ctf_set_errno (ctf_put st.fp l.up rfp) (ctf_errno rfp)).fp)
                | some (.ok (buf, rfp)) =>
                  let buf := if fi.ctc_flags &&& CTF_FUNC_VARARG ≠ 0 then buf ++ "..." else buf
                  done (buf ++ ")") (ctf_put st.fp l.up rfp)
    | .CTF_K_STRUCT => done (buf ++ "struct " ++ name) st.fp
    | .CTF_K_UNION => done (buf ++ "union " ++ name) st.fp
    | .CTF_K_ENUM | .CTF_K_ENUM64 => done (buf ++ "enum " ++ name) st.fp
    | .CTF_K_FORWARD =>
      let kf := ctf_type_kind_forwarded st.fp cdp.cd_type
      if kf.val = some ctf_kind.CTF_K_STRUCT.toNat then done (buf ++ "struct " ++ name) kf.fp
      else if kf.val = some ctf_kind.CTF_K_UNION.toNat then done (buf ++ "union " ++ name) kf.fp
      else if kf.val = some ctf_kind.CTF_K_ENUM.toNat
              ∨ kf.val = some ctf_kind.CTF_K_ENUM64.toNat then
        done (buf ++ "enum " ++ name) kf.fp
      else some (.error (ctf_set_errno kf.fp .ECTF_CORRUPT).fp)
    | .CTF_K_VOLATILE => done (buf ++ "volatile") st.fp
    | .CTF_K_CONST => done (buf ++ "const") st.fp
    | .CTF_K_RESTRICT => done (buf ++ "restrict") st.fp
    | .CTF_K_UNKNOWN =>
      if name = "" then done (buf ++ "(nonrepresentable type)") st.fp
      else done (buf ++ "(nonrepresentable type " ++ name ++ ")") st.fp
    | _ => done buf st.fp

/-- The inner loop of `ctf_type_aname` over the nodes of one precedence class. -/
def ctf_type_aname_nodes (aname : ctf_dict_t → Nat → Option (ctf_ret (Option String)))
    (fuel : Nat) (prec : Nat) : List ctf_decl_node_t → ctf_aname_state →
    Option (Except ctf_dict_t ctf_aname_state)
  | [], st => some (.ok st)
  | cdp :: rest, st =>
    match ctf_type_aname_node aname fuel prec st cdp with
    | none => none
    | some (.error fp) => some (.error fp)
    | some (.ok st') => ctf_type_aname_nodes aname fuel prec rest st'

/-- The outer loop of `ctf_type_aname` over the precedence classes `precs`, with
the closing parenthesis after the class `rp`. -/
def ctf_type_aname_precs (aname : ctf_dict_t → Nat → Option (ctf_ret (Option String)))
    (fuel : Nat) (cd : ctf_decl_t) (rp : Option Nat) : List Nat → ctf_aname_state →
    Option (Except ctf_dict_t ctf_aname_state)
  | [], st => some (.ok st)
  | prec :: precs, st =>
    match ctf_type_aname_nodes aname fuel prec (cd.cd_nodes.getD prec []) st with
    | none => none
    | some (.error fp) => some (.error fp)
    | some (.ok st') =>
      ctf_type_aname_precs aname fuel cd rp precs
        (if rp = some prec then { st' with buf := st'.buf ++ ")" } else st')

/-- `ctf_type_aname (fp, type)` on a dict (`fp != NULL`): the string returned
(`none` is `NULL`) and the dict; the outer `none` when `fuel` does not suffice. -/
def ctf_type_aname : Nat → ctf_dict_t → Nat → Option (ctf_ret (Option String))
  | 0, _, _ => none
  | fuel + 1, fp, type =>
    if fp.LCTF_NO_STR then some ⟨none, (ctf_set_errno fp .ECTF_NOPARENT).fp⟩
    else
      match ctf_decl_push fuel ctf_decl_init fp type with
      | none => none
      | some (cd, fp) =>
        match cd.cd_err with
        | some e => some ⟨none, (ctf_set_errno fp e).fp⟩
        | none =>
          let ptr := decide (cd.cd_order.getD CTF_PREC_POINTER 0 > CTF_PREC_POINTER)
          let arr := decide (cd.cd_order.getD CTF_PREC_ARRAY 0 > CTF_PREC_ARRAY)
          let rp := if arr then some CTF_PREC_ARRAY else if ptr then some CTF_PREC_POINTER
                    else none
          let lp := if ptr then some CTF_PREC_POINTER else if arr then some CTF_PREC_ARRAY
                    else none
          match ctf_type_aname_precs (ctf_type_aname fuel) fuel cd rp
                  (List.range' CTF_PREC_BASE (CTF_PREC_MAX - CTF_PREC_BASE))
                  { buf := cd.cd_buf, k := .CTF_K_POINTER, lp := lp, fp := fp } with
          | none => none
          | some (.error fp) => some ⟨none, fp⟩
          | some (.ok st) => some ⟨some st.buf, st.fp⟩

/-- What a call of `ctf_type_lname` leaves behind: the return value, the buffer
`buf` (the string it holds), and the dict. -/
structure ctf_type_lname_ret where
  ret : Int
  buf : String
  fp : ctf_dict_t
  deriving DecidableEq, Repr

/-- The call `snprintf (buf, len, "%s", str)`: at most `len - 1` characters and the
terminating 0 are written, nothing when `len` is 0. -/
def ctf_snprintf (buf : String) (len : Nat) (str : String) : String :=
  if len = 0 then buf else str.take (len - 1)

/-- `ctf_type_lname (fp, type, buf, len)`. -/
def ctf_type_lname (fuel : Nat) (fp : ctf_dict_t) (type : Nat) (buf : String) (len : Nat) :
    Option ctf_type_lname_ret :=
  match ctf_type_aname fuel fp type with
  | none => none
  | some r =>
    match r.val with
    | none => some { ret := -1, buf := buf, fp := r.fp }
    | some str =>
      let slen := str.length
      some { ret := slen, buf := ctf_snprintf buf len str,
             fp := if slen ≥ len then (ctf_set_errno r.fp .ECTF_NAMELEN).fp else r.fp }

/-- What a call of `ctf_type_name` leaves behind: whether it returns `buf` (and not
`NULL`), the buffer, and the dict. -/
structure ctf_type_name_ret where
  ret : Bool
  buf : String
  fp : ctf_dict_t
  deriving DecidableEq, Repr

/-- `ctf_type_name (fp, type, buf, len)`. -/
def ctf_type_name (fuel : Nat) (fp : ctf_dict_t) (type : Nat) (buf : String) (len : Nat) :
    Option ctf_type_name_ret :=
  match ctf_type_lname fuel fp type buf len with
  | none => none
  | some r => some { ret := decide (r.ret ≥ 0 ∧ size_t_of r.ret < len), buf := r.buf, fp := r.fp }

/-- A root dict with `int` (1), `struct S` (2), a pointer to `struct S` (3), the
array 4 of 10 `int`, a pointer to that array (5), the function type 6
`int * (int, int, ...)`, a pointer to `int` (7), `const int` (8), a pointer to it
(9), a `const` pointer to `int` (10), the array 11 of 3 pointers to `int`, and a
forward of a struct `F` (12). -/
def name_dict : ctf_dict_t :=
  { ctf_addr := 23, ctf_stypes := 12, ctf_typemax := 12, ctf_idmax := 12,
    ctf_provtypemax := 4294967295,
    ctf_types := [{}, { kind := .CTF_K_INTEGER, ctt_name := "int", ctt_size := 4 },
                  { kind := .CTF_K_STRUCT, ctt_name := "S" },
                  { kind := .CTF_K_POINTER, ctt_type := 2 },
                  { kind := .CTF_K_ARRAY,
                    array := { cta_contents := 1, cta_index := 1, cta_nelems := 10 } },
                  { kind := .CTF_K_POINTER, ctt_type := 4 },
                  { kind := .CTF_K_FUNCTION, ctt_type := 7, args := [1, 1, 0] },
                  { kind := .CTF_K_POINTER, ctt_type := 1 },
                  { kind := .CTF_K_CONST, ctt_type := 1 },
                  { kind := .CTF_K_POINTER, ctt_type := 8 },
                  { kind := .CTF_K_CONST, ctt_type := 7 },
                  { kind := .CTF_K_ARRAY,
                    array := { cta_contents := 7, cta_index := 1, cta_nelems := 3 } },
                  { kind := .CTF_K_FORWARD, ctt_name := "F", ctt_type := 6 }] }

/-- The string begins with a space. -/
def ctf_leading_space (s : String) : Prop := s.data.head? = some ' '

instance (s : String) : Decidable (ctf_leading_space s) := by
  unfold ctf_leading_space; infer_instance

/-- A record that the renderer has a text for and whose name does not begin with a
space: its kind is not `CTF_K_VAR`. -/
def ctf_rec_plain (t : ctf_type_t) : Prop := t.kind ≠ .CTF_K_VAR ∧ ¬ ctf_leading_space t.ctt_name

instance (t : ctf_type_t) : Decidable (ctf_rec_plain t) := by
  unfold ctf_rec_plain; infer_instance

/-- All records of the dict and of its parent are plain (`ctf_rec_plain`). -/
def ctf_dict_plain (fp : ctf_dict_t) : Prop :=
  (∀ t ∈ fp.ctf_types, ctf_rec_plain t) ∧
  ∀ p ∈ fp.ctf_parent, ∀ t ∈ p.ctf_types, ctf_rec_plain t

instance (fp : ctf_dict_t) : Decidable (ctf_dict_plain fp) := by
  unfold ctf_dict_plain; infer_instance

/-- No node of the stack has a kind without a text. -/
def ctf_decl_nodes_ok (cd : ctf_decl_t) : Prop :=
  ∀ L ∈ cd.cd_nodes, ∀ n ∈ L, n.cd_kind ≠ .CTF_K_VAR ∧ n.cd_kind ≠ .CTF_K_SLICE

/-- The text is not empty and does not begin with a space. -/
def ctf_text_good (s : String) : Prop := s ≠ "" ∧ ¬ ctf_leading_space s

/-- The state of the loops of `ctf_type_aname` before a node: the text so far does
not begin with a space, and as long as it is empty `k` suppresses the space. -/
def ctf_aname_inv (st : ctf_aname_state) : Prop :=
  ¬ ctf_leading_space st.buf ∧
  (st.buf = "" → st.k = .CTF_K_POINTER ∨ st.k = .CTF_K_ARRAY)

instance (s : String) : Decidable (ctf_text_good s) := by
  unfold ctf_text_good; infer_instance

/-! ## Ownership of a type ID -/

/-- The dict that owns the type ID `type` seen through the handle `fp`: the attached
parent when `fp` is a child and the ID is a type of the parent, else `fp` itself
(in particular for a child whose parent is not attached, which cannot be chased). -/
def ctf_type_owner (fp : ctf_dict_t) (type : Nat) : ctf_dict_t :=
  match fp.ctf_parent with
  | some p => if fp.LCTF_CHILD = true ∧ ctf_type_isparent fp type ≠ 0 then p.dict else fp
  | none => fp

/-! ## Dict flags (`ctf-api.c`) -/

/-- Modelled from the spec: the public flag `CTF_STRICT_NO_DUP_ENUMERATORS` is
declared in `ctf-api.h`, which is not among the sources; the only flag a dict
knows. -/
def CTF_STRICT_NO_DUP_ENUMERATORS : Nat := 1

/-- Modelled from the spec: the bit `LCTF_STRICT_NO_DUP_ENUMERATORS` of `ctf_flags`
is defined in `ctf-impl.h`, which is not among the sources; it is taken to be one
bit of the word, apart from `LCTF_CHILD` and `LCTF_NO_STR`. -/
def LCTF_STRICT_NO_DUP_ENUMERATORS : Nat := 4

/-- `ctf_dict_set_flag (fp, flag, set)`; `flag` is a `uint64_t`, `set` an `int`, and
`~` is taken on the 32 bits of `ctf_flags`. -/
def ctf_dict_set_flag (fp : ctf_dict_t) (flag : Nat) (set : Int) : ctf_ret Int :=
  if set < 0 ∨ set > 1 then ctf_set_errno fp .ECTF_BADFLAG
  else if flag = CTF_STRICT_NO_DUP_ENUMERATORS then
    if set ≠ 0 then
      ⟨0, { fp with ctf_flags := fp.ctf_flags ||| LCTF_STRICT_NO_DUP_ENUMERATORS }⟩
    else
      ⟨0, { fp with ctf_flags :=
              fp.ctf_flags &&& (4294967295 ^^^ LCTF_STRICT_NO_DUP_ENUMERATORS) }⟩
  else ctf_set_errno fp .ECTF_BADFLAG

/-- `ctf_dict_get_flag (fp, flag)`. -/
def ctf_dict_get_flag (fp : ctf_dict_t) (flag : Nat) : ctf_ret Int :=
  if flag = CTF_STRICT_NO_DUP_ENUMERATORS then
    ⟨if fp.ctf_flags &&& LCTF_STRICT_NO_DUP_ENUMERATORS ≠ 0 then 1 else 0, fp⟩
  else ctf_set_errno fp .ECTF_BADFLAG

/-- A dict with some bits of `ctf_flags` set, among them
`LCTF_STRICT_NO_DUP_ENUMERATORS`. -/
def flag_dict : ctf_dict_t :=
  { ctf_addr := 24, ctf_flags := 22, ctf_errno := .ECTF_NOTYPE }

/-! ## Error and warning lists of a dict or of the library (`ctf-api.c`) -/

/-- What a call that may work on the list of a dict or on the static list
`open_errors` leaves behind: the dict handle (`none` is `NULL`) with the dict as the
call left it, and `open_errors`. -/
structure ctf_errs_t where
  fp : Option ctf_dict_t
  open_errors : List ctf_err_warning_t
  deriving DecidableEq, Repr

/-- The list `errlist` that `ctf_err_warn` and `ctf_errwarning_next` work on: the
list of the dict, or `open_errors` when `fp` is `NULL`. -/
def ctf_errlist (s : ctf_errs_t) : List ctf_err_warning_t :=
  match s.fp with
  | some fp => fp.ctf_errs_warnings
  | none => s.open_errors

/-- `ctf_err_warn (fp, is_warning, err, format, ...)` with `fp` possibly `NULL`;
`text` is the result of formatting.  The two allocations are taken to succeed, and
`err` only reaches the debug stream. -/
def ctf_err_warn_any (s : ctf_errs_t) (is_warning : Bool) (err : ctf_error) (text : String) :
    ctf_errs_t :=
  match s.fp with
  | some fp => { s with fp := some (ctf_err_warn fp is_warning err text) }
  | none => { s with open_errors := s.open_errors ++ [⟨is_warning, text⟩] }

/-- What a call of `ctf_errwarning_next` leaves behind: the text returned (`none` is
`NULL`), the iterator slot `*it`, the values written through `is_warning` and `errp`
if any, the dict handle and `open_errors`. -/
structure ctf_errwarning_any_ret where
  ret : Option String
  it : List ctf_next_t
  is_warning : Option Bool := none
  errp : Option ctf_error := none
  st : ctf_errs_t
  deriving DecidableEq, Repr

/-- The three-way error report of `ctf_errwarning_next`: `*errp = e` if `errp` is
not `NULL`, else `ctf_set_errno (fp, e)` if `fp` is not `NULL`, else nothing. -/
def ctf_errwarning_fail (s : ctf_errs_t) (has_errp : Bool) (e : ctf_error)
    (it : List ctf_next_t) : ctf_errwarning_any_ret :=
  if has_errp then { ret := none, it := it, errp := some e, st := s }
  else
    match s.fp with
    | some fp => { ret := none, it := it, st := { s with fp := some (ctf_set_errno fp e).fp } }
    | none => { ret := none, it := it, st := s }

/-- The address of the dict a handle points to; `NULL` is 0. -/
def ctf_handle_addr (fp : Option ctf_dict_t) : Nat :=
  match fp with
  | some d => d.ctf_addr
  | none => 0

/-- `ctf_errwarning_next (fp, &it, is_warning, errp)` with `fp`, `is_warning` and
`errp` possibly `NULL` (`has_is_warning`, `has_errp` say whether they are not);
`create_ok` says whether `ctf_next_create` succeeds when it is called. -/
def ctf_errwarning_next_any (s : ctf_errs_t) (it : List ctf_next_t) (has_is_warning : Bool)
    (has_errp : Bool) (create_ok : Bool) : ctf_errwarning_any_ret :=
  if it = [] ∧ create_ok = false then ctf_errwarning_fail s has_errp .ENOMEM []
  else
    let i : ctf_next_t := match it with
      | [] => { ctn_iter_fun := .ctf_errwarning_next, ctn_fp := ctf_handle_addr s.fp }
      | i :: _ => i
    let sub : List ctf_next_t := it.tail
    if i.ctn_iter_fun ≠ .ctf_errwarning_next then
      ctf_errwarning_fail s has_errp .ECTF_NEXT_WRONGFUN (i :: sub)
    else if ctf_handle_addr s.fp ≠ i.ctn_fp then
      ctf_errwarning_fail s has_errp .ECTF_NEXT_WRONGFP (i :: sub)
    else
      match ctf_errlist s with
      | [] => ctf_errwarning_fail s has_errp .ECTF_NEXT_END []
      | cew :: rest =>
        { ret := some cew.cew_text, it := i :: sub,
          is_warning := if has_is_warning then some cew.cew_is_warning else none,
          st := match s.fp with
            | some fp => { s with fp := some { fp with ctf_errs_warnings := rest } }
            | none => { s with open_errors := rest } }

/-- Repeated calls of `ctf_errwarning_next` with the same cursor slot, up to `n` of
them: the (text, `is_warning`) pairs returned until a call returns `NULL`, and what
that last call left behind. -/
def ctf_errwarning_drain (has_errp : Bool) :
    Nat → ctf_errs_t → List ctf_next_t → Option (List (String × Bool) × ctf_errwarning_any_ret)
  | 0, _, _ => none
  | n + 1, s, it =>
    let r := ctf_errwarning_next_any s it true has_errp true
    match r.ret with
    | none => some ([], r)
    | some text =>
      match ctf_errwarning_drain has_errp n r.st r.it with
      | none => none
      | some (items, last) => some ((text, r.is_warning.getD false) :: items, last)

/-- The records `rs` emitted one after the other by `ctf_err_warn`. -/
def ctf_err_warn_all (s : ctf_errs_t) (rs : List ctf_err_warning_t) : ctf_errs_t :=
  rs.foldl (fun s r => ctf_err_warn_any s r.cew_is_warning .OK r.cew_text) s

/-- The state with the list `errlist` replaced. -/
def ctf_errlist_set (s : ctf_errs_t) (l : List ctf_err_warning_t) : ctf_errs_t :=
  match s.fp with
  | some fp => { s with fp := some { fp with ctf_errs_warnings := l } }
  | none => { s with open_errors := l }

/-- A dict with two records in its list, and an error code. -/
def errs_dict : ctf_dict_t :=
  { ctf_addr := 25, ctf_errno := .ECTF_CORRUPT,
    ctf_errs_warnings := [⟨false, "first"⟩, ⟨true, "second"⟩] }

/-- The cursor `*it` is `NULL`, or was created by `ctf_errwarning_next` for the
handle of the state. -/
def ctf_errwarning_it_ok (s : ctf_errs_t) (it : List ctf_next_t) : Prop :=
  it = [] ∨ ∃ i sub, it = i :: sub ∧ i.ctn_iter_fun = .ctf_errwarning_next ∧
    i.ctn_fp = ctf_handle_addr s.fp

/-- The error codes `ctf_errwarning_next` reports of its own accord. -/
def ctf_errwarning_codes : List ctf_error :=
  [.ENOMEM, .ECTF_NEXT_WRONGFUN, .ECTF_NEXT_WRONGFP, .ECTF_NEXT_END]

/-- The characters `vasprintf (&text, format, alist)` writes when the format holds
no directive that reads an argument: ordinary characters are copied and the
directive `%%` writes one `%`.  Any other directive reads an argument; in a call
that passes none the behaviour is undefined (`none`). -/
def ctf_vasprintf_noargs : List Char → Option (List Char)
  | [] => some []
  | '%' :: '%' :: rest => (ctf_vasprintf_noargs rest).map fun t => '%' :: t
  | '%' :: _ => none
  | c :: rest => (ctf_vasprintf_noargs rest).map fun t => c :: t

/-- The `for` loop of `ctf_err_copy` over the records of `src` from `cew` on:
`ctf_err_warn (dest, cew->cew_is_warning, 0, cew->cew_text)` takes the text of the
record as its format and passes no further argument. -/
def ctf_err_copy_loop : List ctf_err_warning_t → ctf_dict_t → Option ctf_dict_t
  | [], dest => some dest
  | cew :: rest, dest =>
    match ctf_vasprintf_noargs cew.cew_text.data with
    | none => none
    | some text =>
      ctf_err_copy_loop rest (ctf_err_warn dest cew.cew_is_warning .OK (String.mk text))

/-- `ctf_err_copy (dest, src)` for two distinct dicts: the dicts `dest` and `src`
after the call, `none` when the behaviour of a call of `vasprintf` is undefined. -/
def ctf_err_copy (dest src : ctf_dict_t) : Option (ctf_dict_t × ctf_dict_t) :=
  match ctf_err_copy_loop src.ctf_errs_warnings dest with
  | none => none
  | some d => some ((ctf_set_errno d (ctf_errno src)).fp, src)

/-- A dict whose list holds a record with a percent sign in its text. -/
def percent_dict : ctf_dict_t :=
  { ctf_addr := 26, ctf_errno := .ECTF_BADID,
    ctf_errs_warnings := [⟨true, "plain"⟩, ⟨false, "50%% of the types"⟩] }

/-! ## Member count -/

/-- `ctf_member_count (fp, type)`.  `LCTF_VLEN` is the number of elements of the
variable-length payload of the record: of the enumerator array for an enum, of the
member array for a struct or union. -/
def ctf_member_count (fuel : Nat) (ofp : ctf_dict_t) (type : Nat) : Option (ctf_ret Int) :=
  match ctf_type_resolve fuel ofp type with
  | none => none
  | some r =>
    if r.val = CTF_ERR then some ⟨-1, r.fp⟩
    else
      match ctf_lookup_by_id r.fp r.val with
      | .error e => some ⟨-1, ctf_lookup_errno r.fp false e⟩
      | .ok l =>
        if l.tp.kind ≠ .CTF_K_STRUCT ∧ l.tp.kind ≠ .CTF_K_UNION ∧ l.tp.kind ≠ .CTF_K_ENUM then
          some (ctf_set_errno r.fp .ECTF_NOTSUE)
        else if l.tp.kind = .CTF_K_ENUM then some ⟨(LCTF_VLEN_enum l.tp : Nat), r.fp⟩
        else some ⟨(LCTF_VLEN l.tp : Nat), r.fp⟩

/-! ## Whole-dict iteration with a callback -/

/-- What a call of `ctf_type_iter` or `ctf_type_iter_all` leaves behind: the return
value, the arguments of the invocations of the callback in order, the state behind
`arg`, and the dict. -/
structure ctf_type_iter_ret (α σ : Type) where
  ret : Int
  calls : List α
  arg : σ
  fp : ctf_dict_t
  deriving DecidableEq, Repr

/-- The `while` loop of `ctf_type_iter` and the code after it.  The callback `func`
gets the type ID and the state behind `arg` and returns its `int` and the new
state; `n` bounds the number of calls of `ctf_type_next`. -/
def ctf_type_iter_loop {σ : Type} (func : Nat → σ → Int × σ) :
    Nat → Nat → ctf_dict_t → List ctf_next_t → σ → Option (ctf_type_iter_ret Nat σ)
  | 0, _, _, _, _ => none
  | n + 1, fuel, fp, i, arg =>
    match ctf_type_next fuel fp i 0 with
    | none => none
    | some r =>
      if r.ret ≠ CTF_ERR then
        if (func r.ret arg).1 ≠ 0 then
          some { ret := (func r.ret arg).1, calls := [r.ret], arg := (func r.ret arg).2,
                 fp := r.fp }
        else
          match ctf_type_iter_loop func n fuel r.fp r.it (func r.ret arg).2 with
          | none => none
          | some x => some { x with calls := r.ret :: x.calls }
      else if ctf_errno r.fp ≠ .ECTF_NEXT_END then
        some { ret := -1, calls := [], arg := arg, fp := r.fp }
      else some { ret := 0, calls := [], arg := arg, fp := r.fp }

/-- `ctf_type_iter (fp, func, arg)`. -/
def ctf_type_iter {σ : Type} (n fuel : Nat) (fp : ctf_dict_t) (func : Nat → σ → Int × σ)
    (arg : σ) : Option (ctf_type_iter_ret Nat σ) :=
  ctf_type_iter_loop func n fuel fp [] arg

/-- The `while` loop of `ctf_type_iter_all` and the code after it; the callback gets
the type ID and the flag. -/
def ctf_type_iter_all_loop {σ : Type} (func : Nat → Bool → σ → Int × σ) :
    Nat → Nat → ctf_dict_t → List ctf_next_t → σ → Option (ctf_type_iter_ret (Nat × Bool) σ)
  | 0, _, _, _, _ => none
  | n + 1, fuel, fp, i, arg =>
    match ctf_type_next fuel fp i 1 with
    | none => none
    | some r =>
      if r.ret ≠ CTF_ERR then
        if (func r.ret (r.flag.getD false) arg).1 ≠ 0 then
          some { ret := (func r.ret (r.flag.getD false) arg).1,
                 calls := [(r.ret, r.flag.getD false)],
                 arg := (func r.ret (r.flag.getD false) arg).2, fp := r.fp }
        else
          match ctf_type_iter_all_loop func n fuel r.fp r.it
                  (func r.ret (r.flag.getD false) arg).2 with
          | none => none
          | some x => some { x with calls := (r.ret, r.flag.getD false) :: x.calls }
      else if ctf_errno r.fp ≠ .ECTF_NEXT_END then
        some { ret := -1, calls := [], arg := arg, fp := r.fp }
      else some { ret := 0, calls := [], arg := arg, fp := r.fp }

/-- `ctf_type_iter_all (fp, func, arg)`. -/
def ctf_type_iter_all {σ : Type} (n fuel : Nat) (fp : ctf_dict_t)
    (func : Nat → Bool → σ → Int × σ) (arg : σ) :
    Option (ctf_type_iter_ret (Nat × Bool) σ) :=
  ctf_type_iter_all_loop func n fuel fp [] arg

/-- The callback form in the words of the specification: the callback is invoked on
the items in order, up to and including the first invocation that returns non-zero;
the result is that value (0 if there is none), the items the callback was invoked
on, and the state behind `arg`. -/
def ctf_iter_until {α σ : Type} (func : α → σ → Int × σ) : List α → σ → Int × List α × σ
  | [], arg => (0, [], arg)
  | x :: xs, arg =>
    if (func x arg).1 ≠ 0 then ((func x arg).1, [x], (func x arg).2)
    else
      ((ctf_iter_until func xs (func x arg).2).1,
       x :: (ctf_iter_until func xs (func x arg).2).2.1,
       (ctf_iter_until func xs (func x arg).2).2.2)

/-! ## Resolution of a result: example dict -/

/-- A child dict attached to `compat_parent` whose typedef 5 refers to its typedef
4, which refers to the struct 3 of the parent. -/
def alias_dict : ctf_dict_t :=
  { ctf_addr := 27, LCTF_CHILD := true, cth_parent_typemax := 3, ctf_stypes := 2,
    ctf_typemax := 2, ctf_idmax := 5, ctf_provtypemax := 4294967295,
    ctf_types := [{}, { kind := .CTF_K_TYPEDEF, ctt_name := "s_t", ctt_type := 3 },
                  { kind := .CTF_K_CONST, ctt_type := 4 }],
    ctf_parent := some compat_parent }

/-! ## Recursive visit -/

/-- The arguments of one invocation of the callback of `ctf_type_visit`: member
name, type ID, offset (an `unsigned long`) and depth. -/
structure ctf_visit_call where
  name : String
  type : Nat
  offset : Nat
  depth : Int
  deriving DecidableEq, Repr

/-- What a call of `ctf_type_visit` or `ctf_type_rvisit` leaves behind: the return
value, the invocations of the callback in order, the state behind `arg`, and the
dict. -/
structure ctf_visit_ret (σ : Type) where
  ret : Int
  calls : List ctf_visit_call
  arg : σ
  fp : ctf_dict_t
  deriving DecidableEq, Repr

/-- Modelled from the spec: `ctf_struct_member` and `CTF_LMEM_OFFSET` are not among
the sources.  The visitor "uses raw member layout": member `i` of the member array
is handed out with its name, its type and its stored offset; the call fails when
there is no such member. -/
def ctf_struct_member (vlen : List ctf_member_t) (i : Nat) : Option ctf_member_t :=
  vlen.get? i

/-- The `for` loop of `ctf_type_rvisit` over the members `i`, `i + 1`, ... with the
loop counter `n`; `rvisit` is the recursive call, `ofp` the dict of the call, `fp`
the dict the lookup has moved to (`up`: the parent of `ofp`) as the calls so far
left it. -/
def ctf_type_rvisit_loop {σ : Type}
    (rvisit : ctf_dict_t → Nat → σ → String → Nat → Int → Option (ctf_visit_ret σ))
    (ofp : ctf_dict_t) (up : Bool) (vlen : List ctf_member_t) (offset : Nat) (depth : Int) :
    Nat → Nat → ctf_dict_t → σ → Option (ctf_visit_ret σ)
  | 0, _, fp, arg => some { ret := 0, calls := [], arg := arg, fp := ctf_put ofp up fp }
  | n + 1, i, fp, arg =>
    match ctf_struct_member vlen i with
    | none =>
      some { ret := -1, calls := [], arg := arg,
             fp := (ctf_set_errno (ctf_put ofp up fp) (ctf_errno fp)).fp }
    | some memb =>
      match rvisit fp memb.ctm_type arg memb.ctm_name (add64 offset memb.ctm_offset)
              (depth + 1) with
      | none => none
      | some r =>
        if r.ret ≠ 0 then some { r with fp := ctf_put ofp up r.fp }
        else
          match ctf_type_rvisit_loop rvisit ofp up vlen offset depth n (i + 1) r.fp r.arg with
          | none => none
          | some x => some { x with calls := r.calls ++ x.calls }

/-- `ctf_type_rvisit (fp, type, func, arg, name, offset, depth)`.  The callback
`func` gets its arguments and the state behind `arg` and returns its `int` and the
new state; `none` when `fuel` does not suffice. -/
def ctf_type_rvisit {σ : Type} (func : ctf_visit_call → σ → Int × σ) :
    Nat → ctf_dict_t → Nat → σ → String → Nat → Int → Option (ctf_visit_ret σ)
  | 0, _, _, _, _, _, _ => none
  | fuel + 1, ofp, otype, arg, name, offset, depth =>
    if ofp.LCTF_NO_STR then
      some { ret := (ctf_set_errno ofp .ECTF_NOPARENT).val, calls := [], arg := arg,
             fp := (ctf_set_errno ofp .ECTF_NOPARENT).fp }
    else
      match ctf_type_resolve fuel ofp otype with
      | none => none
      | some r =>
        if r.val = CTF_ERR ∧ ctf_errno r.fp ≠ .ECTF_NONREPRESENTABLE then
          some { ret := -1, calls := [], arg := arg, fp := r.fp }
        else if r.val = CTF_ERR then
          some { ret := (func ⟨name, otype, offset, depth⟩ arg).1,
                 calls := [⟨name, otype, offset, depth⟩],
                 arg := (func ⟨name, otype, offset, depth⟩ arg).2, fp := r.fp }
        else
          match ctf_lookup_by_id r.fp r.val with
          | .error e =>
            some { ret := -1, calls := [], arg := arg, fp := ctf_lookup_errno r.fp false e }
          | .ok l =>
            if (func ⟨name, otype, offset, depth⟩ arg).1 ≠ 0 then
              some { ret := (func ⟨name, otype, offset, depth⟩ arg).1,
                     calls := [⟨name, otype, offset, depth⟩],
                     arg := (func ⟨name, otype, offset, depth⟩ arg).2, fp := r.fp }
            else if l.tp.kind ≠ .CTF_K_STRUCT ∧ l.tp.kind ≠ .CTF_K_UNION then
              some { ret := 0, calls := [⟨name, otype, offset, depth⟩],
                     arg := (func ⟨name, otype, offset, depth⟩ arg).2, fp := r.fp }
            else
              let vlen := match ctf_dynamic_type l.fp r.val with
                | some dtd => dtd.members
                | none => l.tp.members
              match ctf_type_rvisit_loop (ctf_type_rvisit func fuel) r.fp l.up vlen offset depth
                      (LCTF_VLEN l.tp) 0 l.fp (func ⟨name, otype, offset, depth⟩ arg).2 with
              | none => none
              | some x => some { x with calls := ⟨name, otype, offset, depth⟩ :: x.calls }

/-- `ctf_type_visit (fp, type, func, arg)`. -/
def ctf_type_visit {σ : Type} (func : ctf_visit_call → σ → Int × σ) (fuel : Nat)
    (fp : ctf_dict_t) (type : Nat) (arg : σ) : Option (ctf_visit_ret σ) :=
  ctf_type_rvisit func fuel fp type arg "" 0 0

/-- The walk over the raw direct members `memb` of a struct or union of the dict
`d`, in the words of the specification: the subtree of each member in declaration
order, at the accumulated offset plus the offset of the member (an `unsigned
long`) and one level deeper. -/
def ctf_visit_members
    (sub : ctf_dict_t → Nat → String → Nat → Int → Option (List ctf_visit_call))
    (d : ctf_dict_t) (offset : Nat) (depth : Int) :
    List ctf_member_t → Option (List ctf_visit_call)
  | [] => some []
  | m :: rest =>
    match sub d m.ctm_type m.ctm_name (add64 offset m.ctm_offset) (depth + 1) with
    | none => none
    | some cs =>
      match ctf_visit_members sub d offset depth rest with
      | none => none
      | some cs' => some (cs ++ cs')

/-- The depth-first pre-order walk in the words of the specification: the given
type first, under the ID it was given by; then, if it resolves to a struct or
union, the subtrees of its members; a type that is not representable is not
descended into.  `none` when a type of the walk fails to resolve for another
reason or `fuel` levels do not suffice. -/
def ctf_visit_preorder :
    Nat → ctf_dict_t → Nat → String → Nat → Int → Option (List ctf_visit_call)
  | 0, _, _, _, _, _ => none
  | fuel + 1, fp, type, name, offset, depth =>
    if fp.LCTF_NO_STR then none
    else
      match ctf_type_resolve fuel fp type with
      | none => none
      | some r =>
        if r.val = CTF_ERR then
          if ctf_errno r.fp = .ECTF_NONREPRESENTABLE then some [⟨name, type, offset, depth⟩]
          else none
        else
          match ctf_lookup_by_id fp r.val with
          | .error _ => none
          | .ok l =>
            if l.tp.kind = .CTF_K_STRUCT ∨ l.tp.kind = .CTF_K_UNION then
              match ctf_visit_members (ctf_visit_preorder fuel) l.fp offset depth
                      l.tp.members with
              | none => none
              | some cs => some (⟨name, type, offset, depth⟩ :: cs)
            else some [⟨name, type, offset, depth⟩]

/-- A root dict with `int` (1), the struct 2 `{ int x; int y at bit 32; }`, the
typedef 3 of the absent type 0, the struct 4
`{ int a; struct 2 in at bit 64; <typedef 3> v at bit 128; int z at bit 160; }` and
the typedef 5 of the struct 4. -/
def visit_dict : ctf_dict_t :=
  { ctf_addr := 28, ctf_stypes := 5, ctf_typemax := 5, ctf_idmax := 5,
    ctf_provtypemax := 4294967295,
    ctf_types := [{}, { kind := .CTF_K_INTEGER, ctt_name := "int" },
                  { kind := .CTF_K_STRUCT, ctt_name := "inner",
                    members := [{ ctm_name := "x", ctm_type := 1, ctm_offset := 0 },
                                { ctm_name := "y", ctm_type := 1, ctm_offset := 32 }] },
                  { kind := .CTF_K_TYPEDEF, ctt_type := 0, ctt_name := "void_t" },
                  { kind := .CTF_K_STRUCT, ctt_name := "outer",
                    members := [{ ctm_name := "a", ctm_type := 1, ctm_offset := 0 },
                                { ctm_name := "in", ctm_type := 2, ctm_offset := 64 },
                                { ctm_name := "v", ctm_type := 3, ctm_offset := 128 },
                                { ctm_name := "z", ctm_type := 1, ctm_offset := 160 }] },
                  { kind := .CTF_K_TYPEDEF, ctt_type := 4, ctt_name := "outer_t" }] }

/-- The result a walk leaves when the callback is run over the invocations `calls`
of the pre-order walk. -/
def ctf_visit_result {σ : Type} (func : ctf_visit_call → σ → Int × σ)
    (calls : List ctf_visit_call) (arg : σ) (fp : ctf_dict_t) : ctf_visit_ret σ :=
  { ret := (ctf_iter_until func calls arg).1, calls := (ctf_iter_until func calls arg).2.1,
    arg := (ctf_iter_until func calls arg).2.2, fp := fp }

/-! # Theorems -/

/-! ## Theorems: index / ID arithmetic -/

/-- C1: for every dict with a well-formed layout and every valid type ID of it,
`ctf_type_to_index` yields an index and `ctf_index_to_type` maps that index back
to the ID. -/
theorem ctf_index_to_type_to_index (fp : ctf_dict_t) (id : Nat)
    (hl : ctf_dict_layout fp) (hv : ctf_valid_id fp id) :
    ∃ idx, ctf_type_to_index fp id = some idx ∧ ctf_index_to_type fp idx = id := by
  obtain ⟨h1, h2, h3, h4⟩ := hl
  obtain ⟨hid, hv⟩ := hv
  cases hc : fp.LCTF_CHILD
  · simp only [hc, Bool.false_eq_true, ↓reduceIte] at hv
    have h4 := h4 hc
    cases h : ctf_type_to_index fp id with
    | none =>
      simp only [ctf_type_to_index, ctf_type_to_index_internal, hc, Bool.false_and,
        Bool.false_eq_true, ↓reduceIte] at h
      split_ifs at h
    | some idx =>
      refine ⟨idx, rfl, ?_⟩
      simp only [ctf_type_to_index, ctf_type_to_index_internal, hc, Bool.false_and,
        Bool.false_eq_true, ↓reduceIte, u32, sub32, sub64] at h
      simp only [ctf_index_to_type, hc, Bool.false_eq_true, ↓reduceIte, sub32, add32]
      split_ifs at h <;> simp only [Option.some.injEq] at h <;> subst h <;> split_ifs <;> omega
  · simp only [hc, ↓reduceIte] at hv
    have h3 := h3 hc
    cases h : ctf_type_to_index fp id with
    | none =>
      simp only [ctf_type_to_index, ctf_type_to_index_internal, hc, Bool.true_and,
        ↓reduceIte] at h
      split_ifs at h with hh
      simp at hh
      omega
    | some idx =>
      refine ⟨idx, rfl, ?_⟩
      simp only [ctf_type_to_index, ctf_type_to_index_internal, hc, Bool.true_and,
        ↓reduceIte, u32, sub32] at h
      simp only [ctf_index_to_type, hc, ↓reduceIte, add32]
      split_ifs at h <;> simp only [Option.some.injEq] at h <;> subst h <;> omega

/-- Witness of C1 on the provisional type `2^32 - 1` of `root_prov_dict`. -/
theorem ctf_index_to_type_to_index_witness :
    ctf_dict_layout root_prov_dict ∧ ctf_valid_id root_prov_dict 4294967295 ∧
    ∃ idx, ctf_type_to_index root_prov_dict 4294967295 = some idx ∧
      ctf_index_to_type root_prov_dict idx = 4294967295 :=
  ⟨by decide, by decide,
    ctf_index_to_type_to_index root_prov_dict 4294967295 (by decide) (by decide)⟩

/-- C2: for every dict with a well-formed layout and every storage index
`1 ≤ idx ≤ ctf_typemax`, `ctf_type_to_index` maps `ctf_index_to_type fp idx` back
to `idx`; in a root dict an index up to `ctf_typemax - ctf_nprovtypes` is its own
ID and a larger one has the ID `ctf_provtypemax + (ctf_typemax - idx)`. -/
theorem ctf_type_to_index_to_type (fp : ctf_dict_t) (idx : Nat)
    (hl : ctf_dict_layout fp) (h1 : 1 ≤ idx) (h2 : idx ≤ fp.ctf_typemax) :
    ctf_type_to_index fp (ctf_index_to_type fp idx) = some idx ∧
    (fp.LCTF_CHILD = false →
      (idx ≤ fp.ctf_typemax - fp.ctf_nprovtypes → ctf_index_to_type fp idx = idx) ∧
      (fp.ctf_typemax - fp.ctf_nprovtypes < idx →
        ctf_index_to_type fp idx = fp.ctf_provtypemax + (fp.ctf_typemax - idx))) := by
  obtain ⟨l1, l2, l3, l4⟩ := hl
  cases hc : fp.LCTF_CHILD
  · have l4 := l4 hc
    have hsub : sub32 fp.ctf_typemax fp.ctf_nprovtypes = fp.ctf_typemax - fp.ctf_nprovtypes := by
      simp only [sub32]; omega
    by_cases hi : idx ≤ fp.ctf_typemax - fp.ctf_nprovtypes
    · have hid : ctf_index_to_type fp idx = idx := by
        simp only [ctf_index_to_type, hc, Bool.false_eq_true, ↓reduceIte, hsub, hi]
      refine ⟨?_, fun _ => ⟨fun _ => hid, fun h => by omega⟩⟩
      rw [hid]
      simp only [ctf_type_to_index, ctf_type_to_index_internal, hc, Bool.false_and,
        Bool.false_eq_true, ↓reduceIte, hsub, u32]
      have : idx % 4294967296 = idx := by omega
      simp only [this, hi, ↓reduceIte, ite_self]
    · have hid : ctf_index_to_type fp idx = fp.ctf_provtypemax + (fp.ctf_typemax - idx) := by
        have hsub2 : sub32 fp.ctf_typemax idx = fp.ctf_typemax - idx := by
          simp only [sub32]; omega
        simp only [ctf_index_to_type, hc, Bool.false_eq_true, ↓reduceIte, hsub, hi, hsub2, add32]
        omega
      refine ⟨?_, fun _ => ⟨fun h => absurd h hi, fun _ => hid⟩⟩
      rw [hid]
      simp only [ctf_type_to_index, ctf_type_to_index_internal, hc, Bool.false_and,
        Bool.false_eq_true, ↓reduceIte, hsub, u32, sub64]
      have e1 : (fp.ctf_provtypemax + (fp.ctf_typemax - idx)) % 4294967296
          = fp.ctf_provtypemax + (fp.ctf_typemax - idx) := by omega
      rw [e1, if_neg (by omega), if_neg (by omega)]
      congr 1
      omega
  · have l3 := l3 hc
    refine ⟨?_, fun h => by simp at h⟩
    simp only [ctf_index_to_type, hc, ↓reduceIte, add32]
    simp only [ctf_type_to_index, ctf_type_to_index_internal, hc, Bool.true_and, ↓reduceIte,
      u32, sub32]
    have e1 : (idx + fp.cth_parent_typemax) % 4294967296 = idx + fp.cth_parent_typemax := by
      omega
    rw [e1, if_neg (by simp; omega)]
    simp only [ite_self]
    congr 1
    omega

/-- Witness of C2 on the provisional storage slot 4 of `root_prov_dict`. -/
theorem ctf_type_to_index_to_type_witness :
    ctf_dict_layout root_prov_dict ∧
    ctf_type_to_index root_prov_dict (ctf_index_to_type root_prov_dict 4) = some 4 ∧
    ctf_index_to_type root_prov_dict 4 = 4294967295 :=
  ⟨by decide,
    (ctf_type_to_index_to_type root_prov_dict 4 (by decide) (by decide) (by decide)).1,
    by decide⟩

/-- C3: in a child dict, with or without its parent attached, every ID at or below
`cth_parent_typemax` is a parent type, is not a child type, and `ctf_get_dict`
answers with the parent pointer. -/
theorem ctf_type_isparent_below_parent_typemax (fp : ctf_dict_t) (id : Nat)
    (hc : fp.LCTF_CHILD = true) (hp : ctf_parent_linked fp)
    (hid : id ≤ fp.cth_parent_typemax) :
    ctf_type_isparent fp id ≠ 0 ∧ ctf_type_ischild fp id = 0 ∧
    ctf_get_dict fp id = fp.ctf_parent.map ctf_dict_core.dict := by
  have h1 : ctf_type_isparent fp id = 1 := by
    simp only [ctf_type_isparent, hc, Bool.not_true, Bool.false_eq_true, ↓reduceIte]
    cases hpar : fp.ctf_parent with
    | none => simp only [ge_iff_le, hid, ↓reduceIte]
    | some p =>
      have := hp p hpar
      simp only [ite_eq_left_iff, not_le]
      intro h
      omega
  refine ⟨by omega, ?_, ?_⟩
  · simp only [ctf_type_ischild, h1]; decide
  · simp only [ctf_get_dict, hc, h1]; rfl

/-- Witness of C3 on `child_dict_attached` and the parent type 7. -/
theorem ctf_type_isparent_below_parent_typemax_witness :
    child_dict_attached.LCTF_CHILD = true ∧ 7 ≤ child_dict_attached.cth_parent_typemax ∧
    (ctf_type_isparent child_dict_attached 7 ≠ 0 ∧ ctf_type_ischild child_dict_attached 7 = 0 ∧
      ctf_get_dict child_dict_attached 7
        = child_dict_attached.ctf_parent.map ctf_dict_core.dict) :=
  ⟨rfl, by decide,
    ctf_type_isparent_below_parent_typemax child_dict_attached 7 rfl
      (by intro p h; cases h; decide) (by decide)⟩

/-! ## Theorems: type resolution -/

theorem ctf_lookup_by_id_pos {fp : ctf_dict_t} {type : Nat} {l : ctf_lookup_t}
    (h : ctf_lookup_by_id fp type = .ok l) : 0 < type := by
  unfold ctf_lookup_by_id at h
  split at h
  · cases h
  · split at h
    · cases h
    · split_ifs at h with hc
      exact hc.1

theorem ctf_lookup_by_id_zero (fp : ctf_dict_t) :
    ∀ l, ctf_lookup_by_id fp 0 ≠ .ok l := by
  intro l h
  have := ctf_lookup_by_id_pos h
  omega

theorem ctf_type_resolve_loop_succ (az : Bool) (ofp : ctf_dict_t) (otype fuel : Nat)
    (fp : ctf_dict_t) (up : Bool) (type prev : Nat) :
    ctf_type_resolve_loop az ofp otype (fuel + 1) fp up type prev =
      match ctf_lookup_by_id fp type with
      | .error e => some ⟨CTF_ERR, ctf_lookup_errno ofp up e⟩
      | .ok l =>
        if l.tp.kind.is_ref then
          if l.tp.ctt_type = type ∨ l.tp.ctt_type = otype ∨ l.tp.ctt_type = prev then
            some (ctf_cycle_detected ofp otype)
          else if l.tp.ctt_type = 0 then
            (if az then some ⟨0, ofp⟩
             else some (ctf_set_typed_errno ofp .ECTF_NONREPRESENTABLE))
          else
            ctf_type_resolve_loop az ofp otype fuel l.fp (up || l.up) l.tp.ctt_type type
        else if l.tp.kind = .CTF_K_UNKNOWN then
          some (ctf_set_typed_errno ofp .ECTF_NONREPRESENTABLE)
        else some ⟨type, ofp⟩ := rfl

/-- A successful run of the loop of `ctf_type_resolve` ends on a type that is
reached through links and is itself no link. -/
theorem ctf_type_resolve_loop_follows (ofp : ctf_dict_t) (otype : Nat) :
    ∀ (fuel : Nat) (fp : ctf_dict_t) (up : Bool) (type prev : Nat) (r : ctf_ret Nat),
      ctf_type_resolve_loop false ofp otype fuel fp up type prev = some r →
      r.val ≠ CTF_ERR →
      ∃ n fp' up' l, ctf_follow n fp up type = some (fp', up', r.val) ∧
        ctf_lookup_by_id fp' r.val = .ok l ∧ l.tp.kind.is_ref = false := by
  intro fuel
  induction fuel with
  | zero => intro fp up type prev r h; simp [ctf_type_resolve_loop] at h
  | succ fuel ih =>
    intro fp up type prev r h hr
    rw [ctf_type_resolve_loop_succ] at h
    cases hl : ctf_lookup_by_id fp type with
    | error e =>
      simp only [hl, Option.some.injEq] at h
      subst h
      exact absurd rfl hr
    | ok l =>
      simp only [hl] at h
      by_cases href : l.tp.kind.is_ref = true
      · simp only [href, ↓reduceIte, Bool.false_eq_true] at h
        split_ifs at h with h1 h2
        · simp only [Option.some.injEq] at h; subst h; exact absurd rfl hr
        · simp only [Option.some.injEq] at h; subst h; exact absurd rfl hr
        · obtain ⟨n, fp', up', l', hf, hl', hk⟩ := ih _ _ _ _ r h hr
          refine ⟨n + 1, fp', up', l', ?_, hl', hk⟩
          simp only [ctf_follow, hl, href, ↓reduceIte, hf]
      · simp only [href, Bool.false_eq_true, ↓reduceIte] at h
        split_ifs at h with h1
        · simp only [Option.some.injEq] at h; subst h; exact absurd rfl hr
        · simp only [Option.some.injEq] at h
          subst h
          exact ⟨0, fp, up, l, rfl, hl, by simpa using href⟩

/-- The loop returns a type that is neither a link nor `CTF_K_UNKNOWN` at once. -/
theorem ctf_type_resolve_loop_base (az : Bool) (ofp : ctf_dict_t) (otype fuel : Nat)
    (fp : ctf_dict_t) (up : Bool) (type prev : Nat) (l : ctf_lookup_t)
    (hl : ctf_lookup_by_id fp type = .ok l) (href : l.tp.kind.is_ref = false)
    (hk : l.tp.kind ≠ .CTF_K_UNKNOWN) :
    ctf_type_resolve_loop az ofp otype (fuel + 1) fp up type prev = some ⟨type, ofp⟩ := by
  rw [ctf_type_resolve_loop_succ]
  simp only [hl, href, Bool.false_eq_true, ↓reduceIte, hk]

/-- C4: whenever `ctf_type_resolve` succeeds, the ID it returns is reached from the
argument by following zero or more TYPEDEF/VOLATILE/CONST/RESTRICT/VAR links and
its kind is none of these five; a non-zero type whose own kind is none of the
five and not UNKNOWN is returned unchanged, with the dict untouched. -/
theorem ctf_type_resolve_reaches_base (fp : ctf_dict_t) (t : Nat) :
    (∀ fuel r, ctf_type_resolve fuel fp t = some r → r.val ≠ CTF_ERR →
      ∃ n fp' up' l, ctf_follow n fp false t = some (fp', up', r.val) ∧
        ctf_lookup_by_id fp' r.val = .ok l ∧ l.tp.kind.is_ref = false) ∧
    (∀ l fuel, t ≠ 0 → ctf_lookup_by_id fp t = .ok l → l.tp.kind.is_ref = false →
      l.tp.kind ≠ .CTF_K_UNKNOWN → ctf_type_resolve (fuel + 1) fp t = some ⟨t, fp⟩) := by
  constructor
  · intro fuel r h hr
    unfold ctf_type_resolve ctf_type_resolve_nonrepresentable at h
    simp only [Bool.false_eq_true, ↓reduceIte] at h
    split_ifs at h with h0
    · simp only [Option.some.injEq] at h; subst h; exact absurd rfl hr
    · exact ctf_type_resolve_loop_follows fp t fuel fp false t t r h hr
  · intro l fuel h0 hl href hk
    unfold ctf_type_resolve ctf_type_resolve_nonrepresentable
    rw [if_neg h0]
    exact ctf_type_resolve_loop_base false fp t fuel fp false t t l hl href hk

/-- Witness of C4 on `chain_dict`: the const-qualified typedef 3 resolves to the
integer 1, two links away. -/
theorem ctf_type_resolve_reaches_base_witness :
    ctf_type_resolve 3 chain_dict 3 = some ⟨1, chain_dict⟩ ∧
    ∃ n fp' up' l, ctf_follow n chain_dict false 3 = some (fp', up', 1) ∧
      ctf_lookup_by_id fp' 1 = .ok l ∧ l.tp.kind.is_ref = false :=
  ⟨by decide,
    (ctf_type_resolve_reaches_base chain_dict 3).1 3 ⟨1, chain_dict⟩ (by decide) (by decide)⟩

/-! ### Walking a chain of links -/

theorem ctf_follow_start_ne_zero {n : Nat} {fp : ctf_dict_t} {up : Bool} {c : Nat}
    {fp' : ctf_dict_t} {up' : Bool} {u : Nat}
    (h : ctf_follow n fp up c = some (fp', up', u)) (hu : u ≠ 0) : c ≠ 0 := by
  cases n with
  | zero =>
    simp only [ctf_follow, Option.some.injEq, Prod.mk.injEq] at h
    omega
  | succ n =>
    intro hc
    subst hc
    simp only [ctf_follow] at h
    cases hl : ctf_lookup_by_id fp 0 with
    | error e => simp [hl] at h
    | ok l => exact ctf_lookup_by_id_zero fp l hl

theorem ctf_path_head (n : Nat) (fp : ctf_dict_t) (t : Nat) :
    ∃ tl, ctf_path n fp t = t :: tl := by
  cases n with
  | zero => exact ⟨[], rfl⟩
  | succ n =>
    simp only [ctf_path]
    cases ctf_lookup_by_id fp t with
    | error e => exact ⟨[], rfl⟩
    | ok l =>
      by_cases h : l.tp.kind.is_ref = true
      · exact ⟨ctf_path n l.fp l.tp.ctt_type, by simp only [h, ↓reduceIte]⟩
      · exact ⟨[], by simp [h]⟩

/-- A chain of links that ends on a type that is no link (or cannot be looked up)
is resolved within one lookup per link plus one. -/
theorem ctf_type_resolve_loop_chain (az : Bool) (ofp : ctf_dict_t) (otype : Nat) :
    ∀ (n fuel : Nat) (fp : ctf_dict_t) (up : Bool) (type prev : Nat)
      (fp' : ctf_dict_t) (up' : Bool) (u : Nat),
      ctf_follow n fp up type = some (fp', up', u) →
      (∀ l, ctf_lookup_by_id fp' u = .ok l → l.tp.kind.is_ref = false) →
      ∃ r, ctf_type_resolve_loop az ofp otype (fuel + n + 1) fp up type prev = some r := by
  intro n
  induction n with
  | zero =>
    intro fuel fp up type prev fp' up' u hf hterm
    simp only [ctf_follow, Option.some.injEq, Prod.mk.injEq] at hf
    obtain ⟨rfl, rfl, rfl⟩ := hf
    rw [Nat.add_zero, ctf_type_resolve_loop_succ]
    cases hl : ctf_lookup_by_id fp type with
    | error e => exact ⟨_, rfl⟩
    | ok l =>
      simp only [hterm l hl, Bool.false_eq_true, ↓reduceIte]
      split_ifs <;> exact ⟨_, rfl⟩
  | succ n ih =>
    intro fuel fp up type prev fp' up' u hf hterm
    simp only [ctf_follow] at hf
    show ∃ r, ctf_type_resolve_loop az ofp otype ((fuel + n + 1) + 1) fp up type prev = some r
    rw [ctf_type_resolve_loop_succ]
    cases hl : ctf_lookup_by_id fp type with
    | error e => exact ⟨_, rfl⟩
    | ok l =>
      simp only [hl] at hf
      by_cases href : l.tp.kind.is_ref = true
      · simp only [href, ↓reduceIte] at hf ⊢
        split_ifs
        · exact ⟨_, rfl⟩
        · exact ⟨_, rfl⟩
        · exact ⟨_, rfl⟩
        · exact ih fuel _ _ _ _ _ _ _ hf hterm
      · simp [href] at hf

/-- If the chain from `type` reaches `w` after `n` links and the loop, started at
`w`, ends in a result with the property `P` that the cycle report has too, then so
does the loop started at `type`. -/
theorem ctf_type_resolve_loop_reach (az : Bool) (ofp : ctf_dict_t) (otype : Nat)
    (P : ctf_ret Nat → Prop) (hP : P (ctf_cycle_detected ofp otype)) :
    ∀ (n fuel : Nat) (fp : ctf_dict_t) (up : Bool) (type prev : Nat)
      (fp' : ctf_dict_t) (up' : Bool) (w : Nat),
      ctf_follow n fp up type = some (fp', up', w) → w ≠ 0 →
      (∀ prev', ∃ r, ctf_type_resolve_loop az ofp otype fuel fp' up' w prev' = some r ∧ P r) →
      ∃ r, ctf_type_resolve_loop az ofp otype (fuel + n) fp up type prev = some r ∧ P r := by
  intro n
  induction n with
  | zero =>
    intro fuel fp up type prev fp' up' w hf _ hcont
    simp only [ctf_follow, Option.some.injEq, Prod.mk.injEq] at hf
    obtain ⟨rfl, rfl, rfl⟩ := hf
    exact hcont prev
  | succ n ih =>
    intro fuel fp up type prev fp' up' w hf hw hcont
    simp only [ctf_follow] at hf
    show ∃ r, ctf_type_resolve_loop az ofp otype ((fuel + n) + 1) fp up type prev = some r ∧ P r
    rw [ctf_type_resolve_loop_succ]
    cases hl : ctf_lookup_by_id fp type with
    | error e => simp [hl] at hf
    | ok l =>
      simp only [hl] at hf
      by_cases href : l.tp.kind.is_ref = true
      · simp only [href, ↓reduceIte] at hf ⊢
        have hc := ctf_follow_start_ne_zero hf hw
        rw [if_neg hc]
        split_ifs
        · exact ⟨_, rfl, hP⟩
        · exact ih fuel _ _ _ _ _ _ _ hf hw hcont
      · simp [href] at hf

/-- Along a chain that visits no ID twice the cycle guard stays silent: the loop
started at the head of the chain arrives, one lookup per link, at its end. -/
theorem ctf_type_resolve_loop_walk (az : Bool) (ofp : ctf_dict_t) (otype : Nat) :
    ∀ (n fuel : Nat) (fp : ctf_dict_t) (up : Bool) (type prev : Nat)
      (fp' : ctf_dict_t) (up' : Bool) (u : Nat),
      ctf_follow n fp up type = some (fp', up', u) → u ≠ 0 →
      (ctf_path n fp type).Nodup → otype ∉ (ctf_path n fp type).tail →
      prev ∉ (ctf_path n fp type).tail → prev ≠ 0 →
      ∃ prev', prev' ≠ 0 ∧ ctf_type_resolve_loop az ofp otype (fuel + n) fp up type prev
        = ctf_type_resolve_loop az ofp otype fuel fp' up' u prev' := by
  intro n
  induction n with
  | zero =>
    intro fuel fp up type prev fp' up' u hf _ _ _ _ hp0
    simp only [ctf_follow, Option.some.injEq, Prod.mk.injEq] at hf
    obtain ⟨rfl, rfl, rfl⟩ := hf
    exact ⟨prev, hp0, rfl⟩
  | succ n ih =>
    intro fuel fp up type prev fp' up' u hf hu hnd ho hp hp0
    simp only [ctf_follow] at hf
    show ∃ prev', prev' ≠ 0 ∧
      ctf_type_resolve_loop az ofp otype ((fuel + n) + 1) fp up type prev = _
    rw [ctf_type_resolve_loop_succ]
    cases hl : ctf_lookup_by_id fp type with
    | error e => simp [hl] at hf
    | ok l =>
      simp only [hl] at hf
      by_cases href : l.tp.kind.is_ref = true
      · simp only [href, ↓reduceIte] at hf ⊢
        have hc := ctf_follow_start_ne_zero hf hu
        obtain ⟨tl, htl⟩ := ctf_path_head n l.fp l.tp.ctt_type
        have hpath : ctf_path (n + 1) fp type = type :: l.tp.ctt_type :: tl := by
          simp only [ctf_path, hl, href, ↓reduceIte, htl]
        rw [hpath] at hnd ho hp
        simp only [List.tail_cons, List.mem_cons, not_or] at ho hp
        simp only [List.nodup_cons, List.mem_cons, not_or] at hnd
        have hg : ¬ (l.tp.ctt_type = type ∨ l.tp.ctt_type = otype ∨ l.tp.ctt_type = prev) := by
          rintro (h | h | h)
          · exact hnd.1.1 h.symm
          · exact ho.1 h.symm
          · exact hp.1 h.symm
        rw [if_neg hg, if_neg hc]
        apply ih fuel _ _ _ _ _ _ _ hf hu
        · rw [htl]; simp only [List.nodup_cons]; exact hnd.2
        · rw [htl]; simp only [List.tail_cons]; exact ho.2
        · rw [htl]; simp only [List.tail_cons]; exact hnd.1.2
        · have := ctf_lookup_by_id_pos hl; omega
      · simp [href] at hf

/-! ### Termination and the cycle guard -/

theorem rho_dict_loops : ∀ fuel : Nat,
    ctf_type_resolve_loop false rho_dict 1 fuel rho_dict false 2 1 = none ∧
    ctf_type_resolve_loop false rho_dict 1 fuel rho_dict false 2 4 = none ∧
    ctf_type_resolve_loop false rho_dict 1 fuel rho_dict false 3 2 = none ∧
    ctf_type_resolve_loop false rho_dict 1 fuel rho_dict false 4 3 = none := by
  intro fuel
  induction fuel with
  | zero => exact ⟨rfl, rfl, rfl, rfl⟩
  | succ fuel ih =>
    obtain ⟨_, h2, h3, h4⟩ := ih
    have e1 : ctf_type_resolve_loop false rho_dict 1 (fuel + 1) rho_dict false 2 1
        = ctf_type_resolve_loop false rho_dict 1 fuel rho_dict false 3 2 := rfl
    have e2 : ctf_type_resolve_loop false rho_dict 1 (fuel + 1) rho_dict false 2 4
        = ctf_type_resolve_loop false rho_dict 1 fuel rho_dict false 3 2 := rfl
    have e3 : ctf_type_resolve_loop false rho_dict 1 (fuel + 1) rho_dict false 3 2
        = ctf_type_resolve_loop false rho_dict 1 fuel rho_dict false 4 3 := rfl
    have e4 : ctf_type_resolve_loop false rho_dict 1 (fuel + 1) rho_dict false 4 3
        = ctf_type_resolve_loop false rho_dict 1 fuel rho_dict false 2 4 := rfl
    exact ⟨e1.trans h3, e2.trans h3, e3.trans h4, e4.trans h2⟩

/-- Counterexample to C5: on `rho_dict`, whose typedef 1 leads into the cycle
`2 → 3 → 4 → 2`, `ctf_type_resolve` returns for no amount of fuel: no link of the
cycle points at itself, at the original type 1 or at its predecessor. -/
theorem ctf_type_resolve_rho_diverges :
    ¬ ∃ fuel r, ctf_type_resolve fuel rho_dict 1 = some r := by
  rintro ⟨fuel, r, h⟩
  cases fuel with
  | zero => cases h
  | succ fuel =>
    have e : ctf_type_resolve (fuel + 1) rho_dict 1
        = ctf_type_resolve_loop false rho_dict 1 fuel rho_dict false 2 1 := rfl
    rw [e, (rho_dict_loops fuel).1] at h
    cases h

/-- C5, amended: `ctf_type_resolve` returns within `N + 1` lookups on every chain
of `N` links that ends (on a type that is no link, on ID 0 or on a failed lookup),
and it reports a cycle, returning the `ECTF_CORRUPT` result, as soon as a link
refers to the current type or to the original type, or refers back to the type
just left. -/
theorem ctf_type_resolve_terminates (fp : ctf_dict_t) (t : Nat) :
    (∀ n fp' up' u, ctf_follow n fp false t = some (fp', up', u) →
      (u = 0 ∨ ∀ l, ctf_lookup_by_id fp' u = .ok l → l.tp.kind.is_ref = false) →
      ∀ k, ∃ r, ctf_type_resolve (n + 1 + k) fp t = some r) ∧
    (∀ n fp' up' w l, ctf_follow n fp false t = some (fp', up', w) →
      ctf_lookup_by_id fp' w = .ok l → l.tp.kind.is_ref = true →
      (l.tp.ctt_type = w ∨ l.tp.ctt_type = t) →
      ∀ k, ∃ r, ctf_type_resolve (n + 1 + k) fp t = some r ∧ r = ctf_cycle_detected fp t) ∧
    (∀ n fp' up' a la lb, ctf_follow n fp false t = some (fp', up', a) →
      ctf_lookup_by_id fp' a = .ok la → la.tp.kind.is_ref = true →
      ctf_lookup_by_id la.fp la.tp.ctt_type = .ok lb → lb.tp.kind.is_ref = true →
      lb.tp.ctt_type = a →
      ∀ k, ∃ r, ctf_type_resolve (n + 2 + k) fp t = some r ∧ r = ctf_cycle_detected fp t) := by
  refine ⟨?_, ?_, ?_⟩
  · intro n fp' up' u hf hterm k
    have hterm' : ∀ l, ctf_lookup_by_id fp' u = .ok l → l.tp.kind.is_ref = false := by
      rcases hterm with rfl | h
      · intro l hl; exact absurd hl (ctf_lookup_by_id_zero fp' l)
      · exact h
    unfold ctf_type_resolve ctf_type_resolve_nonrepresentable
    by_cases h0 : t = 0
    · rw [if_pos h0]; exact ⟨_, rfl⟩
    · rw [if_neg h0]
      have e : n + 1 + k = k + n + 1 := by omega
      rw [e]
      exact ctf_type_resolve_loop_chain false fp t n k fp false t t fp' up' u hf hterm'
  · intro n fp' up' w l hf hl href htgt k
    have hw : w ≠ 0 := by have := ctf_lookup_by_id_pos hl; omega
    have h0 : t ≠ 0 := ctf_follow_start_ne_zero hf hw
    unfold ctf_type_resolve ctf_type_resolve_nonrepresentable
    rw [if_neg h0]
    have e : n + 1 + k = (k + 1) + n := by omega
    rw [e]
    apply ctf_type_resolve_loop_reach false fp t (fun r => r = ctf_cycle_detected fp t) rfl
      n (k + 1) fp false t t fp' up' w hf hw
    intro prev'
    refine ⟨_, ?_, rfl⟩
    rw [ctf_type_resolve_loop_succ]
    simp only [hl, href, ↓reduceIte]
    rw [if_pos]
    rcases htgt with h | h
    · exact Or.inl h
    · exact Or.inr (Or.inl h)
  · intro n fp' up' a la lb hf hla hrefa hlb hrefb hback k
    have ha : a ≠ 0 := by have := ctf_lookup_by_id_pos hla; omega
    have hb : la.tp.ctt_type ≠ 0 := by have := ctf_lookup_by_id_pos hlb; omega
    have h0 : t ≠ 0 := ctf_follow_start_ne_zero hf ha
    unfold ctf_type_resolve ctf_type_resolve_nonrepresentable
    rw [if_neg h0]
    have e : n + 2 + k = (k + 2) + n := by omega
    rw [e]
    apply ctf_type_resolve_loop_reach false fp t (fun r => r = ctf_cycle_detected fp t) rfl
      n (k + 2) fp false t t fp' up' a hf ha
    intro prev'
    refine ⟨_, ?_, rfl⟩
    show ctf_type_resolve_loop false fp t ((k + 1) + 1) fp' up' a prev' = _
    rw [ctf_type_resolve_loop_succ]
    simp only [hla, hrefa, ↓reduceIte]
    split_ifs with hg
    · rfl
    · rw [ctf_type_resolve_loop_succ]
      simp only [hlb, hrefb, ↓reduceIte]
      rw [if_pos (Or.inr (Or.inr hback))]

/-- Witness of C5 (amended) on `chain_dict`: the chain `3 → 2 → 1` has two links
and ends on an integer, and three lookups resolve it. -/
theorem ctf_type_resolve_terminates_witness :
    ctf_follow 2 chain_dict false 3 = some (chain_dict, false, 1) ∧
    ∃ r, ctf_type_resolve (2 + 1 + 0) chain_dict 3 = some r :=
  ⟨by decide,
    (ctf_type_resolve_terminates chain_dict 3).1 2 chain_dict false 1 (by decide)
      (Or.inr (fun l hl => by
        have e : ctf_lookup_by_id chain_dict 1
            = .ok ⟨chain_dict, false, { kind := .CTF_K_INTEGER, ctt_name := "int" }⟩ := rfl
        rw [e] at hl
        cases hl
        rfl)) 0⟩

/-- C6: for link types `A → B → A`, and for `A → A`, `ctf_type_resolve (fp, A)`
returns `CTF_ERR`, leaves `ECTF_CORRUPT` in the error code of the dict it was
called on and appends exactly one error record to that dict's list. -/
theorem ctf_type_resolve_cycle_corrupt (fp : ctf_dict_t) (A : Nat) (k : Nat) :
    ((ctf_cycle_detected fp A).val = CTF_ERR ∧
      (ctf_cycle_detected fp A).fp.ctf_errno = .ECTF_CORRUPT ∧
      (ctf_cycle_detected fp A).fp.ctf_errs_warnings =
        fp.ctf_errs_warnings ++ [⟨false, "type " ++ ctf_fmt_lx A ++ " cycle detected"⟩]) ∧
    (∀ la lb, ctf_lookup_by_id fp A = .ok la → la.tp.kind.is_ref = true →
      ctf_lookup_by_id la.fp la.tp.ctt_type = .ok lb → lb.tp.kind.is_ref = true →
      lb.tp.ctt_type = A →
      ctf_type_resolve (k + 2) fp A = some (ctf_cycle_detected fp A)) ∧
    (∀ la, ctf_lookup_by_id fp A = .ok la → la.tp.kind.is_ref = true →
      la.tp.ctt_type = A →
      ctf_type_resolve (k + 1) fp A = some (ctf_cycle_detected fp A)) := by
  refine ⟨⟨rfl, rfl, rfl⟩, ?_, ?_⟩
  · intro la lb hla hrefa hlb hrefb hback
    have h0 : A ≠ 0 := by have := ctf_lookup_by_id_pos hla; omega
    unfold ctf_type_resolve ctf_type_resolve_nonrepresentable
    rw [if_neg h0]
    show ctf_type_resolve_loop false fp A ((k + 1) + 1) fp false A A = _
    rw [ctf_type_resolve_loop_succ]
    simp only [hla, hrefa, ↓reduceIte]
    have hb : la.tp.ctt_type ≠ 0 := by have := ctf_lookup_by_id_pos hlb; omega
    split_ifs with hg
    · rfl
    · rw [ctf_type_resolve_loop_succ]
      simp only [hlb, hrefb, ↓reduceIte]
      rw [if_pos (Or.inr (Or.inl hback))]
  · intro la hla hrefa hself
    have h0 : A ≠ 0 := by have := ctf_lookup_by_id_pos hla; omega
    unfold ctf_type_resolve ctf_type_resolve_nonrepresentable
    rw [if_neg h0, ctf_type_resolve_loop_succ]
    simp only [hla, hrefa, ↓reduceIte]
    rw [if_pos (Or.inl hself)]

/-- Witness of C6 on `cycle_dict`, whose typedef 1 and const 2 refer to each
other. -/
theorem ctf_type_resolve_cycle_corrupt_witness :
    ctf_type_resolve (0 + 2) cycle_dict 1 = some (ctf_cycle_detected cycle_dict 1) ∧
    (ctf_cycle_detected cycle_dict 1).fp.ctf_errs_warnings.length = 1 :=
  ⟨(ctf_type_resolve_cycle_corrupt cycle_dict 1 0).2.1
      ⟨cycle_dict, false, { kind := .CTF_K_TYPEDEF, ctt_type := 2, ctt_name := "a" }⟩
      ⟨cycle_dict, false, { kind := .CTF_K_CONST, ctt_type := 1 }⟩ rfl rfl rfl rfl rfl,
    rfl⟩

/-- Counterexample to C7: in `forward_dict` the chain of the typedef 2 ends on the
forward 1, and `ctf_type_resolve` returns that forward, with no error set. -/
theorem ctf_type_resolve_forward_returned :
    ctf_follow 1 forward_dict false 2 = some (forward_dict, false, 1) ∧
    (∃ l, ctf_lookup_by_id forward_dict 1 = .ok l ∧ l.tp.kind = .CTF_K_FORWARD) ∧
    ctf_type_resolve 2 forward_dict 2 = some ⟨1, forward_dict⟩ :=
  ⟨by decide, ⟨_, rfl, rfl⟩, by decide⟩

/-- C7, amended: a type whose chain of distinct links ends on a type of kind
UNKNOWN is reported as non-representable (`CTF_ERR`, `ECTF_NONREPRESENTABLE` on the
dict of the call); a chain that ends on a FORWARD resolves to that forward, which
is returned with the dict untouched. -/
theorem ctf_type_resolve_unknown_forward (fp : ctf_dict_t) (t n : Nat) (fp' : ctf_dict_t)
    (up' : Bool) (u : Nat) (l : ctf_lookup_t) (k : Nat)
    (hf : ctf_follow n fp false t = some (fp', up', u))
    (hnd : (ctf_path n fp t).Nodup) (hl : ctf_lookup_by_id fp' u = .ok l) :
    (l.tp.kind = .CTF_K_UNKNOWN →
      ctf_type_resolve (n + 1 + k) fp t
        = some (ctf_set_typed_errno fp .ECTF_NONREPRESENTABLE)) ∧
    (l.tp.kind = .CTF_K_FORWARD → ctf_type_resolve (n + 1 + k) fp t = some ⟨u, fp⟩) := by
  have hu : u ≠ 0 := by have := ctf_lookup_by_id_pos hl; omega
  have h0 : t ≠ 0 := ctf_follow_start_ne_zero hf hu
  obtain ⟨tl, htl⟩ := ctf_path_head n fp t
  have hnot : t ∉ (ctf_path n fp t).tail := by
    rw [htl] at hnd ⊢
    simp only [List.nodup_cons] at hnd
    simpa using hnd.1
  have e : n + 1 + k = (k + 1) + n := by omega
  obtain ⟨prev', _, hw⟩ :=
    ctf_type_resolve_loop_walk false fp t n (k + 1) fp false t t fp' up' u hf hu hnd hnot hnot h0
  have hres : ctf_type_resolve (n + 1 + k) fp t
      = ctf_type_resolve_loop false fp t (k + 1) fp' up' u prev' := by
    unfold ctf_type_resolve ctf_type_resolve_nonrepresentable
    rw [if_neg h0, e, hw]
  rw [hres, ctf_type_resolve_loop_succ]
  simp only [hl]
  constructor
  · intro hk
    simp [hk, ctf_kind.is_ref]
  · intro hk
    simp [hk, ctf_kind.is_ref]

/-- Witness of C7 (amended) on `forward_dict`: the typedef 4 of the unknown-kind
type 3 is non-representable. -/
theorem ctf_type_resolve_unknown_forward_witness :
    ctf_follow 1 forward_dict false 4 = some (forward_dict, false, 3) ∧
    ctf_type_resolve (1 + 1 + 0) forward_dict 4
      = some (ctf_set_typed_errno forward_dict .ECTF_NONREPRESENTABLE) :=
  ⟨by decide,
    (ctf_type_resolve_unknown_forward forward_dict 4 1 forward_dict false 3
      ⟨forward_dict, false, { kind := .CTF_K_UNKNOWN }⟩ 0 (by decide) (by decide) rfl).1 rfl⟩

/-! ### Type ID 0 -/

/-- The loop run with and without `allow_zero`: both run out of fuel together, and
a result of the `allow_zero` run is either `0` with the dict untouched, after a
link to ID 0 that the other run reports as non-representable, or a non-zero
result that the other run shares. -/
theorem ctf_type_resolve_loop_allow_zero (ofp : ctf_dict_t) (otype : Nat) :
    ∀ (fuel : Nat) (fp : ctf_dict_t) (up : Bool) (type prev : Nat), type ≠ 0 →
      (ctf_type_resolve_loop true ofp otype fuel fp up type prev = none →
        ctf_type_resolve_loop false ofp otype fuel fp up type prev = none) ∧
      (∀ r, ctf_type_resolve_loop true ofp otype fuel fp up type prev = some r →
        (r = ⟨0, ofp⟩ ∧
          ctf_type_resolve_loop false ofp otype fuel fp up type prev
            = some (ctf_set_typed_errno ofp .ECTF_NONREPRESENTABLE) ∧
          ∃ n fp' up' w l, ctf_follow n fp up type = some (fp', up', w) ∧
            ctf_lookup_by_id fp' w = .ok l ∧ l.tp.kind.is_ref = true ∧ l.tp.ctt_type = 0) ∨
        (r.val ≠ 0 ∧ ctf_type_resolve_loop false ofp otype fuel fp up type prev = some r)) := by
  intro fuel
  induction fuel with
  | zero =>
    intro fp up type prev _
    exact ⟨fun _ => rfl, fun r h => by cases h⟩
  | succ fuel ih =>
    intro fp up type prev ht
    rw [ctf_type_resolve_loop_succ, ctf_type_resolve_loop_succ]
    cases hl : ctf_lookup_by_id fp type with
    | error e =>
      refine ⟨fun h => (by cases h), fun r h => Or.inr ?_⟩
      simp only [Option.some.injEq] at h
      subst h
      exact ⟨(by decide : CTF_ERR ≠ 0), rfl⟩
    | ok l =>
      simp only []
      by_cases href : l.tp.kind.is_ref = true
      · simp only [href, ↓reduceIte, Bool.false_eq_true]
        by_cases hg : l.tp.ctt_type = type ∨ l.tp.ctt_type = otype ∨ l.tp.ctt_type = prev
        · rw [if_pos hg, if_pos hg]
          refine ⟨fun h => (by cases h), fun r h => Or.inr ?_⟩
          simp only [Option.some.injEq] at h
          subst h
          exact ⟨(by decide : CTF_ERR ≠ 0), rfl⟩
        · rw [if_neg hg, if_neg hg]
          by_cases hz : l.tp.ctt_type = 0
          · rw [if_pos hz, if_pos hz]
            refine ⟨fun h => (by cases h), fun r h => Or.inl ?_⟩
            simp only [Option.some.injEq] at h
            subst h
            exact ⟨rfl, rfl, 0, fp, up, type, l, rfl, hl, href, hz⟩
          · rw [if_neg hz, if_neg hz]
            obtain ⟨ih1, ih2⟩ := ih l.fp (up || l.up) l.tp.ctt_type type hz
            refine ⟨ih1, fun r h => ?_⟩
            rcases ih2 r h with ⟨h1, h2, n, fp', up', w, l', hf, hl', hr', hz'⟩ | h'
            · refine Or.inl ⟨h1, h2, n + 1, fp', up', w, l', ?_, hl', hr', hz'⟩
              simp only [ctf_follow, hl, href, ↓reduceIte, hf]
            · exact Or.inr h'
      · simp only [href, Bool.false_eq_true, ↓reduceIte]
        by_cases hk : l.tp.kind = .CTF_K_UNKNOWN
        · rw [if_pos hk]
          refine ⟨fun h => (by cases h), fun r h => Or.inr ?_⟩
          simp only [Option.some.injEq] at h
          subst h
          exact ⟨(by decide : CTF_ERR ≠ 0), rfl⟩
        · rw [if_neg hk]
          refine ⟨fun h => (by cases h), fun r h => Or.inr ?_⟩
          simp only [Option.some.injEq] at h
          subst h
          exact ⟨ht, rfl⟩

/-- C8: type ID 0 is terminal.  When `t` is 0, or the chain of distinct links from
`t` reaches a link whose target is 0, `ctf_type_resolve` fails with
`ECTF_NONREPRESENTABLE` while `ctf_type_resolve_nonrepresentable` with `allow_zero`
returns 0 and leaves the dict as it was; the latter returns 0 in no other case, and
on every other input the two calls give the same result (or run on together). -/
theorem ctf_type_resolve_nonrepresentable_zero (fp : ctf_dict_t) (t : Nat) :
    (t = 0 → ∀ fuel,
      ctf_type_resolve fuel fp t = some (ctf_set_typed_errno fp .ECTF_NONREPRESENTABLE) ∧
      ctf_type_resolve_nonrepresentable fuel fp t true = some ⟨0, fp⟩) ∧
    (∀ n fp' up' w l, ctf_follow n fp false t = some (fp', up', w) →
      (ctf_path n fp t).Nodup → ctf_lookup_by_id fp' w = .ok l → l.tp.kind.is_ref = true →
      l.tp.ctt_type = 0 → ∀ k,
      ctf_type_resolve (n + 1 + k) fp t
        = some (ctf_set_typed_errno fp .ECTF_NONREPRESENTABLE) ∧
      ctf_type_resolve_nonrepresentable (n + 1 + k) fp t true = some ⟨0, fp⟩) ∧
    (∀ fuel r, ctf_type_resolve_nonrepresentable fuel fp t true = some r →
      (r = ⟨0, fp⟩ ∧
        ctf_type_resolve fuel fp t = some (ctf_set_typed_errno fp .ECTF_NONREPRESENTABLE) ∧
        (t = 0 ∨ ∃ n fp' up' w l, ctf_follow n fp false t = some (fp', up', w) ∧
          ctf_lookup_by_id fp' w = .ok l ∧ l.tp.kind.is_ref = true ∧ l.tp.ctt_type = 0)) ∨
      (r.val ≠ 0 ∧ ctf_type_resolve fuel fp t = some r)) ∧
    (∀ fuel, ctf_type_resolve_nonrepresentable fuel fp t true = none →
      ctf_type_resolve fuel fp t = none) := by
  refine ⟨?_, ?_, ?_, ?_⟩
  · intro h0 fuel
    subst h0
    exact ⟨rfl, rfl⟩
  · intro n fp' up' w l hf hnd hl href hz k
    have hw : w ≠ 0 := by have := ctf_lookup_by_id_pos hl; omega
    have h0 : t ≠ 0 := ctf_follow_start_ne_zero hf hw
    obtain ⟨tl, htl⟩ := ctf_path_head n fp t
    have hnot : t ∉ (ctf_path n fp t).tail := by
      rw [htl] at hnd ⊢
      simp only [List.nodup_cons] at hnd
      simpa using hnd.1
    have e : n + 1 + k = (k + 1) + n := by omega
    have key : ∀ az : Bool, ctf_type_resolve_nonrepresentable (n + 1 + k) fp t az
        = (if az then some ⟨0, fp⟩
           else some (ctf_set_typed_errno fp .ECTF_NONREPRESENTABLE)) := by
      intro az
      obtain ⟨prev', hp', hwalk⟩ :=
        ctf_type_resolve_loop_walk az fp t n (k + 1) fp false t t fp' up' w hf hw hnd hnot
          hnot h0
      unfold ctf_type_resolve_nonrepresentable
      rw [if_neg h0, e, hwalk, ctf_type_resolve_loop_succ]
      simp only [hl, href, ↓reduceIte, hz]
      rw [if_neg]
      rintro (h | h | h)
      · exact hw h.symm
      · exact h0 h.symm
      · exact hp' h.symm
    exact ⟨by simpa using key false, by simpa using key true⟩
  · intro fuel r h
    by_cases h0 : t = 0
    · subst h0
      refine Or.inl ⟨?_, rfl, Or.inl rfl⟩
      simp only [ctf_type_resolve_nonrepresentable, ↓reduceIte, Option.some.injEq] at h
      exact h.symm
    · unfold ctf_type_resolve
      unfold ctf_type_resolve_nonrepresentable at h ⊢
      rw [if_neg h0] at h ⊢
      rcases (ctf_type_resolve_loop_allow_zero fp t fuel fp false t t h0).2 r h with
        ⟨h1, h2, hex⟩ | h'
      · exact Or.inl ⟨h1, h2, Or.inr hex⟩
      · exact Or.inr h'
  · intro fuel h
    by_cases h0 : t = 0
    · subst h0
      simp [ctf_type_resolve_nonrepresentable] at h
    · unfold ctf_type_resolve
      unfold ctf_type_resolve_nonrepresentable at h ⊢
      rw [if_neg h0] at h ⊢
      exact (ctf_type_resolve_loop_allow_zero fp t fuel fp false t t h0).1 h

/-- Witness of C8 on `forward_dict`: the typedef 5 refers to ID 0. -/
theorem ctf_type_resolve_nonrepresentable_zero_witness :
    ctf_follow 0 forward_dict false 5 = some (forward_dict, false, 5) ∧
    ctf_type_resolve (0 + 1 + 0) forward_dict 5
      = some (ctf_set_typed_errno forward_dict .ECTF_NONREPRESENTABLE) ∧
    ctf_type_resolve_nonrepresentable (0 + 1 + 0) forward_dict 5 true
      = some ⟨0, forward_dict⟩ :=
  ⟨rfl,
    (ctf_type_resolve_nonrepresentable_zero forward_dict 5).2.1 0 forward_dict false 5
      ⟨forward_dict, false, { kind := .CTF_K_TYPEDEF, ctt_type := 0, ctt_name := "void_t" }⟩
      rfl (by decide) rfl rfl rfl 0⟩

/-! ### Slices -/

/-- C9, the code at the failing input: for the slice 3 of the typedef 2 of the enum
1 in `slice_dict`, `ctf_type_resolve_unsliced` returns the typedef 2, whose kind is
`CTF_K_TYPEDEF`, and not the enum 1 that the typedef resolves to. -/
theorem ctf_type_resolve_unsliced_returns_typedef :
    ctf_type_resolve_unsliced 3 slice_dict 3 = some ⟨2, slice_dict⟩ ∧
    (ctf_type_kind_unsliced slice_dict 2).val = some .CTF_K_TYPEDEF ∧
    ctf_type_resolve 3 slice_dict 2 = some ⟨1, slice_dict⟩ ∧
    (ctf_type_kind_unsliced slice_dict 1).val = some .CTF_K_ENUM := by
  decide

/-! ## Theorems: member iteration -/

/-! ### Error state and type data -/

@[simp] theorem ctf_noerr_set_errno (fp : ctf_dict_t) (e : ctf_error) :
    ctf_noerr (ctf_set_errno fp e).fp = ctf_noerr fp := rfl

@[simp] theorem ctf_noerr_set_typed_errno (fp : ctf_dict_t) (e : ctf_error) :
    ctf_noerr (ctf_set_typed_errno fp e).fp = ctf_noerr fp := rfl

@[simp] theorem ctf_noerr_err_warn (fp : ctf_dict_t) (w : Bool) (e : ctf_error) (t : String) :
    ctf_noerr (ctf_err_warn fp w e t) = ctf_noerr fp := rfl

@[simp] theorem ctf_noerr_cycle_detected (fp : ctf_dict_t) (t : Nat) :
    ctf_noerr (ctf_cycle_detected fp t).fp = ctf_noerr fp := rfl

@[simp] theorem ctf_noerr_assert_fail (fp : ctf_dict_t) (t : String) :
    ctf_noerr (ctf_assert_fail_internal fp t) = ctf_noerr fp := rfl

@[simp] theorem ctf_noerr_lookup_errno (fp : ctf_dict_t) (up : Bool) (e : ctf_error) :
    ctf_noerr (ctf_lookup_errno fp up e) = ctf_noerr fp := by
  cases up
  · rfl
  · simp only [ctf_lookup_errno, ↓reduceIte, ctf_noerr]
    cases fp.ctf_parent <;> rfl

theorem ctf_noerr_dict (p : ctf_dict_core) : ctf_noerr p.dict = p.noerr.dict := rfl

theorem ctf_noerr_put (ofp : ctf_dict_t) (up : Bool) (fp' : ctf_dict_t)
    (h : ctf_noerr fp' = ctf_noerr (ctf_cur ofp up)) :
    ctf_noerr (ctf_put ofp up fp') = ctf_noerr ofp := by
  cases up
  · exact h
  · simp only [ctf_put, ctf_cur, ↓reduceIte] at h ⊢
    cases hp : ofp.ctf_parent with
    | none => simp only [ctf_noerr, hp, Option.map_none']
    | some p =>
      simp only [hp] at h
      have h' := congrArg ctf_dict_t.toctf_dict_core h
      simp only [ctf_noerr, hp, Option.map_some']
      have e : fp'.toctf_dict_core.noerr = p.noerr := h'
      rw [e]

theorem ctf_type_isparent_noerr (fp : ctf_dict_t) (id : Nat) :
    ctf_type_isparent (ctf_noerr fp) id = ctf_type_isparent fp id := by
  simp only [ctf_type_isparent, ctf_noerr]
  cases fp.ctf_parent <;> rfl

theorem ctf_get_dict_noerr (fp : ctf_dict_t) (t : Nat) :
    ctf_get_dict (ctf_noerr fp) t = (ctf_get_dict fp t).map ctf_noerr := by
  simp only [ctf_get_dict, ctf_type_isparent_noerr]
  have e : (ctf_noerr fp).LCTF_CHILD = fp.LCTF_CHILD := rfl
  rw [e]
  split_ifs
  · simp only [ctf_noerr]
    cases fp.ctf_parent <;> rfl
  · rfl

theorem ctf_type_to_index_noerr (fp : ctf_dict_t) (t : Nat) :
    ctf_type_to_index (ctf_noerr fp) t = ctf_type_to_index fp t := rfl

theorem LCTF_INDEX_TO_TYPEPTR_noerr (fp : ctf_dict_t) (idx : Nat) :
    LCTF_INDEX_TO_TYPEPTR (ctf_noerr fp) idx = LCTF_INDEX_TO_TYPEPTR fp idx := rfl

theorem ctf_dynamic_type_noerr (fp : ctf_dict_t) (t : Nat) :
    ctf_dynamic_type (ctf_noerr fp) t = ctf_dynamic_type fp t := by
  simp only [ctf_dynamic_type, ctf_get_dict_noerr]
  cases ctf_get_dict fp t with
  | none => rfl
  | some d => rfl

theorem ctf_vlen_noerr (fp : ctf_dict_t) (t : Nat) (tp : ctf_type_t) :
    ctf_vlen (ctf_noerr fp) t tp = ctf_vlen fp t tp := by
  simp only [ctf_vlen, ctf_dynamic_type_noerr]

/-- Dicts that differ in their error state only have the same native dicts, up to
error state. -/
theorem ctf_get_dict_congr {a b : ctf_dict_t} (h : ctf_noerr a = ctf_noerr b) (t : Nat) :
    (ctf_get_dict a t).map ctf_noerr = (ctf_get_dict b t).map ctf_noerr := by
  rw [← ctf_get_dict_noerr, ← ctf_get_dict_noerr, h]

theorem ctf_vlen_congr {a b : ctf_dict_t} (h : ctf_noerr a = ctf_noerr b) (t : Nat)
    (tp : ctf_type_t) : ctf_vlen a t tp = ctf_vlen b t tp := by
  rw [← ctf_vlen_noerr a, ← ctf_vlen_noerr b, h]

theorem ctf_noerr_cur {a b : ctf_dict_t} (h : ctf_noerr a = ctf_noerr b) (up : Bool) :
    ctf_noerr (ctf_cur a up) = ctf_noerr (ctf_cur b up) := by
  cases up
  · exact h
  · simp only [ctf_cur, ↓reduceIte]
    have hp : a.ctf_parent.map ctf_dict_core.noerr = b.ctf_parent.map ctf_dict_core.noerr :=
      congrArg ctf_dict_t.ctf_parent h
    cases ha : a.ctf_parent with
    | none =>
      cases hb : b.ctf_parent with
      | none => exact h
      | some q => rw [ha, hb] at hp; cases hp
    | some p =>
      cases hb : b.ctf_parent with
      | none => rw [ha, hb] at hp; cases hp
      | some q =>
        rw [ha, hb] at hp
        simp only [Option.map_some', Option.some.injEq] at hp
        simp only [ctf_noerr_dict, hp]


/-! ### Calls change the error state only -/

theorem ctf_type_resolve_loop_noerr (az : Bool) (ofp : ctf_dict_t) (otype : Nat) :
    ∀ (fuel : Nat) (fp : ctf_dict_t) (up : Bool) (type prev : Nat) (r : ctf_ret Nat),
      ctf_type_resolve_loop az ofp otype fuel fp up type prev = some r →
      ctf_noerr r.fp = ctf_noerr ofp := by
  intro fuel
  induction fuel with
  | zero => intro fp up type prev r h; cases h
  | succ fuel ih =>
    intro fp up type prev r h
    rw [ctf_type_resolve_loop_succ] at h
    cases hl : ctf_lookup_by_id fp type with
    | error e =>
      simp only [hl, Option.some.injEq] at h
      subst h
      exact ctf_noerr_lookup_errno ofp up e
    | ok l =>
      simp only [hl] at h
      split_ifs at h
      all_goals first
        | exact ih _ _ _ _ r h
        | (simp only [Option.some.injEq] at h; subst h; rfl)

theorem ctf_type_resolve_nonrepresentable_noerr (fuel : Nat) (fp : ctf_dict_t) (t : Nat)
    (az : Bool) (r : ctf_ret Nat)
    (h : ctf_type_resolve_nonrepresentable fuel fp t az = some r) :
    ctf_noerr r.fp = ctf_noerr fp := by
  unfold ctf_type_resolve_nonrepresentable at h
  split_ifs at h
  all_goals first
    | exact ctf_type_resolve_loop_noerr az fp t fuel fp false t t r h
    | (simp only [Option.some.injEq] at h; subst h; rfl)

theorem ctf_type_resolve_noerr (fuel : Nat) (fp : ctf_dict_t) (t : Nat) (r : ctf_ret Nat)
    (h : ctf_type_resolve fuel fp t = some r) : ctf_noerr r.fp = ctf_noerr fp :=
  ctf_type_resolve_nonrepresentable_noerr fuel fp t false r h

@[simp] theorem ctf_type_reference_noerr (fp : ctf_dict_t) (t : Nat) :
    ctf_noerr (ctf_type_reference fp t).fp = ctf_noerr fp := by
  unfold ctf_type_reference
  cases ctf_lookup_by_id fp t with
  | error e => exact ctf_noerr_lookup_errno fp false e
  | ok l =>
    simp only []
    split
    all_goals first
      | rfl
      | (split <;> rfl)

@[simp] theorem ctf_type_kind_unsliced_noerr (fp : ctf_dict_t) (t : Nat) :
    ctf_noerr (ctf_type_kind_unsliced fp t).fp = ctf_noerr fp := by
  unfold ctf_type_kind_unsliced
  cases ctf_lookup_by_id fp t with
  | error e => exact ctf_noerr_lookup_errno fp false e
  | ok l => rfl

@[simp] theorem ctf_type_kind_noerr (fp : ctf_dict_t) (t : Nat) :
    ctf_noerr (ctf_type_kind fp t).fp = ctf_noerr fp := by
  unfold ctf_type_kind
  simp only []
  split
  · simp
  · split_ifs <;> simp

@[simp] theorem ctf_member_is_anon_sou_noerr (fp : ctf_dict_t) (m : ctf_member_t) :
    ctf_noerr (ctf_member_is_anon_sou fp m).fp = ctf_noerr fp := by
  unfold ctf_member_is_anon_sou
  simp only []
  split_ifs <;> simp

theorem ctf_member_emit_noerr (ofp : ctf_dict_t) (up : Bool) (flags : Nat) (i : ctf_next_t)
    (sub : List ctf_next_t) (m : ctf_member_t) :
    ctf_noerr (ctf_member_emit ofp up flags i sub m).fp = ctf_noerr ofp := by
  simp only [ctf_member_emit]
  exact ctf_noerr_put ofp up _ (ctf_member_is_anon_sou_noerr _ _)

theorem ctf_member_next_retry_succ
    (sub_next : ctf_dict_t → Nat → List ctf_next_t → Option ctf_member_ret)
    (vlen : List ctf_member_t) (nmemb flags : Nat) (up : Bool) (k : Nat) (ofp : ctf_dict_t)
    (i : ctf_next_t) (sub : List ctf_next_t) :
    ctf_member_next_retry sub_next vlen nmemb flags up (k + 1) ofp i sub =
    if i.ctn_type = 0 then
      if i.ctn_n ≥ nmemb then
        some { ret := -1, it := [], fp := (ctf_set_errno ofp .ECTF_NEXT_END).fp }
      else
        if (vlen.getD i.ctn_n {}).ctm_name = "" ∧ (vlen.getD i.ctn_n {}).ctm_type = 0 then
          ctf_member_next_retry sub_next vlen nmemb flags up k ofp
            { i with ctn_n := i.ctn_n + 1 } sub
        else some (ctf_member_emit ofp up flags i sub (vlen.getD i.ctn_n {}))
    else
      match sub_next (ctf_cur ofp up) i.ctn_type sub with
      | none => none
      | some r =>
        if r.ret ≥ 0 then
          some { ret := r.ret + i.ctn_increment, it := i :: r.it, name := r.name,
                 membtype := r.membtype, bit_width := r.bit_width, fp := ctf_put ofp up r.fp }
        else if ctf_errno r.fp ≠ .ECTF_NEXT_END then
          some { ret := r.ret, it := [], name := r.name, membtype := r.membtype,
                 bit_width := r.bit_width,
                 fp := (ctf_set_errno (ctf_put ofp up r.fp) (ctf_errno r.fp)).fp }
        else if r.it ≠ [] then
          some { ret := -1, it := i :: r.it, name := r.name, membtype := r.membtype,
                 bit_width := r.bit_width,
                 fp := (ctf_set_errno
                   (ctf_put ofp up (ctf_assert_fail_internal r.fp
                     "libctf assertion failed: i->ctn_next == NULL"))
                   (ctf_errno (ctf_assert_fail_internal r.fp
                     "libctf assertion failed: i->ctn_next == NULL"))).fp }
        else
          ctf_member_next_retry sub_next vlen nmemb flags up k (ctf_put ofp up r.fp)
            { i with ctn_type := 0 } [] := rfl

theorem ctf_member_next_retry_noerr
    (sub_next : ctf_dict_t → Nat → List ctf_next_t → Option ctf_member_ret)
    (hsub : ∀ fp t s r, sub_next fp t s = some r → ctf_noerr r.fp = ctf_noerr fp)
    (vlen : List ctf_member_t) (nmemb flags : Nat) (up : Bool) :
    ∀ (k : Nat) (ofp : ctf_dict_t) (i : ctf_next_t) (sub : List ctf_next_t)
      (r : ctf_member_ret),
      ctf_member_next_retry sub_next vlen nmemb flags up k ofp i sub = some r →
      ctf_noerr r.fp = ctf_noerr ofp := by
  intro k
  induction k with
  | zero => intro ofp i sub r h; cases h
  | succ k ih =>
    intro ofp i sub r h
    rw [ctf_member_next_retry_succ] at h
    by_cases h0 : i.ctn_type = 0
    · rw [if_pos h0] at h
      split_ifs at h
      · simp only [Option.some.injEq] at h; subst h; rfl
      · exact ih _ _ _ _ h
      · simp only [Option.some.injEq] at h; subst h
        exact ctf_member_emit_noerr _ _ _ _ _ _
    · rw [if_neg h0] at h
      cases hs : sub_next (ctf_cur ofp up) i.ctn_type sub with
      | none => simp [hs] at h
      | some r' =>
        have hr' := hsub _ _ _ _ hs
        have hput := ctf_noerr_put ofp up r'.fp hr'
        simp only [hs] at h
        split_ifs at h
        · simp only [Option.some.injEq] at h; subst h; exact hput
        · simp only [Option.some.injEq] at h; subst h
          simpa using hput
        · simp only [Option.some.injEq] at h; subst h
          simp only [ctf_noerr_set_errno]
          exact ctf_noerr_put ofp up _ (by simpa using hr')
        · rw [ih _ _ _ _ h]; exact hput

theorem ctf_member_next_succ (fuel : Nat) (ofp : ctf_dict_t) (type : Nat)
    (it : List ctf_next_t) (flags : Nat) :
    ctf_member_next (fuel + 1) ofp type it flags =
    if ofp.LCTF_NO_STR then
      some { ret := -1, it := it, fp := (ctf_set_errno ofp .ECTF_NOPARENT).fp }
    else
      match ctf_member_next_open fuel ofp type it with
      | none => none
      | some (.error r) => some r
      | some (.ok (ofp, type, i, sub)) =>
        ctf_member_next_body (fun fp' t s => ctf_member_next fuel fp' t s flags)
          fuel ofp type i sub flags := rfl

theorem ctf_member_next_open_noerr (fuel : Nat) (ofp : ctf_dict_t) (type : Nat)
    (it : List ctf_next_t) :
    ∀ x, ctf_member_next_open fuel ofp type it = some x →
      match x with
      | .error r => ctf_noerr r.fp = ctf_noerr ofp
      | .ok (ofp', _, _, _) => ctf_noerr ofp' = ctf_noerr ofp := by
  intro x h
  unfold ctf_member_next_open at h
  cases it with
  | cons i sub => simp only [Option.some.injEq] at h; subst h; rfl
  | nil =>
    simp only [] at h
    cases hr : ctf_type_resolve fuel ofp type with
    | none => simp [hr] at h
    | some r =>
      have hn := ctf_type_resolve_noerr fuel ofp type r hr
      simp only [hr] at h
      split_ifs at h with h1
      · simp only [Option.some.injEq] at h; subst h; exact hn
      · cases hl : ctf_lookup_by_id r.fp r.val with
        | error e =>
          simp only [hl, Option.some.injEq] at h; subst h
          simp only [ctf_noerr_lookup_errno]; exact hn
        | ok l =>
          simp only [hl] at h
          split_ifs at h
          · simp only [Option.some.injEq] at h; subst h
            simp only [ctf_noerr_set_errno]; exact hn
          · simp only [Option.some.injEq] at h; subst h; exact hn

theorem ctf_member_next_body_noerr
    (sub_next : ctf_dict_t → Nat → List ctf_next_t → Option ctf_member_ret)
    (hsub : ∀ fp t s r, sub_next fp t s = some r → ctf_noerr r.fp = ctf_noerr fp)
    (fuel : Nat) (ofp : ctf_dict_t) (type : Nat) (i : ctf_next_t) (sub : List ctf_next_t)
    (flags : Nat) (r : ctf_member_ret)
    (h : ctf_member_next_body sub_next fuel ofp type i sub flags = some r) :
    ctf_noerr r.fp = ctf_noerr ofp := by
  unfold ctf_member_next_body at h
  split_ifs at h
  · simp only [Option.some.injEq] at h; subst h; rfl
  · simp only [Option.some.injEq] at h; subst h; rfl
  · cases hg : ctf_get_dict ofp type with
    | none => simp only [hg, Option.some.injEq] at h; subst h; rfl
    | some fp =>
      simp only [hg] at h
      exact ctf_member_next_retry_noerr sub_next hsub _ _ _ _ _ _ _ _ _ h

/-- A call of `ctf_member_next` changes nothing but error state. -/
theorem ctf_member_next_noerr (flags : Nat) :
    ∀ (fuel : Nat) (ofp : ctf_dict_t) (type : Nat) (it : List ctf_next_t)
      (r : ctf_member_ret),
      ctf_member_next fuel ofp type it flags = some r → ctf_noerr r.fp = ctf_noerr ofp := by
  intro fuel
  induction fuel with
  | zero => intro ofp type it r h; cases h
  | succ fuel ih =>
    intro ofp type it r h
    rw [ctf_member_next_succ] at h
    split_ifs at h
    · simp only [Option.some.injEq] at h; subst h; rfl
    · cases ho : ctf_member_next_open fuel ofp type it with
      | none => simp [ho] at h
      | some x =>
        have hx := ctf_member_next_open_noerr fuel ofp type it x ho
        cases x with
        | error r' =>
          simp only [ho, Option.some.injEq] at h; subst h; exact hx
        | ok y =>
          obtain ⟨ofp', type', i, sub⟩ := y
          simp only [ho] at h
          simp only [] at hx
          rw [← hx]
          exact ctf_member_next_body_noerr _ (fun fp t s r hr => ih fp t s r hr)
            fuel ofp' type' i sub flags r h

/-! ### No padding is returned -/

theorem ctf_member_next_retry_nopad
    (sub_next : ctf_dict_t → Nat → List ctf_next_t → Option ctf_member_ret)
    (hsub : ∀ fp t s r, sub_next fp t s = some r → 0 ≤ r.ret → ctf_member_good r)
    (vlen : List ctf_member_t) (nmemb flags : Nat) (up : Bool) :
    ∀ (k : Nat) (ofp : ctf_dict_t) (i : ctf_next_t) (sub : List ctf_next_t)
      (r : ctf_member_ret),
      ctf_member_next_retry sub_next vlen nmemb flags up k ofp i sub = some r →
      0 ≤ r.ret → ctf_member_good r := by
  intro k
  induction k with
  | zero => intro ofp i sub r h; cases h
  | succ k ih =>
    intro ofp i sub r h hr
    rw [ctf_member_next_retry_succ] at h
    by_cases h0 : i.ctn_type = 0
    · rw [if_pos h0] at h
      split_ifs at h with h1 h2
      · simp only [Option.some.injEq] at h; subst h; exact absurd hr (show ¬ (0 : Int) ≤ -1 by decide)
      · exact ih _ _ _ _ h hr
      · simp only [Option.some.injEq] at h; subst h
        exact ⟨_, _, rfl, rfl, h2⟩
    · rw [if_neg h0] at h
      cases hs : sub_next (ctf_cur ofp up) i.ctn_type sub with
      | none => simp [hs] at h
      | some r' =>
        simp only [hs] at h
        split_ifs at h with h1 h2 h3
        · simp only [Option.some.injEq] at h; subst h
          obtain ⟨nm, mt, a, b, c⟩ := hsub _ _ _ r' hs h1
          exact ⟨nm, mt, a, b, c⟩
        · simp only [Option.some.injEq] at h; subst h
          exact absurd hr h1
        · simp only [Option.some.injEq] at h; subst h; exact absurd hr (show ¬ (0 : Int) ≤ -1 by decide)
        · exact ih _ _ _ _ h hr

theorem ctf_member_next_open_ret (fuel : Nat) (ofp : ctf_dict_t) (type : Nat)
    (it : List ctf_next_t) (r : ctf_member_ret)
    (h : ctf_member_next_open fuel ofp type it = some (.error r)) : r.ret = -1 := by
  unfold ctf_member_next_open at h
  cases it with
  | cons i sub => simp at h
  | nil =>
    simp only [] at h
    cases hr : ctf_type_resolve fuel ofp type with
    | none => simp [hr] at h
    | some r0 =>
      simp only [hr] at h
      split_ifs at h
      · simp only [Option.some.injEq, Except.error.injEq] at h; subst h; rfl
      · cases hl : ctf_lookup_by_id r0.fp r0.val with
        | error e => simp only [hl, Option.some.injEq, Except.error.injEq] at h; subst h; rfl
        | ok l =>
          simp only [hl] at h
          split_ifs at h
          · simp only [Option.some.injEq, Except.error.injEq] at h; subst h; rfl
          · simp at h

theorem ctf_member_next_nopad (flags : Nat) :
    ∀ (fuel : Nat) (ofp : ctf_dict_t) (type : Nat) (it : List ctf_next_t)
      (r : ctf_member_ret),
      ctf_member_next fuel ofp type it flags = some r → 0 ≤ r.ret → ctf_member_good r := by
  intro fuel
  induction fuel with
  | zero => intro ofp type it r h; cases h
  | succ fuel ih =>
    intro ofp type it r h hr
    rw [ctf_member_next_succ] at h
    split_ifs at h
    · simp only [Option.some.injEq] at h; subst h; exact absurd hr (show ¬ (0 : Int) ≤ -1 by decide)
    · cases ho : ctf_member_next_open fuel ofp type it with
      | none => simp [ho] at h
      | some x =>
        cases x with
        | error r' =>
          simp only [ho, Option.some.injEq] at h; subst h
          have := ctf_member_next_open_ret fuel ofp type it _ ho
          omega
        | ok y =>
          obtain ⟨ofp', type', i, sub⟩ := y
          simp only [ho] at h
          unfold ctf_member_next_body at h
          split_ifs at h
          · simp only [Option.some.injEq] at h; subst h; exact absurd hr (show ¬ (0 : Int) ≤ -1 by decide)
          · simp only [Option.some.injEq] at h; subst h; exact absurd hr (show ¬ (0 : Int) ≤ -1 by decide)
          · cases hg : ctf_get_dict ofp' type' with
            | none =>
              simp only [hg, Option.some.injEq] at h; subst h; exact absurd hr (show ¬ (0 : Int) ≤ -1 by decide)
            | some fp =>
              simp only [hg] at h
              exact ctf_member_next_retry_nopad _ (fun fp t s r hr => ih fp t s r hr)
                _ _ _ _ _ _ _ _ _ h hr

/-! ### The member array seen by a call -/

theorem ctf_direct_from_ge (M : List ctf_member_t) (k : Nat) (h : M.length ≤ k) :
    ctf_direct_from M k = [] := by
  simp only [ctf_direct_from, List.drop_eq_nil_of_le h, ctf_direct_members, List.filter_nil,
    List.map_nil]

theorem ctf_direct_from_pad (M : List ctf_member_t) (k : Nat) (h : k < M.length)
    (hp : (M.getD k {}).ctm_name = "" ∧ (M.getD k {}).ctm_type = 0) :
    ctf_direct_from M k = ctf_direct_from M (k + 1) := by
  rw [List.getD_eq_getElem _ _ h] at hp
  simp only [ctf_direct_from, List.drop_eq_getElem_cons h, ctf_direct_members]
  rw [List.filter_cons_of_neg]
  simp [hp.1, hp.2]

theorem ctf_direct_from_emit (M : List ctf_member_t) (k : Nat) (h : k < M.length)
    (hp : ¬ ((M.getD k {}).ctm_name = "" ∧ (M.getD k {}).ctm_type = 0)) :
    ctf_direct_from M k =
      ((M.getD k {}).ctm_name, (M.getD k {}).ctm_type) :: ctf_direct_from M (k + 1) := by
  rw [List.getD_eq_getElem _ _ h] at hp ⊢
  simp only [ctf_direct_from, List.drop_eq_getElem_cons h, ctf_direct_members]
  rw [List.filter_cons_of_pos]
  · rfl
  · simp only [Bool.not_eq_true', decide_eq_false_iff_not]
    exact hp

theorem ctf_lookup_by_id_get_dict {fp : ctf_dict_t} {t : Nat} {l : ctf_lookup_t}
    (h : ctf_lookup_by_id fp t = .ok l) :
    ctf_get_dict fp t = some l.fp ∧
    ∃ idx, ctf_type_to_index l.fp t = some idx ∧ l.tp = LCTF_INDEX_TO_TYPEPTR l.fp idx := by
  unfold ctf_lookup_by_id at h
  cases hg : ctf_get_dict fp t with
  | none => simp [hg] at h
  | some d =>
    simp only [hg] at h
    cases hi : ctf_type_to_index d t with
    | none => simp [hi] at h
    | some idx =>
      simp only [hi] at h
      split_ifs at h
      simp only [Except.ok.injEq] at h
      subst h
      exact ⟨rfl, idx, hi, rfl⟩

theorem ctf_get_dict_idem {fp : ctf_dict_t} {t : Nat} {d : ctf_dict_t}
    (h : ctf_get_dict fp t = some d) :
    ctf_get_dict d t = some d ∨ ctf_get_dict d t = none := by
  unfold ctf_get_dict at h
  split_ifs at h with hc
  · cases hp : fp.ctf_parent with
    | none => simp [hp] at h
    | some p =>
      simp only [hp, Option.map_some', Option.some.injEq] at h
      subst h
      unfold ctf_get_dict
      split_ifs
      · right; rfl
      · left; rfl
  · simp only [Option.some.injEq] at h
    subst h
    left
    unfold ctf_get_dict
    rw [if_neg hc]

/-- The member array that `ctf_vlen` yields for a type in its native dict is the
one of the record that `ctf_lookup_by_id` finds. -/
theorem ctf_vlen_lookup {fp : ctf_dict_t} {t : Nat} {l : ctf_lookup_t}
    (h : ctf_lookup_by_id fp t = .ok l) (tp : ctf_type_t)
    (htp : ctf_dynamic_type l.fp t = none → tp = l.tp) :
    ctf_vlen l.fp t tp = (l.tp.members, l.tp.members.length) := by
  obtain ⟨hg, idx, hi, hl⟩ := ctf_lookup_by_id_get_dict h
  unfold ctf_vlen
  cases hd : ctf_dynamic_type l.fp t with
  | none => rw [htp hd]; rfl
  | some dtd =>
    have : dtd = l.tp := by
      unfold ctf_dynamic_type at hd
      rcases ctf_get_dict_idem hg with h1 | h1
      · simp only [h1] at hd
        split_ifs at hd
        simp only [hi, Option.map_some', Option.some.injEq] at hd
        rw [hl, hd]
      · simp [h1] at hd
    subst this
    rfl

/-! ### One call of the iteration -/

theorem ctf_member_next_retry_step
    (sub_next : ctf_dict_t → Nat → List ctf_next_t → Option ctf_member_ret)
    (M : List ctf_member_t) (flags : Nat) (up : Bool) (P : ctf_next_t → Prop)
    (hP : ∀ i i' : ctf_next_t, P i → i'.ctn_iter_fun = i.ctn_iter_fun → i'.ctn_fp = i.ctn_fp →
      i'.ctn_tp = i.ctn_tp → i'.ctn_dtd = i.ctn_dtd → 0 ≤ i'.ctn_size → 0 ≤ i'.ctn_increment →
      P i') :
    ∀ (k : Nat) (ofp : ctf_dict_t) (i : ctf_next_t) (sub : List ctf_next_t)
      (r : ctf_member_ret), P i → 0 ≤ i.ctn_size → 0 ≤ i.ctn_increment →
      ctf_member_next_retry sub_next M M.length flags up k ofp i sub = some r →
      ctf_member_step M P i.ctn_n r := by
  intro k
  induction k with
  | zero => intro ofp i sub r _ _ _ h; cases h
  | succ k ih =>
    intro ofp i sub r hPi hs hinc h
    rw [ctf_member_next_retry_succ] at h
    by_cases h0 : i.ctn_type = 0
    · rw [if_pos h0] at h
      by_cases h1 : i.ctn_n ≥ M.length
      · rw [if_pos h1] at h
        simp only [Option.some.injEq] at h; subst h
        exact Or.inl ⟨show (-1 : Int) < 0 by decide, fun _ => ctf_direct_from_ge M _ h1⟩
      · rw [if_neg h1] at h
        have hlt : i.ctn_n < M.length := by omega
        by_cases h2 : (M.getD i.ctn_n {}).ctm_name = "" ∧ (M.getD i.ctn_n {}).ctm_type = 0
        · rw [if_pos h2] at h
          have := ih ofp { i with ctn_n := i.ctn_n + 1 } sub r
            (hP i _ hPi (by rfl) (by rfl) (by rfl) (by rfl) hs hinc) hs hinc h
          unfold ctf_member_step at this ⊢
          rw [ctf_direct_from_pad M _ hlt h2]
          exact this
        · rw [if_neg h2] at h
          simp only [Option.some.injEq] at h; subst h
          have hoff : (0 : Int) ≤ (if i.ctn_tp.kflag = true
              then ((CTF_MEMBER_BIT_OFFSET (M.getD i.ctn_n {}).ctm_offset : Nat) : Int)
              else (((M.getD i.ctn_n {}).ctm_offset : Nat) : Int)) := by
            split_ifs <;> exact Int.ofNat_nonneg _
          refine Or.inr ⟨?_, _, _, rfl, ?_, Or.inr ?_⟩
          · simp only [ctf_member_emit]
            split_ifs <;> omega
          · refine hP i _ hPi (by rfl) (by rfl) (by rfl) (by rfl) ?_ ?_
            · simp only []
              split_ifs <;> omega
            · simp only []
              split_ifs <;> omega
          · simp only [ctf_member_emit, Option.getD_some]
            exact ctf_direct_from_emit M _ hlt h2
    · rw [if_neg h0] at h
      cases hsn : sub_next (ctf_cur ofp up) i.ctn_type sub with
      | none => simp [hsn] at h
      | some r' =>
        simp only [hsn] at h
        split_ifs at h with h1 h2 h3
        · simp only [Option.some.injEq] at h; subst h
          exact Or.inr ⟨by simp only []; omega, i, r'.it, rfl, hPi, Or.inl rfl⟩
        · simp only [Option.some.injEq] at h; subst h
          refine Or.inl ⟨by simp only []; omega, fun he => absurd he ?_⟩
          exact h2
        · simp only [Option.some.injEq] at h; subst h
          refine Or.inl ⟨show (-1 : Int) < 0 by decide, fun he => ?_⟩
          cases he
        · exact ih _ { i with ctn_type := 0 } [] r
            (hP i _ hPi (by rfl) (by rfl) (by rfl) (by rfl) hs hinc) hs hinc h

theorem ctf_member_inv_of_same (fp0 : ctf_dict_t) (type : Nat) (l : ctf_lookup_t) :
    ∀ i i' : ctf_next_t, ctf_member_inv fp0 type l i → i'.ctn_iter_fun = i.ctn_iter_fun →
      i'.ctn_fp = i.ctn_fp → i'.ctn_tp = i.ctn_tp → i'.ctn_dtd = i.ctn_dtd →
      0 ≤ i'.ctn_size → 0 ≤ i'.ctn_increment → ctf_member_inv fp0 type l i' := by
  intro i i' ⟨h1, h2, h3, _, _⟩ e1 e2 e3 e4 hs hinc
  exact ⟨e1.trans h1, e2.trans h2, fun hd => ⟨e3.trans (h3 hd).1, e4.trans (h3 hd).2⟩, hs, hinc⟩

/-- What the code before the label `retry` hands to the code after it, for an
iterator over the struct or union `type` of the dict `fp0`. -/
theorem ctf_member_next_body_retry
    (sub_next : ctf_dict_t → Nat → List ctf_next_t → Option ctf_member_ret)
    (fp0 : ctf_dict_t) (type : Nat) (l : ctf_lookup_t)
    (hl : ctf_lookup_by_id fp0 type = .ok l) (ofp : ctf_dict_t)
    (hofp : ctf_noerr ofp = ctf_noerr fp0) (fuel : Nat) (i : ctf_next_t)
    (sub : List ctf_next_t) (flags : Nat) (hi : ctf_member_inv fp0 type l i) :
    ∃ i2 : ctf_next_t, ctf_member_inv fp0 type l i2 ∧ i2.ctn_n = i.ctn_n ∧
      i2.ctn_type = i.ctn_type ∧
      ctf_member_next_body sub_next fuel ofp type i sub flags =
        ctf_member_next_retry sub_next l.tp.members l.tp.members.length flags
          (ofp.LCTF_CHILD && ctf_type_isparent ofp type != 0) fuel ofp i2 sub := by
  obtain ⟨h1, h2, h3, h4, h5⟩ := hi
  have haddr : ofp.ctf_addr = fp0.ctf_addr := congrArg (fun d => d.ctf_addr) hofp
  have hg := ctf_get_dict_congr hofp type
  rw [(ctf_lookup_by_id_get_dict hl).1] at hg
  cases hgo : ctf_get_dict ofp type with
  | none => simp [hgo] at hg
  | some fpn =>
    simp only [hgo, Option.map_some', Option.some.injEq] at hg
    have hv : ctf_vlen fpn type i.ctn_tp = (l.tp.members, l.tp.members.length) := by
      rw [ctf_vlen_congr hg type i.ctn_tp]
      exact ctf_vlen_lookup hl i.ctn_tp (fun hd => (h3 hd).1)
    refine ⟨{ i with ctn_tp := match i.ctn_dtd with
        | some d => (ctf_dynamic_type (ctf_cur ofp d.1) d.2).getD i.ctn_tp
        | none => i.ctn_tp }, ⟨h1, h2, ?_, h4, h5⟩, rfl, rfl, ?_⟩
    · intro hd
      obtain ⟨e1, e2⟩ := h3 hd
      refine ⟨?_, e2⟩
      simp only [e2, e1]
    · unfold ctf_member_next_body
      rw [if_neg (by simp [h1]), if_neg (by simp [haddr, h2])]
      simp only [hgo, hv]

theorem ctf_member_next_body_step
    (sub_next : ctf_dict_t → Nat → List ctf_next_t → Option ctf_member_ret)
    (fp0 : ctf_dict_t) (type : Nat) (l : ctf_lookup_t)
    (hl : ctf_lookup_by_id fp0 type = .ok l) (ofp : ctf_dict_t)
    (hofp : ctf_noerr ofp = ctf_noerr fp0) (fuel : Nat) (i : ctf_next_t)
    (sub : List ctf_next_t) (flags : Nat) (r : ctf_member_ret)
    (hi : ctf_member_inv fp0 type l i)
    (h : ctf_member_next_body sub_next fuel ofp type i sub flags = some r) :
    ctf_member_step l.tp.members (ctf_member_inv fp0 type l) i.ctn_n r := by
  obtain ⟨i2, hi2, hn, _, he⟩ :=
    ctf_member_next_body_retry sub_next fp0 type l hl ofp hofp fuel i sub flags hi
  rw [he] at h
  rw [← hn]
  exact ctf_member_next_retry_step sub_next l.tp.members flags _ _
    (ctf_member_inv_of_same fp0 type l) fuel ofp i2 sub r hi2 hi2.2.2.2.1 hi2.2.2.2.2 h

/-- The `if (!i)` block on a type that is itself a struct or union. -/
theorem ctf_member_next_open_sou (fuel : Nat) (fp0 : ctf_dict_t) (type : Nat)
    (l : ctf_lookup_t) (hl : ctf_lookup_by_id fp0 type = .ok l)
    (hk : l.tp.kind = .CTF_K_STRUCT ∨ l.tp.kind = .CTF_K_UNION) (ht : type ≠ CTF_ERR) :
    ∃ i0, ctf_member_inv fp0 type l i0 ∧ i0.ctn_n = 0 ∧ i0.ctn_type = 0 ∧
      ctf_member_next_open (fuel + 1) fp0 type [] = some (.ok (fp0, type, i0, [])) := by
  have h0 : type ≠ 0 := by have := ctf_lookup_by_id_pos hl; omega
  have href : l.tp.kind.is_ref = false := by rcases hk with h | h <;> rw [h] <;> rfl
  have hu : l.tp.kind ≠ .CTF_K_UNKNOWN := by rcases hk with h | h <;> rw [h] <;> decide
  have hr : ctf_type_resolve (fuel + 1) fp0 type = some ⟨type, fp0⟩ := by
    unfold ctf_type_resolve ctf_type_resolve_nonrepresentable
    rw [if_neg h0]
    exact ctf_type_resolve_loop_base false fp0 type fuel fp0 false type type l hl href hu
  refine ⟨{ ctn_iter_fun := .ctf_member_next, ctn_fp := fp0.ctf_addr, ctn_tp := l.tp,
            ctn_dtd := (ctf_dynamic_type l.fp type).map fun _ => (l.up, type), ctn_n := 0 },
    ⟨rfl, rfl, fun hd => ⟨rfl, by simp only [hd, Option.map_none']⟩, le_refl _, le_refl _⟩,
    rfl, rfl, ?_⟩
  unfold ctf_member_next_open
  simp only [hr, if_neg ht, hl]
  rw [if_neg]
  rcases hk with h | h <;> simp [h]

theorem ctf_member_next_call (fp0 : ctf_dict_t) (type : Nat) (l : ctf_lookup_t)
    (hl : ctf_lookup_by_id fp0 type = .ok l)
    (hk : l.tp.kind = .CTF_K_STRUCT ∨ l.tp.kind = .CTF_K_UNION) (ht : type ≠ CTF_ERR)
    (flags fuel : Nat) (ofp : ctf_dict_t) (it : List ctf_next_t) (r : ctf_member_ret)
    (hpre : ctf_member_pre fp0 type l ofp it)
    (h : ctf_member_next fuel ofp type it flags = some r) :
    ctf_member_step l.tp.members (ctf_member_inv fp0 type l) (ctf_it_n it) r := by
  cases fuel with
  | zero => cases h
  | succ fuel =>
    rw [ctf_member_next_succ] at h
    split_ifs at h
    · simp only [Option.some.injEq] at h; subst h
      exact Or.inl ⟨show (-1 : Int) < 0 by decide, fun he => by cases he⟩
    · cases it with
      | cons i sub =>
        obtain ⟨hofp, hi⟩ := hpre
        have ho : ctf_member_next_open fuel ofp type (i :: sub)
            = some (.ok (ofp, type, i, sub)) := rfl
        simp only [ho] at h
        exact ctf_member_next_body_step _ fp0 type l hl ofp hofp fuel i sub flags r hi h
      | nil =>
        have hofp : ofp = fp0 := hpre
        subst hofp
        cases fuel with
        | zero =>
          have h0 : type ≠ 0 := by have := ctf_lookup_by_id_pos hl; omega
          have : ctf_member_next_open 0 ofp type [] = none := by
            simp [ctf_member_next_open, ctf_type_resolve, ctf_type_resolve_nonrepresentable, h0,
              ctf_type_resolve_loop]
          simp [this] at h
        | succ fuel =>
          obtain ⟨i0, hi0, hn0, _, ho⟩ := ctf_member_next_open_sou fuel ofp type l hl hk ht
          simp only [ho] at h
          have := ctf_member_next_body_step _ ofp type l hl ofp rfl (fuel + 1) i0 [] flags r hi0 h
          rw [hn0] at this
          exact this

/-- A full iteration that ends with `ECTF_NEXT_END` has returned every direct
member that is no padding, in declaration order. -/
theorem ctf_member_next_all_sublist (fp0 : ctf_dict_t) (type : Nat) (l : ctf_lookup_t)
    (hl : ctf_lookup_by_id fp0 type = .ok l)
    (hk : l.tp.kind = .CTF_K_STRUCT ∨ l.tp.kind = .CTF_K_UNION) (ht : type ≠ CTF_ERR)
    (flags fuel : Nat) :
    ∀ (n : Nat) (ofp : ctf_dict_t) (it : List ctf_next_t)
      (items : List (String × Nat × Int)) (fp' : ctf_dict_t),
      ctf_member_pre fp0 type l ofp it →
      ctf_member_next_all n fuel ofp type flags it = some (items, fp') →
      fp'.ctf_errno = .ECTF_NEXT_END →
      (ctf_direct_from l.tp.members (ctf_it_n it)).Sublist
        (items.map fun x => (x.1, x.2.1)) := by
  intro n
  induction n with
  | zero => intro ofp it items fp' _ h; cases h
  | succ n ih =>
    intro ofp it items fp' hpre h hend
    simp only [ctf_member_next_all] at h
    cases hc : ctf_member_next fuel ofp type it flags with
    | none => simp [hc] at h
    | some r =>
      simp only [hc] at h
      have hstep := ctf_member_next_call fp0 type l hl hk ht flags fuel ofp it r hpre hc
      have hne := ctf_member_next_noerr flags fuel ofp type it r hc
      have hofp : ctf_noerr ofp = ctf_noerr fp0 := by
        cases it with
        | nil => exact congrArg ctf_noerr hpre
        | cons i sub => exact hpre.1
      rcases hstep with ⟨hneg, hD⟩ | ⟨hpos, i', sub', hit, hi', hD⟩
      · rw [if_pos hneg] at h
        simp only [Option.some.injEq, Prod.mk.injEq] at h
        obtain ⟨rfl, rfl⟩ := h
        rw [hD hend]
        exact List.nil_sublist _
      · rw [if_neg (by omega)] at h
        cases ha : ctf_member_next_all n fuel r.fp type flags r.it with
        | none => simp [ha] at h
        | some x =>
          obtain ⟨items', fp''⟩ := x
          simp only [ha, Option.some.injEq, Prod.mk.injEq] at h
          obtain ⟨rfl, rfl⟩ := h
          have hpre' : ctf_member_pre fp0 type l r.fp r.it := by
            rw [hit]
            exact ⟨hne.trans hofp, hi'⟩
          have := ih r.fp r.it items' fp'' hpre' ha hend
          rw [hit] at this
          simp only [ctf_it_n] at this
          simp only [List.map_cons]
          rcases hD with hD | hD
          · rw [hD]; exact List.Sublist.cons _ this
          · rw [hD]; exact List.Sublist.cons₂ _ this

/-! ### Iteration without recursion -/

theorem ctf_member_next_retry_flat
    (sub_next : ctf_dict_t → Nat → List ctf_next_t → Option ctf_member_ret)
    (M : List ctf_member_t) (flags : Nat) (up : Bool) (P : ctf_next_t → Prop)
    (hP : ∀ i i' : ctf_next_t, P i → i'.ctn_iter_fun = i.ctn_iter_fun → i'.ctn_fp = i.ctn_fp →
      i'.ctn_tp = i.ctn_tp → i'.ctn_dtd = i.ctn_dtd → 0 ≤ i'.ctn_size → 0 ≤ i'.ctn_increment →
      P i')
    (hf : flags &&& CTF_MN_RECURSE = 0) :
    ∀ (k : Nat) (ofp : ctf_dict_t) (i : ctf_next_t), P i → i.ctn_type = 0 →
      0 ≤ i.ctn_size → 0 ≤ i.ctn_increment → M.length - i.ctn_n + 1 ≤ k →
      ∃ r, ctf_member_next_retry sub_next M M.length flags up k ofp i [] = some r ∧
        ((r.ret < 0 ∧ r.fp.ctf_errno = .ECTF_NEXT_END ∧ ctf_direct_from M i.ctn_n = []) ∨
         (0 ≤ r.ret ∧ ∃ i', r.it = [i'] ∧ P i' ∧ i'.ctn_type = 0 ∧
            ctf_direct_from M i.ctn_n =
              (r.name.getD "", r.membtype.getD 0) :: ctf_direct_from M i'.ctn_n)) := by
  intro k
  induction k with
  | zero => intro ofp i _ _ _ _ hk; omega
  | succ k ih =>
    intro ofp i hPi h0 hs hinc hk
    rw [ctf_member_next_retry_succ, if_pos h0]
    by_cases h1 : i.ctn_n ≥ M.length
    · rw [if_pos h1]
      exact ⟨_, rfl, Or.inl ⟨show (-1 : Int) < 0 by decide, rfl, ctf_direct_from_ge M _ h1⟩⟩
    · rw [if_neg h1]
      have hlt : i.ctn_n < M.length := by omega
      by_cases h2 : (M.getD i.ctn_n {}).ctm_name = "" ∧ (M.getD i.ctn_n {}).ctm_type = 0
      · rw [if_pos h2, ctf_direct_from_pad M _ hlt h2]
        exact ih ofp { i with ctn_n := i.ctn_n + 1 }
          (hP i _ hPi (by rfl) (by rfl) (by rfl) (by rfl) hs hinc) h0 hs hinc
          (by simp only []; omega)
      · rw [if_neg h2]
        have hoff : (0 : Int) ≤ (if i.ctn_tp.kflag = true
            then ((CTF_MEMBER_BIT_OFFSET (M.getD i.ctn_n {}).ctm_offset : Nat) : Int)
            else (((M.getD i.ctn_n {}).ctm_offset : Nat) : Int)) := by
          split_ifs <;> exact Int.ofNat_nonneg _
        have hty : ∀ b : Bool, (if b = true ∧ flags &&& CTF_MN_RECURSE ≠ 0
            then (M.getD i.ctn_n {}).ctm_type else 0) = 0 := by
          intro b; rw [if_neg]; simp [hf]
        refine ⟨_, rfl, Or.inr ⟨?_, _, rfl, ?_, ?_, ?_⟩⟩
        · simp only [ctf_member_emit]
          split_ifs <;> omega
        · refine hP i _ hPi (by rfl) (by rfl) (by rfl) (by rfl) ?_ ?_
          · simp only []
            split_ifs <;> omega
          · simp only [hty]
            simpa using hinc
        · simp only [hty]
        · simp only [ctf_member_emit, Option.getD_some]
          exact ctf_direct_from_emit M _ hlt h2

theorem ctf_member_next_call_flat (fp0 : ctf_dict_t) (type : Nat) (l : ctf_lookup_t)
    (hl : ctf_lookup_by_id fp0 type = .ok l)
    (hk : l.tp.kind = .CTF_K_STRUCT ∨ l.tp.kind = .CTF_K_UNION) (ht : type ≠ CTF_ERR)
    (flags : Nat) (hf : flags &&& CTF_MN_RECURSE = 0) (hns : fp0.LCTF_NO_STR = false)
    (fuel : Nat) (hfuel : l.tp.members.length + 1 ≤ fuel) (ofp : ctf_dict_t)
    (it : List ctf_next_t) (hpre : ctf_member_pre fp0 type l ofp it)
    (hflat : it = [] ∨ ∃ i, it = [i] ∧ i.ctn_type = 0) :
    ∃ r, ctf_member_next (fuel + 1) ofp type it flags = some r ∧
      ((r.ret < 0 ∧ r.fp.ctf_errno = .ECTF_NEXT_END ∧
          ctf_direct_from l.tp.members (ctf_it_n it) = []) ∨
       (0 ≤ r.ret ∧ ∃ i', r.it = [i'] ∧ ctf_member_inv fp0 type l i' ∧ i'.ctn_type = 0 ∧
          ctf_direct_from l.tp.members (ctf_it_n it) =
            (r.name.getD "", r.membtype.getD 0) :: ctf_direct_from l.tp.members i'.ctn_n)) := by
  rw [ctf_member_next_succ]
  rcases hflat with rfl | ⟨i, rfl, hi0⟩
  · have hofp : ofp = fp0 := hpre
    subst hofp
    rw [if_neg (by simp [hns])]
    obtain ⟨f, rfl⟩ : ∃ f, fuel = f + 1 := ⟨fuel - 1, by omega⟩
    obtain ⟨i0, hi0, hn0, ht0, ho⟩ := ctf_member_next_open_sou f ofp type l hl hk ht
    simp only [ho]
    obtain ⟨i2, hi2, hn2, ht2, he⟩ :=
      ctf_member_next_body_retry (fun fp' t s => ctf_member_next (f + 1) fp' t s flags)
        ofp type l hl ofp rfl (f + 1) i0 [] flags hi0
    rw [he]
    have := ctf_member_next_retry_flat (fun fp' t s => ctf_member_next (f + 1) fp' t s flags)
      l.tp.members flags (ofp.LCTF_CHILD && ctf_type_isparent ofp type != 0) _
      (ctf_member_inv_of_same ofp type l) hf (f + 1) ofp i2 hi2 (ht2.trans ht0)
      hi2.2.2.2.1 hi2.2.2.2.2 (by omega)
    rw [hn2, hn0] at this
    exact this
  · obtain ⟨hofp, hi⟩ := hpre
    have hn : ofp.LCTF_NO_STR = false := by
      have : ofp.LCTF_NO_STR = fp0.LCTF_NO_STR := congrArg (fun d => d.LCTF_NO_STR) hofp
      rw [this, hns]
    rw [if_neg (by simp [hn])]
    have ho : ctf_member_next_open fuel ofp type [i] = some (.ok (ofp, type, i, [])) := rfl
    simp only [ho]
    obtain ⟨i2, hi2, hn2, ht2, he⟩ :=
      ctf_member_next_body_retry (fun fp' t s => ctf_member_next fuel fp' t s flags)
        fp0 type l hl ofp hofp fuel i [] flags hi
    rw [he]
    have := ctf_member_next_retry_flat (fun fp' t s => ctf_member_next fuel fp' t s flags)
      l.tp.members flags (ofp.LCTF_CHILD && ctf_type_isparent ofp type != 0) _
      (ctf_member_inv_of_same fp0 type l) hf fuel ofp i2 hi2 (ht2.trans hi0)
      hi2.2.2.2.1 hi2.2.2.2.2 (by omega)
    rw [hn2] at this
    exact this

/-- Without `CTF_MN_RECURSE` a full iteration runs to its end and returns exactly
the direct members that are no padding. -/
theorem ctf_member_next_all_flat (fp0 : ctf_dict_t) (type : Nat) (l : ctf_lookup_t)
    (hl : ctf_lookup_by_id fp0 type = .ok l)
    (hk : l.tp.kind = .CTF_K_STRUCT ∨ l.tp.kind = .CTF_K_UNION) (ht : type ≠ CTF_ERR)
    (flags : Nat) (hf : flags &&& CTF_MN_RECURSE = 0) (hns : fp0.LCTF_NO_STR = false)
    (fuel : Nat) (hfuel : l.tp.members.length + 1 ≤ fuel) :
    ∀ (n : Nat) (ofp : ctf_dict_t) (it : List ctf_next_t),
      ctf_member_pre fp0 type l ofp it → (it = [] ∨ ∃ i, it = [i] ∧ i.ctn_type = 0) →
      (ctf_direct_from l.tp.members (ctf_it_n it)).length + 1 ≤ n →
      ∃ items fp', ctf_member_next_all n (fuel + 1) ofp type flags it = some (items, fp') ∧
        fp'.ctf_errno = .ECTF_NEXT_END ∧
        items.map (fun x => (x.1, x.2.1)) = ctf_direct_from l.tp.members (ctf_it_n it) := by
  intro n
  induction n with
  | zero => intro ofp it _ _ hn; omega
  | succ n ih =>
    intro ofp it hpre hflat hn
    obtain ⟨r, hc, hcase⟩ :=
      ctf_member_next_call_flat fp0 type l hl hk ht flags hf hns fuel hfuel ofp it hpre hflat
    have hne := ctf_member_next_noerr flags (fuel + 1) ofp type it r hc
    have hofp : ctf_noerr ofp = ctf_noerr fp0 := by
      cases it with
      | nil => exact congrArg ctf_noerr hpre
      | cons i sub => exact hpre.1
    simp only [ctf_member_next_all, hc]
    rcases hcase with ⟨hneg, hend, hD⟩ | ⟨hpos, i', hit, hi', hty, hD⟩
    · rw [if_pos hneg]
      exact ⟨[], r.fp, rfl, hend, by rw [hD]; rfl⟩
    · rw [if_neg (by omega)]
      have hpre' : ctf_member_pre fp0 type l r.fp r.it := by
        rw [hit]; exact ⟨hne.trans hofp, hi'⟩
      have hlen : (ctf_direct_from l.tp.members (ctf_it_n r.it)).length + 1 ≤ n := by
        rw [hD] at hn
        rw [hit]
        simp only [ctf_it_n]
        simp only [List.length_cons] at hn
        omega
      obtain ⟨items', fp'', ha, hend, hmap⟩ :=
        ih r.fp r.it hpre' (Or.inr ⟨i', hit, hty⟩) hlen
      refine ⟨_, fp'', by rw [ha], hend, ?_⟩
      rw [hit] at hmap
      simp only [ctf_it_n] at hmap
      simp only [List.map_cons, hmap, hD]

theorem ctf_direct_members_length_le (M : List ctf_member_t) :
    (ctf_direct_members M).length ≤ M.length := by
  simp only [ctf_direct_members, List.length_map]
  exact List.length_filter_le _ _

/-- C10: for every struct or union and either value of the recursion flag, no item
that `ctf_member_next` returns is a padding member (empty name and member type 0);
a full iteration that reaches its end has returned every direct member that is no
padding, in declaration order; and without recursion the iteration does reach its
end and returns exactly these members. -/
theorem ctf_member_next_skips_padding (fp : ctf_dict_t) (type : Nat) (l : ctf_lookup_t)
    (flags : Nat) (hl : ctf_lookup_by_id fp type = .ok l)
    (hk : l.tp.kind = .CTF_K_STRUCT ∨ l.tp.kind = .CTF_K_UNION) (ht : type ≠ CTF_ERR) :
    (∀ fuel it r, ctf_member_next fuel fp type it flags = some r → 0 ≤ r.ret →
      ∃ nm mt, r.name = some nm ∧ r.membtype = some mt ∧ ¬(nm = "" ∧ mt = 0)) ∧
    (∀ n fuel items fp', ctf_member_next_all n fuel fp type flags [] = some (items, fp') →
      fp'.ctf_errno = .ECTF_NEXT_END →
      (ctf_direct_members l.tp.members).Sublist (items.map fun x => (x.1, x.2.1))) ∧
    (flags &&& CTF_MN_RECURSE = 0 → fp.LCTF_NO_STR = false →
      ∃ items fp', ctf_member_next_all (l.tp.members.length + 1) (l.tp.members.length + 2)
          fp type flags [] = some (items, fp') ∧
        fp'.ctf_errno = .ECTF_NEXT_END ∧
        items.map (fun x => (x.1, x.2.1)) = ctf_direct_members l.tp.members) := by
  refine ⟨?_, ?_, ?_⟩
  · intro fuel it r h hr
    exact ctf_member_next_nopad flags fuel fp type it r h hr
  · intro n fuel items fp' h hend
    have := ctf_member_next_all_sublist fp type l hl hk ht flags fuel n fp [] items fp' rfl h hend
    simpa [ctf_it_n, ctf_direct_from] using this
  · intro hf hns
    have hlen := ctf_direct_members_length_le l.tp.members
    have := ctf_member_next_all_flat fp type l hl hk ht flags hf hns
      (l.tp.members.length + 1) (le_refl _) (l.tp.members.length + 1) fp [] rfl (Or.inl rfl)
      (by simp only [ctf_it_n, ctf_direct_from, List.drop_zero]; omega)
    simpa [ctf_it_n, ctf_direct_from] using this

/-- Witness of C10 on the struct 3 of `struct_dict`, iterated with recursion: the
padding member is skipped, and `a`, the unnamed struct and `c` are returned in
order, with the member `b` of the unnamed struct in between. -/
theorem ctf_member_next_skips_padding_witness :
    (ctf_member_next_all 5 5 struct_dict 3 CTF_MN_RECURSE []).map (fun x => x.1)
      = some [("a", 1, 0), ("", 2, 32), ("b", 1, 32), ("c", 1, 64)] ∧
    (ctf_direct_members
        (LCTF_INDEX_TO_TYPEPTR struct_dict 3).members).Sublist
      [("a", 1), ("", 2), ("b", 1), ("c", 1)] :=
  ⟨by decide,
    (ctf_member_next_skips_padding struct_dict 3
      ⟨struct_dict, false, LCTF_INDEX_TO_TYPEPTR struct_dict 3⟩ CTF_MN_RECURSE rfl
      (Or.inl rfl) (by decide)).2.1 5 5
      [("a", 1, 0), ("", 2, 32), ("b", 1, 32), ("c", 1, 64)]
      (ctf_set_errno struct_dict .ECTF_NEXT_END).fp (by decide) rfl⟩

/-! ## Theorems: whole-dict type iteration and function types -/

/-- The dynamic type definition of a type, seen from its native dict, is the record
that `ctf_lookup_by_id` finds. -/
theorem ctf_dynamic_type_lookup {fp : ctf_dict_t} {t : Nat} {l : ctf_lookup_t}
    (h : ctf_lookup_by_id fp t = .ok l) {dtd : ctf_type_t}
    (hd : ctf_dynamic_type l.fp t = some dtd) : dtd = l.tp := by
  obtain ⟨hg, idx, hi, hl⟩ := ctf_lookup_by_id_get_dict h
  unfold ctf_dynamic_type at hd
  rcases ctf_get_dict_idem hg with h1 | h1
  · simp only [h1] at hd
    split_ifs at hd
    simp only [hi, Option.map_some', Option.some.injEq] at hd
    rw [hl, hd]
  · simp [h1] at hd

theorem ctf_type_resolve_base (fuel : Nat) (fp : ctf_dict_t) (type : Nat) (l : ctf_lookup_t)
    (hl : ctf_lookup_by_id fp type = .ok l) (href : l.tp.kind.is_ref = false)
    (hu : l.tp.kind ≠ .CTF_K_UNKNOWN) :
    ctf_type_resolve (fuel + 1) fp type = some ⟨type, fp⟩ := by
  have h0 : type ≠ 0 := by have := ctf_lookup_by_id_pos hl; omega
  unfold ctf_type_resolve ctf_type_resolve_nonrepresentable
  rw [if_neg h0]
  exact ctf_type_resolve_loop_base false fp type fuel fp false type type l hl href hu

theorem ctf_func_type_info_resolved (fuel : Nat) (fp : ctf_dict_t) (type : Nat)
    (r : ctf_ret Nat) (l : ctf_lookup_t)
    (hr : ctf_type_resolve fuel fp type = some r) (hv : r.val ≠ CTF_ERR)
    (hl : ctf_lookup_by_id r.fp r.val = .ok l) :
    (l.tp.kind ≠ .CTF_K_FUNCTION →
      ctf_func_type_info fuel fp type =
        some { ret := -1, fp := (ctf_set_errno r.fp .ECTF_NOTFUNC).fp }) ∧
    (l.tp.kind = .CTF_K_FUNCTION →
      ctf_func_type_info fuel fp type =
        some { ret := 0, fp := r.fp,
               fip := some
                 { ctc_return := l.tp.ctt_type,
                   ctc_argc := if l.tp.args.getLast? = some 0 then l.tp.args.length - 1
                               else l.tp.args.length,
                   ctc_flags := if l.tp.args.getLast? = some 0 then CTF_FUNC_VARARG else 0 } }) := by
  refine ⟨fun hk => ?_, fun hk => ?_⟩
  · unfold ctf_func_type_info
    simp only [hr, if_neg hv, hl]
    rw [if_pos hk]
  · unfold ctf_func_type_info
    simp only [hr, if_neg hv, hl, LCTF_INFO_VLEN]
    rw [if_neg (by simp [hk])]
    cases hd : ctf_dynamic_type l.fp r.val with
    | none =>
      simp only []
      rcases List.eq_nil_or_concat l.tp.args with hA | ⟨A, a, hA⟩
      · simp [hA]
      · have hget : (A ++ [a]).get? A.length = some a := by simp
        by_cases ha : a = 0
        · subst ha
          simp [hA, hget, CTF_FUNC_VARARG]
        · simp [hA, hget, ha]
    | some dtd =>
      have hdt := ctf_dynamic_type_lookup hl hd
      subst hdt
      simp only []
      rcases List.eq_nil_or_concat l.tp.args with hA | ⟨A, a, hA⟩
      · simp [hA]
      · have hget : (A ++ [a]).get? A.length = some a := by simp
        by_cases ha : a = 0
        · subst ha
          simp [hA, hget, CTF_FUNC_VARARG]
        · simp [hA, hget, ha]

theorem ctf_type_list_gt (fp : ctf_dict_t) (wh : Int) (s : Nat) (h : fp.ctf_typemax < s) :
    ctf_type_list fp wh s = [] := by
  have : fp.ctf_typemax + 1 - s = 0 := by omega
  simp [ctf_type_list, this]

theorem ctf_type_list_le (fp : ctf_dict_t) (wh : Int) (s : Nat) (h : s ≤ fp.ctf_typemax) :
    ctf_type_list fp wh s =
      if ctf_type_visible fp wh s then
        (ctf_index_to_type fp s, (LCTF_INDEX_TO_TYPEPTR fp s).isroot) :: ctf_type_list fp wh (s + 1)
      else ctf_type_list fp wh (s + 1) := by
  have e : fp.ctf_typemax + 1 - s = (fp.ctf_typemax + 1 - (s + 1)) + 1 := by omega
  simp only [ctf_type_list]
  rw [e, List.range'_succ, List.filter_cons]
  split_ifs <;> simp

theorem ctf_index_to_type_lt (fp : ctf_dict_t) (idx : Nat) (h : fp.ctf_typemax < 4294967296)
    (hi : idx ≤ fp.ctf_typemax) : ctf_index_to_type fp idx < 4294967296 := by
  unfold ctf_index_to_type add32
  split_ifs
  · exact Nat.mod_lt _ (by norm_num)
  · omega
  · exact Nat.mod_lt _ (by norm_num)

theorem ctf_type_next_loop_succ (fp : ctf_dict_t) (wh : Int) (sub : List ctf_next_t) (k : Nat)
    (i : ctf_next_t) :
    ctf_type_next_loop fp wh sub (k + 1) i =
    if i.ctn_type ≤ fp.ctf_typemax then
      if wh = 0 ∧ (LCTF_INDEX_TO_TYPEPTR fp i.ctn_type).isroot = false then
        ctf_type_next_loop fp wh sub k { i with ctn_type := i.ctn_type + 1 }
      else
        some { ret := ctf_index_to_type fp (u32 i.ctn_type),
               it := { i with ctn_type := i.ctn_type + 1 } :: sub,
               flag := some (LCTF_INDEX_TO_TYPEPTR fp i.ctn_type).isroot, fp := fp }
    else
      some { ret := (ctf_set_typed_errno fp .ECTF_NEXT_END).val, it := [],
             fp := (ctf_set_typed_errno fp .ECTF_NEXT_END).fp } := rfl

/-- One call of the loop of `ctf_type_next` with enough fuel: the end, or the next
visible slot. -/
theorem ctf_type_next_loop_step (fp : ctf_dict_t) (wh : Int) (sub : List ctf_next_t)
    (hmax : fp.ctf_typemax < 4294967296) :
    ∀ (k : Nat) (i : ctf_next_t), 1 ≤ k → fp.ctf_typemax + 2 ≤ k + i.ctn_type →
      ∃ r, ctf_type_next_loop fp wh sub k i = some r ∧
        ((ctf_type_list fp wh i.ctn_type = [] ∧ r.ret = CTF_ERR ∧ r.it = [] ∧
            r.fp = (ctf_set_typed_errno fp .ECTF_NEXT_END).fp) ∨
         (∃ i', r.it = i' :: sub ∧ i'.ctn_iter_fun = i.ctn_iter_fun ∧ i'.ctn_fp = i.ctn_fp ∧
            i.ctn_type < i'.ctn_type ∧ r.fp = fp ∧ r.ret ≠ CTF_ERR ∧
            ctf_type_list fp wh i.ctn_type =
              (r.ret, r.flag.getD false) :: ctf_type_list fp wh i'.ctn_type)) := by
  intro k
  induction k with
  | zero =>
    intro i hk1 hk
    omega
  | succ k ih =>
    intro i _ hk
    rw [ctf_type_next_loop_succ]
    by_cases h1 : i.ctn_type ≤ fp.ctf_typemax
    · rw [if_pos h1, ctf_type_list_le fp wh _ h1]
      by_cases h2 : wh = 0 ∧ (LCTF_INDEX_TO_TYPEPTR fp i.ctn_type).isroot = false
      · rw [if_pos h2]
        have hv : ctf_type_visible fp wh i.ctn_type = false := by
          simp [ctf_type_visible, h2.1, h2.2]
        rw [hv]
        obtain ⟨r, hr, hcase⟩ := ih { i with ctn_type := i.ctn_type + 1 } (by omega) (by simp only []; omega)
        refine ⟨r, hr, ?_⟩
        rcases hcase with h | ⟨i', a, b, c, d, e⟩
        · exact Or.inl h
        · exact Or.inr ⟨i', a, b, c, by simp only [] at d; omega, e⟩
      · rw [if_neg h2]
        have hv : ctf_type_visible fp wh i.ctn_type = true := by
          simp only [ctf_type_visible, Bool.or_eq_true, decide_eq_true_eq]
          by_cases hw : wh = 0
          · right
            simpa [hw] using h2
          · left; exact hw
        have hu : u32 i.ctn_type = i.ctn_type := by
          unfold u32; exact Nat.mod_eq_of_lt (by omega)
        rw [hv, hu]
        refine ⟨_, rfl, Or.inr ⟨_, rfl, rfl, rfl, by simp only []; omega, rfl, ?_, by simp⟩⟩
        have := ctf_index_to_type_lt fp i.ctn_type hmax h1
        simp only [CTF_ERR]
        omega
    · rw [if_neg h1]
      exact ⟨_, rfl, Or.inl ⟨ctf_type_list_gt fp wh _ (by omega), rfl, rfl, rfl⟩⟩

theorem ctf_type_next_step (fp : ctf_dict_t) (wh : Int) (hmax : fp.ctf_typemax < 4294967296)
    (fuel : Nat) (hfuel : fp.ctf_typemax + 1 ≤ fuel) (it : List ctf_next_t)
    (hit : ctf_type_it_ok fp it) :
    ∃ r, ctf_type_next fuel fp it wh = some r ∧
      ((ctf_type_list fp wh (ctf_type_it_pos it) = [] ∧ r.ret = CTF_ERR ∧ r.it = [] ∧
          r.fp = (ctf_set_typed_errno fp .ECTF_NEXT_END).fp) ∨
       (ctf_type_it_ok fp r.it ∧ r.fp = fp ∧ r.ret ≠ CTF_ERR ∧
          ctf_type_list fp wh (ctf_type_it_pos it) =
            (r.ret, r.flag.getD false) :: ctf_type_list fp wh (ctf_type_it_pos r.it))) := by
  cases it with
  | nil =>
    obtain ⟨r, hr, hcase⟩ := ctf_type_next_loop_step fp wh [] hmax fuel
      { ctn_iter_fun := .ctf_type_next, ctn_fp := fp.ctf_addr, ctn_type := 1 } (by omega)
      (by simp only []; omega)
    refine ⟨r, ?_, ?_⟩
    · simp only [ctf_type_next, List.tail_nil]
      rw [if_neg (by simp), if_neg (by simp)]
      exact hr
    · rcases hcase with h | ⟨i', a, b, c, d, e, f, g⟩
      · exact Or.inl h
      · refine Or.inr ⟨?_, e, f, ?_⟩
        · rw [a]; exact ⟨b, c, by simp only [] at d; omega⟩
        · rw [a]; exact g
  | cons i sub =>
    obtain ⟨h1, h2, h3⟩ := hit
    obtain ⟨r, hr, hcase⟩ := ctf_type_next_loop_step fp wh sub hmax fuel i (by omega) (by omega)
    refine ⟨r, ?_, ?_⟩
    · simp only [ctf_type_next, List.tail_cons]
      rw [if_neg (by simp [h1]), if_neg (by simp [h2])]
      exact hr
    · rcases hcase with h | ⟨i', a, b, c, d, e, f, g⟩
      · exact Or.inl h
      · refine Or.inr ⟨?_, e, f, ?_⟩
        · rw [a]; exact ⟨b.trans h1, c.trans h2, by omega⟩
        · rw [a]; exact g

/-- A full iteration with `ctf_type_next` returns the visible slots from the
position of the iterator on, in order, and ends with `ECTF_NEXT_END`. -/
theorem ctf_type_next_all_eq (fp : ctf_dict_t) (wh : Int) (hmax : fp.ctf_typemax < 4294967296)
    (fuel : Nat) (hfuel : fp.ctf_typemax + 1 ≤ fuel) :
    ∀ (n : Nat) (it : List ctf_next_t), ctf_type_it_ok fp it →
      (ctf_type_list fp wh (ctf_type_it_pos it)).length + 1 ≤ n →
      ctf_type_next_all n fuel fp it wh =
        some (ctf_type_list fp wh (ctf_type_it_pos it),
              (ctf_set_typed_errno fp .ECTF_NEXT_END).fp) := by
  intro n
  induction n with
  | zero => intro it _ hn; omega
  | succ n ih =>
    intro it hit hn
    obtain ⟨r, hr, hcase⟩ := ctf_type_next_step fp wh hmax fuel hfuel it hit
    simp only [ctf_type_next_all, hr]
    rcases hcase with ⟨hl, hret, _, hfp⟩ | ⟨hok, hfp, hret, hl⟩
    · rw [if_pos hret, hl, hfp]
    · rw [if_neg hret]
      rw [hl] at hn ⊢
      simp only [List.length_cons] at hn
      rw [hfp, ih r.it hok (by omega)]

theorem ctf_type_list_length_le (fp : ctf_dict_t) (wh : Int) (s : Nat) :
    (ctf_type_list fp wh s).length ≤ fp.ctf_typemax + 1 - s := by
  simp only [ctf_type_list, List.length_map]
  exact (List.length_filter_le _ _).trans (by simp)

theorem ctf_type_next_loop_sound (fp : ctf_dict_t) (wh : Int) (sub : List ctf_next_t) :
    ∀ (k : Nat) (i : ctf_next_t) (r : ctf_type_next_ret),
      ctf_type_next_loop fp wh sub k i = some r → r.ret ≠ CTF_ERR →
      ∃ idx i', i.ctn_type ≤ idx ∧ idx ≤ fp.ctf_typemax ∧
        r.ret = ctf_index_to_type fp (u32 idx) ∧ r.it = i' :: sub ∧
        i'.ctn_iter_fun = i.ctn_iter_fun ∧ i'.ctn_fp = i.ctn_fp ∧ i'.ctn_type = idx + 1 ∧
        r.fp = fp := by
  intro k
  induction k with
  | zero => intro i r h; cases h
  | succ k ih =>
    intro i r h hret
    rw [ctf_type_next_loop_succ] at h
    split_ifs at h with h1 h2
    · obtain ⟨idx, i', a, b, c, d, e, f, g, hfp⟩ := ih _ r h hret
      exact ⟨idx, i', by simp only [] at a; omega, b, c, d, e, f, g, hfp⟩
    · simp only [Option.some.injEq] at h; subst h
      exact ⟨i.ctn_type, _, le_refl _, h1, rfl, rfl, rfl, rfl, rfl, rfl⟩
    · simp only [Option.some.injEq] at h; subst h
      exact absurd rfl hret

theorem ctf_type_next_sound (fp : ctf_dict_t) (wh : Int) (fuel : Nat) (it : List ctf_next_t)
    (r : ctf_type_next_ret) (hit : ctf_type_it_ok fp it)
    (h : ctf_type_next fuel fp it wh = some r) (hret : r.ret ≠ CTF_ERR) :
    ctf_type_it_ok fp r.it ∧ r.fp = fp ∧
      ∃ idx, 1 ≤ idx ∧ idx ≤ fp.ctf_typemax ∧ r.ret = ctf_index_to_type fp (u32 idx) := by
  simp only [ctf_type_next] at h
  split_ifs at h with h1 h2
  · simp only [Option.some.injEq] at h; subst h; exact absurd rfl hret
  · simp only [Option.some.injEq] at h; subst h; exact absurd rfl hret
  · obtain ⟨idx, i', a, b, c, d, e, f, g, hfp⟩ := ctf_type_next_loop_sound fp wh _ fuel _ r h hret
    have hpos : 1 ≤ idx := by
      cases it with
      | nil => simpa using a
      | cons i sub => have := hit.2.2; simp only [] at a; omega
    refine ⟨?_, hfp, idx, hpos, b, c⟩
    rw [d]
    refine ⟨e.trans ?_, f.trans ?_, by omega⟩
    · cases it with
      | nil => rfl
      | cons i sub => exact hit.1
    · cases it with
      | nil => rfl
      | cons i sub => exact hit.2.1

theorem ctf_type_next_all_sound (fp : ctf_dict_t) (wh : Int) (fuel : Nat) :
    ∀ (n : Nat) (it : List ctf_next_t) (items : List (Nat × Bool)) (fp' : ctf_dict_t),
      ctf_type_it_ok fp it → ctf_type_next_all n fuel fp it wh = some (items, fp') →
      ∀ x ∈ items, ∃ idx, 1 ≤ idx ∧ idx ≤ fp.ctf_typemax ∧
        x.1 = ctf_index_to_type fp (u32 idx) := by
  intro n
  induction n with
  | zero => intro it items fp' _ h; cases h
  | succ n ih =>
    intro it items fp' hit h x hx
    simp only [ctf_type_next_all] at h
    cases hc : ctf_type_next fuel fp it wh with
    | none => simp [hc] at h
    | some r =>
      simp only [hc] at h
      split_ifs at h with hret
      · simp only [Option.some.injEq, Prod.mk.injEq] at h
        rw [← h.1] at hx; cases hx
      · obtain ⟨hok, hfp, idx, h1, h2, h3⟩ := ctf_type_next_sound fp wh fuel it r hit hc hret
        cases ha : ctf_type_next_all n fuel r.fp r.it wh with
        | none => simp [ha] at h
        | some y =>
          obtain ⟨items', fp''⟩ := y
          simp only [ha, Option.some.injEq, Prod.mk.injEq] at h
          rw [← h.1] at hx
          rcases List.mem_cons.1 hx with rfl | hx'
          · exact ⟨idx, h1, h2, h3⟩
          · rw [hfp] at ha
            exact ih r.it items' fp'' hok ha x hx'

theorem ctf_type_ischild_own (fp : ctf_dict_t) (hc : fp.LCTF_CHILD = true)
    (hlay : ctf_dict_layout fp) (hown : ctf_child_ids_own fp) (idx : Nat) (h1 : 1 ≤ idx)
    (h2 : idx ≤ fp.ctf_typemax) :
    fp.cth_parent_typemax < ctf_index_to_type fp (u32 idx) ∧
      ctf_type_ischild fp (ctf_index_to_type fp (u32 idx)) = 1 := by
  obtain ⟨hm, _, hch, _⟩ := hlay
  have hch := hch hc
  have hu : u32 idx = idx := by unfold u32; exact Nat.mod_eq_of_lt (by omega)
  have hid : ctf_index_to_type fp (u32 idx) = idx + fp.cth_parent_typemax := by
    rw [hu]
    unfold ctf_index_to_type add32
    rw [if_pos hc]
    exact Nat.mod_eq_of_lt (by omega)
  rw [hid]
  refine ⟨by omega, ?_⟩
  unfold ctf_type_ischild ctf_type_isparent
  simp only [hc, Bool.not_true, Bool.false_eq_true, ↓reduceIte]
  cases hp : fp.ctf_parent with
  | none =>
    have : ¬ (fp.cth_parent_typemax ≥ idx + fp.cth_parent_typemax) := by omega
    simp only [this, ↓reduceIte]
  | some p =>
    obtain ⟨ha, hb⟩ := hown p hp
    have h3 : ¬ (idx + fp.cth_parent_typemax ≤ p.ctf_idmax) := by omega
    simp only [h3, ↓reduceIte]
    rcases hb (idx + fp.cth_parent_typemax) (by omega) (by omega) with h | h
    · have h4 : ¬ (idx + fp.cth_parent_typemax ≥ p.ctf_provtypemax) := by omega
      simp only [h4, ↓reduceIte]
    · simp only [h, ↓reduceIte, ite_self]

/-- C16: a full iteration with `ctf_type_next (fp, &it, &flag, want_hidden)` runs to
`ECTF_NEXT_END` and returns, for the storage indices `1 .. ctf_typemax` in increasing
order, the ID `ctf_index_to_type (fp, idx)` together with the root-visibility bit of
the type in that slot, leaving out the slots that are not root-visible when
`want_hidden` is 0.  With `want_hidden` not 0 there are exactly `ctf_typemax` items;
with `want_hidden` 0 every flag is set and the items are a subsequence of those of
the iteration over all types. -/
theorem ctf_type_next_visits_indices (fp : ctf_dict_t) (want_hidden : Int)
    (hmax : fp.ctf_typemax < 4294967296) :
    ∃ items fp',
      ctf_type_next_all (fp.ctf_typemax + 1) (fp.ctf_typemax + 1) fp [] want_hidden
        = some (items, fp') ∧
      fp'.ctf_errno = .ECTF_NEXT_END ∧
      items = ((List.range' 1 fp.ctf_typemax).filter fun idx =>
          decide (want_hidden ≠ 0) || (LCTF_INDEX_TO_TYPEPTR fp idx).isroot).map
        (fun idx => (ctf_index_to_type fp idx, (LCTF_INDEX_TO_TYPEPTR fp idx).isroot)) ∧
      (want_hidden ≠ 0 → items.length = fp.ctf_typemax) ∧
      (want_hidden = 0 → (∀ x ∈ items, x.2 = true) ∧
        ∃ all fp'', ctf_type_next_all (fp.ctf_typemax + 1) (fp.ctf_typemax + 1) fp [] 1
            = some (all, fp'') ∧ items.Sublist all) := by
  have hlen : ∀ wh : Int, (ctf_type_list fp wh (ctf_type_it_pos [])).length + 1
      ≤ fp.ctf_typemax + 1 := by
    intro wh
    have := ctf_type_list_length_le fp wh 1
    simp only [ctf_type_it_pos]
    omega
  have hall := fun wh : Int =>
    ctf_type_next_all_eq fp wh hmax (fp.ctf_typemax + 1) (le_refl _) (fp.ctf_typemax + 1) []
      trivial (hlen wh)
  have hlist : ∀ wh : Int, ctf_type_list fp wh (ctf_type_it_pos []) =
      ((List.range' 1 fp.ctf_typemax).filter fun idx =>
          decide (wh ≠ 0) || (LCTF_INDEX_TO_TYPEPTR fp idx).isroot).map
        (fun idx => (ctf_index_to_type fp idx, (LCTF_INDEX_TO_TYPEPTR fp idx).isroot)) := by
    intro wh
    simp only [ctf_type_list, ctf_type_it_pos, Nat.add_sub_cancel]
    rfl
  refine ⟨_, _, hall want_hidden, rfl, hlist want_hidden, ?_, ?_⟩
  · intro hw
    rw [hlist]
    simp [hw]
  · intro hw
    refine ⟨?_, _, _, hall 1, ?_⟩
    · intro x hx
      rw [hlist] at hx
      simp only [hw, ne_eq, not_true_eq_false, decide_False, Bool.false_or, List.mem_map,
        List.mem_filter] at hx
      obtain ⟨idx, ⟨_, hroot⟩, rfl⟩ := hx
      exact hroot
    · rw [hlist, hlist]
      apply List.Sublist.map
      rw [hw]
      have : (List.range' 1 fp.ctf_typemax).filter (fun idx =>
          decide ((1 : Int) ≠ 0) || (LCTF_INDEX_TO_TYPEPTR fp idx).isroot)
          = List.range' 1 fp.ctf_typemax := by
        simp
      rw [this]
      exact List.filter_sublist _

/-- Witness of C16 on `hidden_dict`: the hidden struct 2 is left out when
`want_hidden` is 0. -/
theorem ctf_type_next_visits_indices_witness :
    ctf_type_next_all 5 5 hidden_dict [] 0
      = some ([(1, true), (3, true), (4, true)], (ctf_set_typed_errno hidden_dict .ECTF_NEXT_END).fp) ∧
    ctf_type_next_all 5 5 hidden_dict [] 1
      = some ([(1, true), (2, false), (3, true), (4, true)],
              (ctf_set_typed_errno hidden_dict .ECTF_NEXT_END).fp) ∧
    ∃ items fp', ctf_type_next_all 5 5 hidden_dict [] 0 = some (items, fp') ∧
      fp'.ctf_errno = .ECTF_NEXT_END ∧
      items = ((List.range' 1 4).filter fun idx =>
          decide ((0 : Int) ≠ 0) || (LCTF_INDEX_TO_TYPEPTR hidden_dict idx).isroot).map
        (fun idx => (ctf_index_to_type hidden_dict idx,
          (LCTF_INDEX_TO_TYPEPTR hidden_dict idx).isroot)) ∧
      ((0 : Int) ≠ 0 → items.length = 4) ∧
      ((0 : Int) = 0 → (∀ x ∈ items, x.2 = true) ∧
        ∃ all fp'', ctf_type_next_all 5 5 hidden_dict [] 1 = some (all, fp'') ∧
          items.Sublist all) :=
  ⟨by decide, by decide, ctf_type_next_visits_indices hidden_dict 0 (by decide)⟩

/-- C17: type iteration does not traverse parent types.  For a child dict whose
counters obey `ctf_dict_layout` and whose IDs lie apart from those of the attached
parent, every ID that a full iteration with `ctf_type_next` returns is strictly
greater than `cth_parent_typemax` and is a child type (`ctf_type_ischild`); and the
iteration does return: with enough fuel it yields one item for each visible slot. -/
theorem ctf_type_next_child_ids (fp : ctf_dict_t) (want_hidden : Int)
    (hc : fp.LCTF_CHILD = true) (hlay : ctf_dict_layout fp) (hown : ctf_child_ids_own fp) :
    (∀ n fuel items fp', ctf_type_next_all n fuel fp [] want_hidden = some (items, fp') →
      ∀ x ∈ items, fp.cth_parent_typemax < x.1 ∧ ctf_type_ischild fp x.1 = 1) ∧
    (∃ items fp', ctf_type_next_all (fp.ctf_typemax + 1) (fp.ctf_typemax + 1) fp []
        want_hidden = some (items, fp') ∧ fp'.ctf_errno = .ECTF_NEXT_END ∧
      (want_hidden ≠ 0 → items.length = fp.ctf_typemax)) := by
  refine ⟨?_, ?_⟩
  · intro n fuel items fp' h x hx
    obtain ⟨idx, h1, h2, h3⟩ :=
      ctf_type_next_all_sound fp want_hidden fuel n [] items fp' trivial h x hx
    rw [h3]
    exact ctf_type_ischild_own fp hc hlay hown idx h1 h2
  · have hmax : fp.ctf_typemax < 4294967296 := hlay.1
    have hlen : (ctf_type_list fp want_hidden (ctf_type_it_pos [])).length + 1
        ≤ fp.ctf_typemax + 1 := by
      have := ctf_type_list_length_le fp want_hidden 1
      simp only [ctf_type_it_pos]
      omega
    refine ⟨_, _, ctf_type_next_all_eq fp want_hidden hmax (fp.ctf_typemax + 1) (le_refl _)
      (fp.ctf_typemax + 1) [] trivial hlen, rfl, ?_⟩
    intro hw
    have hf : (List.range' 1 fp.ctf_typemax).filter (ctf_type_visible fp want_hidden)
        = List.range' 1 fp.ctf_typemax := by
      rw [List.filter_eq_self]
      intro a _
      simp [ctf_type_visible, hw]
    simp [ctf_type_list, ctf_type_it_pos, hf]

/-- Witness of C17 on `child_types_dict`: the iteration returns the IDs 11 and 12,
none of the parent's IDs 1 to 10. -/
theorem ctf_type_next_child_ids_witness :
    ctf_type_next_all 3 3 child_types_dict [] 1
      = some ([(11, true), (12, false)],
              (ctf_set_typed_errno child_types_dict .ECTF_NEXT_END).fp) ∧
    (child_types_dict.cth_parent_typemax < 11 ∧ ctf_type_ischild child_types_dict 11 = 1) :=
  ⟨by decide,
   (ctf_type_next_child_ids child_types_dict 1 rfl (by decide)
      (by
        intro p hp
        have : p = { ctf_addr := 12, ctf_stypes := 10, ctf_typemax := 10, ctf_idmax := 10,
                     ctf_provtypemax := 4294967295 } := by
          simp only [child_types_dict, Option.some.injEq] at hp
          exact hp.symm
        subst this
        refine ⟨by decide, fun id h1 h2 => Or.inl ?_⟩
        simp only [child_types_dict] at h1 h2 ⊢
        omega)).1 3 3 [(11, true), (12, false)]
      (ctf_set_typed_errno child_types_dict .ECTF_NEXT_END).fp (by decide) (11, true)
      (by decide)⟩

/-- C20: for a type that resolves to a FUNCTION whose record has `n` argument slots,
`ctf_func_type_info` returns 0 and reports the stored return type; if `n > 0` and the
last slot holds the type ID 0 the flag `CTF_FUNC_VARARG` is set and `ctc_argc` is
`n - 1`, otherwise no flag is set and `ctc_argc` is `n`.  A type that resolves to a
type of another kind fails with `ECTF_NOTFUNC`.  For a type that is itself a
FUNCTION every positive fuel suffices. -/
theorem ctf_func_type_info_vararg (fp : ctf_dict_t) (type : Nat) :
    (∀ fuel r l, ctf_type_resolve fuel fp type = some r → r.val ≠ CTF_ERR →
      ctf_lookup_by_id r.fp r.val = .ok l →
      (l.tp.kind = .CTF_K_FUNCTION →
        ∃ fip, ctf_func_type_info fuel fp type
            = some { ret := 0, fip := some fip, fp := r.fp } ∧
          fip.ctc_return = l.tp.ctt_type ∧
          (0 < LCTF_INFO_VLEN l.tp ∧ l.tp.args.get? (LCTF_INFO_VLEN l.tp - 1) = some 0 →
            fip.ctc_flags = CTF_FUNC_VARARG ∧ fip.ctc_argc = LCTF_INFO_VLEN l.tp - 1) ∧
          (¬ (0 < LCTF_INFO_VLEN l.tp ∧ l.tp.args.get? (LCTF_INFO_VLEN l.tp - 1) = some 0) →
            fip.ctc_flags = 0 ∧ fip.ctc_argc = LCTF_INFO_VLEN l.tp)) ∧
      (l.tp.kind ≠ .CTF_K_FUNCTION →
        ctf_func_type_info fuel fp type
          = some { ret := -1, fp := (ctf_set_errno r.fp .ECTF_NOTFUNC).fp })) ∧
    (∀ l, ctf_lookup_by_id fp type = .ok l → l.tp.kind = .CTF_K_FUNCTION → type ≠ CTF_ERR →
      ∀ fuel, ∃ fip, ctf_func_type_info (fuel + 1) fp type
          = some { ret := 0, fip := some fip, fp := fp } ∧
        fip.ctc_return = l.tp.ctt_type) := by
  have hlast : ∀ A : List Nat, A.get? (A.length - 1) = A.getLast? := by
    intro A
    rw [List.getLast?_eq_getElem?, List.get?_eq_getElem?]
  refine ⟨?_, ?_⟩
  · intro fuel r l hr hv hl
    obtain ⟨h1, h2⟩ := ctf_func_type_info_resolved fuel fp type r l hr hv hl
    refine ⟨fun hk => ⟨_, h2 hk, rfl, ?_, ?_⟩, h1⟩
    · intro ⟨_, h⟩
      simp only [LCTF_INFO_VLEN, hlast] at h
      simp only [h, ↓reduceIte, LCTF_INFO_VLEN, and_self]
    · intro h
      have : ¬ l.tp.args.getLast? = some 0 := by
        intro hg
        apply h
        simp only [LCTF_INFO_VLEN, hlast]
        refine ⟨?_, hg⟩
        cases hA : l.tp.args with
        | nil => rw [hA] at hg; cases hg
        | cons a A => simp
      simp only [this, ↓reduceIte, LCTF_INFO_VLEN, and_self]
  · intro l hl hk ht fuel
    have hr := ctf_type_resolve_base fuel fp type l hl (by rw [hk]; rfl) (by rw [hk]; decide)
    obtain ⟨_, h2⟩ := ctf_func_type_info_resolved (fuel + 1) fp type _ l hr ht hl
    exact ⟨_, h2 hk, rfl⟩

/-- Witness of C20 on `func_dict`: the typedef 5 of the variadic function type 2,
and the type `int`, which is no function. -/
theorem ctf_func_type_info_vararg_witness :
    ctf_func_type_info 2 func_dict 5
      = some { ret := 0, fp := func_dict,
               fip := some { ctc_return := 1, ctc_argc := 1, ctc_flags := CTF_FUNC_VARARG } } ∧
    ctf_func_type_info 2 func_dict 3
      = some { ret := 0, fp := func_dict,
               fip := some { ctc_return := 1, ctc_argc := 2, ctc_flags := 0 } } ∧
    ctf_func_type_info 2 func_dict 1
      = some { ret := -1, fp := (ctf_set_errno func_dict .ECTF_NOTFUNC).fp } :=
  ⟨by decide, by decide,
   ((ctf_func_type_info_vararg func_dict 1).1 2 ⟨1, func_dict⟩
      ⟨func_dict, false, LCTF_INDEX_TO_TYPEPTR func_dict 1⟩ (by decide) (by decide)
      rfl).2 (by decide)⟩

/-! ## Theorems: recursive member iteration -/

theorem ctf_lookup_by_id_noerr (fp : ctf_dict_t) (t : Nat) :
    ctf_lookup_by_id (ctf_noerr fp) t =
      match ctf_lookup_by_id fp t with
      | .error e => .error e
      | .ok l => .ok ⟨ctf_noerr l.fp, l.up, l.tp⟩ := by
  unfold ctf_lookup_by_id
  rw [ctf_get_dict_noerr]
  cases hg : ctf_get_dict fp t with
  | none => rfl
  | some d =>
    simp only [Option.map_some', ctf_type_to_index_noerr]
    cases hi : ctf_type_to_index d t with
    | none => rfl
    | some idx =>
      simp only []
      have e1 : (ctf_noerr d).ctf_typemax = d.ctf_typemax := rfl
      have e2 : (ctf_noerr fp).LCTF_CHILD = fp.LCTF_CHILD := rfl
      rw [e1, e2, ctf_type_isparent_noerr, LCTF_INDEX_TO_TYPEPTR_noerr]
      split_ifs <;> rfl

/-- Dicts that differ in their error state only find the same records. -/
theorem ctf_lookup_by_id_congr {a b : ctf_dict_t} (h : ctf_noerr a = ctf_noerr b) {t : Nat}
    {l : ctf_lookup_t} (hl : ctf_lookup_by_id a t = .ok l) :
    ∃ l', ctf_lookup_by_id b t = .ok l' ∧ l'.tp = l.tp ∧ l'.up = l.up ∧
      ctf_noerr l'.fp = ctf_noerr l.fp := by
  have ha := ctf_lookup_by_id_noerr a t
  have hb := ctf_lookup_by_id_noerr b t
  rw [h, hb, hl] at ha
  cases hlb : ctf_lookup_by_id b t with
  | error e => rw [hlb] at ha; cases ha
  | ok l' =>
    rw [hlb] at ha
    simp only [Except.ok.injEq, ctf_lookup_t.mk.injEq] at ha
    exact ⟨l', rfl, ha.2.2, ha.2.1, ha.1⟩

theorem ctf_lookup_by_id_congr_error {a b : ctf_dict_t} (h : ctf_noerr a = ctf_noerr b)
    {t : Nat} {e : ctf_error} (hl : ctf_lookup_by_id a t = .error e) :
    ctf_lookup_by_id b t = .error e := by
  have ha := ctf_lookup_by_id_noerr a t
  have hb := ctf_lookup_by_id_noerr b t
  rw [h, hb, hl] at ha
  cases hlb : ctf_lookup_by_id b t with
  | error e' => rw [hlb] at ha; simp only [Except.error.injEq] at ha; rw [ha]
  | ok l' => rw [hlb] at ha; cases ha

theorem ctf_type_kind_unsliced_congr {a b : ctf_dict_t} (h : ctf_noerr a = ctf_noerr b)
    (t : Nat) : (ctf_type_kind_unsliced a t).val = (ctf_type_kind_unsliced b t).val := by
  unfold ctf_type_kind_unsliced
  cases hl : ctf_lookup_by_id a t with
  | error e => rw [ctf_lookup_by_id_congr_error h hl]
  | ok l =>
    obtain ⟨l', hl', htp, _, _⟩ := ctf_lookup_by_id_congr h hl
    rw [hl']
    simp only [htp]

theorem ctf_dynamic_type_congr {a b : ctf_dict_t} (h : ctf_noerr a = ctf_noerr b) (t : Nat) :
    ctf_dynamic_type a t = ctf_dynamic_type b t := by
  rw [← ctf_dynamic_type_noerr a, ← ctf_dynamic_type_noerr b, h]

theorem ctf_type_reference_congr {a b : ctf_dict_t} (h : ctf_noerr a = ctf_noerr b)
    (t : Nat) : (ctf_type_reference a t).val = (ctf_type_reference b t).val := by
  unfold ctf_type_reference
  cases hl : ctf_lookup_by_id a t with
  | error e => rw [ctf_lookup_by_id_congr_error h hl]
  | ok l =>
    obtain ⟨l', hl', htp, _, _⟩ := ctf_lookup_by_id_congr h hl
    rw [hl']
    simp only [htp, ctf_dynamic_type_congr h t]
    cases l.tp.kind
    all_goals first
      | rfl
      | (cases ctf_dynamic_type b t <;> rfl)

theorem ctf_type_kind_congr {a b : ctf_dict_t} (h : ctf_noerr a = ctf_noerr b)
    (t : Nat) : (ctf_type_kind a t).val = (ctf_type_kind b t).val := by
  unfold ctf_type_kind
  simp only []
  have hk := ctf_type_kind_unsliced_congr h t
  have hfa := ctf_type_kind_unsliced_noerr a t
  have hfb := ctf_type_kind_unsliced_noerr b t
  have hab : ctf_noerr (ctf_type_kind_unsliced a t).fp = ctf_noerr (ctf_type_kind_unsliced b t).fp := by
    rw [hfa, hfb, h]
  rw [← hk]
  cases hv : (ctf_type_kind_unsliced a t).val with
  | none => rfl
  | some kind =>
    simp only []
    by_cases hs : kind = .CTF_K_SLICE
    · rw [if_pos hs, if_pos hs]
      have hr := ctf_type_reference_congr hab t
      rw [← hr]
      by_cases he : (ctf_type_reference (ctf_type_kind_unsliced a t).fp t).val = CTF_ERR
      · rw [if_pos he, if_pos he]
      · rw [if_neg he, if_neg he]
        apply ctf_type_kind_unsliced_congr
        rw [ctf_type_reference_noerr, ctf_type_reference_noerr, hab]
    · rw [if_neg hs, if_neg hs]

theorem ctf_member_is_anon_sou_congr {a b : ctf_dict_t} (h : ctf_noerr a = ctf_noerr b)
    (m : ctf_member_t) : (ctf_member_is_anon_sou a m).val = (ctf_member_is_anon_sou b m).val := by
  unfold ctf_member_is_anon_sou
  by_cases hn : m.ctm_name = ""
  · rw [if_pos hn, if_pos hn]
    simp only []
    have h1 := ctf_type_kind_congr h m.ctm_type
    rw [← h1]
    by_cases hs : (ctf_type_kind a m.ctm_type).val = some .CTF_K_STRUCT
    · rw [if_pos hs, if_pos hs]
    · rw [if_neg hs, if_neg hs]
      have h2 : (ctf_type_kind (ctf_type_kind a m.ctm_type).fp m.ctm_type).val =
          (ctf_type_kind (ctf_type_kind b m.ctm_type).fp m.ctm_type).val := by
        apply ctf_type_kind_congr
        rw [ctf_type_kind_noerr, ctf_type_kind_noerr, h]
      simp only [h2]
  · rw [if_neg hn, if_neg hn]

theorem ctf_member_flat_from_congr
    (s1 s2 : ctf_dict_t → Nat → Option (List (String × Nat × Int)))
    (hs : ∀ a b t, ctf_noerr a = ctf_noerr b → s1 a t = s2 b t)
    {a b : ctf_dict_t} (h : ctf_noerr a = ctf_noerr b) (tp : ctf_type_t) (flags : Nat) :
    ∀ (ms : List ctf_member_t) (size : Int),
      ctf_member_flat_from s1 a tp flags ms size = ctf_member_flat_from s2 b tp flags ms size := by
  intro ms
  induction ms with
  | nil => intro size; rfl
  | cons m ms ih =>
    intro size
    simp only [ctf_member_flat_from]
    rw [ih, ih, ctf_member_is_anon_sou_congr h m, hs a b m.ctm_type h]

theorem ctf_member_flat_congr (flags : Nat) :
    ∀ (d : Nat) (a b : ctf_dict_t) (t : Nat), ctf_noerr a = ctf_noerr b →
      ctf_member_flat flags d a t = ctf_member_flat flags d b t := by
  intro d
  induction d with
  | zero => intro a b t _; rfl
  | succ d ih =>
    intro a b t h
    simp only [ctf_member_flat]
    have hns : a.LCTF_NO_STR = b.LCTF_NO_STR := congrArg (fun x => x.LCTF_NO_STR) h
    rw [hns]
    split_ifs
    · rfl
    · cases hl : ctf_lookup_by_id a t with
      | error e => rw [ctf_lookup_by_id_congr_error h hl]
      | ok l =>
        obtain ⟨l', hl', htp, _, hfp⟩ := ctf_lookup_by_id_congr h hl
        rw [hl']
        simp only [htp]
        split_ifs
        · exact ctf_member_flat_from_congr _ _ (fun x y t hxy => ih x y t hxy) hfp.symm _ _ _ _
        · rfl

theorem ctf_member_at_nil (flags d : Nat) (fp0 : ctf_dict_t) (type : Nat)
    (L : List (String × Nat × Int)) :
    ctf_member_at flags d fp0 type [] L = (ctf_member_flat flags d fp0 type = some L) := by
  cases d <;> rfl

theorem ctf_member_at_cons (flags d : Nat) (fp0 : ctf_dict_t) (type : Nat) (i : ctf_next_t)
    (sub : List ctf_next_t) (L : List (String × Nat × Int)) :
    ctf_member_at flags (d + 1) fp0 type (i :: sub) L =
    (fp0.LCTF_NO_STR = false ∧
    ∃ l, ctf_lookup_by_id fp0 type = .ok l ∧ ctf_member_iter fp0 type l i ∧
      ∃ Ltop, ctf_member_flat_from (fun fp' t => ctf_member_flat flags d fp' t) l.fp l.tp flags
          (l.tp.members.drop i.ctn_n) i.ctn_size = some Ltop ∧
        ((i.ctn_type = 0 ∧ sub = [] ∧ L = Ltop) ∨
         (i.ctn_type ≠ 0 ∧ ∃ Lsub, ctf_member_at flags d l.fp i.ctn_type sub Lsub ∧
            L = (Lsub.map fun x => (x.1, x.2.1, x.2.2 + i.ctn_increment)) ++ Ltop))) := rfl

/-- The local `fp` after a successful lookup is the dict the lookup found. -/
theorem ctf_cur_lookup {fp : ctf_dict_t} {t : Nat} {l : ctf_lookup_t}
    (h : ctf_lookup_by_id fp t = .ok l) :
    l.up = (fp.LCTF_CHILD && ctf_type_isparent fp t != 0) ∧ ctf_cur fp l.up = l.fp := by
  have hg := (ctf_lookup_by_id_get_dict h).1
  have hup : l.up = (fp.LCTF_CHILD && ctf_type_isparent fp t != 0) := by
    unfold ctf_lookup_by_id at h
    simp only [hg] at h
    cases hi : ctf_type_to_index l.fp t with
    | none => simp [hi] at h
    | some idx =>
      simp only [hi] at h
      split_ifs at h
      simp only [Except.ok.injEq] at h
      rw [← h]
  refine ⟨hup, ?_⟩
  unfold ctf_get_dict at hg
  unfold ctf_cur
  rw [hup]
  split_ifs at hg ⊢ with hc
  · cases hp : fp.ctf_parent with
    | none => simp [hp] at hg
    | some p =>
      simp only [hp, Option.map_some', Option.some.injEq] at hg
      exact hg
  · simpa using hg

theorem ctf_member_next_body_retry2
    (sub_next : ctf_dict_t → Nat → List ctf_next_t → Option ctf_member_ret)
    (fp0 : ctf_dict_t) (type : Nat) (l : ctf_lookup_t)
    (hl : ctf_lookup_by_id fp0 type = .ok l) (ofp : ctf_dict_t)
    (hofp : ctf_noerr ofp = ctf_noerr fp0) (fuel : Nat) (i : ctf_next_t)
    (sub : List ctf_next_t) (flags : Nat) (hi : ctf_member_iter fp0 type l i) :
    ctf_member_next_body sub_next fuel ofp type i sub flags =
      ctf_member_next_retry sub_next l.tp.members l.tp.members.length flags l.up fuel ofp
        { i with ctn_tp := l.tp } sub := by
  obtain ⟨h1, h2, h3, h4, h5, h6⟩ := hi
  obtain ⟨hup, hcur⟩ := ctf_cur_lookup hl
  have haddr : ofp.ctf_addr = fp0.ctf_addr := congrArg (fun d => d.ctf_addr) hofp
  have hchild : ofp.LCTF_CHILD = fp0.LCTF_CHILD := congrArg (fun d => d.LCTF_CHILD) hofp
  have hisp : ctf_type_isparent ofp type = ctf_type_isparent fp0 type := by
    rw [← ctf_type_isparent_noerr ofp, ← ctf_type_isparent_noerr fp0, hofp]
  have hup' : (ofp.LCTF_CHILD && ctf_type_isparent ofp type != 0) = l.up := by
    rw [hchild, hisp, hup]
  have hg := ctf_get_dict_congr hofp type
  rw [(ctf_lookup_by_id_get_dict hl).1] at hg
  cases hgo : ctf_get_dict ofp type with
  | none => simp [hgo] at hg
  | some fpn =>
    simp only [hgo, Option.map_some', Option.some.injEq] at hg
    have hv : ctf_vlen fpn type i.ctn_tp = (l.tp.members, l.tp.members.length) := by
      rw [ctf_vlen_congr hg type i.ctn_tp]
      exact ctf_vlen_lookup hl i.ctn_tp h4
    have hc : ctf_noerr (ctf_cur ofp l.up) = ctf_noerr l.fp := by
      rw [ctf_noerr_cur hofp l.up, hcur]
    unfold ctf_member_next_body
    rw [if_neg (by simp [h1]), if_neg (by simp [haddr, h2])]
    simp only [hgo, hv, hup']
    cases hd : ctf_dynamic_type l.fp type with
    | none =>
      rw [hd] at h3
      simp only [Option.map_none'] at h3
      simp only [h3, h4 hd]
    | some dtd =>
      rw [hd] at h3
      simp only [Option.map_some'] at h3
      simp only [h3, ctf_dynamic_type_congr hc type, hd, Option.getD_some,
        ctf_dynamic_type_lookup hl hd]

theorem ctf_member_flat_pos {flags d : Nat} {fp : ctf_dict_t} {t : Nat}
    {L : List (String × Nat × Int)} (h : ctf_member_flat flags d fp t = some L) : t ≠ 0 := by
  cases d with
  | zero => cases h
  | succ d =>
    simp only [ctf_member_flat] at h
    split_ifs at h
    cases hl : ctf_lookup_by_id fp t with
    | error e => simp [hl] at h
    | ok l => have := ctf_lookup_by_id_pos hl; omega

theorem ctf_member_flat_from_cons
    (sub : ctf_dict_t → Nat → Option (List (String × Nat × Int)))
    (fp : ctf_dict_t) (tp : ctf_type_t) (flags : Nat) (m : ctf_member_t)
    (ms : List ctf_member_t) (size : Int) :
    ctf_member_flat_from sub fp tp flags (m :: ms) size =
    if m.ctm_name = "" ∧ m.ctm_type = 0 then ctf_member_flat_from sub fp tp flags ms size
    else
      match ctf_member_flat_from sub fp tp flags ms
        (if tp.big then size + (if tp.kflag then (CTF_MEMBER_BIT_OFFSET m.ctm_offset : Int)
                                else m.ctm_offset) else size) with
      | none => none
      | some rest =>
        if (ctf_member_is_anon_sou fp m).val = true ∧ flags &&& CTF_MN_RECURSE ≠ 0 then
          match sub fp m.ctm_type with
          | none => none
          | some inner =>
            some ((m.ctm_name, m.ctm_type,
                (if tp.big then
                  (if tp.big then size + (if tp.kflag then (CTF_MEMBER_BIT_OFFSET m.ctm_offset : Int)
                                else m.ctm_offset) else size)
                 else (if tp.kflag then (CTF_MEMBER_BIT_OFFSET m.ctm_offset : Int)
                       else m.ctm_offset))) ::
              (inner.map fun x => (x.1, x.2.1, x.2.2 +
                (if tp.big then
                  (if tp.big then size + (if tp.kflag then (CTF_MEMBER_BIT_OFFSET m.ctm_offset : Int)
                                else m.ctm_offset) else size)
                 else (if tp.kflag then (CTF_MEMBER_BIT_OFFSET m.ctm_offset : Int)
                       else m.ctm_offset)))) ++ rest)
        else some ((m.ctm_name, m.ctm_type,
                (if tp.big then
                  (if tp.big then size + (if tp.kflag then (CTF_MEMBER_BIT_OFFSET m.ctm_offset : Int)
                                else m.ctm_offset) else size)
                 else (if tp.kflag then (CTF_MEMBER_BIT_OFFSET m.ctm_offset : Int)
                       else m.ctm_offset))) :: rest) := rfl

/-- The part of a call that returns a top-level member. -/
theorem ctf_member_emit_post (flags d : Nat) (fp0 : ctf_dict_t) (type : Nat) (l : ctf_lookup_t)
    (hl : ctf_lookup_by_id fp0 type = .ok l) (hns : fp0.LCTF_NO_STR = false)
    (ofp : ctf_dict_t) (i : ctf_next_t) (m : ctf_member_t) (ms : List ctf_member_t)
    (L : List (String × Nat × Int))
    (hofp : ctf_noerr ofp = ctf_noerr fp0) (hi : ctf_member_iter fp0 type l i)
    (htp : i.ctn_tp = l.tp)
    (hdrop : l.tp.members.drop i.ctn_n = m :: ms)
    (hpad : ¬ (m.ctm_name = "" ∧ m.ctm_type = 0))
    (hflat : ctf_member_flat_from (fun fp' t => ctf_member_flat flags d fp' t) l.fp l.tp flags
      (m :: ms) i.ctn_size = some L) :
    ctf_member_post flags (d + 1) fp0 type L (ctf_member_emit ofp l.up flags i [] m) := by
  obtain ⟨h1, h2, h3, h4, h5, h6⟩ := hi
  obtain ⟨hup, hcur⟩ := ctf_cur_lookup hl
  have hc : ctf_noerr (ctf_cur ofp l.up) = ctf_noerr l.fp := by
    rw [ctf_noerr_cur hofp l.up, hcur]
  have ha := ctf_member_is_anon_sou_congr hc m
  have hdrop' : l.tp.members.drop (i.ctn_n + 1) = ms := by
    have := congrArg List.tail hdrop
    simpa using this
  have hoff0 : (0 : Int) ≤ (if l.tp.kflag = true
      then ((CTF_MEMBER_BIT_OFFSET m.ctm_offset : Nat) : Int)
      else ((m.ctm_offset : Nat) : Int)) := by
    split_ifs <;> exact Int.ofNat_nonneg _
  rw [ctf_member_flat_from_cons, if_neg hpad] at hflat
  refine ⟨(ctf_member_emit_noerr ofp l.up flags i [] m).trans hofp, ?_⟩
  cases hrest : ctf_member_flat_from (fun fp' t => ctf_member_flat flags d fp' t) l.fp l.tp flags
      ms (if l.tp.big then i.ctn_size + (if l.tp.kflag
        then (CTF_MEMBER_BIT_OFFSET m.ctm_offset : Int) else m.ctm_offset) else i.ctn_size) with
  | none => simp [hrest] at hflat
  | some rest =>
    simp only [hrest] at hflat
    by_cases hC : (ctf_member_is_anon_sou l.fp m).val = true ∧ flags &&& CTF_MN_RECURSE ≠ 0
    · rw [if_pos hC] at hflat
      cases hin : ctf_member_flat flags d l.fp m.ctm_type with
      | none => simp [hin] at hflat
      | some inner =>
        simp only [hin, Option.some.injEq] at hflat
        subst hflat
        have hne : m.ctm_type ≠ 0 := ctf_member_flat_pos hin
        have hC' : (ctf_member_is_anon_sou (ctf_cur ofp l.up) m).val = true ∧
            flags &&& CTF_MN_RECURSE ≠ 0 := by rw [ha]; exact hC
        refine ⟨?_, ?_, rfl, rfl, by simp [ctf_member_emit], ?_⟩
        · simp only [ctf_member_emit, htp]
        · simp only [ctf_member_emit, htp]
          split_ifs <;> omega
        · simp only [ctf_member_emit, htp, if_pos hC', if_pos hne]
          rw [ctf_member_at_cons]
          refine ⟨hns, l, hl, ⟨h1, h2, h3, fun _ => rfl, ?_, ?_⟩, rest, ?_, Or.inr ⟨hne, inner, ?_, rfl⟩⟩
          · simp only []; split_ifs <;> omega
          · simp only []; split_ifs <;> omega
          · simp only [hdrop']
            exact hrest
          · rw [ctf_member_at_nil]; exact hin
    · rw [if_neg hC] at hflat
      simp only [Option.some.injEq] at hflat
      subst hflat
      have hC' : ¬ ((ctf_member_is_anon_sou (ctf_cur ofp l.up) m).val = true ∧
          flags &&& CTF_MN_RECURSE ≠ 0) := by rw [ha]; exact hC
      refine ⟨?_, ?_, rfl, rfl, by simp [ctf_member_emit], ?_⟩
      · simp only [ctf_member_emit, htp]
      · simp only [ctf_member_emit, htp]
        split_ifs <;> omega
      · simp only [ctf_member_emit, htp, if_neg hC']
        rw [ctf_member_at_cons]
        refine ⟨hns, l, hl, ⟨h1, h2, h3, fun _ => rfl, ?_, ?_⟩, rest, ?_, Or.inl ⟨rfl, rfl, rfl⟩⟩
        · simp only []; split_ifs <;> omega
        · simpa using h6
        · simp only [hdrop']
          exact hrest

/-- The code from `retry` on, at the top level of the type. -/
theorem ctf_member_next_retry_top
    (sub_next : ctf_dict_t → Nat → List ctf_next_t → Option ctf_member_ret)
    (flags d : Nat) (fp0 : ctf_dict_t) (type : Nat) (l : ctf_lookup_t)
    (hl : ctf_lookup_by_id fp0 type = .ok l) (hns : fp0.LCTF_NO_STR = false) :
    ∀ (k : Nat) (ofp : ctf_dict_t) (i : ctf_next_t) (L : List (String × Nat × Int)),
      ctf_noerr ofp = ctf_noerr fp0 → ctf_member_iter fp0 type l i → i.ctn_tp = l.tp →
      i.ctn_type = 0 →
      ctf_member_flat_from (fun fp' t => ctf_member_flat flags d fp' t) l.fp l.tp flags
        (l.tp.members.drop i.ctn_n) i.ctn_size = some L →
      l.tp.members.length - i.ctn_n + 1 ≤ k →
      ∃ r, ctf_member_next_retry sub_next l.tp.members l.tp.members.length flags l.up k ofp i []
          = some r ∧ ctf_member_post flags (d + 1) fp0 type L r := by
  intro k
  induction k with
  | zero => intro ofp i L _ _ _ _ _ hk; omega
  | succ k ih =>
    intro ofp i L hofp hi htp h0 hflat hk
    rw [ctf_member_next_retry_succ, if_pos h0]
    by_cases h1 : i.ctn_n ≥ l.tp.members.length
    · rw [if_pos h1]
      rw [List.drop_eq_nil_of_le h1] at hflat
      simp only [ctf_member_flat_from, Option.some.injEq] at hflat
      subst hflat
      exact ⟨_, rfl, hofp, rfl, rfl, rfl⟩
    · rw [if_neg h1]
      have hlt : i.ctn_n < l.tp.members.length := by omega
      have hdrop : l.tp.members.drop i.ctn_n
          = l.tp.members.getD i.ctn_n {} :: l.tp.members.drop (i.ctn_n + 1) := by
        rw [List.getD_eq_getElem _ _ hlt]
        exact List.drop_eq_getElem_cons hlt
      by_cases h2 : (l.tp.members.getD i.ctn_n {}).ctm_name = "" ∧
          (l.tp.members.getD i.ctn_n {}).ctm_type = 0
      · rw [if_pos h2]
        rw [hdrop, ctf_member_flat_from_cons, if_pos h2] at hflat
        obtain ⟨h1', h2', h3', h4', h5', h6'⟩ := hi
        exact ih ofp { i with ctn_n := i.ctn_n + 1 } L hofp ⟨h1', h2', h3', h4', h5', h6'⟩ htp h0
          hflat (by simp only []; omega)
      · rw [if_neg h2]
        rw [hdrop] at hflat
        exact ⟨_, rfl, ctf_member_emit_post flags d fp0 type l hl hns ofp i _ _ L hofp hi htp
          hdrop h2 hflat⟩

/-- The code from `retry` on, inside an unnamed member. -/
theorem ctf_member_next_retry_sub
    (sub_next : ctf_dict_t → Nat → List ctf_next_t → Option ctf_member_ret)
    (flags d : Nat) (fp0 : ctf_dict_t) (type : Nat) (l : ctf_lookup_t)
    (hl : ctf_lookup_by_id fp0 type = .ok l) (hns : fp0.LCTF_NO_STR = false)
    (k : Nat) (ofp : ctf_dict_t) (i : ctf_next_t) (sub : List ctf_next_t)
    (Ltop Lsub : List (String × Nat × Int)) (r' : ctf_member_ret)
    (hofp : ctf_noerr ofp = ctf_noerr fp0) (hi : ctf_member_iter fp0 type l i)
    (htp : i.ctn_tp = l.tp) (h0 : i.ctn_type ≠ 0)
    (hflat : ctf_member_flat_from (fun fp' t => ctf_member_flat flags d fp' t) l.fp l.tp flags
        (l.tp.members.drop i.ctn_n) i.ctn_size = some Ltop)
    (hs : sub_next (ctf_cur ofp l.up) i.ctn_type sub = some r')
    (hr' : ctf_member_post flags d l.fp i.ctn_type Lsub r')
    (hk : l.tp.members.length - i.ctn_n + 2 ≤ k) :
    ∃ r, ctf_member_next_retry sub_next l.tp.members l.tp.members.length flags l.up k ofp i sub
        = some r ∧
      ctf_member_post flags (d + 1) fp0 type
        ((Lsub.map fun x => (x.1, x.2.1, x.2.2 + i.ctn_increment)) ++ Ltop) r := by
  obtain ⟨k, rfl⟩ : ∃ k', k = k' + 1 := ⟨k - 1, by omega⟩
  obtain ⟨hup, hcur⟩ := ctf_cur_lookup hl
  have hc : ctf_noerr (ctf_cur ofp l.up) = ctf_noerr l.fp := by
    rw [ctf_noerr_cur hofp l.up, hcur]
  obtain ⟨hfp', hpost⟩ := hr'
  have hput : ctf_noerr (ctf_put ofp l.up r'.fp) = ctf_noerr fp0 :=
    (ctf_noerr_put ofp l.up r'.fp (hfp'.trans hc.symm)).trans hofp
  rw [ctf_member_next_retry_succ, if_neg h0]
  simp only [hs]
  cases Lsub with
  | nil =>
    obtain ⟨hret, hit, herr⟩ := hpost
    rw [if_neg (by rw [hret]; decide), if_neg (by simp [ctf_errno, herr]), if_neg (by simp [hit])]
    obtain ⟨h1', h2', h3', h4', h5', h6'⟩ := hi
    simpa using ctf_member_next_retry_top sub_next flags d fp0 type l hl hns k
      (ctf_put ofp l.up r'.fp) { i with ctn_type := 0 } Ltop hput
      ⟨h1', h2', h3', h4', h5', h6'⟩ htp rfl hflat (by simp only []; omega)
  | cons x Lsub' =>
    obtain ⟨hret, hpos, hname, hmt, hne, hat⟩ := hpost
    rw [if_pos hpos]
    refine ⟨_, rfl, hput, ?_⟩
    try simp only [List.map_cons, List.cons_append]
    refine ⟨by simp only [hret], ?_, hname, hmt, by simp, ?_⟩
    · have := hi.2.2.2.2.2
      show (0 : Int) ≤ r'.ret + i.ctn_increment
      omega
    · rw [ctf_member_at_cons]
      exact ⟨hns, l, hl, hi, Ltop, hflat, Or.inr ⟨h0, Lsub', hat, rfl⟩⟩

theorem ctf_type_resolve_loop_mono (az : Bool) (ofp : ctf_dict_t) (otype : Nat) :
    ∀ (fuel : Nat) (fp : ctf_dict_t) (up : Bool) (type prev : Nat) (r : ctf_ret Nat),
      ctf_type_resolve_loop az ofp otype fuel fp up type prev = some r →
      ctf_type_resolve_loop az ofp otype (fuel + 1) fp up type prev = some r := by
  intro fuel
  induction fuel with
  | zero => intro fp up type prev r h; cases h
  | succ fuel ih =>
    intro fp up type prev r h
    rw [ctf_type_resolve_loop_succ] at h ⊢
    cases hl : ctf_lookup_by_id fp type with
    | error e => simpa only [hl] using h
    | ok l =>
      simp only [hl] at h ⊢
      split_ifs at h ⊢
      all_goals first
        | exact h
        | exact ih _ _ _ _ r h

theorem ctf_type_resolve_mono (fuel : Nat) (fp : ctf_dict_t) (type : Nat) (r : ctf_ret Nat)
    (h : ctf_type_resolve fuel fp type = some r) :
    ctf_type_resolve (fuel + 1) fp type = some r := by
  unfold ctf_type_resolve ctf_type_resolve_nonrepresentable at h ⊢
  split_ifs at h ⊢
  all_goals first
    | exact h
    | exact ctf_type_resolve_loop_mono _ _ _ _ _ _ _ _ r h

theorem ctf_member_next_open_mono (fuel : Nat) (ofp : ctf_dict_t) (type : Nat)
    (it : List ctf_next_t)
    (x : Except ctf_member_ret (ctf_dict_t × Nat × ctf_next_t × List ctf_next_t))
    (h : ctf_member_next_open fuel ofp type it = some x) :
    ctf_member_next_open (fuel + 1) ofp type it = some x := by
  unfold ctf_member_next_open at h ⊢
  cases it with
  | cons i sub => exact h
  | nil =>
    simp only [] at h ⊢
    cases hr : ctf_type_resolve fuel ofp type with
    | none => simp [hr] at h
    | some r =>
      rw [ctf_type_resolve_mono fuel ofp type r hr]
      simpa only [hr] using h

theorem ctf_member_next_retry_mono
    (s1 s2 : ctf_dict_t → Nat → List ctf_next_t → Option ctf_member_ret)
    (hs : ∀ fp t s r, s1 fp t s = some r → s2 fp t s = some r)
    (vlen : List ctf_member_t) (nmemb flags : Nat) (up : Bool) :
    ∀ (k : Nat) (ofp : ctf_dict_t) (i : ctf_next_t) (sub : List ctf_next_t)
      (r : ctf_member_ret),
      ctf_member_next_retry s1 vlen nmemb flags up k ofp i sub = some r →
      ctf_member_next_retry s2 vlen nmemb flags up (k + 1) ofp i sub = some r := by
  intro k
  induction k with
  | zero => intro ofp i sub r h; cases h
  | succ k ih =>
    intro ofp i sub r h
    rw [ctf_member_next_retry_succ] at h ⊢
    by_cases h0 : i.ctn_type = 0
    · rw [if_pos h0] at h ⊢
      split_ifs at h ⊢
      · exact h
      · exact ih _ _ _ _ h
      · exact h
    · rw [if_neg h0] at h ⊢
      cases hsn : s1 (ctf_cur ofp up) i.ctn_type sub with
      | none => simp [hsn] at h
      | some r' =>
        rw [hs _ _ _ _ hsn]
        simp only [hsn] at h ⊢
        split_ifs at h ⊢
        · exact h
        · exact h
        · exact h
        · exact ih _ _ _ _ h

theorem ctf_member_next_body_mono
    (s1 s2 : ctf_dict_t → Nat → List ctf_next_t → Option ctf_member_ret)
    (hs : ∀ fp t s r, s1 fp t s = some r → s2 fp t s = some r)
    (fuel : Nat) (ofp : ctf_dict_t) (type : Nat) (i : ctf_next_t) (sub : List ctf_next_t)
    (flags : Nat) (r : ctf_member_ret)
    (h : ctf_member_next_body s1 fuel ofp type i sub flags = some r) :
    ctf_member_next_body s2 (fuel + 1) ofp type i sub flags = some r := by
  unfold ctf_member_next_body at h ⊢
  split_ifs at h ⊢
  · exact h
  · exact h
  · cases hg : ctf_get_dict ofp type with
    | none => simpa only [hg] using h
    | some fp =>
      simp only [hg] at h ⊢
      exact ctf_member_next_retry_mono s1 s2 hs _ _ _ _ _ _ _ _ _ h

theorem ctf_member_next_mono (flags : Nat) :
    ∀ (fuel : Nat) (ofp : ctf_dict_t) (type : Nat) (it : List ctf_next_t)
      (r : ctf_member_ret),
      ctf_member_next fuel ofp type it flags = some r →
      ctf_member_next (fuel + 1) ofp type it flags = some r := by
  intro fuel
  induction fuel with
  | zero => intro ofp type it r h; cases h
  | succ fuel ih =>
    intro ofp type it r h
    rw [ctf_member_next_succ] at h ⊢
    split_ifs at h ⊢
    · exact h
    · cases ho : ctf_member_next_open fuel ofp type it with
      | none => simp [ho] at h
      | some x =>
        rw [ctf_member_next_open_mono fuel ofp type it x ho]
        cases x with
        | error r' => simpa only [ho] using h
        | ok y =>
          obtain ⟨ofp', type', i, sub⟩ := y
          simp only [ho] at h ⊢
          exact ctf_member_next_body_mono _ _ (fun fp t s r hr => ih fp t s r hr) fuel ofp'
            type' i sub flags r h

theorem ctf_member_next_mono_le (flags : Nat) (f1 f2 : Nat) (hle : f1 ≤ f2)
    (ofp : ctf_dict_t) (type : Nat) (it : List ctf_next_t) (r : ctf_member_ret)
    (h : ctf_member_next f1 ofp type it flags = some r) :
    ctf_member_next f2 ofp type it flags = some r := by
  induction hle with
  | refl => exact h
  | step _ ih => exact ctf_member_next_mono flags _ ofp type it r ih

/-- The `if (!i)` block on a type that is itself a struct or union, on a dict
that differs from `fp0` in its error state only. -/
theorem ctf_member_next_open_sou2 (fuel : Nat) (fp0 : ctf_dict_t) (type : Nat)
    (l : ctf_lookup_t) (hl : ctf_lookup_by_id fp0 type = .ok l)
    (hk : l.tp.kind = .CTF_K_STRUCT ∨ l.tp.kind = .CTF_K_UNION) (ht : type ≠ CTF_ERR)
    (ofp : ctf_dict_t) (hofp : ctf_noerr ofp = ctf_noerr fp0) :
    ∃ i0, ctf_member_iter fp0 type l i0 ∧ i0.ctn_n = 0 ∧ i0.ctn_type = 0 ∧ i0.ctn_size = 0 ∧
      ctf_member_next_open (fuel + 1) ofp type [] = some (.ok (ofp, type, i0, [])) := by
  obtain ⟨l', hl', htp, hup, hfp⟩ := ctf_lookup_by_id_congr hofp.symm hl
  have hk' : l'.tp.kind = .CTF_K_STRUCT ∨ l'.tp.kind = .CTF_K_UNION := by rw [htp]; exact hk
  have href : l'.tp.kind.is_ref = false := by rcases hk' with h | h <;> rw [h] <;> rfl
  have hu : l'.tp.kind ≠ .CTF_K_UNKNOWN := by rcases hk' with h | h <;> rw [h] <;> decide
  have hr := ctf_type_resolve_base fuel ofp type l' hl' href hu
  have haddr : ofp.ctf_addr = fp0.ctf_addr := congrArg (fun d => d.ctf_addr) hofp
  refine ⟨{ ctn_iter_fun := .ctf_member_next, ctn_fp := ofp.ctf_addr, ctn_tp := l'.tp,
            ctn_dtd := (ctf_dynamic_type l'.fp type).map fun _ => (l'.up, type), ctn_n := 0 },
    ⟨rfl, haddr, ?_, fun _ => htp, le_refl _, le_refl _⟩, rfl, rfl, rfl, ?_⟩
  · simp only [hup, ctf_dynamic_type_congr hfp type]
  · unfold ctf_member_next_open
    simp only [hr, if_neg ht, hl']
    rw [if_neg]
    rcases hk' with h | h <;> simp [h]

/-- One call of `ctf_member_next`, with enough fuel, in a state in which the items
`L` are still to be returned. -/
theorem ctf_member_next_run (flags : Nat) :
    ∀ (d : Nat) (fp0 : ctf_dict_t) (type : Nat) (it : List ctf_next_t)
      (L : List (String × Nat × Int)) (ofp : ctf_dict_t),
      ctf_noerr ofp = ctf_noerr fp0 → ctf_member_at flags d fp0 type it L →
      ∃ F, ∀ fuel, F ≤ fuel →
        ∃ r, ctf_member_next fuel ofp type it flags = some r ∧
          ctf_member_post flags d fp0 type L r := by
  intro d
  induction d with
  | zero =>
    intro fp0 type it L ofp _ hat
    cases it with
    | nil => rw [ctf_member_at_nil] at hat; cases hat
    | cons i sub => exact absurd hat (by simp [ctf_member_at])
  | succ d ih =>
    intro fp0 type it L ofp hofp hat
    have hnseq : ofp.LCTF_NO_STR = fp0.LCTF_NO_STR := congrArg (fun x => x.LCTF_NO_STR) hofp
    cases it with
    | nil =>
      rw [ctf_member_at_nil] at hat
      simp only [ctf_member_flat] at hat
      split_ifs at hat with hbad
      have hns : fp0.LCTF_NO_STR = false := by
        cases h : fp0.LCTF_NO_STR with
        | false => rfl
        | true => exact absurd (Or.inl h) hbad
      have ht : type ≠ CTF_ERR := fun h => hbad (Or.inr h)
      cases hl : ctf_lookup_by_id fp0 type with
      | error e => simp [hl] at hat
      | ok l =>
        simp only [hl] at hat
        split_ifs at hat with hk
        refine ⟨l.tp.members.length + 3, fun fuel hfuel => ?_⟩
        obtain ⟨f, rfl⟩ : ∃ f, fuel = f + 1 + 1 := ⟨fuel - 2, by omega⟩
        obtain ⟨i0, hi0, hn0, ht0, hs0, ho⟩ :=
          ctf_member_next_open_sou2 f fp0 type l hl hk ht ofp hofp
        rw [ctf_member_next_succ, if_neg (by simp [hnseq, hns])]
        simp only [ho]
        rw [ctf_member_next_body_retry2 _ fp0 type l hl ofp hofp (f + 1) i0 [] flags hi0]
        obtain ⟨h1, h2, h3, h4, h5, h6⟩ := hi0
        apply ctf_member_next_retry_top _ flags d fp0 type l hl hns (f + 1) ofp
          { i0 with ctn_tp := l.tp } L hofp ⟨h1, h2, h3, fun _ => rfl, h5, h6⟩ rfl ht0
        · simp only [hn0, hs0, List.drop_zero]
          exact hat
        · simp only [hn0]; omega
    | cons i sub =>
      rw [ctf_member_at_cons] at hat
      obtain ⟨hns, l, hl, hi, Ltop, hflat, hcase⟩ := hat
      obtain ⟨h1, h2, h3, h4, h5, h6⟩ := hi
      have hi' : ctf_member_iter fp0 type l { i with ctn_tp := l.tp } :=
        ⟨h1, h2, h3, fun _ => rfl, h5, h6⟩
      obtain ⟨hup, hcur⟩ := ctf_cur_lookup hl
      have hc : ctf_noerr (ctf_cur ofp l.up) = ctf_noerr l.fp := by
        rw [ctf_noerr_cur hofp l.up, hcur]
      rcases hcase with ⟨h0, rfl, rfl⟩ | ⟨h0, Lsub, hsub, rfl⟩
      · refine ⟨l.tp.members.length + 2, fun fuel hfuel => ?_⟩
        obtain ⟨f, rfl⟩ : ∃ f, fuel = f + 1 := ⟨fuel - 1, by omega⟩
        rw [ctf_member_next_succ, if_neg (by simp [hnseq, hns])]
        have ho : ctf_member_next_open f ofp type [i] = some (.ok (ofp, type, i, [])) := rfl
        simp only [ho]
        rw [ctf_member_next_body_retry2 _ fp0 type l hl ofp hofp f i [] flags ⟨h1, h2, h3, h4, h5, h6⟩]
        exact ctf_member_next_retry_top _ flags d fp0 type l hl hns f ofp
          { i with ctn_tp := l.tp } L hofp hi' rfl h0 hflat (by simp only []; omega)
      · obtain ⟨Fs, hFs⟩ := ih l.fp i.ctn_type sub Lsub (ctf_cur ofp l.up) hc hsub
        refine ⟨max Fs (l.tp.members.length + 2) + 1, fun fuel hfuel => ?_⟩
        obtain ⟨f, rfl⟩ : ∃ f, fuel = f + 1 := ⟨fuel - 1, by omega⟩
        have hf1 : Fs ≤ f := by
          have := le_max_left Fs (l.tp.members.length + 2); omega
        have hf2 : l.tp.members.length + 2 ≤ f := by
          have := le_max_right Fs (l.tp.members.length + 2); omega
        obtain ⟨r', hr', hpost'⟩ := hFs f hf1
        rw [ctf_member_next_succ, if_neg (by simp [hnseq, hns])]
        have ho : ctf_member_next_open f ofp type (i :: sub)
            = some (.ok (ofp, type, i, sub)) := rfl
        simp only [ho]
        rw [ctf_member_next_body_retry2 _ fp0 type l hl ofp hofp f i sub flags ⟨h1, h2, h3, h4, h5, h6⟩]
        exact ctf_member_next_retry_sub (fun fp' t s => ctf_member_next f fp' t s flags)
          flags d fp0 type l hl hns f ofp { i with ctn_tp := l.tp } sub Ltop Lsub r' hofp hi' rfl
          h0 hflat hr' hpost' (by simp only []; omega)

/-- A full iteration with `ctf_member_next`, with enough fuel, returns exactly the
items that are still to be returned and ends with `ECTF_NEXT_END`. -/
theorem ctf_member_next_all_run (flags : Nat) (d : Nat) (fp0 : ctf_dict_t) (type : Nat) :
    ∀ (L : List (String × Nat × Int)) (it : List ctf_next_t) (ofp : ctf_dict_t),
      ctf_noerr ofp = ctf_noerr fp0 → ctf_member_at flags d fp0 type it L →
      ∃ F, ∀ fuel, F ≤ fuel → ∀ n, L.length + 1 ≤ n →
        ∃ fp', ctf_member_next_all n fuel ofp type flags it = some (L, fp') ∧
          fp'.ctf_errno = .ECTF_NEXT_END ∧ ctf_noerr fp' = ctf_noerr fp0 := by
  intro L
  induction L with
  | nil =>
    intro it ofp hofp hat
    obtain ⟨F, hF⟩ := ctf_member_next_run flags d fp0 type it [] ofp hofp hat
    refine ⟨F, fun fuel hfuel n hn => ?_⟩
    obtain ⟨n, rfl⟩ : ∃ n', n = n' + 1 := ⟨n - 1, by omega⟩
    obtain ⟨r, hr, hne, hret, _, herr⟩ := hF fuel hfuel
    simp only [ctf_member_next_all, hr]
    rw [if_pos (by rw [hret]; decide)]
    exact ⟨r.fp, rfl, herr, hne⟩
  | cons x L ih =>
    intro it ofp hofp hat
    obtain ⟨F, hF⟩ := ctf_member_next_run flags d fp0 type it (x :: L) ofp hofp hat
    obtain ⟨r0, hr0, hne0, hret0, hpos0, hname0, hmt0, _, hat0⟩ := hF F (le_refl _)
    obtain ⟨F', hF'⟩ := ih r0.it r0.fp hne0 hat0
    refine ⟨max F F', fun fuel hfuel n hn => ?_⟩
    obtain ⟨n, rfl⟩ : ∃ n', n = n' + 1 := ⟨n - 1, by omega⟩
    have hf1 : F ≤ fuel := (le_max_left _ _).trans hfuel
    have hf2 : F' ≤ fuel := (le_max_right _ _).trans hfuel
    have hr := ctf_member_next_mono_le flags F fuel hf1 ofp type it r0 hr0
    obtain ⟨fp', ha, herr, hne⟩ := hF' fuel hf2 n (by simp only [List.length_cons] at hn; omega)
    simp only [ctf_member_next_all, hr]
    rw [if_neg (by omega)]
    simp only [ha, hname0, hmt0, Option.getD_some, hret0]
    exact ⟨fp', rfl, herr, hne⟩

/-! ## Theorems: unnamed struct and union members -/

theorem ctf_member_flat_from_mem
    (sub : ctf_dict_t → Nat → Option (List (String × Nat × Int)))
    (fp : ctf_dict_t) (tp : ctf_type_t) (flags : Nat) (hbig : tp.big = false)
    (m : ctf_member_t) (post : List ctf_member_t) (hpad : ¬ (m.ctm_name = "" ∧ m.ctm_type = 0)) :
    ∀ (pre : List ctf_member_t) (size : Int) (L : List (String × Nat × Int)),
      ctf_member_flat_from sub fp tp flags (pre ++ m :: post) size = some L →
      (m.ctm_name, m.ctm_type, (ctf_member_bit_offset tp m : Int)) ∈ L ∧
      ((ctf_member_is_anon_sou fp m).val = true ∧ flags &&& CTF_MN_RECURSE ≠ 0 →
        ∃ inner, sub fp m.ctm_type = some inner ∧
          ∀ y ∈ inner, (y.1, y.2.1, y.2.2 + (ctf_member_bit_offset tp m : Int)) ∈ L) := by
  intro pre
  induction pre with
  | nil =>
    intro size L h
    simp only [List.nil_append] at h
    rw [ctf_member_flat_from_cons, if_neg hpad] at h
    simp only [hbig, Bool.false_eq_true, ↓reduceIte] at h
    cases hrest : ctf_member_flat_from sub fp tp flags post size with
    | none => simp [hrest] at h
    | some rest =>
      simp only [hrest] at h
      have hoff : (if tp.kflag = true then ((CTF_MEMBER_BIT_OFFSET m.ctm_offset : Nat) : Int)
          else ((m.ctm_offset : Nat) : Int)) = (ctf_member_bit_offset tp m : Int) := by
        unfold ctf_member_bit_offset; split_ifs <;> rfl
      rw [hoff] at h
      by_cases hC : (ctf_member_is_anon_sou fp m).val = true ∧ flags &&& CTF_MN_RECURSE ≠ 0
      · rw [if_pos hC] at h
        cases hin : sub fp m.ctm_type with
        | none => simp [hin] at h
        | some inner =>
          simp only [hin, Option.some.injEq] at h
          subst h
          refine ⟨List.mem_cons_self _ _, fun _ => ⟨inner, rfl, fun y hy => ?_⟩⟩
          apply List.mem_cons_of_mem
          apply List.mem_append_left
          exact List.mem_map.2 ⟨y, hy, rfl⟩
      · rw [if_neg hC] at h
        simp only [Option.some.injEq] at h
        subst h
        exact ⟨List.mem_cons_self _ _, fun hc => absurd hc hC⟩
  | cons a pre ih =>
    intro size L h
    simp only [List.cons_append] at h
    rw [ctf_member_flat_from_cons] at h
    by_cases hp : a.ctm_name = "" ∧ a.ctm_type = 0
    · rw [if_pos hp] at h
      exact ih size L h
    · rw [if_neg hp] at h
      simp only [hbig, Bool.false_eq_true, ↓reduceIte] at h
      cases hrest : ctf_member_flat_from sub fp tp flags (pre ++ m :: post) size with
      | none => simp [hrest] at h
      | some rest =>
        obtain ⟨h1, h2⟩ := ih size rest hrest
        simp only [hrest] at h
        have hsub : ∀ y, y ∈ rest → y ∈ L := by
          intro y hy
          by_cases hC : (ctf_member_is_anon_sou fp a).val = true ∧ flags &&& CTF_MN_RECURSE ≠ 0
          · rw [if_pos hC] at h
            cases hin : sub fp a.ctm_type with
            | none => simp [hin] at h
            | some inner =>
              simp only [hin, Option.some.injEq] at h
              subst h
              exact List.mem_cons_of_mem _ (List.mem_append_right _ hy)
          · rw [if_neg hC] at h
            simp only [Option.some.injEq] at h
            subst h
            exact List.mem_cons_of_mem _ hy
        refine ⟨hsub _ h1, fun hc => ?_⟩
        obtain ⟨inner, hi, hall⟩ := h2 hc
        exact ⟨inner, hi, fun y hy => hsub _ (hall y hy)⟩

/-- An unnamed member whose type is found as a struct or union passes the test
of `ctf_member_next` for descending into it. -/
theorem ctf_member_is_anon_sou_true (fp : ctf_dict_t) (S o : Nat) (sl : ctf_lookup_t)
    (hsl : ctf_lookup_by_id fp S = .ok sl)
    (hsk : sl.tp.kind = .CTF_K_STRUCT ∨ sl.tp.kind = .CTF_K_UNION) :
    (ctf_member_is_anon_sou fp { ctm_name := "", ctm_type := S, ctm_offset := o }).val = true := by
  have hk : ctf_type_kind fp S = ⟨some sl.tp.kind, fp⟩ := by
    unfold ctf_type_kind ctf_type_kind_unsliced
    simp only [hsl]
    rw [if_neg]
    rcases hsk with h | h <;> rw [h] <;> decide
  unfold ctf_member_is_anon_sou
  simp only [↓reduceIte, hk]
  rcases hsk with h | h <;> simp [h]

theorem ctf_filter_unique {α : Type} (p : α → Bool) (L : List α) (a : α) (ha : a ∈ L)
    (hp : p a = true) (hle : (L.filter p).length ≤ 1) : L.filter p = [a] := by
  have hm : a ∈ L.filter p := List.mem_filter.2 ⟨ha, hp⟩
  cases hf : L.filter p with
  | nil => rw [hf] at hm; cases hm
  | cons b rest =>
    rw [hf] at hm hle
    cases rest with
    | nil =>
      rcases List.mem_cons.1 hm with h | h
      · rw [h]
      · cases h
    | cons c rest' => simp only [List.length_cons] at hle; omega

theorem ctf_member_next_all_mono (flags : Nat) (f1 f2 : Nat) (hle : f1 ≤ f2) (type : Nat) :
    ∀ (n : Nat) (ofp : ctf_dict_t) (it : List ctf_next_t)
      (x : List (String × Nat × Int) × ctf_dict_t),
      ctf_member_next_all n f1 ofp type flags it = some x →
      ctf_member_next_all n f2 ofp type flags it = some x := by
  intro n
  induction n with
  | zero => intro ofp it x h; cases h
  | succ n ih =>
    intro ofp it x h
    simp only [ctf_member_next_all] at h ⊢
    cases hc : ctf_member_next f1 ofp type it flags with
    | none => simp [hc] at h
    | some r =>
      rw [ctf_member_next_mono_le flags f1 f2 hle ofp type it r hc]
      simp only [hc] at h ⊢
      split_ifs at h ⊢
      · exact h
      · cases ha : ctf_member_next_all n f1 r.fp type flags r.it with
        | none => simp [ha] at h
        | some y =>
          rw [ih _ _ y ha]
          simpa only [ha] using h

/-- C11: let a struct or union of ordinary (not gap-encoded) layout have an unnamed
member of struct or union type `S` at bit offset `o`, and let `S`, of ordinary layout
too, have a member named `x` at bit offset `p`; the nesting of unnamed members
below the type is finite (its flattened member list `L` exists) and no other
flattened member is named `x`.  Then a full iteration with `ctf_member_next` and
`CTF_MN_RECURSE` runs to `ECTF_NEXT_END`, and among the items it returns exactly one
is named `x`: it has the type of `x` and the offset `o + p`. -/
theorem ctf_member_next_anon_offset (fp : ctf_dict_t) (type d : Nat)
    (L : List (String × Nat × Int)) (l sl : ctf_lookup_t)
    (pre post ipre ipost : List ctf_member_t) (S o xt p : Nat) (x : String)
    (hflat : ctf_member_flat CTF_MN_RECURSE d fp type = some L)
    (hl : ctf_lookup_by_id fp type = .ok l) (hbig : l.tp.big = false)
    (hM : l.tp.members = pre ++ { ctm_name := "", ctm_type := S, ctm_offset := o } :: post)
    (hsl : ctf_lookup_by_id l.fp S = .ok sl)
    (hsk : sl.tp.kind = .CTF_K_STRUCT ∨ sl.tp.kind = .CTF_K_UNION)
    (hsbig : sl.tp.big = false)
    (hN : sl.tp.members = ipre ++ { ctm_name := x, ctm_type := xt, ctm_offset := p } :: ipost)
    (hx : x ≠ "")
    (huniq : (L.filter fun y => decide (y.1 = x)).length ≤ 1) :
    ∃ n fuel fp', ctf_member_next_all n fuel fp type CTF_MN_RECURSE [] = some (L, fp') ∧
      fp'.ctf_errno = .ECTF_NEXT_END ∧
      L.filter (fun y => decide (y.1 = x)) =
        [(x, xt, ((ctf_member_bit_offset sl.tp
                    { ctm_name := x, ctm_type := xt, ctm_offset := p } : Nat) : Int) +
                 (ctf_member_bit_offset l.tp
                    { ctm_name := "", ctm_type := S, ctm_offset := o } : Nat))] := by
  obtain ⟨F, hF⟩ := ctf_member_next_all_run CTF_MN_RECURSE d fp type L [] fp rfl
    (by rw [ctf_member_at_nil]; exact hflat)
  obtain ⟨fp', hall, herr, _⟩ := hF F (le_refl _) (L.length + 1) (le_refl _)
  refine ⟨L.length + 1, F, fp', hall, herr, ?_⟩
  apply ctf_filter_unique _ L _ _ (by simp) huniq
  -- the member `x` is in the flattened list
  cases d with
  | zero => cases hflat
  | succ d =>
    simp only [ctf_member_flat] at hflat
    split_ifs at hflat
    simp only [hl] at hflat
    split_ifs at hflat
    rw [hM] at hflat
    have hS0 : S ≠ 0 := by have := ctf_lookup_by_id_pos hsl; omega
    obtain ⟨_, hanon⟩ := ctf_member_flat_from_mem _ l.fp l.tp CTF_MN_RECURSE hbig
      { ctm_name := "", ctm_type := S, ctm_offset := o } post (by simp [hS0]) pre 0 L hflat
    obtain ⟨inner, hin, hall⟩ :=
      hanon ⟨ctf_member_is_anon_sou_true l.fp S o sl hsl hsk, by decide⟩
    apply hall (x, xt, _)
    cases d with
    | zero => cases hin
    | succ d =>
      simp only [ctf_member_flat] at hin
      split_ifs at hin
      simp only [hsl] at hin
      split_ifs at hin
      rw [hN] at hin
      exact (ctf_member_flat_from_mem _ sl.fp sl.tp CTF_MN_RECURSE hsbig
        { ctm_name := x, ctm_type := xt, ctm_offset := p } ipost (by simp [hx]) ipre 0 inner
        hin).1

/-- Witness of C11 on the struct 3 of `struct_dict`: the member `b` of the unnamed
struct at bit 32 is returned once, with offset `32 + 0`. -/
theorem ctf_member_next_anon_offset_witness :
    ctf_member_flat CTF_MN_RECURSE 2 struct_dict 3
      = some [("a", 1, 0), ("", 2, 32), ("b", 1, 32), ("c", 1, 64)] ∧
    ∃ n fuel fp', ctf_member_next_all n fuel struct_dict 3 CTF_MN_RECURSE []
        = some ([("a", 1, 0), ("", 2, 32), ("b", 1, 32), ("c", 1, 64)], fp') ∧
      fp'.ctf_errno = .ECTF_NEXT_END ∧
      ([("a", 1, 0), ("", 2, 32), ("b", 1, 32), ("c", 1, 64)] :
          List (String × Nat × Int)).filter (fun y => decide (y.1 = "b")) =
        [("b", 1, ((0 : Nat) : Int) + (32 : Nat))] :=
  ⟨by decide,
   ctf_member_next_anon_offset struct_dict 3 2 _
     ⟨struct_dict, false, LCTF_INDEX_TO_TYPEPTR struct_dict 3⟩
     ⟨struct_dict, false, LCTF_INDEX_TO_TYPEPTR struct_dict 2⟩
     [{ ctm_name := "a", ctm_type := 1, ctm_offset := 0 },
      { ctm_name := "", ctm_type := 0, ctm_offset := 0 }]
     [{ ctm_name := "c", ctm_type := 1, ctm_offset := 64 }] [] [] 2 32 1 0 "b"
     (by decide) rfl rfl rfl rfl (Or.inl rfl) rfl rfl (by decide) (by decide)⟩

/-- C12 (counterexample): on `struct { int a; struct { int b; }; }` the iteration
with `CTF_MN_RECURSE` returns three items, the unnamed member itself between `a` and
`b`; no amount of fuel makes it return the two-item sequence. -/
theorem ctf_member_next_anon_returned :
    (ctf_member_next_all 4 4 anon_dict 3 CTF_MN_RECURSE []).map Prod.fst
      = some [("a", 1, 0), ("", 2, 32), ("b", 1, 32)] ∧
    ∀ n fuel fp', ctf_member_next_all n fuel anon_dict 3 CTF_MN_RECURSE []
      ≠ some ([("a", 1, 0), ("b", 1, 32)], fp') := by
  refine ⟨by decide, ?_⟩
  intro n fuel fp' h
  have hdet : ∀ (f1 f2 : Nat) (ofp : ctf_dict_t) (it : List ctf_next_t) (r1 r2 : ctf_member_ret),
      ctf_member_next f1 ofp 3 it CTF_MN_RECURSE = some r1 →
      ctf_member_next f2 ofp 3 it CTF_MN_RECURSE = some r2 → r1 = r2 := by
    intro f1 f2 ofp it r1 r2 h1 h2
    have a := ctf_member_next_mono_le CTF_MN_RECURSE f1 (max f1 f2) (le_max_left _ _) ofp 3 it r1 h1
    have b := ctf_member_next_mono_le CTF_MN_RECURSE f2 (max f1 f2) (le_max_right _ _) ofp 3 it r2 h2
    rw [a] at b
    exact Option.some.inj b
  cases n with
  | zero => cases h
  | succ n =>
    simp only [ctf_member_next_all] at h
    cases hc : ctf_member_next fuel anon_dict 3 [] CTF_MN_RECURSE with
    | none => simp [hc] at h
    | some r =>
      have h0 : ctf_member_next 4 anon_dict 3 [] CTF_MN_RECURSE = some
          { ret := 0,
            it := [{ ctn_iter_fun := .ctf_member_next, ctn_fp := 14,
                     ctn_tp := LCTF_INDEX_TO_TYPEPTR anon_dict 3, ctn_n := 1 }],
            name := some "a", membtype := some 1, bit_width := some 0, fp := anon_dict } := by
        decide
      have hr := hdet _ _ _ _ _ _ hc h0
      subst hr
      simp only [hc] at h
      rw [if_neg (by decide)] at h
      cases n with
      | zero => simp [ctf_member_next_all] at h
      | succ n =>
        simp only [ctf_member_next_all] at h
        cases hc2 : ctf_member_next fuel anon_dict 3
            [{ ctn_iter_fun := .ctf_member_next, ctn_fp := 14,
               ctn_tp := LCTF_INDEX_TO_TYPEPTR anon_dict 3, ctn_n := 1 }] CTF_MN_RECURSE with
        | none => simp [hc2] at h
        | some r2 =>
          have h2 : ctf_member_next 4 anon_dict 3
              [{ ctn_iter_fun := .ctf_member_next, ctn_fp := 14,
                 ctn_tp := LCTF_INDEX_TO_TYPEPTR anon_dict 3, ctn_n := 1 }] CTF_MN_RECURSE
              = some
              { ret := 32,
                it := [{ ctn_iter_fun := .ctf_member_next, ctn_fp := 14,
                         ctn_tp := LCTF_INDEX_TO_TYPEPTR anon_dict 3, ctn_n := 2,
                         ctn_type := 2, ctn_increment := 32 }],
                name := some "", membtype := some 2, bit_width := some 0, fp := anon_dict } := by
            decide
          have hr2 := hdet _ _ _ _ _ _ hc2 h2
          subst hr2
          simp only [hc2] at h
          rw [if_neg (by decide)] at h
          cases ha : ctf_member_next_all n fuel anon_dict 3 CTF_MN_RECURSE
              [{ ctn_iter_fun := .ctf_member_next, ctn_fp := 14,
                 ctn_tp := LCTF_INDEX_TO_TYPEPTR anon_dict 3, ctn_n := 2,
                 ctn_type := 2, ctn_increment := 32 }] with
          | none => simp [ha] at h
          | some y =>
            simp only [ha, Option.getD_some, Option.some.injEq, Prod.mk.injEq, List.cons.injEq]
              at h
            exact absurd h.1.2.1.1 (by decide)

/-- C12 (amended): for `struct { int a; struct { int b; }; }` with a 32-bit `int`
(the member `a` at bit 0, the unnamed inner struct `S` at bit 32, its member `b` at
inner bit 0; ordinary layout, no bit-field encoding), the complete sequence returned
with `CTF_MN_RECURSE` before `ECTF_NEXT_END` is `a` at 0, the unnamed member itself
(type `S`) at 32, and `b` at 32. -/
theorem ctf_member_next_anon_sequence (fp : ctf_dict_t) (type S ti : Nat) (l sl : ctf_lookup_t)
    (hns : fp.LCTF_NO_STR = false) (ht : type ≠ CTF_ERR)
    (hl : ctf_lookup_by_id fp type = .ok l) (hk : l.tp.kind = .CTF_K_STRUCT)
    (hbig : l.tp.big = false) (hkf : l.tp.kflag = false)
    (hM : l.tp.members = [{ ctm_name := "a", ctm_type := ti, ctm_offset := 0 },
                          { ctm_name := "", ctm_type := S, ctm_offset := 32 }])
    (hns' : l.fp.LCTF_NO_STR = false) (hS : S ≠ CTF_ERR)
    (hsl : ctf_lookup_by_id l.fp S = .ok sl) (hsk : sl.tp.kind = .CTF_K_STRUCT)
    (hsbig : sl.tp.big = false) (hskf : sl.tp.kflag = false)
    (hN : sl.tp.members = [{ ctm_name := "b", ctm_type := ti, ctm_offset := 0 }]) :
    ∃ n fuel fp', ctf_member_next_all n fuel fp type CTF_MN_RECURSE []
        = some ([("a", ti, 0), ("", S, 32), ("b", ti, 32)], fp') ∧
      fp'.ctf_errno = .ECTF_NEXT_END := by
  have hanon := ctf_member_is_anon_sou_true l.fp S 32 sl hsl (Or.inl hsk)
  have hS0 : S ≠ 0 := by have := ctf_lookup_by_id_pos hsl; omega
  have hrec : CTF_MN_RECURSE &&& CTF_MN_RECURSE ≠ 0 := by decide
  have hinner : ctf_member_flat CTF_MN_RECURSE 1 l.fp S = some [("b", ti, 0)] := by
    simp only [ctf_member_flat, hns', hS, hsl, hsk, hN, ctf_member_flat_from, hsbig, hskf,
      ctf_member_is_anon_sou]
    simp
  have hflat : ctf_member_flat CTF_MN_RECURSE 2 fp type
      = some [("a", ti, 0), ("", S, 32), ("b", ti, 32)] := by
    simp only [ctf_member_flat] at hinner ⊢
    simp only [hns, ht, hl, hk, hM, ctf_member_flat_from, hbig, hkf, hanon, hinner]
    simp [ctf_member_is_anon_sou, hS0, (by decide : CTF_MN_RECURSE ≠ 0)]
  obtain ⟨F, hF⟩ := ctf_member_next_all_run CTF_MN_RECURSE 2 fp type _ [] fp rfl
    (by rw [ctf_member_at_nil]; exact hflat)
  obtain ⟨fp', hall, herr, _⟩ := hF F (le_refl _) 4 (by simp)
  exact ⟨4, F, fp', hall, herr⟩

/-- Witness of C12 on `anon_dict`. -/
theorem ctf_member_next_anon_sequence_witness :
    ∃ n fuel fp', ctf_member_next_all n fuel anon_dict 3 CTF_MN_RECURSE []
        = some ([("a", 1, 0), ("", 2, 32), ("b", 1, 32)], fp') ∧
      fp'.ctf_errno = .ECTF_NEXT_END :=
  ctf_member_next_anon_sequence anon_dict 3 2 1
    ⟨anon_dict, false, LCTF_INDEX_TO_TYPEPTR anon_dict 3⟩
    ⟨anon_dict, false, LCTF_INDEX_TO_TYPEPTR anon_dict 2⟩
    rfl (by decide) rfl rfl rfl rfl rfl rfl (by decide) rfl rfl rfl rfl rfl

/-! ## Theorems: member lookup by name and cursor discipline -/

/-- The loop of `ctf_member_info` looks at the first member in every round: when
that member is named and its name is not the one asked for, the loop ends with
`ECTF_NOMEMBNAM` whatever the other members are. -/
theorem ctf_member_info_loop_first (info : ctf_dict_t → Nat → Option ctf_member_info_ret)
    (up big kflag : Bool) (m0 : ctf_member_t) (rest : List ctf_member_t) (name : String)
    (hn0 : m0.ctm_name ≠ "") (hne : m0.ctm_name ≠ name) :
    ∀ (n total : Nat) (ofp : ctf_dict_t),
      ∃ r, ctf_member_info_loop info up big kflag (m0 :: rest) name n total ofp = some r ∧
        r.ret = -1 ∧ r.mip = none ∧ r.fp.ctf_errno = .ECTF_NOMEMBNAM := by
  intro n
  induction n with
  | zero => intro total ofp; exact ⟨_, rfl, rfl, rfl, rfl⟩
  | succ n ih =>
    intro total ofp
    have ha : ∀ fp, ctf_member_is_anon_sou fp m0 = ⟨false, fp⟩ := by
      intro fp
      unfold ctf_member_is_anon_sou
      rw [if_neg hn0]
    simp only [ctf_member_info_loop, List.head?_cons, ha, Bool.false_eq_true, ↓reduceIte,
      if_neg hne]
    exact ih _ _

/-- On a type that is itself a struct or union whose first member is named,
`ctf_member_info` finds no member but the first. -/
theorem ctf_member_info_only_first (fp : ctf_dict_t) (type : Nat) (l : ctf_lookup_t)
    (name : String) (m0 : ctf_member_t) (rest : List ctf_member_t)
    (hns : fp.LCTF_NO_STR = false) (ht : type ≠ CTF_ERR)
    (hl : ctf_lookup_by_id fp type = .ok l)
    (hk : l.tp.kind = .CTF_K_STRUCT ∨ l.tp.kind = .CTF_K_UNION)
    (hM : l.tp.members = m0 :: rest) (hn0 : m0.ctm_name ≠ "") (hne : m0.ctm_name ≠ name)
    (fuel : Nat) :
    ∃ r, ctf_member_info (fuel + 2) fp type name = some r ∧ r.ret = -1 ∧ r.mip = none ∧
      r.fp.ctf_errno = .ECTF_NOMEMBNAM := by
  have href : l.tp.kind.is_ref = false := by rcases hk with h | h <;> rw [h] <;> rfl
  have hu : l.tp.kind ≠ .CTF_K_UNKNOWN := by rcases hk with h | h <;> rw [h] <;> decide
  have hr := ctf_type_resolve_base fuel fp type l hl href hu
  have hv := ctf_vlen_lookup hl l.tp (fun _ => rfl)
  simp only [ctf_member_info, hns, Bool.false_eq_true, ↓reduceIte, hr, if_neg ht, hl, hv, hM]
  rw [if_neg (by rcases hk with h | h <;> simp [h])]
  exact ctf_member_info_loop_first _ _ _ _ m0 rest name hn0 hne _ _ _

/-- C13 (failing input): on the struct `{ int a; int c; }` of `pair_dict` the
iteration returns `c` with type 1 and offset 32, but `ctf_member_info` does not
find `c`: it fails with `ECTF_NOMEMBNAM`.  The first member `a` is found.  On
`struct { int a; struct { int b; }; }` the member `b`, which the iteration returns at
offset 32, is not found either. -/
theorem ctf_member_info_misses_members :
    (ctf_member_next_all 3 3 pair_dict 2 CTF_MN_RECURSE []).map Prod.fst
      = some [("a", 1, 0), ("c", 1, 32)] ∧
    ctf_member_info 3 pair_dict 2 "c"
      = some { ret := -1, fp := (ctf_set_errno pair_dict .ECTF_NOMEMBNAM).fp } ∧
    ctf_member_info 3 pair_dict 2 "a"
      = some { ret := 0, fp := pair_dict,
               mip := some { ctm_type := 1, ctm_offset := 0, ctm_bit_width := 0 } } ∧
    ctf_member_info 4 anon_dict 3 "b"
      = some { ret := -1, fp := (ctf_set_errno anon_dict .ECTF_NOMEMBNAM).fp } := by
  decide

theorem ctf_member_next_retry_head
    (sub_next : ctf_dict_t → Nat → List ctf_next_t → Option ctf_member_ret)
    (vlen : List ctf_member_t) (nmemb flags : Nat) (up : Bool) :
    ∀ (k : Nat) (ofp : ctf_dict_t) (i : ctf_next_t) (sub : List ctf_next_t)
      (r : ctf_member_ret),
      ctf_member_next_retry sub_next vlen nmemb flags up k ofp i sub = some r → 0 ≤ r.ret →
      ∃ i' sub', r.it = i' :: sub' ∧ i'.ctn_iter_fun = i.ctn_iter_fun ∧ i'.ctn_fp = i.ctn_fp := by
  intro k
  induction k with
  | zero => intro ofp i sub r h; cases h
  | succ k ih =>
    intro ofp i sub r h hr
    rw [ctf_member_next_retry_succ] at h
    by_cases h0 : i.ctn_type = 0
    · rw [if_pos h0] at h
      split_ifs at h with h1 h2
      · simp only [Option.some.injEq] at h; subst h
        exact absurd hr (show ¬ (0 : Int) ≤ -1 by decide)
      · obtain ⟨i', sub', a, b, c⟩ := ih _ _ _ _ h hr
        exact ⟨i', sub', a, b, c⟩
      · simp only [Option.some.injEq] at h; subst h
        exact ⟨_, _, rfl, rfl, rfl⟩
    · rw [if_neg h0] at h
      cases hs : sub_next (ctf_cur ofp up) i.ctn_type sub with
      | none => simp [hs] at h
      | some r' =>
        simp only [hs] at h
        split_ifs at h with h1 h2 h3
        · simp only [Option.some.injEq] at h; subst h
          exact ⟨_, _, rfl, rfl, rfl⟩
        · simp only [Option.some.injEq] at h; subst h
          exact absurd hr h1
        · simp only [Option.some.injEq] at h; subst h
          exact absurd hr (show ¬ (0 : Int) ≤ -1 by decide)
        · obtain ⟨i', sub', a, b, c⟩ := ih _ _ _ _ h hr
          exact ⟨i', sub', a, b, c⟩

/-- The iterator that a successful first call of `ctf_member_next` leaves in the
slot carries this function and the dict of the call. -/
theorem ctf_member_next_creates (fuel : Nat) (fp : ctf_dict_t) (type flags : Nat)
    (r : ctf_member_ret) (h : ctf_member_next fuel fp type [] flags = some r)
    (hr : 0 ≤ r.ret) :
    ∃ i sub, r.it = i :: sub ∧ i.ctn_iter_fun = .ctf_member_next ∧ i.ctn_fp = fp.ctf_addr := by
  cases fuel with
  | zero => cases h
  | succ fuel =>
    rw [ctf_member_next_succ] at h
    split_ifs at h
    · simp only [Option.some.injEq] at h; subst h
      exact absurd hr (show ¬ (0 : Int) ≤ -1 by decide)
    · cases ho : ctf_member_next_open fuel fp type [] with
      | none => simp [ho] at h
      | some x =>
        cases x with
        | error r' =>
          simp only [ho, Option.some.injEq] at h; subst h
          have := ctf_member_next_open_ret fuel fp type [] _ ho
          omega
        | ok y =>
          obtain ⟨ofp', type', i, sub⟩ := y
          simp only [ho] at h
          have hi : i.ctn_iter_fun = .ctf_member_next ∧ i.ctn_fp = fp.ctf_addr := by
            unfold ctf_member_next_open at ho
            simp only [] at ho
            cases hres : ctf_type_resolve fuel fp type with
            | none => simp [hres] at ho
            | some r0 =>
              simp only [hres] at ho
              split_ifs at ho
              · simp at ho
              · cases hl : ctf_lookup_by_id r0.fp r0.val with
                | error e => simp [hl] at ho
                | ok l =>
                  simp only [hl] at ho
                  split_ifs at ho
                  · simp at ho
                  · simp only [Option.some.injEq, Except.ok.injEq, Prod.mk.injEq] at ho
                    obtain ⟨_, _, hi, _⟩ := ho
                    rw [← hi]
                    exact ⟨rfl, rfl⟩
          unfold ctf_member_next_body at h
          split_ifs at h
          · simp only [Option.some.injEq] at h; subst h
            exact absurd hr (show ¬ (0 : Int) ≤ -1 by decide)
          · simp only [Option.some.injEq] at h; subst h
            exact absurd hr (show ¬ (0 : Int) ≤ -1 by decide)
          · cases hg : ctf_get_dict ofp' type' with
            | none =>
              simp only [hg, Option.some.injEq] at h; subst h
              exact absurd hr (show ¬ (0 : Int) ≤ -1 by decide)
            | some fpn =>
              simp only [hg] at h
              obtain ⟨i', sub', h1, h2, h3⟩ :=
                ctf_member_next_retry_head _ _ _ _ _ _ _ _ _ _ h hr
              exact ⟨i', sub', h1, h2.trans hi.1, h3.trans hi.2⟩

/-- C14: cursor discipline.  The iterator that `ctf_member_next` creates carries
this function and the dict of the call.  For each of `ctf_member_next`,
`ctf_enum_next`, `ctf_type_next`, `ctf_variable_next` and `ctf_errwarning_next`, called
on a dict that passes the function's own first check (no `LCTF_NO_STR` for the first
two, no child without parent for `ctf_variable_next`): a slot holding an iterator of
another function makes the call fail with `ECTF_NEXT_WRONGFUN`, and a slot holding
an iterator of this function for another dict makes it fail with
`ECTF_NEXT_WRONGFP`; in both cases nothing is written through the output pointers
and the slot, with the iterator in it, is left as it was.  A dict that does not
pass the first check makes the call fail with `ECTF_NOPARENT`, the slot again left
as it was. -/
theorem ctf_next_cursor_discipline (fp : ctf_dict_t) (i : ctf_next_t) (sub : List ctf_next_t) :
    (∀ fuel type flags r, ctf_member_next fuel fp type [] flags = some r → 0 ≤ r.ret →
      ∃ i' sub', r.it = i' :: sub' ∧ i'.ctn_iter_fun = .ctf_member_next ∧
        i'.ctn_fp = fp.ctf_addr) ∧
    (∀ fuel type flags,
      (fp.LCTF_NO_STR = false → i.ctn_iter_fun ≠ .ctf_member_next →
        ctf_member_next (fuel + 1) fp type (i :: sub) flags
          = some { ret := -1, it := i :: sub,
                   fp := (ctf_set_errno fp .ECTF_NEXT_WRONGFUN).fp }) ∧
      (fp.LCTF_NO_STR = false → i.ctn_iter_fun = .ctf_member_next → i.ctn_fp ≠ fp.ctf_addr →
        ctf_member_next (fuel + 1) fp type (i :: sub) flags
          = some { ret := -1, it := i :: sub,
                   fp := (ctf_set_errno fp .ECTF_NEXT_WRONGFP).fp }) ∧
      (fp.LCTF_NO_STR = true →
        ctf_member_next (fuel + 1) fp type (i :: sub) flags
          = some { ret := -1, it := i :: sub, fp := (ctf_set_errno fp .ECTF_NOPARENT).fp })) ∧
    (∀ fuel type,
      (fp.LCTF_NO_STR = false → i.ctn_iter_fun ≠ .ctf_enum_next →
        ctf_enum_next fuel fp type (i :: sub)
          = some { ret := none, it := i :: sub,
                   fp := (ctf_set_errno fp .ECTF_NEXT_WRONGFUN).fp }) ∧
      (fp.LCTF_NO_STR = false → i.ctn_iter_fun = .ctf_enum_next → i.ctn_fp ≠ fp.ctf_addr →
        ctf_enum_next fuel fp type (i :: sub)
          = some { ret := none, it := i :: sub,
                   fp := (ctf_set_errno fp .ECTF_NEXT_WRONGFP).fp }) ∧
      (fp.LCTF_NO_STR = true →
        ctf_enum_next fuel fp type (i :: sub)
          = some { ret := none, it := i :: sub, fp := (ctf_set_errno fp .ECTF_NOPARENT).fp })) ∧
    (∀ fuel want_hidden,
      (i.ctn_iter_fun ≠ .ctf_type_next →
        ctf_type_next fuel fp (i :: sub) want_hidden
          = some { ret := CTF_ERR, it := i :: sub,
                   fp := (ctf_set_typed_errno fp .ECTF_NEXT_WRONGFUN).fp }) ∧
      (i.ctn_iter_fun = .ctf_type_next → i.ctn_fp ≠ fp.ctf_addr →
        ctf_type_next fuel fp (i :: sub) want_hidden
          = some { ret := CTF_ERR, it := i :: sub,
                   fp := (ctf_set_typed_errno fp .ECTF_NEXT_WRONGFP).fp })) ∧
    ((¬ (fp.LCTF_CHILD = true ∧ fp.ctf_parent = none) → i.ctn_iter_fun ≠ .ctf_variable_next →
        ctf_variable_next fp (i :: sub)
          = { ret := CTF_ERR, it := i :: sub,
              fp := (ctf_set_typed_errno fp .ECTF_NEXT_WRONGFUN).fp }) ∧
      (¬ (fp.LCTF_CHILD = true ∧ fp.ctf_parent = none) → i.ctn_iter_fun = .ctf_variable_next →
        i.ctn_fp ≠ fp.ctf_addr →
        ctf_variable_next fp (i :: sub)
          = { ret := CTF_ERR, it := i :: sub,
              fp := (ctf_set_typed_errno fp .ECTF_NEXT_WRONGFP).fp }) ∧
      (fp.LCTF_CHILD = true ∧ fp.ctf_parent = none →
        ctf_variable_next fp (i :: sub)
          = { ret := CTF_ERR, it := i :: sub,
              fp := (ctf_set_typed_errno fp .ECTF_NOPARENT).fp })) ∧
    (∀ has_errp,
      (i.ctn_iter_fun ≠ .ctf_errwarning_next →
        ctf_errwarning_next fp (i :: sub) has_errp
          = if has_errp then { ret := none, it := i :: sub,
                               errp := some .ECTF_NEXT_WRONGFUN, fp := fp }
            else { ret := none, it := i :: sub,
                   fp := (ctf_set_errno fp .ECTF_NEXT_WRONGFUN).fp }) ∧
      (i.ctn_iter_fun = .ctf_errwarning_next → i.ctn_fp ≠ fp.ctf_addr →
        ctf_errwarning_next fp (i :: sub) has_errp
          = if has_errp then { ret := none, it := i :: sub,
                               errp := some .ECTF_NEXT_WRONGFP, fp := fp }
            else { ret := none, it := i :: sub,
                   fp := (ctf_set_errno fp .ECTF_NEXT_WRONGFP).fp })) := by
  refine ⟨fun fuel type flags r h hr => ctf_member_next_creates fuel fp type flags r h hr,
    fun fuel type flags => ⟨?_, ?_, ?_⟩, fun fuel type => ⟨?_, ?_, ?_⟩,
    fun fuel wh => ⟨?_, ?_⟩, ⟨?_, ?_, ?_⟩, fun e => ⟨?_, ?_⟩⟩
  · intro hns hf
    rw [ctf_member_next_succ, if_neg (by simp [hns])]
    have ho : ctf_member_next_open fuel fp type (i :: sub) = some (.ok (fp, type, i, sub)) := rfl
    simp only [ho, ctf_member_next_body]
    rw [if_pos hf]
  · intro hns hf hd
    rw [ctf_member_next_succ, if_neg (by simp [hns])]
    have ho : ctf_member_next_open fuel fp type (i :: sub) = some (.ok (fp, type, i, sub)) := rfl
    simp only [ho, ctf_member_next_body]
    rw [if_neg (by simp [hf]), if_pos (fun h => hd h.symm)]
  · intro hns
    rw [ctf_member_next_succ, if_pos hns]
  · intro hns hf
    simp only [ctf_enum_next, hns, Bool.false_eq_true, ↓reduceIte, ctf_enum_next_open,
      ctf_enum_next_body]
    rw [if_pos hf]
  · intro hns hf hd
    simp only [ctf_enum_next, hns, Bool.false_eq_true, ↓reduceIte, ctf_enum_next_open,
      ctf_enum_next_body]
    rw [if_neg (by simp [hf]), if_pos (fun h => hd h.symm)]
  · intro hns
    simp only [ctf_enum_next, hns, ↓reduceIte]
  · intro hf
    simp only [ctf_type_next, List.tail_cons]
    rw [if_pos hf]
    rfl
  · intro hf hd
    simp only [ctf_type_next, List.tail_cons]
    rw [if_neg (by simp [hf]), if_pos (fun h => hd h.symm)]
    rfl
  · intro hc hf
    simp only [ctf_variable_next, List.tail_cons]
    rw [if_neg hc, if_pos hf]
    rfl
  · intro hc hf hd
    simp only [ctf_variable_next, List.tail_cons]
    rw [if_neg hc, if_neg (by simp [hf]), if_pos (fun h => hd h.symm)]
    rfl
  · intro hc
    simp only [ctf_variable_next]
    rw [if_pos hc]
    rfl
  · intro hf
    simp only [ctf_errwarning_next, List.tail_cons]
    rw [if_pos hf]
  · intro hf hd
    simp only [ctf_errwarning_next, List.tail_cons]
    rw [if_neg (by simp [hf]), if_pos (fun h => hd h.symm)]

/-- Witness of C14: the iterator that `ctf_member_next` leaves after its first call
on the struct 3 of `struct_dict`, passed to `ctf_enum_next` on the same dict and to
`ctf_member_next` on `anon_dict`. -/
theorem ctf_next_cursor_discipline_witness :
    (ctf_member_next 3 struct_dict 3 [] 0).map (fun r => r.it)
      = some [{ ctn_iter_fun := .ctf_member_next, ctn_fp := 9,
                ctn_tp := LCTF_INDEX_TO_TYPEPTR struct_dict 3, ctn_n := 1 }] ∧
    ctf_enum_next 3 struct_dict 3
        [{ ctn_iter_fun := .ctf_member_next, ctn_fp := 9,
           ctn_tp := LCTF_INDEX_TO_TYPEPTR struct_dict 3, ctn_n := 1 }]
      = some { ret := none,
               it := [{ ctn_iter_fun := .ctf_member_next, ctn_fp := 9,
                        ctn_tp := LCTF_INDEX_TO_TYPEPTR struct_dict 3, ctn_n := 1 }],
               fp := (ctf_set_errno struct_dict .ECTF_NEXT_WRONGFUN).fp } ∧
    ctf_member_next (2 + 1) anon_dict 3
        [{ ctn_iter_fun := .ctf_member_next, ctn_fp := 9,
           ctn_tp := LCTF_INDEX_TO_TYPEPTR struct_dict 3, ctn_n := 1 }] 0
      = some { ret := -1,
               it := [{ ctn_iter_fun := .ctf_member_next, ctn_fp := 9,
                        ctn_tp := LCTF_INDEX_TO_TYPEPTR struct_dict 3, ctn_n := 1 }],
               fp := (ctf_set_errno anon_dict .ECTF_NEXT_WRONGFP).fp } ∧
    ctf_member_next 3 nostr_dict 3
        [{ ctn_iter_fun := .ctf_member_next, ctn_fp := 9,
           ctn_tp := LCTF_INDEX_TO_TYPEPTR struct_dict 3, ctn_n := 1 }] 0
      = some { ret := -1,
               it := [{ ctn_iter_fun := .ctf_member_next, ctn_fp := 9,
                        ctn_tp := LCTF_INDEX_TO_TYPEPTR struct_dict 3, ctn_n := 1 }],
               fp := (ctf_set_errno nostr_dict .ECTF_NOPARENT).fp } :=
  ⟨by decide,
   ((ctf_next_cursor_discipline struct_dict
      { ctn_iter_fun := .ctf_member_next, ctn_fp := 9,
        ctn_tp := LCTF_INDEX_TO_TYPEPTR struct_dict 3, ctn_n := 1 } []).2.2.1 3 3).1
      rfl (by decide),
   ((ctf_next_cursor_discipline anon_dict
      { ctn_iter_fun := .ctf_member_next, ctn_fp := 9,
        ctn_tp := LCTF_INDEX_TO_TYPEPTR struct_dict 3, ctn_n := 1 } []).2.1 2 3 0).2.1
      rfl rfl (by decide),
   by decide⟩

/-! ## Theorems: enumerators -/

/-- Handing back the dict a local `fp` points to, unchanged, changes nothing. -/
theorem ctf_put_cur (ofp : ctf_dict_t) (up : Bool) : ctf_put ofp up (ctf_cur ofp up) = ofp := by
  cases up
  · rfl
  · simp only [ctf_put, ctf_cur, ↓reduceIte]
    cases hp : ofp.ctf_parent with
    | none =>
      simp only [Option.map_none']
      rw [← hp]
    | some p =>
      simp only [Option.map_some']
      cases ofp with
      | mk core par =>
        simp only at hp
        subst hp
        rfl

/-- A record found from a dict is found in its native dict as well, without a
further move to a parent. -/
theorem ctf_lookup_by_id_native {fp : ctf_dict_t} {t : Nat} {l : ctf_lookup_t}
    (h : ctf_lookup_by_id fp t = .ok l) :
    ctf_lookup_by_id l.fp t = .ok ⟨l.fp, false, l.tp⟩ := by
  obtain ⟨hg, idx, hi, hl⟩ := ctf_lookup_by_id_get_dict h
  have hpos := ctf_lookup_by_id_pos h
  have hidx : idx ≤ l.fp.ctf_typemax := by
    unfold ctf_lookup_by_id at h
    simp only [hg, hi] at h
    split_ifs at h with hc
    exact hc.2
  have hcond : (l.fp.LCTF_CHILD && ctf_type_isparent l.fp t != 0) = false := by
    rcases ctf_get_dict_idem hg with h1 | h1
    · unfold ctf_get_dict at h1
      by_contra hne
      rw [if_pos (by simpa using hne)] at h1
      cases hp : l.fp.ctf_parent with
      | none => simp [hp] at h1
      | some p =>
        simp only [hp, Option.map_some', Option.some.injEq] at h1
        have : l.fp.ctf_parent = none := by rw [← h1]; rfl
        rw [hp] at this
        cases this
    · unfold ctf_get_dict at h1
      by_contra hne
      rw [if_pos (by simpa using hne)] at h1
      have hp : l.fp.ctf_parent = none := by
        cases hp : l.fp.ctf_parent with
        | none => rfl
        | some p => simp [hp] at h1
      have hc : l.fp.LCTF_CHILD = true := by
        cases hc : l.fp.LCTF_CHILD with
        | true => rfl
        | false => simp [hc] at hne
      unfold ctf_type_to_index ctf_type_to_index_internal at hi
      simp only [hc, Bool.true_and] at hi
      split_ifs at hi with hgt
      all_goals
        simp only [ctf_type_isparent, hc, Bool.not_true, Bool.false_eq_true, ↓reduceIte, hp,
          Bool.true_and] at hne
        simp only [Bool.not_eq_true', decide_eq_false_iff_not, not_not] at hgt
        have : ¬ (l.fp.cth_parent_typemax ≥ t) := by omega
        simp [this] at hne
  have hg' : ctf_get_dict l.fp t = some l.fp := by
    unfold ctf_get_dict
    rw [hcond]
    rfl
  unfold ctf_lookup_by_id
  simp only [hg', hi, hcond]
  rw [if_pos ⟨hpos, hidx⟩, hl]

/-- The kind of a type whose record is found and is no slice. -/
theorem ctf_type_kind_lookup {fp : ctf_dict_t} {t : Nat} {l : ctf_lookup_t}
    (h : ctf_lookup_by_id fp t = .ok l) (hs : l.tp.kind ≠ .CTF_K_SLICE) :
    ctf_type_kind fp t = ⟨some l.tp.kind, fp⟩ := by
  unfold ctf_type_kind ctf_type_kind_unsliced
  simp only [h]
  rw [if_neg hs]

/-- `ctf_type_resolve_unsliced` on a type that is itself a base type and no slice
returns the type, with the dict as it was. -/
theorem ctf_type_resolve_unsliced_base (fuel : Nat) (fp : ctf_dict_t) (type : Nat)
    (l : ctf_lookup_t) (hl : ctf_lookup_by_id fp type = .ok l)
    (href : l.tp.kind.is_ref = false) (hu : l.tp.kind ≠ .CTF_K_UNKNOWN)
    (hs : l.tp.kind ≠ .CTF_K_SLICE) :
    ctf_type_resolve_unsliced (fuel + 2) fp type = some ⟨type, fp⟩ := by
  obtain ⟨_, hcur⟩ := ctf_cur_lookup hl
  have hnat := ctf_lookup_by_id_native hl
  have hr1 := ctf_type_resolve_base (fuel + 1) fp type l hl href hu
  have hr2 := ctf_type_resolve_base fuel l.fp type ⟨l.fp, false, l.tp⟩ hnat href hu
  unfold ctf_type_resolve_unsliced
  simp only [hr1, hl]
  by_cases ht : type = CTF_ERR
  · rw [if_pos ht, ht]
  · rw [if_neg ht]
    simp only [ctf_type_resolve_unsliced_loop, hcur, if_neg hs, false_and, ↓reduceIte, hr2,
      if_neg ht, hnat]
    try rw [if_neg (fun h => hs h.1)]
    try rw [← hcur, ctf_put_cur]

theorem ctf_vlen_enum_lookup {fp : ctf_dict_t} {t : Nat} {l : ctf_lookup_t}
    (h : ctf_lookup_by_id fp t = .ok l) :
    ctf_vlen_enum l.fp t l.tp = (l.tp, LCTF_VLEN_enum l.tp) := by
  unfold ctf_vlen_enum
  cases hd : ctf_dynamic_type l.fp t with
  | none => rfl
  | some dtd => rw [ctf_dynamic_type_lookup h hd]

/-- The `if (!i)` block of `ctf_enum_next` on a type that is itself an enum. -/
theorem ctf_enum_next_open_enum (fuel : Nat) (fp0 : ctf_dict_t) (type : Nat)
    (l : ctf_lookup_t) (hl : ctf_lookup_by_id fp0 type = .ok l)
    (hk : l.tp.kind = .CTF_K_ENUM ∨ l.tp.kind = .CTF_K_ENUM64) (ht : type ≠ CTF_ERR)
    (ofp : ctf_dict_t) (hofp : ctf_noerr ofp = ctf_noerr fp0) :
    ∃ i0, ctf_enum_at fp0 l [i0] (ctf_enum_pairs l.tp) ∧
      ctf_enum_next_open (fuel + 2) ofp type [] = some (.ok (ofp, type, i0, [])) := by
  obtain ⟨l', hl', htp, hup, hfp⟩ := ctf_lookup_by_id_congr hofp.symm hl
  have hk' : l'.tp.kind = .CTF_K_ENUM ∨ l'.tp.kind = .CTF_K_ENUM64 := by rw [htp]; exact hk
  have href : l'.tp.kind.is_ref = false := by rcases hk' with h | h <;> rw [h] <;> rfl
  have hu : l'.tp.kind ≠ .CTF_K_UNKNOWN := by rcases hk' with h | h <;> rw [h] <;> decide
  have hs : l'.tp.kind ≠ .CTF_K_SLICE := by rcases hk' with h | h <;> rw [h] <;> decide
  have hr := ctf_type_resolve_unsliced_base fuel ofp type l' hl' href hu hs
  have hkind := ctf_type_kind_lookup hl' hs
  have hv := ctf_vlen_enum_lookup hl'
  have haddr : ofp.ctf_addr = fp0.ctf_addr := congrArg (fun d => d.ctf_addr) hofp
  unfold ctf_enum_next_open
  simp only [hr, if_neg ht, hkind, hl', hv]
  rw [if_neg (by rcases hk' with h | h <;> simp [h])]
  refine ⟨_, ?_, rfl⟩
  refine ⟨rfl, haddr, ?_, ?_, ?_⟩
  · simp only [LCTF_VLEN_enum, ctf_enum_pairs, htp]
    split_ifs <;> simp
  · intro h
    simp only [ctf_enum_pairs, htp, h]
    simp
  · intro h
    simp only [ctf_enum_pairs, htp, h]
    simp

/-- One call of `ctf_enum_next` in a state in which the pairs `rest` are still to
be returned. -/
theorem ctf_enum_next_step (fuel : Nat) (fp0 : ctf_dict_t) (type : Nat) (l : ctf_lookup_t)
    (hl : ctf_lookup_by_id fp0 type = .ok l)
    (hk : l.tp.kind = .CTF_K_ENUM ∨ l.tp.kind = .CTF_K_ENUM64) (ht : type ≠ CTF_ERR)
    (hns : fp0.LCTF_NO_STR = false) (ofp : ctf_dict_t) (hofp : ctf_noerr ofp = ctf_noerr fp0)
    (it : List ctf_next_t) (rest : List (String × Int)) (hat : ctf_enum_at fp0 l it rest) :
    ∃ r, ctf_enum_next (fuel + 2) ofp type it = some r ∧ ctf_enum_post fp0 l rest r := by
  have hnseq : ofp.LCTF_NO_STR = fp0.LCTF_NO_STR := congrArg (fun x => x.LCTF_NO_STR) hofp
  have haddr : ofp.ctf_addr = fp0.ctf_addr := congrArg (fun d => d.ctf_addr) hofp
  obtain ⟨hup, hcur⟩ := ctf_cur_lookup hl
  have hs : l.tp.kind ≠ .CTF_K_SLICE := by rcases hk with h | h <;> rw [h] <;> decide
  -- the part of the call after the `if (!i)` block
  have hbody : ∀ (i : ctf_next_t) (sub : List ctf_next_t) (rest : List (String × Int)),
      ctf_enum_at fp0 l (i :: sub) rest →
      ∃ r, ctf_enum_next_body ofp type i sub = some r ∧ ctf_enum_post fp0 l rest r := by
    intro i sub rest ⟨h1, h2, h3, h4, h5⟩
    have hg := ctf_get_dict_congr hofp type
    rw [(ctf_lookup_by_id_get_dict hl).1] at hg
    cases hgo : ctf_get_dict ofp type with
    | none => simp [hgo] at hg
    | some fpn =>
      simp only [hgo, Option.map_some', Option.some.injEq] at hg
      have hkv : (ctf_type_kind fpn type).val = some l.tp.kind := by
        rw [ctf_type_kind_congr hg type, ctf_type_kind_lookup (ctf_lookup_by_id_native hl) hs]
      have hkfp : ctf_noerr (ctf_type_kind fpn type).fp = ctf_noerr fpn :=
        ctf_type_kind_noerr fpn type
      have hchild : ofp.LCTF_CHILD = fp0.LCTF_CHILD := congrArg (fun d => d.LCTF_CHILD) hofp
      have hisp : ctf_type_isparent ofp type = ctf_type_isparent fp0 type := by
        rw [← ctf_type_isparent_noerr ofp, ← ctf_type_isparent_noerr fp0, hofp]
      have hup' : (ofp.LCTF_CHILD && ctf_type_isparent ofp type != 0) = l.up := by
        rw [hchild, hisp, hup]
      have hput : ctf_noerr (ctf_put ofp l.up (ctf_type_kind fpn type).fp) = ctf_noerr fp0 := by
        refine (ctf_noerr_put ofp l.up _ ?_).trans hofp
        rw [hkfp, hg, ctf_noerr_cur hofp l.up, hcur]
      unfold ctf_enum_next_body
      rw [if_neg (by simp [h1]), if_neg (by simp [haddr, h2])]
      simp only [hgo, hup', hkv]
      cases rest with
      | nil =>
        rw [if_pos (by simpa using h3)]
        exact ⟨_, rfl, hofp, rfl, rfl, rfl⟩
      | cons x rest' =>
        rw [if_neg (by simp [h3])]
        rcases hk with hk | hk
        · have h4' := h4 hk
          rw [if_pos (by rw [hk])]
          cases hen : i.ctn_en with
          | nil => rw [hen] at h4'; cases h4'
          | cons e tl =>
            rw [hen] at h4'
            simp only [List.map_cons, List.cons.injEq] at h4'
            obtain ⟨hx, hrest⟩ := h4'
            refine ⟨_, rfl, hput, by rw [hx], by rw [hx], h1, h2, ?_, fun _ => hrest, ?_⟩
            · simp [h3]
            · intro h; rw [hk] at h; cases h
        · have h5' := h5 hk
          rw [if_neg (by rw [hk]; decide)]
          cases hen : i.ctn_en64 with
          | nil => rw [hen] at h5'; cases h5'
          | cons e tl =>
            rw [hen] at h5'
            simp only [List.map_cons, List.cons.injEq] at h5'
            obtain ⟨hx, hrest⟩ := h5'
            refine ⟨_, rfl, hput, by rw [hx], by rw [hx], h1, h2, ?_, ?_, fun _ => hrest⟩
            · simp [h3]
            · intro h; rw [hk] at h; cases h
  unfold ctf_enum_next
  rw [if_neg (by simp [hnseq, hns])]
  cases it with
  | nil =>
    have hrest : rest = ctf_enum_pairs l.tp := hat
    subst hrest
    obtain ⟨i0, hi0, ho⟩ := ctf_enum_next_open_enum fuel fp0 type l hl hk ht ofp hofp
    simp only [ho]
    exact hbody i0 [] _ hi0
  | cons i sub =>
    have ho : ctf_enum_next_open (fuel + 2) ofp type (i :: sub)
        = some (.ok (ofp, type, i, sub)) := rfl
    simp only [ho]
    exact hbody i sub rest hat

/-- A full iteration with `ctf_enum_next` returns exactly the pairs that are still
to be returned and ends with `ECTF_NEXT_END`. -/
theorem ctf_enum_next_all_run (fuel : Nat) (fp0 : ctf_dict_t) (type : Nat) (l : ctf_lookup_t)
    (hl : ctf_lookup_by_id fp0 type = .ok l)
    (hk : l.tp.kind = .CTF_K_ENUM ∨ l.tp.kind = .CTF_K_ENUM64) (ht : type ≠ CTF_ERR)
    (hns : fp0.LCTF_NO_STR = false) :
    ∀ (rest : List (String × Int)) (it : List ctf_next_t) (ofp : ctf_dict_t) (n : Nat),
      ctf_noerr ofp = ctf_noerr fp0 → ctf_enum_at fp0 l it rest → rest.length + 1 ≤ n →
      ∃ fp', ctf_enum_next_all n (fuel + 2) ofp type it = some (rest, fp') ∧
        fp'.ctf_errno = .ECTF_NEXT_END ∧ ctf_noerr fp' = ctf_noerr fp0 := by
  intro rest
  induction rest with
  | nil =>
    intro it ofp n hofp hat hn
    obtain ⟨n, rfl⟩ : ∃ n', n = n' + 1 := ⟨n - 1, by omega⟩
    obtain ⟨r, hr, hne, hret, _, herr⟩ :=
      ctf_enum_next_step fuel fp0 type l hl hk ht hns ofp hofp it [] hat
    simp only [ctf_enum_next_all, hr, hret]
    exact ⟨r.fp, rfl, herr, hne⟩
  | cons x rest ih =>
    intro it ofp n hofp hat hn
    obtain ⟨n, rfl⟩ : ∃ n', n = n' + 1 := ⟨n - 1, by omega⟩
    obtain ⟨r, hr, hne, hret, hval, hat'⟩ :=
      ctf_enum_next_step fuel fp0 type l hl hk ht hns ofp hofp it (x :: rest) hat
    obtain ⟨fp', ha, herr, hne'⟩ := ih r.it r.fp n hne hat'
      (by simp only [List.length_cons] at hn; omega)
    simp only [ctf_enum_next_all, hr, hret, ha, hval, Option.getD_some]
    exact ⟨fp', rfl, herr, hne'⟩

theorem ctf_enum64_value_eq (e : ctf_enum64_t) :
    ctf_enum64_value e = int64 (u32 e.cte_val_high * 4294967296 + u32 e.cte_val_low) := by
  have hl : u32 e.cte_val_low < 2 ^ 32 := by unfold u32; exact Nat.mod_lt _ (by norm_num)
  have hh : u32 e.cte_val_high < 4294967296 := by unfold u32; exact Nat.mod_lt _ (by norm_num)
  have hmod : u32 e.cte_val_high * 4294967296 % 18446744073709551616
      = u32 e.cte_val_high * 4294967296 := Nat.mod_eq_of_lt (by omega)
  have hor := Nat.mul_add_lt_is_or hl (u32 e.cte_val_high)
  have h32 : (2 : Nat) ^ 32 = 4294967296 := by norm_num
  rw [h32, Nat.mul_comm] at hor
  unfold ctf_enum64_value
  rw [hmod, ← hor]

theorem ctf_enum_pairs_length (tp : ctf_type_t) :
    (ctf_enum_pairs tp).length = LCTF_VLEN_enum tp := by
  unfold ctf_enum_pairs LCTF_VLEN_enum
  split_ifs <;> simp

/-- C18: for every type that is itself an ENUM or ENUM64 with `n` stored enumerators,
`n + 1` calls of `ctf_enum_next` return exactly `n` (name, value) pairs, those of the
enumerator array in stored order, and end with `ECTF_NEXT_END`; the value of a 32-bit
enumerator is its `cte_value`, that of a 64-bit enumerator is
`cte_val_high * 2^32 + cte_val_low` read as a signed 64-bit number.  A type for which
`ctf_type_resolve_unsliced` returns a type whose kind (looking through slices) is
neither ENUM nor ENUM64 fails with `ECTF_NOTENUM`, and no iterator is created. -/
theorem ctf_enum_next_returns_all (fp : ctf_dict_t) (type : Nat)
    (hns : fp.LCTF_NO_STR = false) :
    (∀ l, ctf_lookup_by_id fp type = .ok l →
      l.tp.kind = .CTF_K_ENUM ∨ l.tp.kind = .CTF_K_ENUM64 → type ≠ CTF_ERR →
      ∃ items fp', ctf_enum_next_all (LCTF_VLEN_enum l.tp + 1) 2 fp type [] = some (items, fp') ∧
        fp'.ctf_errno = .ECTF_NEXT_END ∧ items.length = LCTF_VLEN_enum l.tp ∧
        (l.tp.kind = .CTF_K_ENUM →
          items = l.tp.enumerators.map fun e => (e.cte_name, e.cte_value)) ∧
        (l.tp.kind = .CTF_K_ENUM64 →
          items = l.tp.enumerators64.map fun e =>
            (e.cte_name, int64 (u32 e.cte_val_high * 4294967296 + u32 e.cte_val_low)))) ∧
    (∀ fuel r, ctf_type_resolve_unsliced fuel fp type = some r → r.val ≠ CTF_ERR →
      (ctf_type_kind r.fp r.val).val ≠ some .CTF_K_ENUM →
      (ctf_type_kind r.fp r.val).val ≠ some .CTF_K_ENUM64 →
      ∃ fp', ctf_enum_next fuel fp type [] = some { ret := none, it := [], fp := fp' } ∧
        fp'.ctf_errno = .ECTF_NOTENUM) := by
  refine ⟨?_, ?_⟩
  · intro l hl hk ht
    obtain ⟨fp', ha, herr, _⟩ := ctf_enum_next_all_run 0 fp type l hl hk ht hns
      (ctf_enum_pairs l.tp) [] fp (LCTF_VLEN_enum l.tp + 1) rfl rfl
      (by rw [ctf_enum_pairs_length])
    refine ⟨_, fp', ha, herr, ctf_enum_pairs_length l.tp, ?_, ?_⟩
    · intro h
      simp [ctf_enum_pairs, h]
    · intro h
      simp only [ctf_enum_pairs, h, ↓reduceIte, ctf_enum64_value_eq]
  · intro fuel r hr hv h1 h2
    refine ⟨(ctf_set_errno (ctf_type_kind r.fp r.val).fp .ECTF_NOTENUM).fp, ?_, rfl⟩
    simp only [ctf_enum_next, hns, Bool.false_eq_true, ↓reduceIte, ctf_enum_next_open, hr,
      if_neg hv]
    rw [if_pos ⟨h1, h2⟩]

/-- Witness of C18 on `enum_dict`: the 32-bit enum 1, the 64-bit enum 2, and `int`,
which is no enum. -/
theorem ctf_enum_next_returns_all_witness :
    (ctf_enum_next_all 5 2 enum_dict 1 []).map Prod.fst
      = some [("RED", 0), ("GREEN", 1), ("LIME", 1), ("NEG", -2)] ∧
    (ctf_enum_next_all 3 2 enum_dict 2 []).map Prod.fst
      = some [("BIG", 4294967296), ("ALL", -1)] ∧
    (∃ items fp', ctf_enum_next_all (LCTF_VLEN_enum (LCTF_INDEX_TO_TYPEPTR enum_dict 2) + 1) 2
        enum_dict 2 [] = some (items, fp') ∧
      fp'.ctf_errno = .ECTF_NEXT_END ∧
      items.length = LCTF_VLEN_enum (LCTF_INDEX_TO_TYPEPTR enum_dict 2) ∧
      ((LCTF_INDEX_TO_TYPEPTR enum_dict 2).kind = .CTF_K_ENUM →
        items = (LCTF_INDEX_TO_TYPEPTR enum_dict 2).enumerators.map
          fun e => (e.cte_name, e.cte_value)) ∧
      ((LCTF_INDEX_TO_TYPEPTR enum_dict 2).kind = .CTF_K_ENUM64 →
        items = (LCTF_INDEX_TO_TYPEPTR enum_dict 2).enumerators64.map fun e =>
          (e.cte_name, int64 (u32 e.cte_val_high * 4294967296 + u32 e.cte_val_low)))) ∧
    ∃ fp', ctf_enum_next 2 enum_dict 3 [] = some { ret := none, it := [], fp := fp' } ∧
      fp'.ctf_errno = .ECTF_NOTENUM :=
  ⟨by decide, by decide,
   (ctf_enum_next_returns_all enum_dict 2 rfl).1
     ⟨enum_dict, false, LCTF_INDEX_TO_TYPEPTR enum_dict 2⟩ rfl (Or.inr rfl) (by decide),
   (ctf_enum_next_returns_all enum_dict 3 rfl).2 2 ⟨3, enum_dict⟩ (by decide) (by decide)
     (by decide) (by decide)⟩

/-- The common start of `ctf_enum_name` and `ctf_enum_value` on a type that is
itself an enum. -/
theorem ctf_enum_lookup_enum (fuel : Nat) (fp : ctf_dict_t) (type : Nat) (l : ctf_lookup_t)
    (hns : fp.LCTF_NO_STR = false) (hl : ctf_lookup_by_id fp type = .ok l)
    (hk : l.tp.kind = .CTF_K_ENUM ∨ l.tp.kind = .CTF_K_ENUM64) (ht : type ≠ CTF_ERR) :
    ctf_enum_lookup (fuel + 2) fp type
      = some (.ok (fp, l.tp.kind, l.tp, LCTF_VLEN_enum l.tp)) := by
  have href : l.tp.kind.is_ref = false := by rcases hk with h | h <;> rw [h] <;> rfl
  have hu : l.tp.kind ≠ .CTF_K_UNKNOWN := by rcases hk with h | h <;> rw [h] <;> decide
  have hs : l.tp.kind ≠ .CTF_K_SLICE := by rcases hk with h | h <;> rw [h] <;> decide
  have hr := ctf_type_resolve_unsliced_base fuel fp type l hl href hu hs
  unfold ctf_enum_lookup
  simp only [hns, Bool.false_eq_true, ↓reduceIte, hr, if_neg ht, hl, ctf_vlen_enum_lookup hl]
  rw [if_neg (by rcases hk with h | h <;> simp [h])]

theorem ctf_enum_name_enum (fuel : Nat) (fp : ctf_dict_t) (type : Nat) (l : ctf_lookup_t)
    (hns : fp.LCTF_NO_STR = false) (hl : ctf_lookup_by_id fp type = .ok l)
    (hk : l.tp.kind = .CTF_K_ENUM ∨ l.tp.kind = .CTF_K_ENUM64) (ht : type ≠ CTF_ERR)
    (v : Int) :
    ctf_enum_name (fuel + 2) fp type v =
      match (ctf_enum_pairs l.tp).find? fun x => decide (x.2 = v) with
      | some x => some ⟨some x.1, fp⟩
      | none => some ⟨none, (ctf_set_errno fp .ECTF_NOENUMNAM).fp⟩ := by
  unfold ctf_enum_name
  simp only [ctf_enum_lookup_enum fuel fp type l hns hl hk ht]
  rcases hk with hk | hk
  · have hne : ¬ (ctf_kind.CTF_K_ENUM = ctf_kind.CTF_K_ENUM64) := by decide
    simp only [hk, hne, ↓reduceIte, LCTF_VLEN_enum, ctf_enum_pairs, List.take_length]
    generalize l.tp.enumerators = L
    induction L with
    | nil => rfl
    | cons a L ih =>
      by_cases h : a.cte_value = v
      · simp [List.find?_cons, h]
      · simpa [List.find?_cons, h] using ih
  · have hne : ¬ (ctf_kind.CTF_K_ENUM64 = ctf_kind.CTF_K_ENUM) := by decide
    simp only [hk, hne, ↓reduceIte, LCTF_VLEN_enum, ctf_enum_pairs, List.take_length]
    generalize l.tp.enumerators64 = L
    induction L with
    | nil => rfl
    | cons a L ih =>
      by_cases h : ctf_enum64_value a = v
      · simp [List.find?_cons, h]
      · simpa [List.find?_cons, h] using ih

theorem ctf_enum_value_enum (fuel : Nat) (fp : ctf_dict_t) (type : Nat) (l : ctf_lookup_t)
    (hns : fp.LCTF_NO_STR = false) (hl : ctf_lookup_by_id fp type = .ok l)
    (hk : l.tp.kind = .CTF_K_ENUM ∨ l.tp.kind = .CTF_K_ENUM64) (ht : type ≠ CTF_ERR)
    (s : String) :
    ctf_enum_value (fuel + 2) fp type s =
      match (ctf_enum_pairs l.tp).find? fun x => decide (x.1 = s) with
      | some x => some { ret := 0, valp := some x.2, fp := fp }
      | none => some { ret := -1, fp := (ctf_set_errno fp .ECTF_NOENUMNAM).fp } := by
  unfold ctf_enum_value
  simp only [ctf_enum_lookup_enum fuel fp type l hns hl hk ht]
  rcases hk with hk | hk
  · have hne : ¬ (ctf_kind.CTF_K_ENUM = ctf_kind.CTF_K_ENUM64) := by decide
    simp only [hk, hne, ↓reduceIte, LCTF_VLEN_enum, ctf_enum_pairs, List.take_length]
    generalize l.tp.enumerators = L
    induction L with
    | nil => rfl
    | cons a L ih =>
      by_cases h : a.cte_name = s
      · simp [List.find?_cons, h]
      · simpa [List.find?_cons, h] using ih
  · have hne : ¬ (ctf_kind.CTF_K_ENUM64 = ctf_kind.CTF_K_ENUM) := by decide
    simp only [hk, hne, ↓reduceIte, LCTF_VLEN_enum, ctf_enum_pairs, List.take_length]
    generalize l.tp.enumerators64 = L
    induction L with
    | nil => rfl
    | cons a L ih =>
      by_cases h : a.cte_name = s
      · simp [List.find?_cons, h]
      · simpa [List.find?_cons, h] using ih

theorem ctf_find_name_of_value (v : Int) (s : String) :
    ∀ (P : List (String × Int)) (x : String × Int),
      P.find? (fun x => decide (x.2 = v)) = some x → x.1 = s →
      (∀ y ∈ P.takeWhile (fun x => !decide (x.2 = v)), y.1 ≠ s) →
      ∃ y, P.find? (fun x => decide (x.1 = s)) = some y ∧ y.2 = v := by
  intro P
  induction P with
  | nil => intro x h; cases h
  | cons a P ih =>
    intro x h hs hearly
    by_cases hv : a.2 = v
    · simp only [List.find?_cons, hv, decide_True] at h
      simp only [Option.some.injEq] at h
      subst h
      exact ⟨a, by simp [List.find?_cons, hs], hv⟩
    · simp only [List.find?_cons, hv, decide_False] at h
      have hmem : a ∈ (a :: P).takeWhile (fun x => !decide (x.2 = v)) := by
        simp [List.takeWhile_cons, hv]
      have hna : a.1 ≠ s := hearly a hmem
      obtain ⟨y, hy, hyv⟩ := ih x h hs (fun y hy => hearly y (by
        simp only [List.takeWhile_cons, hv, decide_False, Bool.not_false, ↓reduceIte]
        exact List.mem_cons_of_mem _ hy))
      exact ⟨y, by simp [List.find?_cons, hna, hy], hyv⟩

/-- C19: for every type that is itself an enum (32- or 64-bit), `ctf_enum_name`
returns the name of the first enumerator whose value is `v` and `ctf_enum_value` the
value of the first enumerator named `s`; each fails with `ECTF_NOENUMNAM` exactly
when no enumerator matches; and when `ctf_enum_name` returns `s` for `v`, and `s` is
the name of no enumerator before the first one with value `v`, `ctf_enum_value`
returns 0 and the value `v` for `s`. -/
theorem ctf_enum_name_value_consistent (fp : ctf_dict_t) (type : Nat) (l : ctf_lookup_t)
    (fuel : Nat) (hns : fp.LCTF_NO_STR = false) (hl : ctf_lookup_by_id fp type = .ok l)
    (hk : l.tp.kind = .CTF_K_ENUM ∨ l.tp.kind = .CTF_K_ENUM64) (ht : type ≠ CTF_ERR) :
    (∀ v, ∃ r, ctf_enum_name (fuel + 2) fp type v = some r ∧
      r.val = ((ctf_enum_pairs l.tp).find? fun x => decide (x.2 = v)).map Prod.fst ∧
      ((r.val = none ∧ r.fp.ctf_errno = .ECTF_NOENUMNAM) ↔
        ∀ y ∈ ctf_enum_pairs l.tp, y.2 ≠ v)) ∧
    (∀ s, ∃ r, ctf_enum_value (fuel + 2) fp type s = some r ∧
      r.valp = ((ctf_enum_pairs l.tp).find? fun x => decide (x.1 = s)).map Prod.snd ∧
      (r.valp ≠ none → r.ret = 0) ∧
      ((r.ret = -1 ∧ r.fp.ctf_errno = .ECTF_NOENUMNAM) ↔
        ∀ y ∈ ctf_enum_pairs l.tp, y.1 ≠ s)) ∧
    (∀ v s r, ctf_enum_name (fuel + 2) fp type v = some r → r.val = some s →
      (∀ y ∈ (ctf_enum_pairs l.tp).takeWhile (fun x => !decide (x.2 = v)), y.1 ≠ s) →
      ctf_enum_value (fuel + 2) fp type s = some { ret := 0, valp := some v, fp := fp }) := by
  have hN := ctf_enum_name_enum fuel fp type l hns hl hk ht
  have hV := ctf_enum_value_enum fuel fp type l hns hl hk ht
  refine ⟨?_, ?_, ?_⟩
  · intro v
    rw [hN v]
    cases hf : (ctf_enum_pairs l.tp).find? fun x => decide (x.2 = v) with
    | none =>
      refine ⟨_, rfl, rfl, fun _ => ?_, fun _ => ⟨rfl, rfl⟩⟩
      intro y hy
      have := List.find?_eq_none.1 hf y hy
      simpa using this
    | some x =>
      refine ⟨_, rfl, rfl, fun h => ?_, fun h => ?_⟩
      · cases h.1
      · have hx := List.find?_some hf
        have hm := List.mem_of_find?_eq_some hf
        exact absurd (by simpa using hx) (h x hm)
  · intro s
    rw [hV s]
    cases hf : (ctf_enum_pairs l.tp).find? fun x => decide (x.1 = s) with
    | none =>
      refine ⟨_, rfl, rfl, fun h => absurd rfl h, fun _ => ?_, fun _ => ⟨rfl, rfl⟩⟩
      intro y hy
      have := List.find?_eq_none.1 hf y hy
      simpa using this
    | some x =>
      refine ⟨_, rfl, rfl, fun _ => rfl, fun h => ?_, fun h => ?_⟩
      · have h1 : (0 : Int) = -1 := h.1
        omega
      · have hx := List.find?_some hf
        have hm := List.mem_of_find?_eq_some hf
        exact absurd (by simpa using hx) (h x hm)
  · intro v s r hr hs hearly
    rw [hN v] at hr
    cases hf : (ctf_enum_pairs l.tp).find? fun x => decide (x.2 = v) with
    | none =>
      simp only [hf, Option.some.injEq] at hr
      subst hr
      cases hs
    | some x =>
      simp only [hf, Option.some.injEq] at hr
      subst hr
      simp only [Option.some.injEq] at hs
      obtain ⟨y, hy, hyv⟩ := ctf_find_name_of_value v s _ x hf hs hearly
      rw [hV s, hy]
      simp only [hyv]

/-- Witness of C19 on the enum 1 of `enum_dict`: the value 1 belongs to `GREEN`
and to `LIME`; the name found for it is `GREEN`, whose value is 1. -/
theorem ctf_enum_name_value_consistent_witness :
    ctf_enum_name 2 enum_dict 1 1 = some ⟨some "GREEN", enum_dict⟩ ∧
    ctf_enum_value 2 enum_dict 1 "LIME" = some { ret := 0, valp := some 1, fp := enum_dict } ∧
    ctf_enum_name 2 enum_dict 1 7
      = some ⟨none, (ctf_set_errno enum_dict .ECTF_NOENUMNAM).fp⟩ ∧
    ctf_enum_value (0 + 2) enum_dict 1 "GREEN"
      = some { ret := 0, valp := some 1, fp := enum_dict } :=
  ⟨by decide, by decide, by decide,
   (ctf_enum_name_value_consistent enum_dict 1
      ⟨enum_dict, false, LCTF_INDEX_TO_TYPEPTR enum_dict 1⟩ 0 rfl rfl (Or.inl rfl)
      (by decide)).2.2 1 "GREEN" ⟨some "GREEN", enum_dict⟩ (by decide) rfl (by decide)⟩

/-! ## Theorems: end of iteration and restart -/

theorem ctf_variable_next_step (fp : ctf_dict_t)
    (hpar : ¬ (fp.LCTF_CHILD = true ∧ fp.ctf_parent = none)) (it : List ctf_next_t)
    (hit : ctf_variable_it_ok fp it) :
    (ctf_variable_list fp it = [] ∧ (ctf_variable_next fp it).ret = CTF_ERR ∧
      (ctf_variable_next fp it).it = [] ∧
      (ctf_variable_next fp it).fp = (ctf_set_typed_errno fp .ECTF_NEXT_END).fp) ∨
    (ctf_variable_list fp it =
        (((ctf_variable_next fp it).name).getD "", (ctf_variable_next fp it).ret) ::
          ctf_variable_list fp (ctf_variable_next fp it).it ∧
      (ctf_variable_next fp it).fp = fp ∧ ctf_variable_it_ok fp (ctf_variable_next fp it).it) := by
  have hcons : ∀ (i : ctf_next_t) (sub : List ctf_next_t),
      i.ctn_iter_fun = .ctf_variable_next → i.ctn_fp = fp.ctf_addr →
      (ctf_variable_list fp (i :: sub) = [] ∧ (ctf_variable_next fp (i :: sub)).ret = CTF_ERR ∧
        (ctf_variable_next fp (i :: sub)).it = [] ∧
        (ctf_variable_next fp (i :: sub)).fp = (ctf_set_typed_errno fp .ECTF_NEXT_END).fp) ∨
      (ctf_variable_list fp (i :: sub) =
          (((ctf_variable_next fp (i :: sub)).name).getD "", (ctf_variable_next fp (i :: sub)).ret) ::
            ctf_variable_list fp (ctf_variable_next fp (i :: sub)).it ∧
        (ctf_variable_next fp (i :: sub)).fp = fp ∧
        ctf_variable_it_ok fp (ctf_variable_next fp (i :: sub)).it) := by
    intro i sub h1 h2
    have hf : ¬ (i.ctn_iter_fun ≠ .ctf_variable_next) := by simp [h1]
    have ha : ¬ (fp.ctf_addr ≠ i.ctn_fp) := by simp [h2]
    by_cases hn : i.ctn_n < ctf_nvars fp
    · right
      have hlen : i.ctn_n < fp.ctf_vars.length := hn
      simp only [ctf_variable_next, if_neg hpar, List.tail_cons, if_neg hf, if_neg ha, if_pos hn,
        ctf_variable_list, Option.getD_some]
      refine ⟨?_, trivial, h1, h2⟩
      rw [List.drop_eq_getElem_cons hlen, List.getD_eq_getElem _ _ hlen]
      rfl
    · have hlen : fp.ctf_vars.length ≤ i.ctn_n := Nat.le_of_not_lt hn
      cases hd : i.ctn_dvd with
      | nil =>
        left
        simp only [ctf_variable_next, if_neg hpar, List.tail_cons, if_neg hf, if_neg ha, if_neg hn,
          hd, ctf_variable_list, List.drop_eq_nil_of_le hlen, List.map_nil, List.append_nil]
        exact ⟨trivial, rfl, trivial, trivial⟩
      | cons d rest =>
        right
        simp only [ctf_variable_next, if_neg hpar, List.tail_cons, if_neg hf, if_neg ha, if_neg hn,
          hd, ctf_variable_list, List.drop_eq_nil_of_le hlen, List.map_nil, List.nil_append,
          List.map_cons, Option.getD_some]
        exact ⟨trivial, trivial, h1, h2⟩
  cases it with
  | nil =>
    have hnew : ctf_variable_next fp [] = ctf_variable_next fp
        [{ ctn_iter_fun := .ctf_variable_next, ctn_fp := fp.ctf_addr,
           ctn_dvd := fp.ctf_dvdefs }] := by
      simp only [ctf_variable_next, if_neg hpar, List.tail_nil, List.tail_cons]
    have hlist : ctf_variable_list fp [] = ctf_variable_list fp
        [{ ctn_iter_fun := .ctf_variable_next, ctn_fp := fp.ctf_addr,
           ctn_dvd := fp.ctf_dvdefs }] := rfl
    rw [hnew, hlist]
    exact hcons _ [] rfl rfl
  | cons i sub =>
    obtain ⟨h1, h2⟩ := hit
    exact hcons i sub h1 h2

/-- A full iteration with `ctf_variable_next` over variables none of which has the
type ID `CTF_ERR` returns the variables that are still to be returned; the call
that ends it returns `CTF_ERR` with `ECTF_NEXT_END` and clears the slot. -/
theorem ctf_variable_next_all_eq (fp : ctf_dict_t)
    (hpar : ¬ (fp.LCTF_CHILD = true ∧ fp.ctf_parent = none)) :
    ∀ (n : Nat) (it : List ctf_next_t), ctf_variable_it_ok fp it →
      (∀ x ∈ ctf_variable_list fp it, x.2 ≠ CTF_ERR) →
      (ctf_variable_list fp it).length + 1 ≤ n →
      ctf_variable_next_all n fp it =
        some (ctf_variable_list fp it, (ctf_set_typed_errno fp .ECTF_NEXT_END).fp) ∧
      ∃ r, ctf_variable_next_end n fp it = some r ∧ r.ret = CTF_ERR ∧ r.it = [] ∧
        r.fp = (ctf_set_typed_errno fp .ECTF_NEXT_END).fp := by
  intro n
  induction n with
  | zero => intro it _ _ hn; omega
  | succ n ih =>
    intro it hit hne hn
    rcases ctf_variable_next_step fp hpar it hit with ⟨hl, hret, hslot, hfp⟩ | ⟨hl, hfp, hok⟩
    · refine ⟨?_, ctf_variable_next fp it, ?_, hret, hslot, hfp⟩
      · simp only [ctf_variable_next_all]
        rw [if_pos hret, hl, hfp]
      · simp only [ctf_variable_next_end]
        rw [if_pos hret]
    · have hret : (ctf_variable_next fp it).ret ≠ CTF_ERR :=
        hne _ (by rw [hl]; exact List.mem_cons_self _ _)
      have hne' : ∀ x ∈ ctf_variable_list fp (ctf_variable_next fp it).it, x.2 ≠ CTF_ERR :=
        fun x hx => hne x (by rw [hl]; exact List.mem_cons_of_mem _ hx)
      have hn' : (ctf_variable_list fp (ctf_variable_next fp it).it).length + 1 ≤ n := by
        rw [hl] at hn
        simp only [List.length_cons] at hn
        omega
      obtain ⟨ha, r, he, h1, h2, h3⟩ := ih _ hok hne' hn'
      refine ⟨?_, r, ?_, h1, h2, h3⟩
      · simp only [ctf_variable_next_all]
        rw [if_neg hret, hfp, ha]
        simp only []
        rw [← hl]
      · simp only [ctf_variable_next_end]
        rw [if_neg hret, hfp, he]

/-- The call that ends a full iteration with `ctf_type_next` returns `CTF_ERR` with
`ECTF_NEXT_END` and clears the slot. -/
theorem ctf_type_next_end_eq (fp : ctf_dict_t) (wh : Int) (hmax : fp.ctf_typemax < 4294967296)
    (fuel : Nat) (hfuel : fp.ctf_typemax + 1 ≤ fuel) :
    ∀ (n : Nat) (it : List ctf_next_t), ctf_type_it_ok fp it →
      (ctf_type_list fp wh (ctf_type_it_pos it)).length + 1 ≤ n →
      ∃ r, ctf_type_next_end n fuel fp it wh = some r ∧ r.ret = CTF_ERR ∧ r.it = [] ∧
        r.fp = (ctf_set_typed_errno fp .ECTF_NEXT_END).fp := by
  intro n
  induction n with
  | zero => intro it _ hn; omega
  | succ n ih =>
    intro it hit hn
    obtain ⟨r, hr, hcase⟩ := ctf_type_next_step fp wh hmax fuel hfuel it hit
    simp only [ctf_type_next_end, hr]
    rcases hcase with ⟨_, hret, hslot, hfp⟩ | ⟨hok, hfp, hret, hl⟩
    · rw [if_pos hret]
      exact ⟨r, rfl, hret, hslot, hfp⟩
    · rw [if_neg hret]
      rw [hl] at hn
      simp only [List.length_cons] at hn
      rw [hfp]
      exact ih r.it hok (by omega)

/-- The call that ends a full iteration with `ctf_enum_next` returns `NULL` with
`ECTF_NEXT_END` and clears the slot. -/
theorem ctf_enum_next_end_run (fuel : Nat) (fp0 : ctf_dict_t) (type : Nat) (l : ctf_lookup_t)
    (hl : ctf_lookup_by_id fp0 type = .ok l)
    (hk : l.tp.kind = .CTF_K_ENUM ∨ l.tp.kind = .CTF_K_ENUM64) (ht : type ≠ CTF_ERR)
    (hns : fp0.LCTF_NO_STR = false) :
    ∀ (rest : List (String × Int)) (it : List ctf_next_t) (ofp : ctf_dict_t) (n : Nat),
      ctf_noerr ofp = ctf_noerr fp0 → ctf_enum_at fp0 l it rest → rest.length + 1 ≤ n →
      ∃ r, ctf_enum_next_end n (fuel + 2) ofp type it = some r ∧ r.ret = none ∧ r.it = [] ∧
        r.fp.ctf_errno = .ECTF_NEXT_END ∧ ctf_noerr r.fp = ctf_noerr fp0 ∧
        ctf_enum_next_all n (fuel + 2) ofp type it = some (rest, r.fp) := by
  intro rest
  induction rest with
  | nil =>
    intro it ofp n hofp hat hn
    obtain ⟨n, rfl⟩ : ∃ n', n = n' + 1 := ⟨n - 1, by omega⟩
    obtain ⟨r, hr, hne, hret, hslot, herr⟩ :=
      ctf_enum_next_step fuel fp0 type l hl hk ht hns ofp hofp it [] hat
    simp only [ctf_enum_next_end, ctf_enum_next_all, hr, hret]
    exact ⟨r, rfl, hret, hslot, herr, hne, rfl⟩
  | cons x rest ih =>
    intro it ofp n hofp hat hn
    obtain ⟨n, rfl⟩ : ∃ n', n = n' + 1 := ⟨n - 1, by omega⟩
    obtain ⟨r, hr, hne, hret, hval, hat'⟩ :=
      ctf_enum_next_step fuel fp0 type l hl hk ht hns ofp hofp it (x :: rest) hat
    obtain ⟨r', he, h1, h2, h3, h4, ha⟩ := ih r.it r.fp n hne hat'
      (by simp only [List.length_cons] at hn; omega)
    simp only [ctf_enum_next_end, ctf_enum_next_all, hr, hret, ha, hval, Option.getD_some, he]
    exact ⟨r', rfl, h1, h2, h3, h4, rfl⟩

theorem ctf_member_next_end_mono (flags : Nat) (f1 f2 : Nat) (hle : f1 ≤ f2) (type : Nat) :
    ∀ (n : Nat) (ofp : ctf_dict_t) (it : List ctf_next_t) (x : ctf_member_ret),
      ctf_member_next_end n f1 ofp type flags it = some x →
      ctf_member_next_end n f2 ofp type flags it = some x := by
  intro n
  induction n with
  | zero => intro ofp it x h; cases h
  | succ n ih =>
    intro ofp it x h
    simp only [ctf_member_next_end] at h ⊢
    cases hc : ctf_member_next f1 ofp type it flags with
    | none => simp [hc] at h
    | some r =>
      rw [ctf_member_next_mono_le flags f1 f2 hle ofp type it r hc]
      simp only [hc] at h ⊢
      split_ifs at h ⊢
      · exact h
      · exact ih _ _ x h

/-- The call that ends a full iteration with `ctf_member_next`, with enough fuel,
returns `-1` with `ECTF_NEXT_END` and clears the slot. -/
theorem ctf_member_next_end_run (flags : Nat) (d : Nat) (fp0 : ctf_dict_t) (type : Nat) :
    ∀ (L : List (String × Nat × Int)) (it : List ctf_next_t) (ofp : ctf_dict_t),
      ctf_noerr ofp = ctf_noerr fp0 → ctf_member_at flags d fp0 type it L →
      ∃ F, ∀ fuel, F ≤ fuel → ∀ n, L.length + 1 ≤ n →
        ∃ r, ctf_member_next_end n fuel ofp type flags it = some r ∧ r.ret = -1 ∧ r.it = [] ∧
          r.fp.ctf_errno = .ECTF_NEXT_END ∧ ctf_noerr r.fp = ctf_noerr fp0 := by
  intro L
  induction L with
  | nil =>
    intro it ofp hofp hat
    obtain ⟨F, hF⟩ := ctf_member_next_run flags d fp0 type it [] ofp hofp hat
    refine ⟨F, fun fuel hfuel n hn => ?_⟩
    obtain ⟨n, rfl⟩ : ∃ n', n = n' + 1 := ⟨n - 1, by omega⟩
    obtain ⟨r, hr, hne, hret, hslot, herr⟩ := hF fuel hfuel
    simp only [ctf_member_next_end, hr]
    rw [if_pos (by rw [hret]; decide)]
    exact ⟨r, rfl, hret, hslot, herr, hne⟩
  | cons x L ih =>
    intro it ofp hofp hat
    obtain ⟨F, hF⟩ := ctf_member_next_run flags d fp0 type it (x :: L) ofp hofp hat
    obtain ⟨r0, hr0, hne0, hret0, hpos0, hname0, hmt0, _, hat0⟩ := hF F (le_refl _)
    obtain ⟨F', hF'⟩ := ih r0.it r0.fp hne0 hat0
    refine ⟨max F F', fun fuel hfuel n hn => ?_⟩
    obtain ⟨n, rfl⟩ : ∃ n', n = n' + 1 := ⟨n - 1, by omega⟩
    have hf1 : F ≤ fuel := (le_max_left _ _).trans hfuel
    have hf2 : F' ≤ fuel := (le_max_right _ _).trans hfuel
    have hr := ctf_member_next_mono_le flags F fuel hf1 ofp type it r0 hr0
    obtain ⟨r, he, h1, h2, h3, h4⟩ :=
      hF' fuel hf2 n (by simp only [List.length_cons] at hn; omega)
    simp only [ctf_member_next_end, hr]
    rw [if_neg (by omega)]
    exact ⟨r, he, h1, h2, h3, h4⟩

/-- The dict after a call that ended an iteration differs from the dict before in
its error code only: the types listed are the same. -/
theorem ctf_type_list_errno (fp : ctf_dict_t) (e : ctf_error) (wh : Int) (s : Nat) :
    ctf_type_list (ctf_set_typed_errno fp e).fp wh s = ctf_type_list fp wh s := rfl

theorem ctf_member_next_end_all (fuel type flags : Nat) :
    ∀ (n : Nat) (ofp : ctf_dict_t) (it : List ctf_next_t) (r : ctf_member_ret)
      (x : List (String × Nat × Int) × ctf_dict_t),
      ctf_member_next_end n fuel ofp type flags it = some r →
      ctf_member_next_all n fuel ofp type flags it = some x → x.2 = r.fp := by
  intro n
  induction n with
  | zero => intro ofp it r x h; cases h
  | succ n ih =>
    intro ofp it r x he ha
    simp only [ctf_member_next_end, ctf_member_next_all] at he ha
    cases hc : ctf_member_next fuel ofp type it flags with
    | none => simp [hc] at he
    | some r0 =>
      simp only [hc] at he ha
      by_cases hret : r0.ret < 0
      · rw [if_pos hret] at he ha
        simp only [Option.some.injEq] at he ha
        rw [← he, ← ha]
      · rw [if_neg hret] at he ha
        cases hrec : ctf_member_next_all n fuel r0.fp type flags r0.it with
        | none => simp [hrec] at ha
        | some y =>
          simp only [hrec, Option.some.injEq] at ha
          rw [← ha]
          exact ih _ _ r y he hrec

/-- C15: for `ctf_type_next`, `ctf_enum_next`, `ctf_member_next` and
`ctf_variable_next`, the call that ends a full iteration returns the failure sentinel
(`CTF_ERR`, `NULL`, `-1`, `CTF_ERR`) with the error of the dict set to
`ECTF_NEXT_END` and leaves the slot empty; a second full iteration, started on the
dict and the slot that this call left, returns the same sequence of items and ends
with `ECTF_NEXT_END` again.  The iterations are those over all types of a dict, over
a type that is itself an enum, over a struct or union whose nesting of unnamed
members is finite, and over variables none of which has the type ID `CTF_ERR`. -/
theorem ctf_next_end_restarts (fp : ctf_dict_t) :
    (∀ (wh : Int) (fuel n : Nat), fp.ctf_typemax < 4294967296 → fp.ctf_typemax + 1 ≤ fuel →
      fp.ctf_typemax + 1 ≤ n →
      ∃ r items fp2, ctf_type_next_end n fuel fp [] wh = some r ∧ r.ret = CTF_ERR ∧
        r.it = [] ∧ r.fp.ctf_errno = .ECTF_NEXT_END ∧
        ctf_type_next_all n fuel fp [] wh = some (items, r.fp) ∧
        ctf_type_next_all n fuel r.fp r.it wh = some (items, fp2) ∧
        fp2.ctf_errno = .ECTF_NEXT_END) ∧
    (∀ (type : Nat) (l : ctf_lookup_t) (fuel n : Nat), fp.LCTF_NO_STR = false →
      ctf_lookup_by_id fp type = .ok l →
      l.tp.kind = .CTF_K_ENUM ∨ l.tp.kind = .CTF_K_ENUM64 → type ≠ CTF_ERR →
      LCTF_VLEN_enum l.tp + 1 ≤ n →
      ∃ r items fp2, ctf_enum_next_end n (fuel + 2) fp type [] = some r ∧ r.ret = none ∧
        r.it = [] ∧ r.fp.ctf_errno = .ECTF_NEXT_END ∧
        ctf_enum_next_all n (fuel + 2) fp type [] = some (items, r.fp) ∧
        ctf_enum_next_all n (fuel + 2) r.fp type r.it = some (items, fp2) ∧
        fp2.ctf_errno = .ECTF_NEXT_END) ∧
    (∀ (type flags d : Nat) (L : List (String × Nat × Int)),
      ctf_member_flat flags d fp type = some L →
      ∃ F, ∀ fuel, F ≤ fuel →
        ∃ r fp2, ctf_member_next_end (L.length + 1) fuel fp type flags [] = some r ∧
          r.ret = -1 ∧ r.it = [] ∧ r.fp.ctf_errno = .ECTF_NEXT_END ∧
          ctf_member_next_all (L.length + 1) fuel fp type flags [] = some (L, r.fp) ∧
          ctf_member_next_all (L.length + 1) fuel r.fp type flags r.it = some (L, fp2) ∧
          fp2.ctf_errno = .ECTF_NEXT_END) ∧
    (∀ (n : Nat), ¬ (fp.LCTF_CHILD = true ∧ fp.ctf_parent = none) →
      (∀ v ∈ fp.ctf_vars, v.ctv_type ≠ CTF_ERR) →
      (∀ v ∈ fp.ctf_dvdefs, v.dvd_type ≠ CTF_ERR) →
      ctf_nvars fp + fp.ctf_dvdefs.length + 1 ≤ n →
      ∃ r items fp2, ctf_variable_next_end n fp [] = some r ∧ r.ret = CTF_ERR ∧
        r.it = [] ∧ r.fp.ctf_errno = .ECTF_NEXT_END ∧
        ctf_variable_next_all n fp [] = some (items, r.fp) ∧
        ctf_variable_next_all n r.fp r.it = some (items, fp2) ∧
        fp2.ctf_errno = .ECTF_NEXT_END) := by
  refine ⟨?_, ?_, ?_, ?_⟩
  · intro wh fuel n hmax hfuel hn
    have hlen := ctf_type_list_length_le fp wh 1
    have hn1 : (ctf_type_list fp wh (ctf_type_it_pos [])).length + 1 ≤ n := by
      simp only [ctf_type_it_pos]; omega
    obtain ⟨r, he, hret, hslot, hfp⟩ := ctf_type_next_end_eq fp wh hmax fuel hfuel n [] trivial hn1
    have ha := ctf_type_next_all_eq fp wh hmax fuel hfuel n [] trivial hn1
    have ha2 := ctf_type_next_all_eq (ctf_set_typed_errno fp .ECTF_NEXT_END).fp wh hmax fuel
      hfuel n [] trivial hn1
    refine ⟨r, ctf_type_list fp wh (ctf_type_it_pos []),
      (ctf_set_typed_errno (ctf_set_typed_errno fp .ECTF_NEXT_END).fp .ECTF_NEXT_END).fp,
      he, hret, hslot, ?_, ?_, ?_, rfl⟩
    · rw [hfp]; rfl
    · rw [hfp]; exact ha
    · rw [hfp, hslot]; exact ha2
  · intro type l fuel n hns hl hk ht hn
    have hn1 : (ctf_enum_pairs l.tp).length + 1 ≤ n := by rw [ctf_enum_pairs_length]; exact hn
    obtain ⟨r, he, hret, hslot, herr, hne, ha⟩ := ctf_enum_next_end_run fuel fp type l hl hk ht hns
      (ctf_enum_pairs l.tp) [] fp n rfl rfl hn1
    obtain ⟨fp2, ha2, herr2, _⟩ := ctf_enum_next_all_run fuel fp type l hl hk ht hns
      (ctf_enum_pairs l.tp) [] r.fp n hne rfl hn1
    refine ⟨r, _, fp2, he, hret, hslot, herr, ha, ?_, herr2⟩
    rw [hslot]; exact ha2
  · intro type flags d L hflat
    have hat : ctf_member_at flags d fp type [] L := by rw [ctf_member_at_nil]; exact hflat
    obtain ⟨F1, hF1⟩ := ctf_member_next_end_run flags d fp type L [] fp rfl hat
    obtain ⟨Fa, hFa⟩ := ctf_member_next_all_run flags d fp type L [] fp rfl hat
    obtain ⟨r, he, hret, hslot, herr, hne⟩ :=
      hF1 (max F1 Fa) (le_max_left _ _) (L.length + 1) (le_refl _)
    obtain ⟨fp1, ha, _, _⟩ := hFa (max F1 Fa) (le_max_right _ _) (L.length + 1) (le_refl _)
    have hfp1 : fp1 = r.fp := ctf_member_next_end_all _ type flags _ fp [] r _ he ha
    rw [hfp1] at ha
    obtain ⟨F2, hF2⟩ := ctf_member_next_all_run flags d fp type L [] r.fp hne hat
    refine ⟨max (max F1 Fa) F2, fun fuel hfuel => ?_⟩
    have hf1 : max F1 Fa ≤ fuel := (le_max_left _ _).trans hfuel
    have hf2 : F2 ≤ fuel := (le_max_right _ _).trans hfuel
    obtain ⟨fp2, ha2, herr2, _⟩ := hF2 fuel hf2 (L.length + 1) (le_refl _)
    refine ⟨r, fp2, ctf_member_next_end_mono flags _ fuel hf1 type _ fp [] r he, hret, hslot,
      herr, ctf_member_next_all_mono flags _ fuel hf1 type _ fp [] _ ha, ?_, herr2⟩
    rw [hslot]; exact ha2
  · intro n hpar hv hd hn
    have hlist : ∀ x ∈ ctf_variable_list fp [], x.2 ≠ CTF_ERR := by
      intro x hx
      simp only [ctf_variable_list, List.mem_append, List.mem_map] at hx
      rcases hx with ⟨v, hm, rfl⟩ | ⟨v, hm, rfl⟩
      · exact hv v hm
      · exact hd v hm
    have hn1 : (ctf_variable_list fp []).length + 1 ≤ n := by
      simp only [ctf_variable_list, List.length_append, List.length_map]
      exact hn
    obtain ⟨ha, r, he, hret, hslot, hfp⟩ := ctf_variable_next_all_eq fp hpar n [] trivial hlist hn1
    obtain ⟨ha2, _⟩ := ctf_variable_next_all_eq (ctf_set_typed_errno fp .ECTF_NEXT_END).fp hpar n []
      trivial hlist hn1
    refine ⟨r, ctf_variable_list fp [],
      (ctf_set_typed_errno (ctf_set_typed_errno fp .ECTF_NEXT_END).fp .ECTF_NEXT_END).fp,
      he, hret, hslot, ?_, ?_, ?_, rfl⟩
    · rw [hfp]; rfl
    · rw [hfp]; exact ha
    · rw [hfp, hslot]; exact ha2

/-- Witness of C15: the types of `hidden_dict`, the 64-bit enum 2 of `enum_dict`,
the struct 3 of `anon_dict` and the variables of `var_dict`, each iterated twice. -/
theorem ctf_next_end_restarts_witness :
    (∃ r items fp2, ctf_type_next_end 5 5 hidden_dict [] 0 = some r ∧ r.ret = CTF_ERR ∧
        r.it = [] ∧ r.fp.ctf_errno = .ECTF_NEXT_END ∧
        ctf_type_next_all 5 5 hidden_dict [] 0 = some (items, r.fp) ∧
        ctf_type_next_all 5 5 r.fp r.it 0 = some (items, fp2) ∧
        fp2.ctf_errno = .ECTF_NEXT_END) ∧
    (∃ r items fp2, ctf_enum_next_end 3 (0 + 2) enum_dict 2 [] = some r ∧ r.ret = none ∧
        r.it = [] ∧ r.fp.ctf_errno = .ECTF_NEXT_END ∧
        ctf_enum_next_all 3 (0 + 2) enum_dict 2 [] = some (items, r.fp) ∧
        ctf_enum_next_all 3 (0 + 2) r.fp 2 r.it = some (items, fp2) ∧
        fp2.ctf_errno = .ECTF_NEXT_END) ∧
    (∃ F, ∀ fuel, F ≤ fuel →
        ∃ r fp2, ctf_member_next_end
            (([("a", 1, 0), ("", 2, 32), ("b", 1, 32)] : List (String × Nat × Int)).length + 1)
            fuel anon_dict 3 CTF_MN_RECURSE [] = some r ∧
          r.ret = -1 ∧ r.it = [] ∧ r.fp.ctf_errno = .ECTF_NEXT_END ∧
          ctf_member_next_all
            (([("a", 1, 0), ("", 2, 32), ("b", 1, 32)] : List (String × Nat × Int)).length + 1)
            fuel anon_dict 3 CTF_MN_RECURSE []
            = some ([("a", 1, 0), ("", 2, 32), ("b", 1, 32)], r.fp) ∧
          ctf_member_next_all
            (([("a", 1, 0), ("", 2, 32), ("b", 1, 32)] : List (String × Nat × Int)).length + 1)
            fuel r.fp 3 CTF_MN_RECURSE r.it
            = some ([("a", 1, 0), ("", 2, 32), ("b", 1, 32)], fp2) ∧
          fp2.ctf_errno = .ECTF_NEXT_END) ∧
    (∃ r items fp2, ctf_variable_next_end 4 var_dict [] = some r ∧ r.ret = CTF_ERR ∧
        r.it = [] ∧ r.fp.ctf_errno = .ECTF_NEXT_END ∧
        ctf_variable_next_all 4 var_dict [] = some (items, r.fp) ∧
        ctf_variable_next_all 4 r.fp r.it = some (items, fp2) ∧
        fp2.ctf_errno = .ECTF_NEXT_END) ∧
    (ctf_variable_next_all 4 var_dict []).map Prod.fst = some [("x", 1), ("y", 1), ("z", 1)] ∧
    (ctf_variable_next_end 4 var_dict []).map (fun r => (r.ret, r.it, r.fp.ctf_errno))
      = some (CTF_ERR, [], .ECTF_NEXT_END) ∧
    (ctf_type_next_all 5 5 hidden_dict [] 0).map Prod.fst
      = some [(1, true), (3, true), (4, true)] :=
  ⟨(ctf_next_end_restarts hidden_dict).1 0 5 5 (by decide) (by decide) (by decide),
   (ctf_next_end_restarts enum_dict).2.1 2 ⟨enum_dict, false, LCTF_INDEX_TO_TYPEPTR enum_dict 2⟩
     0 3 rfl rfl (Or.inr rfl) (by decide) (by decide),
   (ctf_next_end_restarts anon_dict).2.2.1 3 CTF_MN_RECURSE 2
     [("a", 1, 0), ("", 2, 32), ("b", 1, 32)] (by decide),
   (ctf_next_end_restarts var_dict).2.2.2 4 (by decide) (by decide) (by decide) (by decide),
   by decide, by decide, by decide⟩

/-! ## Theorems: function arguments -/

/-- A successful `ctf_type_resolve` leaves the dict as it was. -/
theorem ctf_type_resolve_loop_ok_fp (az : Bool) (ofp : ctf_dict_t) (otype : Nat) :
    ∀ (fuel : Nat) (fp : ctf_dict_t) (up : Bool) (type prev : Nat) (r : ctf_ret Nat),
      ctf_type_resolve_loop az ofp otype fuel fp up type prev = some r → r.val ≠ CTF_ERR →
      r.fp = ofp := by
  intro fuel
  induction fuel with
  | zero => intro fp up type prev r h; cases h
  | succ fuel ih =>
    intro fp up type prev r h hv
    rw [ctf_type_resolve_loop_succ] at h
    cases hl : ctf_lookup_by_id fp type with
    | error e =>
      simp only [hl, Option.some.injEq] at h
      subst h
      exact absurd rfl hv
    | ok l =>
      simp only [hl] at h
      split_ifs at h
      all_goals first
        | exact ih _ _ _ _ r h hv
        | (simp only [Option.some.injEq] at h
           subst h
           first
             | rfl
             | exact absurd rfl hv)

theorem ctf_type_resolve_ok_fp (fuel : Nat) (fp : ctf_dict_t) (type : Nat) (r : ctf_ret Nat)
    (h : ctf_type_resolve fuel fp type = some r) (hv : r.val ≠ CTF_ERR) : r.fp = fp := by
  unfold ctf_type_resolve ctf_type_resolve_nonrepresentable at h
  split_ifs at h
  all_goals first
    | exact ctf_type_resolve_loop_ok_fp _ _ _ _ _ _ _ _ r h hv
    | (simp only [Option.some.injEq] at h
       subst h
       first
         | rfl
         | exact absurd rfl hv)

/-- The dynamic type definition of a type, asked for on the dict of the call, is
the record that the lookup finds. -/
theorem ctf_dynamic_type_lookup_ofp {fp : ctf_dict_t} {t : Nat} {l : ctf_lookup_t}
    (h : ctf_lookup_by_id fp t = .ok l) {dtd : ctf_type_t}
    (hd : ctf_dynamic_type fp t = some dtd) : dtd = l.tp := by
  obtain ⟨hg, idx, hi, hl⟩ := ctf_lookup_by_id_get_dict h
  unfold ctf_dynamic_type at hd
  simp only [hg] at hd
  split_ifs at hd
  simp only [hi, Option.map_some', Option.some.injEq] at hd
  rw [hl, hd]

theorem ctf_array_info_array {fp : ctf_dict_t} {t : Nat} {l : ctf_lookup_t}
    (h : ctf_lookup_by_id fp t = .ok l) (hk : l.tp.kind = .CTF_K_ARRAY) :
    ctf_array_info fp t =
      { ret := 0, fp := fp,
        arp := some { ctr_contents := l.tp.array.cta_contents,
                      ctr_index := l.tp.array.cta_index,
                      ctr_nelems := l.tp.array.cta_nelems } } := by
  unfold ctf_array_info
  simp only [h]
  rw [if_neg (by simp [hk])]
  cases hd : ctf_dynamic_type fp t with
  | none => rfl
  | some dtd => rw [ctf_dynamic_type_lookup_ofp h hd]

theorem ctf_copy_args_eq :
    ∀ (n : Nat) (args argv : List Nat), n ≤ args.length → n ≤ argv.length →
      ctf_copy_args n args argv = some (args.take n ++ argv.drop n) := by
  intro n
  induction n with
  | zero => intro args argv _ _; rfl
  | succ n ih =>
    intro args argv h1 h2
    cases args with
    | nil => simp at h1
    | cons a args =>
      cases argv with
      | nil => simp at h2
      | cons b argv =>
        simp only [List.length_cons, Nat.add_le_add_iff_right] at h1 h2
        simp only [ctf_copy_args, ih args argv h1 h2, Option.map_some', List.take_succ_cons,
          List.drop_succ_cons, List.cons_append]

/-- C21: for a type that resolves to a function type, and an array `argv` that holds
at least `argc` entries, `ctf_func_type_args` returns 0 and overwrites the first
`n = min (argc, ctc_argc)` entries of `argv` with the first `n` stored argument type
IDs, in order, where `ctc_argc` is the count that `ctf_func_type_info` reports; the
entries from `n` on are left as they were.  For a variadic function the entries
written are taken from the stored arguments without the trailing 0. -/
theorem ctf_func_type_args_copies (fp : ctf_dict_t) (type fuel : Nat) (r : ctf_ret Nat)
    (l : ctf_lookup_t) (argc : Nat) (argv : List Nat)
    (hr : ctf_type_resolve fuel fp type = some r) (hv : r.val ≠ CTF_ERR)
    (hl : ctf_lookup_by_id r.fp r.val = .ok l) (hk : l.tp.kind = .CTF_K_FUNCTION)
    (hcap : argc ≤ argv.length) :
    ∃ f, ctf_func_type_info fuel fp type = some { ret := 0, fip := some f, fp := fp } ∧
      ctf_func_type_args fuel fp type argc argv =
        some { ret := 0, fp := fp,
               argv := l.tp.args.take (min argc f.ctc_argc) ++
                         argv.drop (min argc f.ctc_argc) } ∧
      (l.tp.args.take (min argc f.ctc_argc)).length = min argc f.ctc_argc ∧
      (l.tp.args.take (min argc f.ctc_argc) ++ argv.drop (min argc f.ctc_argc)).length
        = argv.length ∧
      (f.ctc_flags = CTF_FUNC_VARARG →
        l.tp.args.getLast? = some 0 ∧ f.ctc_argc + 1 = l.tp.args.length ∧
        l.tp.args.take (min argc f.ctc_argc) = l.tp.args.dropLast.take (min argc f.ctc_argc)) := by
  have hfp : r.fp = fp := ctf_type_resolve_ok_fp fuel fp type r hr hv
  have hinfo := (ctf_func_type_info_resolved fuel fp type r l hr hv hl).2 hk
  rw [hfp] at hinfo
  have hr' : ctf_type_resolve fuel fp type = some ⟨r.val, fp⟩ := by
    rw [hr, ← hfp]
  have hl' : ctf_lookup_by_id fp r.val = .ok l := by rw [← hfp]; exact hl
  have hle : (if l.tp.args.getLast? = some 0 then l.tp.args.length - 1 else l.tp.args.length)
      ≤ l.tp.args.length := by split_ifs <;> omega
  refine ⟨_, hinfo, ?_, ?_, ?_, ?_⟩
  · unfold ctf_func_type_args
    simp only [hinfo, hr', if_neg hv, hl']
    rw [if_neg (by decide)]
    cases hd : ctf_dynamic_type l.fp r.val with
    | none =>
      simp only []
      rw [ctf_copy_args_eq _ _ _ ((min_le_right _ _).trans hle) ((min_le_left _ _).trans hcap)]
    | some dtd =>
      simp only []
      rw [ctf_dynamic_type_lookup hl' hd,
        ctf_copy_args_eq _ _ _ ((min_le_right _ _).trans hle) ((min_le_left _ _).trans hcap)]
  · simp only [List.length_take]
    exact min_eq_left ((min_le_right _ _).trans hle)
  · simp only [List.length_append, List.length_take, List.length_drop]
    have h1 := (min_le_right argc (if l.tp.args.getLast? = some 0 then l.tp.args.length - 1
      else l.tp.args.length)).trans hle
    have h2 := (min_le_left argc (if l.tp.args.getLast? = some 0 then l.tp.args.length - 1
      else l.tp.args.length)).trans hcap
    omega
  · intro hflag
    simp only [] at hflag
    have hlast : l.tp.args.getLast? = some 0 := by
      by_contra hc
      rw [if_neg hc] at hflag
      exact absurd hflag (by decide)
    have hne : l.tp.args ≠ [] := by
      intro h0
      rw [h0] at hlast
      cases hlast
    have hpos : 0 < l.tp.args.length := List.length_pos.2 hne
    refine ⟨hlast, ?_, ?_⟩
    · simp only [hlast, ↓reduceIte]
      omega
    · simp only [hlast, ↓reduceIte]
      rw [List.dropLast_eq_take, List.take_take]
      congr 1
      omega

/-- Witness of C21 on `func_dict`: the typedef 5 of the variadic `int (int, ...)`
with room for four IDs, and the function 3 `int (int, int)` with room for one. -/
theorem ctf_func_type_args_copies_witness :
    ctf_func_type_args 2 func_dict 5 4 [9, 9, 9, 9]
      = some { ret := 0, argv := [1, 9, 9, 9], fp := func_dict } ∧
    ctf_func_type_args 2 func_dict 3 1 [9]
      = some { ret := 0, argv := [1], fp := func_dict } ∧
    ∃ f, ctf_func_type_info 2 func_dict 5
        = some { ret := 0, fip := some f, fp := func_dict } ∧
      ctf_func_type_args 2 func_dict 5 4 [9, 9, 9, 9] =
        some { ret := 0, fp := func_dict,
               argv := (LCTF_INDEX_TO_TYPEPTR func_dict 2).args.take (min 4 f.ctc_argc) ++
                         [9, 9, 9, 9].drop (min 4 f.ctc_argc) } ∧
      ((LCTF_INDEX_TO_TYPEPTR func_dict 2).args.take (min 4 f.ctc_argc)).length
        = min 4 f.ctc_argc ∧
      ((LCTF_INDEX_TO_TYPEPTR func_dict 2).args.take (min 4 f.ctc_argc) ++
          [9, 9, 9, 9].drop (min 4 f.ctc_argc)).length = [9, 9, 9, 9].length ∧
      (f.ctc_flags = CTF_FUNC_VARARG →
        (LCTF_INDEX_TO_TYPEPTR func_dict 2).args.getLast? = some 0 ∧
        f.ctc_argc + 1 = (LCTF_INDEX_TO_TYPEPTR func_dict 2).args.length ∧
        (LCTF_INDEX_TO_TYPEPTR func_dict 2).args.take (min 4 f.ctc_argc)
          = (LCTF_INDEX_TO_TYPEPTR func_dict 2).args.dropLast.take (min 4 f.ctc_argc)) :=
  ⟨by decide, by decide,
   ctf_func_type_args_copies func_dict 5 2 ⟨2, func_dict⟩
     ⟨func_dict, false, LCTF_INDEX_TO_TYPEPTR func_dict 2⟩ 4 [9, 9, 9, 9]
     (by decide) (by decide) rfl rfl (by decide)⟩

/-! ## Theorems: sizes and alignments -/

theorem int64_size_t_of (v : Int) (h1 : -9223372036854775808 ≤ v)
    (h2 : v < 9223372036854775808) : int64 (size_t_of v) = v := by
  unfold int64 size_t_of
  have hm : (v % 18446744073709551616).toNat % 18446744073709551616
      = (v % 18446744073709551616).toNat := by
    apply Nat.mod_eq_of_lt
    have := Int.emod_lt_of_pos v (show (0 : Int) < 18446744073709551616 by norm_num)
    have := Int.emod_nonneg v (show (18446744073709551616 : Int) ≠ 0 by norm_num)
    omega
  rw [hm]
  have hnn := Int.emod_nonneg v (show (18446744073709551616 : Int) ≠ 0 by norm_num)
  have hcast : (((v % 18446744073709551616).toNat : Nat) : Int) = v % 18446744073709551616 :=
    Int.toNat_of_nonneg hnn
  split_ifs with h
  · rw [hcast]
    have : (v % 18446744073709551616).toNat < 9223372036854775808 := h
    omega
  · rw [hcast]
    have : ¬ (v % 18446744073709551616).toNat < 9223372036854775808 := h
    omega

theorem size_t_of_lt (v : Int) : size_t_of v < 18446744073709551616 := by
  unfold size_t_of
  have := Int.emod_lt_of_pos v (show (0 : Int) < 18446744073709551616 by norm_num)
  have := Int.emod_nonneg v (show (18446744073709551616 : Int) ≠ 0 by norm_num)
  omega

theorem size_t_of_nonneg (v : Int) (h1 : 0 ≤ v) (h2 : v < 18446744073709551616) :
    ((size_t_of v : Nat) : Int) = v := by
  unfold size_t_of
  rw [Int.emod_eq_of_lt h1 h2]
  exact Int.toNat_of_nonneg h1

theorem size_t_of_neg (v : Int) (h1 : -9223372036854775808 ≤ v) (h2 : v < 0) :
    9223372036854775808 ≤ size_t_of v := by
  unfold size_t_of
  have := Int.emod_lt_of_pos v (show (0 : Int) < 18446744073709551616 by norm_num)
  have := Int.emod_nonneg v (show (18446744073709551616 : Int) ≠ 0 by norm_num)
  omega

theorem int64_ge (x : Nat) : -9223372036854775808 ≤ int64 x := by
  unfold int64
  have := Nat.mod_lt x (show 0 < 18446744073709551616 by norm_num)
  split_ifs <;> omega

theorem int64_nonneg_lt (x : Nat) (hx : x < 18446744073709551616) (h : 0 ≤ int64 x) :
    x < 9223372036854775808 := by
  unfold int64 at h
  rw [Nat.mod_eq_of_lt hx] at h
  split_ifs at h with hc
  · exact hc
  · omega

theorem int64_of_lt (x : Nat) (hx : x < 9223372036854775808) : int64 x = x := by
  unfold int64
  rw [Nat.mod_eq_of_lt (by omega)]
  rw [if_pos hx]

theorem ctf_type_size_succ (fuel : Nat) (ofp : ctf_dict_t) (type : Nat) :
    ctf_type_size (fuel + 1) ofp type =
      match ctf_type_resolve fuel ofp type with
      | none => none
      | some r =>
        if r.val = CTF_ERR then some ⟨-1, r.fp⟩
        else
          match ctf_lookup_by_id r.fp r.val with
          | .error e => some ⟨-1, ctf_lookup_errno r.fp false e⟩
          | .ok l =>
            match l.tp.kind with
            | .CTF_K_POINTER => some ⟨l.fp.ctd_pointer, r.fp⟩
            | .CTF_K_FUNCTION => some ⟨0, r.fp⟩
            | .CTF_K_ARRAY =>
              if ctf_get_ctt_size l.tp > 0 then some ⟨ctf_get_ctt_size l.tp, r.fp⟩
              else
                let a := ctf_array_info r.fp r.val
                if a.ret < 0 then some ⟨-1, a.fp⟩
                else
                  match a.arp with
                  | none => none
                  | some ar =>
                    match ctf_type_size fuel a.fp ar.ctr_contents with
                    | none => none
                    | some s =>
                      if s.val < 0 then some ⟨-1, s.fp⟩
                      else some ⟨int64 (s.val.toNat * ar.ctr_nelems), s.fp⟩
            | .CTF_K_FORWARD => some (ctf_set_errno r.fp .ECTF_INCOMPLETE)
            | _ => some ⟨ctf_get_ctt_size l.tp, r.fp⟩ := rfl

/-- `ctf_type_size` on a type that resolves: the dispatch on the kind of the base
type. -/
theorem ctf_type_size_resolved (fuel : Nat) (fp : ctf_dict_t) (type : Nat) (r : ctf_ret Nat)
    (l : ctf_lookup_t) (hr : ctf_type_resolve fuel fp type = some r) (hv : r.val ≠ CTF_ERR)
    (hl : ctf_lookup_by_id fp r.val = .ok l) :
    ctf_type_size (fuel + 1) fp type =
      match l.tp.kind with
      | .CTF_K_POINTER => some ⟨l.fp.ctd_pointer, fp⟩
      | .CTF_K_FUNCTION => some ⟨0, fp⟩
      | .CTF_K_ARRAY =>
        if ctf_get_ctt_size l.tp > 0 then some ⟨ctf_get_ctt_size l.tp, fp⟩
        else
          match ctf_type_size fuel fp l.tp.array.cta_contents with
          | none => none
          | some s =>
            if s.val < 0 then some ⟨-1, s.fp⟩
            else some ⟨int64 (s.val.toNat * l.tp.array.cta_nelems), s.fp⟩
      | .CTF_K_FORWARD => some (ctf_set_errno fp .ECTF_INCOMPLETE)
      | _ => some ⟨ctf_get_ctt_size l.tp, fp⟩ := by
  have hfp : r.fp = fp := ctf_type_resolve_ok_fp fuel fp type r hr hv
  rw [ctf_type_size_succ]
  simp only [hr, if_neg hv, hfp, hl]
  cases hk : l.tp.kind <;> simp only []
  rw [ctf_array_info_array hl hk]
  simp only [lt_self_iff_false, ↓reduceIte]

/-- The dispatch of `ctf_type_size`: it resolves the type and fails with the
resolution when that fails; for a base type that is a POINTER it returns the pointer
size of the data model, for a FUNCTION 0, for a FORWARD `-1` with `ECTF_INCOMPLETE`,
for an ARRAY the recorded size when that is positive and otherwise the size of the
element type times the number of elements reduced to `ssize_t`, which is the
product itself when that is below `2^63`, or `-1` when the size of the element type
fails; for every other kind it returns the stored size. -/
theorem ctf_type_size_by_kind (fp : ctf_dict_t) (type fuel : Nat) :
    (∀ r, ctf_type_resolve fuel fp type = some r → r.val = CTF_ERR →
      ctf_type_size (fuel + 1) fp type = some ⟨-1, r.fp⟩) ∧
    (∀ r l, ctf_type_resolve fuel fp type = some r → r.val ≠ CTF_ERR →
      ctf_lookup_by_id fp r.val = .ok l →
      (l.tp.kind = .CTF_K_POINTER →
        ctf_type_size (fuel + 1) fp type = some ⟨l.fp.ctd_pointer, fp⟩) ∧
      (l.tp.kind = .CTF_K_FUNCTION → ctf_type_size (fuel + 1) fp type = some ⟨0, fp⟩) ∧
      (l.tp.kind = .CTF_K_FORWARD →
        ctf_type_size (fuel + 1) fp type
          = some ⟨-1, (ctf_set_errno fp .ECTF_INCOMPLETE).fp⟩) ∧
      (l.tp.kind = .CTF_K_ARRAY → 0 < l.tp.ctt_size →
        ctf_type_size (fuel + 1) fp type = some ⟨l.tp.ctt_size, fp⟩) ∧
      (l.tp.kind = .CTF_K_ARRAY → l.tp.ctt_size = 0 →
        ∀ s, ctf_type_size fuel fp l.tp.array.cta_contents = some s →
          (0 ≤ s.val → ctf_type_size (fuel + 1) fp type
            = some ⟨int64 (s.val.toNat * l.tp.array.cta_nelems), s.fp⟩) ∧
          (0 ≤ s.val → s.val * l.tp.array.cta_nelems < 9223372036854775808 →
            ctf_type_size (fuel + 1) fp type
              = some ⟨s.val * l.tp.array.cta_nelems, s.fp⟩) ∧
          (s.val < 0 → ctf_type_size (fuel + 1) fp type = some ⟨-1, s.fp⟩)) ∧
      (l.tp.kind ≠ .CTF_K_POINTER → l.tp.kind ≠ .CTF_K_FUNCTION →
        l.tp.kind ≠ .CTF_K_FORWARD → l.tp.kind ≠ .CTF_K_ARRAY →
        ctf_type_size (fuel + 1) fp type = some ⟨l.tp.ctt_size, fp⟩)) := by
  refine ⟨?_, ?_⟩
  · intro r hr hv
    rw [ctf_type_size_succ]
    simp only [hr, if_pos hv]
  · intro r l hr hv hl
    have h := ctf_type_size_resolved fuel fp type r l hr hv hl
    refine ⟨?_, ?_, ?_, ?_, ?_, ?_⟩
    · intro hk
      rw [h, hk]
    · intro hk
      rw [h, hk]
    · intro hk
      rw [h, hk]
      rfl
    · intro hk hs
      rw [h, hk]
      simp only [ctf_get_ctt_size]
      rw [if_pos (by exact_mod_cast hs)]
    · intro hk hs s hs'
      rw [h, hk]
      simp only [ctf_get_ctt_size, hs, hs']
      rw [if_neg (by decide)]
      refine ⟨fun h0 => ?_, fun h0 hlt => ?_, fun h0 => ?_⟩
      · rw [if_neg (by omega)]
      · rw [if_neg (by omega)]
        have hc : ((s.val.toNat * l.tp.array.cta_nelems : Nat) : Int)
            = s.val * l.tp.array.cta_nelems := by
          rw [Nat.cast_mul, Int.toNat_of_nonneg h0]
        have hb : s.val.toNat * l.tp.array.cta_nelems < 9223372036854775808 := by
          have hb' : ((s.val.toNat * l.tp.array.cta_nelems : Nat) : Int)
              < 9223372036854775808 := by
            rw [hc]
            exact hlt
          exact_mod_cast hb'
        rw [int64_of_lt _ hb, hc]
      · rw [if_pos h0]
    · intro h1 h2 h3 h4
      rw [h]
      cases hk : l.tp.kind <;> simp_all [ctf_get_ctt_size]

/-- The sizes of `size_dict`: the typedef 7 of an array of 5 `int` without recorded
size, the array 9 with the recorded size 100, a pointer, a forward, and the array
11 of forwards. -/
theorem ctf_type_size_by_kind_witness :
    ctf_type_size 3 size_dict 7 = some ⟨4 * (5 : Nat), size_dict⟩ ∧
    ctf_type_size 3 size_dict 9 = some ⟨100, size_dict⟩ ∧
    ctf_type_size 3 size_dict 2 = some ⟨8, size_dict⟩ ∧
    ctf_type_size 3 size_dict 6 = some ⟨-1, (ctf_set_errno size_dict .ECTF_INCOMPLETE).fp⟩ ∧
    ctf_type_size 3 size_dict 11 = some ⟨-1, (ctf_set_errno size_dict .ECTF_INCOMPLETE).fp⟩ ∧
    ctf_type_size 3 size_dict 4 = some ⟨16, size_dict⟩ :=
  ⟨(((ctf_type_size_by_kind size_dict 7 2).2 ⟨3, size_dict⟩
      ⟨size_dict, false, LCTF_INDEX_TO_TYPEPTR size_dict 3⟩ (by decide) (by decide)
      rfl).2.2.2.2.1 rfl rfl ⟨4, size_dict⟩ (by decide)).2.1 (by decide) (by decide),
   by decide, by decide, by decide, by decide, by decide⟩

/-- C22: the size of an array without recorded size is not always the size of the
element type multiplied by the element count.  In `big_dict` the array 2 of
4294967295 `char` has the size 4294967295, and the array 3 of 4294967295 such
arrays has the size 18446744065119617025, which is no `ssize_t`: the product
`size * ar.ctr_nelems` overflows and `ctf_type_size` returns -8589934591, a negative
value, with no error code stored.  The array 4 of two such arrays then takes the
negative size of its element for a failure and returns -1, again with no error code
stored. -/
theorem ctf_type_size_array_overflow :
    ctf_type_size 3 big_dict 1 = some ⟨1, big_dict⟩ ∧
    ctf_type_size 4 big_dict 2 = some ⟨4294967295, big_dict⟩ ∧
    ctf_type_size 5 big_dict 3 = some ⟨-8589934591, big_dict⟩ ∧
    (4294967295 : Int) * 4294967295 = 18446744065119617025 ∧
    ctf_type_size 6 big_dict 4 = some ⟨-1, big_dict⟩ ∧
    big_dict.ctf_errno = .OK := by
  decide

theorem ctf_type_align_succ (fuel : Nat) (ofp : ctf_dict_t) (type : Nat) :
    ctf_type_align (fuel + 1) ofp type =
      match ctf_type_resolve fuel ofp type with
      | none => none
      | some r =>
        if r.val = CTF_ERR then some ⟨-1, r.fp⟩
        else
          match ctf_lookup_by_id r.fp r.val with
          | .error e => some ⟨-1, ctf_lookup_errno r.fp false e⟩
          | .ok l =>
            match l.tp.kind with
            | .CTF_K_POINTER | .CTF_K_FUNCTION => some ⟨l.fp.ctd_pointer, r.fp⟩
            | .CTF_K_ARRAY =>
              let a := ctf_array_info r.fp r.val
              if a.ret < 0 then some ⟨-1, a.fp⟩
              else
                match a.arp with
                | none => none
                | some ar => ctf_type_align fuel a.fp ar.ctr_contents
            | .CTF_K_STRUCT | .CTF_K_UNION =>
              let v := ctf_vlen l.fp r.val l.tp
              let n := if l.tp.kind = .CTF_K_STRUCT then min v.2 1 else v.2
              match ctf_type_align_loop (ctf_type_align fuel) v.1 n 0 0 r.fp with
              | none => none
              | some x => some ⟨int64 x.val, x.fp⟩
            | .CTF_K_FORWARD => some (ctf_set_errno r.fp .ECTF_INCOMPLETE)
            | _ => some ⟨ctf_get_ctt_size l.tp, r.fp⟩ := rfl

/-- `ctf_type_align` on a type that resolves: the dispatch on the kind of the base
type. -/
theorem ctf_type_align_resolved (fuel : Nat) (fp : ctf_dict_t) (type : Nat) (r : ctf_ret Nat)
    (l : ctf_lookup_t) (hr : ctf_type_resolve fuel fp type = some r) (hv : r.val ≠ CTF_ERR)
    (hl : ctf_lookup_by_id fp r.val = .ok l) :
    ctf_type_align (fuel + 1) fp type =
      match l.tp.kind with
      | .CTF_K_POINTER | .CTF_K_FUNCTION => some ⟨l.fp.ctd_pointer, fp⟩
      | .CTF_K_ARRAY => ctf_type_align fuel fp l.tp.array.cta_contents
      | .CTF_K_STRUCT | .CTF_K_UNION =>
        match ctf_type_align_loop (ctf_type_align fuel) l.tp.members
            (if l.tp.kind = .CTF_K_STRUCT then min l.tp.members.length 1
             else l.tp.members.length) 0 0 fp with
        | none => none
        | some x => some ⟨int64 x.val, x.fp⟩
      | .CTF_K_FORWARD => some (ctf_set_errno fp .ECTF_INCOMPLETE)
      | _ => some ⟨ctf_get_ctt_size l.tp, fp⟩ := by
  have hfp : r.fp = fp := ctf_type_resolve_ok_fp fuel fp type r hr hv
  rw [ctf_type_align_succ]
  simp only [hr, if_neg hv, hfp, hl, ctf_vlen_lookup hl l.tp (fun _ => rfl)]
  cases hk : l.tp.kind <;> simp only []
  rw [ctf_array_info_array hl hk]
  simp only [lt_self_iff_false, ↓reduceIte]

theorem ctf_type_align_loop_inv (align : ctf_dict_t → Nat → Option (ctf_ret Int))
    (hP : ∀ fp t am, align fp t = some am →
      -9223372036854775808 ≤ am.val ∧ (0 ≤ am.val → am.fp = fp))
    (memb : List ctf_member_t) :
    ∀ (n i a : Nat) (ofp : ctf_dict_t) (x : ctf_ret Nat), a < 18446744073709551616 →
      ctf_type_align_loop align memb n i a ofp = some x →
      x.val < 18446744073709551616 ∧ a ≤ x.val ∧
        (x.val < 9223372036854775808 → x.fp = ofp) := by
  intro n
  induction n with
  | zero =>
    intro i a ofp x ha h
    simp only [ctf_type_align_loop, Option.some.injEq] at h
    subst h
    exact ⟨ha, le_refl _, fun _ => rfl⟩
  | succ n ih =>
    intro i a ofp x ha h
    simp only [ctf_type_align_loop, List.get?_eq_getElem?] at h
    cases hm : memb[i]? with
    | none => simp [hm] at h
    | some m =>
      simp only [hm] at h
      cases hal : align ofp m.ctm_type with
      | none => simp [hal] at h
      | some am =>
        simp only [hal] at h
        obtain ⟨hlo, hfp⟩ := hP ofp m.ctm_type am hal
        have hs := size_t_of_lt am.val
        obtain ⟨h1, h2, h3⟩ := ih (i + 1) (max a (size_t_of am.val)) am.fp x
          (max_lt ha hs) h
        refine ⟨h1, (le_max_left _ _).trans h2, fun hx => ?_⟩
        rw [h3 hx]
        apply hfp
        by_contra hneg
        have := size_t_of_neg am.val hlo (by omega)
        have := (le_max_right a (size_t_of am.val)).trans h2
        omega

theorem ctf_array_info_fp (fp : ctf_dict_t) (t : Nat) (h : ¬ (ctf_array_info fp t).ret < 0) :
    (ctf_array_info fp t).fp = fp := by
  unfold ctf_array_info at h ⊢
  cases hl : ctf_lookup_by_id fp t with
  | error e => simp [hl] at h
  | ok l =>
    simp only [hl] at h ⊢
    split_ifs at h ⊢
    · simp at h
    · rfl

/-- The value `ctf_type_align` returns is at least `-2^63`, and a call that returns
a value that is not negative leaves the dict as it was. -/
theorem ctf_type_align_inv :
    ∀ (fuel : Nat) (fp : ctf_dict_t) (t : Nat) (a : ctf_ret Int),
      ctf_type_align fuel fp t = some a →
      -9223372036854775808 ≤ a.val ∧ (0 ≤ a.val → a.fp = fp) := by
  intro fuel
  induction fuel with
  | zero => intro fp t a h; cases h
  | succ fuel ih =>
    intro fp t a h
    rw [ctf_type_align_succ] at h
    have hneg1 : ∀ (d : ctf_dict_t) (a : ctf_ret Int),
        some (⟨-1, d⟩ : ctf_ret Int) = some a →
        -9223372036854775808 ≤ a.val ∧ (0 ≤ a.val → a.fp = fp) := by
      intro d a hh
      simp only [Option.some.injEq] at hh
      subst hh
      exact ⟨by norm_num, fun h0 => by norm_num at h0⟩
    cases hr : ctf_type_resolve fuel fp t with
    | none => simp [hr] at h
    | some r =>
      simp only [hr] at h
      by_cases hv : r.val = CTF_ERR
      · rw [if_pos hv] at h
        exact hneg1 _ a h
      · rw [if_neg hv] at h
        have hfp : r.fp = fp := ctf_type_resolve_ok_fp fuel fp t r hr hv
        rw [hfp] at h
        cases hl : ctf_lookup_by_id fp r.val with
        | error e =>
          simp only [hl] at h
          exact hneg1 _ a h
        | ok l =>
          simp only [hl] at h
          have hnat : ∀ (n : Nat) (a : ctf_ret Int), some (⟨(n : Int), fp⟩ : ctf_ret Int) = some a →
              -9223372036854775808 ≤ a.val ∧ (0 ≤ a.val → a.fp = fp) := by
            intro n a hh
            simp only [Option.some.injEq] at hh
            subst hh
            exact ⟨by simp only []; omega, fun _ => rfl⟩
          have hsou :
              (match ctf_type_align_loop (ctf_type_align fuel) (ctf_vlen l.fp r.val l.tp).1
                  (if l.tp.kind = .CTF_K_STRUCT then min (ctf_vlen l.fp r.val l.tp).2 1
                   else (ctf_vlen l.fp r.val l.tp).2) 0 0 fp with
                | none => none
                | some x => some (⟨int64 x.val, x.fp⟩ : ctf_ret Int)) = some a →
              -9223372036854775808 ≤ a.val ∧ (0 ≤ a.val → a.fp = fp) := by
            intro hh
            cases hx : ctf_type_align_loop (ctf_type_align fuel) (ctf_vlen l.fp r.val l.tp).1
                (if l.tp.kind = .CTF_K_STRUCT then min (ctf_vlen l.fp r.val l.tp).2 1
                 else (ctf_vlen l.fp r.val l.tp).2) 0 0 fp with
            | none => simp [hx] at hh
            | some x =>
              simp only [hx, Option.some.injEq] at hh
              subst hh
              obtain ⟨h1, _, h3⟩ := ctf_type_align_loop_inv (ctf_type_align fuel) ih _ _ _ _ _ x
                (by norm_num) hx
              exact ⟨int64_ge _, fun h0 => h3 (int64_nonneg_lt _ h1 h0)⟩
          cases hk : l.tp.kind <;> simp only [hk] at h hsou
          all_goals first
            | exact hnat _ a h
            | exact hsou h
            | exact hneg1 _ a h
            | (by_cases hneg : (ctf_array_info fp r.val).ret < 0
               · rw [if_pos hneg] at h
                 exact hneg1 _ a h
               · rw [if_neg hneg, ctf_array_info_fp fp r.val hneg] at h
                 cases harp : (ctf_array_info fp r.val).arp with
                 | none => simp [harp] at h
                 | some ar =>
                   simp only [harp] at h
                   exact ih fp _ a h)

theorem ctf_type_align_loop_max (align : ctf_dict_t → Nat → Option (ctf_ret Int))
    (hP : ∀ fp t am, align fp t = some am →
      -9223372036854775808 ≤ am.val ∧ (0 ≤ am.val → am.fp = fp))
    (fp : ctf_dict_t) :
    ∀ (suf : List ctf_member_t) (vs : List Int) (pre : List ctf_member_t) (a : Nat),
      a < 9223372036854775808 →
      List.Forall₂ (fun m v => (align fp m.ctm_type).map (fun x => x.val) = some v ∧
        0 ≤ v ∧ v < 9223372036854775808) suf vs →
      ∃ x, ctf_type_align_loop align (pre ++ suf) suf.length pre.length a fp = some ⟨x, fp⟩ ∧
        ((x : Nat) : Int) = vs.foldl max (a : Int) ∧ x < 9223372036854775808 := by
  intro suf
  induction suf with
  | nil =>
    intro vs pre a ha hF
    cases hF
    exact ⟨a, rfl, rfl, ha⟩
  | cons m suf ih =>
    intro vs pre a ha hF
    cases hF with
    | cons hm hrest =>
      rename_i v vs'
      obtain ⟨hval, h0, h1⟩ := hm
      cases hal : align fp m.ctm_type with
      | none => simp [hal] at hval
      | some am =>
        simp only [hal, Option.map_some', Option.some.injEq] at hval
        have hfp : am.fp = fp := (hP fp m.ctm_type am hal).2 (by rw [hval]; exact h0)
        have hcast : ((size_t_of am.val : Nat) : Int) = v := by
          rw [hval]; exact size_t_of_nonneg v h0 (by omega)
        have ha' : max a (size_t_of am.val) < 9223372036854775808 := by
          apply max_lt ha
          omega
        obtain ⟨x, hx, hxv, hxl⟩ := ih vs' (pre ++ [m]) (max a (size_t_of am.val)) ha' hrest
        refine ⟨x, ?_, ?_, hxl⟩
        · have hget : (pre ++ m :: suf).get? pre.length = some m := by
            rw [List.get?_eq_getElem?, List.getElem?_append_right (le_refl _)]
            simp
          simp only [ctf_type_align_loop, List.length_cons, hget, hal, hfp]
          simp only [List.append_assoc, List.singleton_append, List.length_append,
            List.length_singleton] at hx
          exact hx
        · rw [hxv, List.foldl_cons]
          congr 1
          rw [Nat.cast_max, hcast]

/-- C23: `ctf_type_align` resolves the type and fails with the resolution when that
fails; for a base type that is a POINTER or a FUNCTION it returns the pointer size of
the data model, for an ARRAY what it returns for the element type, for a STRUCT what
it returns for the type of the first member only (0 without members), for a UNION
the maximum of the alignments of all its direct members, for a FORWARD `-1` with
`ECTF_INCOMPLETE`, and for every other kind the stored size. -/
theorem ctf_type_align_by_kind (fp : ctf_dict_t) (type fuel : Nat) :
    (∀ r, ctf_type_resolve fuel fp type = some r → r.val = CTF_ERR →
      ctf_type_align (fuel + 1) fp type = some ⟨-1, r.fp⟩) ∧
    (∀ r l, ctf_type_resolve fuel fp type = some r → r.val ≠ CTF_ERR →
      ctf_lookup_by_id fp r.val = .ok l →
      (l.tp.kind = .CTF_K_POINTER ∨ l.tp.kind = .CTF_K_FUNCTION →
        ctf_type_align (fuel + 1) fp type = some ⟨l.fp.ctd_pointer, fp⟩) ∧
      (l.tp.kind = .CTF_K_ARRAY →
        ctf_type_align (fuel + 1) fp type = ctf_type_align fuel fp l.tp.array.cta_contents) ∧
      (l.tp.kind = .CTF_K_STRUCT → l.tp.members = [] →
        ctf_type_align (fuel + 1) fp type = some ⟨0, fp⟩) ∧
      (l.tp.kind = .CTF_K_STRUCT → ∀ m rest am, l.tp.members = m :: rest →
        ctf_type_align fuel fp m.ctm_type = some am → am.val < 9223372036854775808 →
        ctf_type_align (fuel + 1) fp type = some ⟨am.val, am.fp⟩) ∧
      (l.tp.kind = .CTF_K_UNION → ∀ vs : List Int,
        List.Forall₂ (fun m v => (ctf_type_align fuel fp m.ctm_type).map (fun x => x.val) = some v ∧
          0 ≤ v ∧ v < 9223372036854775808) l.tp.members vs →
        ctf_type_align (fuel + 1) fp type = some ⟨vs.foldl max 0, fp⟩) ∧
      (l.tp.kind = .CTF_K_FORWARD →
        ctf_type_align (fuel + 1) fp type
          = some ⟨-1, (ctf_set_errno fp .ECTF_INCOMPLETE).fp⟩) ∧
      (l.tp.kind ≠ .CTF_K_POINTER → l.tp.kind ≠ .CTF_K_FUNCTION →
        l.tp.kind ≠ .CTF_K_ARRAY → l.tp.kind ≠ .CTF_K_STRUCT → l.tp.kind ≠ .CTF_K_UNION →
        l.tp.kind ≠ .CTF_K_FORWARD →
        ctf_type_align (fuel + 1) fp type = some ⟨l.tp.ctt_size, fp⟩)) := by
  refine ⟨?_, ?_⟩
  · intro r hr hv
    rw [ctf_type_align_succ]
    simp only [hr, if_pos hv]
  · intro r l hr hv hl
    have h := ctf_type_align_resolved fuel fp type r l hr hv hl
    refine ⟨?_, ?_, ?_, ?_, ?_, ?_, ?_⟩
    · rintro (hk | hk) <;> rw [h, hk]
    · intro hk
      rw [h, hk]
    · intro hk hm
      rw [h, hk]
      simp only [hm, ↓reduceIte, List.length_nil, Nat.zero_min, ctf_type_align_loop]
      rfl
    · intro hk m rest am hm ham hlt
      rw [h, hk]
      have hlo := (ctf_type_align_inv fuel fp m.ctm_type am ham).1
      have hn : min (m :: rest).length 1 = 1 := by simp
      simp only [hm, ↓reduceIte, hn, ctf_type_align_loop, List.get?_cons_zero, ham,
        Nat.zero_max]
      rw [int64_size_t_of am.val hlo hlt]
    · intro hk vs hF
      rw [h, hk]
      have hne : ¬ (ctf_kind.CTF_K_UNION = ctf_kind.CTF_K_STRUCT) := by decide
      simp only [hne, ↓reduceIte]
      obtain ⟨x, hx, hxv, hxl⟩ := ctf_type_align_loop_max (ctf_type_align fuel)
        (ctf_type_align_inv fuel) fp l.tp.members vs [] 0 (by norm_num) hF
      simp only [List.nil_append, List.length_nil] at hx
      rw [hx]
      simp only []
      rw [int64_of_lt x hxl, hxv]
      rfl
    · intro hk
      rw [h, hk]
      rfl
    · intro h1 h2 h3 h4 h5 h6
      rw [h]
      cases hk : l.tp.kind <;> simp_all [ctf_get_ctt_size]

/-- Witness of C23 on `size_dict`: the union 5 `{ int a; int *p; }` has the larger
alignment 8, the struct 4 `{ int a; int *p; }` that of its first member, 4. -/
theorem ctf_type_align_by_kind_witness :
    ctf_type_align 3 size_dict 5 = some ⟨([4, 8] : List Int).foldl max 0, size_dict⟩ ∧
    ctf_type_align 3 size_dict 4 = some ⟨4, size_dict⟩ ∧
    ctf_type_align 3 size_dict 7 = some ⟨4, size_dict⟩ ∧
    ctf_type_align 3 size_dict 6 = some ⟨-1, (ctf_set_errno size_dict .ECTF_INCOMPLETE).fp⟩ :=
  ⟨((ctf_type_align_by_kind size_dict 5 2).2 ⟨5, size_dict⟩
      ⟨size_dict, false, LCTF_INDEX_TO_TYPEPTR size_dict 5⟩ (by decide) (by decide)
      rfl).2.2.2.2.1 rfl [4, 8]
      (List.Forall₂.cons ⟨by decide, by decide, by decide⟩
        (List.Forall₂.cons ⟨by decide, by decide, by decide⟩ List.Forall₂.nil)),
   ((ctf_type_align_by_kind size_dict 4 2).2 ⟨4, size_dict⟩
      ⟨size_dict, false, LCTF_INDEX_TO_TYPEPTR size_dict 4⟩ (by decide) (by decide)
      rfl).2.2.2.1 rfl _ _ ⟨4, size_dict⟩ rfl (by decide) (by decide),
   by decide, by decide⟩

theorem ctf_type_compat_succ (fuel : Nat) (lfp : ctf_dict_t) (ltype : Nat) (rfp : ctf_dict_t)
    (rtype : Nat) :
    ctf_type_compat (fuel + 1) lfp ltype rfp rtype =
      if lfp.LCTF_NO_STR then some ⟨-1, (ctf_set_errno lfp .ECTF_NOPARENT).fp, rfp⟩
      else if rfp.LCTF_NO_STR then some ⟨-1, lfp, (ctf_set_errno rfp .ECTF_NOPARENT).fp⟩
      else if ctf_type_isparent lfp ltype ≠ 0 ∧ lfp.ctf_parent = none then
        some ⟨-1, lfp, (ctf_set_errno rfp .ECTF_NOPARENT).fp⟩
      else if ctf_type_isparent rfp rtype ≠ 0 ∧ rfp.ctf_parent = none then
        some ⟨-1, lfp, (ctf_set_errno rfp .ECTF_NOPARENT).fp⟩
      else if ctf_type_cmp lfp ltype rfp rtype = 0 then some ⟨1, lfp, rfp⟩
      else
        match ctf_type_resolve fuel lfp ltype with
        | none => none
        | some lr =>
          match ctf_type_resolve fuel rfp rtype with
          | none => none
          | some rr =>
            if lr.val = CTF_ERR ∨ rr.val = CTF_ERR then some ⟨-1, lr.fp, rr.fp⟩
            else
              let lk := ctf_type_kind lr.fp lr.val
              let rk := ctf_type_kind rr.fp rr.val
              match lk.val, rk.val with
              | some lkind, some rkind =>
                ctf_type_compat_switch (ctf_type_compat fuel) fuel lk.fp lr.val lkind
                  rk.fp rr.val rkind
              | _, _ => some ⟨-1, lk.fp, rk.fp⟩ := rfl

/-- On a root dict as left argument `ctf_type_compat` fails: `ctf_type_isparent` is
1 for every ID and there is no parent. -/
theorem ctf_type_compat_root (fuel : Nat) (lfp : ctf_dict_t) (ltype : Nat) (rfp : ctf_dict_t)
    (rtype : Nat) (hL : lfp.LCTF_NO_STR = false) (hR : rfp.LCTF_NO_STR = false)
    (hroot : lfp.LCTF_CHILD = false) (hpar : lfp.ctf_parent = none) :
    ctf_type_compat (fuel + 1) lfp ltype rfp rtype
      = some ⟨-1, lfp, (ctf_set_errno rfp .ECTF_NOPARENT).fp⟩ := by
  rw [ctf_type_compat_succ]
  have hip : ctf_type_isparent lfp ltype = 1 := by
    unfold ctf_type_isparent
    simp [hroot]
  simp only [hL, hR, Bool.false_eq_true, ↓reduceIte, hip, hpar]
  rw [if_pos ⟨by decide, trivial⟩]

/-- On a root dict as right argument `ctf_type_compat` fails as well. -/
theorem ctf_type_compat_root_right (fuel : Nat) (lfp : ctf_dict_t) (ltype : Nat)
    (rfp : ctf_dict_t) (rtype : Nat) (hL : lfp.LCTF_NO_STR = false)
    (hR : rfp.LCTF_NO_STR = false) (hroot : rfp.LCTF_CHILD = false)
    (hpar : rfp.ctf_parent = none) :
    ctf_type_compat (fuel + 1) lfp ltype rfp rtype
      = some ⟨-1, lfp, (ctf_set_errno rfp .ECTF_NOPARENT).fp⟩ := by
  rw [ctf_type_compat_succ]
  have hip : ctf_type_isparent rfp rtype = 1 := by
    unfold ctf_type_isparent
    simp [hroot]
  have h4 : ctf_type_isparent rfp rtype ≠ 0 ∧ rfp.ctf_parent = none := by
    rw [hip]; exact ⟨by decide, hpar⟩
  simp only [hL, hR, Bool.false_eq_true, ↓reduceIte, if_pos h4, ite_self]

/-- Past the four checks at its start, `ctf_type_compat` returns 1 for two types
that `ctf_type_cmp` finds equal, whatever their kind. -/
theorem ctf_type_compat_identical (fuel : Nat) (lfp : ctf_dict_t) (ltype : Nat)
    (rfp : ctf_dict_t) (rtype : Nat) (hL : lfp.LCTF_NO_STR = false)
    (hR : rfp.LCTF_NO_STR = false)
    (hlp : ¬ (ctf_type_isparent lfp ltype ≠ 0 ∧ lfp.ctf_parent = none))
    (hrp : ¬ (ctf_type_isparent rfp rtype ≠ 0 ∧ rfp.ctf_parent = none))
    (hcmp : ctf_type_cmp lfp ltype rfp rtype = 0) :
    ctf_type_compat (fuel + 1) lfp ltype rfp rtype = some ⟨1, lfp, rfp⟩ := by
  rw [ctf_type_compat_succ]
  simp only [hL, hR, Bool.false_eq_true, ↓reduceIte, if_neg hlp, if_neg hrp, if_pos hcmp]

/-- `ctf_type_cmp` is 0 for the same ID in the same dict, and for the same ID seen
from two dicts with attached parents in which it has the same native dict. -/
theorem ctf_type_cmp_same (lfp rfp : ctf_dict_t) (t : Nat) :
    (lfp.ctf_addr = rfp.ctf_addr → ctf_type_cmp lfp t rfp t = 0) ∧
    (lfp.ctf_parent ≠ none → rfp.ctf_parent ≠ none →
      ctf_get_dict_addr lfp t = ctf_get_dict_addr rfp t → ctf_type_cmp lfp t rfp t = 0) := by
  refine ⟨fun h => ?_, fun h1 h2 h3 => ?_⟩
  · unfold ctf_type_cmp
    simp [h]
  · unfold ctf_type_cmp
    simp only [lt_self_iff_false, ↓reduceIte, gt_iff_lt, ne_eq, h1, not_false_eq_true, h2, h3,
      ite_self]

/-- C27 (divergence): on a root dict `ctf_type_compat (fp, t, fp, t)` does not
return 1 for the valid type 1 but fails with `ECTF_NOPARENT`; on a child dict with
its parent attached it returns 1, for a type of the child and for a type of the
parent. -/
theorem ctf_type_compat_identity_root :
    ctf_valid_id enum_dict 1 ∧
    ctf_lookup_by_id enum_dict 1 = .ok ⟨enum_dict, false, LCTF_INDEX_TO_TYPEPTR enum_dict 1⟩ ∧
    ctf_type_compat 1 enum_dict 1 enum_dict 1
      = some ⟨-1, enum_dict, (ctf_set_errno enum_dict .ECTF_NOPARENT).fp⟩ ∧
    ctf_type_compat 1 compat_dict 4 compat_dict 4 = some ⟨1, compat_dict, compat_dict⟩ ∧
    ctf_type_compat 1 compat_dict 1 compat_dict 1 = some ⟨1, compat_dict, compat_dict⟩ := by
  refine ⟨by decide, rfl, by decide, by decide, by decide⟩

/-- C28 (divergence): with an `int` and a 64-bit enum, `ctf_type_compat` returns 1
when the enum is the left type and 0 when it is the right type; with a 32-bit enum
it returns 1 in both orders. -/
theorem ctf_type_compat_int_enum64_order :
    ctf_type_compat 2 compat_dict 6 compat_dict 4 = some ⟨1, compat_dict, compat_dict⟩ ∧
    ctf_type_compat 2 compat_dict 4 compat_dict 6 = some ⟨0, compat_dict, compat_dict⟩ ∧
    ctf_type_compat 2 compat_dict 5 compat_dict 4 = some ⟨1, compat_dict, compat_dict⟩ ∧
    ctf_type_compat 2 compat_dict 4 compat_dict 5 = some ⟨1, compat_dict, compat_dict⟩ := by
  refine ⟨by decide, by decide, by decide, by decide⟩

/-- C29 (divergence): for the `int` 4 of `compat_dict` and the 64-bit enum 4 of
`compat_dict2`, two children of one parent, the two argument orders of
`ctf_type_compat` give different results. -/
theorem ctf_type_compat_not_symmetric :
    (ctf_type_compat 2 compat_dict 4 compat_dict2 4).map (fun r => r.ret) = some 0 ∧
    (ctf_type_compat 2 compat_dict2 4 compat_dict 4).map (fun r => r.ret) = some 1 ∧
    (ctf_type_compat 2 compat_dict 4 compat_dict2 4).map (fun r => r.ret) ≠
      (ctf_type_compat 2 compat_dict2 4 compat_dict 4).map (fun r => r.ret) := by
  refine ⟨by decide, by decide, by decide⟩

/-- A successful `ctf_type_kind` leaves the dict as it was; the record of the type
has the kind returned, or is a slice. -/
theorem ctf_type_kind_cases {fp : ctf_dict_t} {t : Nat} {l : ctf_lookup_t} {k : ctf_kind}
    (hl : ctf_lookup_by_id fp t = .ok l) (hk : (ctf_type_kind fp t).val = some k) :
    (ctf_type_kind fp t).fp = fp ∧ (l.tp.kind = k ∨ l.tp.kind = .CTF_K_SLICE) := by
  unfold ctf_type_kind ctf_type_kind_unsliced at hk ⊢
  simp only [hl] at hk ⊢
  by_cases hs : l.tp.kind = .CTF_K_SLICE
  · rw [if_pos hs] at hk ⊢
    refine ⟨?_, Or.inr hs⟩
    have href : (ctf_type_reference fp t).fp = fp := by
      unfold ctf_type_reference
      simp only [hl, hs]
      cases ctf_dynamic_type fp t <;> rfl
    by_cases he : (ctf_type_reference fp t).val = CTF_ERR
    · rw [if_pos he] at hk
      cases hk
    · rw [if_neg he] at hk ⊢
      rw [href] at hk ⊢
      cases hl2 : ctf_lookup_by_id fp (ctf_type_reference fp t).val with
      | error e => simp [hl2] at hk
      | ok l2 => rfl
  · rw [if_neg hs] at hk ⊢
    simp only [Option.some.injEq] at hk
    exact ⟨rfl, Or.inl hk⟩

theorem ctf_type_kind_lookup_ok {fp : ctf_dict_t} {t : Nat} {k : ctf_kind}
    (hk : (ctf_type_kind fp t).val = some k) : ∃ l, ctf_lookup_by_id fp t = .ok l := by
  cases hl : ctf_lookup_by_id fp t with
  | ok l => exact ⟨l, rfl⟩
  | error e =>
    unfold ctf_type_kind ctf_type_kind_unsliced at hk
    simp [hl] at hk

/-- The size of a resolved type whose record is a struct, a union or a slice, asked
for on the native dict of the type, is the stored size. -/
theorem ctf_type_size_native (fuel : Nat) {fp : ctf_dict_t} {t : Nat} {l : ctf_lookup_t}
    (hl : ctf_lookup_by_id fp t = .ok l) (ht : t ≠ CTF_ERR)
    (hk : l.tp.kind = .CTF_K_STRUCT ∨ l.tp.kind = .CTF_K_UNION ∨ l.tp.kind = .CTF_K_SLICE) :
    ctf_type_size (fuel + 2) (ctf_cur fp l.up) t = some ⟨l.tp.ctt_size, ctf_cur fp l.up⟩ := by
  rw [(ctf_cur_lookup hl).2]
  have hn := ctf_lookup_by_id_native hl
  have href : l.tp.kind.is_ref = false := by rcases hk with h | h | h <;> rw [h] <;> rfl
  have hu : l.tp.kind ≠ .CTF_K_UNKNOWN := by rcases hk with h | h | h <;> rw [h] <;> decide
  have hr := ctf_type_resolve_base fuel l.fp t ⟨l.fp, false, l.tp⟩ hn href hu
  have hv : (⟨t, l.fp⟩ : ctf_ret Nat).val ≠ CTF_ERR := ht
  have h := ctf_type_size_resolved (fuel + 1) l.fp t ⟨t, l.fp⟩ ⟨l.fp, false, l.tp⟩ hr hv hn
  rw [h]
  rcases hk with hk | hk | hk <;> simp only [hk, ctf_get_ctt_size]

theorem ctf_type_compat_switch_names (compat : ctf_dict_t → Nat → ctf_dict_t → Nat →
      Option ctf_type_compat_ret) (fuel : Nat) (L : ctf_dict_t) (lt : Nat) (lk : ctf_kind)
    (R : ctf_dict_t) (rt : Nat) (rk : ctf_kind) (ll rl : ctf_lookup_t)
    (hll : ctf_lookup_by_id L lt = .ok ll) (hrl : ctf_lookup_by_id R rt = .ok rl) :
    (((lk = .CTF_K_ENUM ∨ lk = .CTF_K_ENUM64) ∧ rk = .CTF_K_INTEGER) ∨
      ((rk = .CTF_K_ENUM ∨ lk = .CTF_K_ENUM64) ∧ lk = .CTF_K_INTEGER) →
      ctf_type_compat_switch compat fuel L lt lk R rt rk = some ⟨1, L, R⟩) ∧
    (¬ (((lk = .CTF_K_ENUM ∨ lk = .CTF_K_ENUM64) ∧ rk = .CTF_K_INTEGER) ∨
      ((rk = .CTF_K_ENUM ∨ lk = .CTF_K_ENUM64) ∧ lk = .CTF_K_INTEGER)) → lk ≠ rk →
      ctf_type_compat_switch compat fuel L lt lk R rt rk = some ⟨0, L, R⟩) ∧
    ((lk = .CTF_K_STRUCT ∧ rk = .CTF_K_STRUCT) ∨ (lk = .CTF_K_UNION ∧ rk = .CTF_K_UNION) →
      (ll.tp.ctt_name ≠ rl.tp.ctt_name →
        ctf_type_compat_switch compat fuel L lt lk R rt rk = some ⟨0, L, R⟩) ∧
      (ll.tp.ctt_name = rl.tp.ctt_name → ∀ sl sr,
        ctf_type_size fuel (ctf_cur L ll.up) lt = some sl →
        ctf_type_size fuel (ctf_cur R rl.up) rt = some sr →
        ctf_type_compat_switch compat fuel L lt lk R rt rk =
          some ⟨if sl.val = sr.val then 1 else 0, ctf_put L ll.up sl.fp,
                ctf_put R rl.up sr.fp⟩)) := by
  refine ⟨fun h => ?_, fun h hne => ?_, fun h => ?_⟩
  · unfold ctf_type_compat_switch
    simp only [hll, hrl]
    rw [if_pos h]
  · unfold ctf_type_compat_switch
    simp only [hll, hrl]
    rw [if_neg h, if_pos hne]
  · refine ⟨fun hn => ?_, fun hn sl sr hsl hsr => ?_⟩
    · unfold ctf_type_compat_switch
      simp only [hll, hrl]
      rcases h with ⟨h1, h2⟩ | ⟨h1, h2⟩
      · subst h1; subst h2
        simp [hn]
      · subst h1; subst h2
        simp [hn]
    · unfold ctf_type_compat_switch
      simp only [hll, hrl]
      rcases h with ⟨h1, h2⟩ | ⟨h1, h2⟩
      · subst h1; subst h2
        simp [hn, hsl, hsr]
      · subst h1; subst h2
        simp [hn, hsl, hsr]

/-- Past its checks, and for two types that `ctf_type_cmp` tells apart and that
resolve to types with kinds, `ctf_type_compat` is the part from the lookups on. -/
theorem ctf_type_compat_resolved (fuel : Nat) (lfp : ctf_dict_t) (ltype : Nat)
    (rfp : ctf_dict_t) (rtype : Nat) (lr rr : ctf_ret Nat) (lk rk : ctf_kind)
    (hL : lfp.LCTF_NO_STR = false) (hR : rfp.LCTF_NO_STR = false)
    (hlp : ¬ (ctf_type_isparent lfp ltype ≠ 0 ∧ lfp.ctf_parent = none))
    (hrp : ¬ (ctf_type_isparent rfp rtype ≠ 0 ∧ rfp.ctf_parent = none))
    (hcmp : ctf_type_cmp lfp ltype rfp rtype ≠ 0)
    (hlr : ctf_type_resolve fuel lfp ltype = some lr) (hlv : lr.val ≠ CTF_ERR)
    (hrr : ctf_type_resolve fuel rfp rtype = some rr) (hrv : rr.val ≠ CTF_ERR)
    (hlk : (ctf_type_kind lfp lr.val).val = some lk)
    (hrk : (ctf_type_kind rfp rr.val).val = some rk) :
    ctf_type_compat (fuel + 1) lfp ltype rfp rtype =
      ctf_type_compat_switch (ctf_type_compat fuel) fuel lfp lr.val lk rfp rr.val rk := by
  have hlfp : lr.fp = lfp := ctf_type_resolve_ok_fp fuel lfp ltype lr hlr hlv
  have hrfp : rr.fp = rfp := ctf_type_resolve_ok_fp fuel rfp rtype rr hrr hrv
  obtain ⟨ll, hll⟩ := ctf_type_kind_lookup_ok hlk
  obtain ⟨rl, hrl⟩ := ctf_type_kind_lookup_ok hrk
  have hkl := (ctf_type_kind_cases hll hlk).1
  have hkr := (ctf_type_kind_cases hrl hrk).1
  rw [ctf_type_compat_succ]
  simp only [hL, hR, Bool.false_eq_true, ↓reduceIte, if_neg hlp, if_neg hrp, if_neg hcmp, hlr,
    hrr, hlfp, hrfp]
  rw [if_neg (by rintro (h | h); exact hlv h; exact hrv h)]
  simp only [hlk, hrk, hkl, hkr]

/-- What the enum/integer test of `ctf_type_compat` does: an enum of either width
on the left with an integer on the right, and an integer on the left with a 32-bit
enum on the right, give 1; an integer on the left with a 64-bit enum on the right
gives 0. -/
theorem ctf_type_compat_enum_int (fuel : Nat) (lfp : ctf_dict_t) (ltype : Nat)
    (rfp : ctf_dict_t) (rtype : Nat) (lr rr : ctf_ret Nat) (lk rk : ctf_kind)
    (hL : lfp.LCTF_NO_STR = false) (hR : rfp.LCTF_NO_STR = false)
    (hlp : ¬ (ctf_type_isparent lfp ltype ≠ 0 ∧ lfp.ctf_parent = none))
    (hrp : ¬ (ctf_type_isparent rfp rtype ≠ 0 ∧ rfp.ctf_parent = none))
    (hcmp : ctf_type_cmp lfp ltype rfp rtype ≠ 0)
    (hlr : ctf_type_resolve fuel lfp ltype = some lr) (hlv : lr.val ≠ CTF_ERR)
    (hrr : ctf_type_resolve fuel rfp rtype = some rr) (hrv : rr.val ≠ CTF_ERR)
    (hlk : (ctf_type_kind lfp lr.val).val = some lk)
    (hrk : (ctf_type_kind rfp rr.val).val = some rk) :
    ((lk = .CTF_K_ENUM ∨ lk = .CTF_K_ENUM64) ∧ rk = .CTF_K_INTEGER →
      ctf_type_compat (fuel + 1) lfp ltype rfp rtype = some ⟨1, lfp, rfp⟩) ∧
    (lk = .CTF_K_INTEGER ∧ rk = .CTF_K_ENUM →
      ctf_type_compat (fuel + 1) lfp ltype rfp rtype = some ⟨1, lfp, rfp⟩) ∧
    (lk = .CTF_K_INTEGER ∧ rk = .CTF_K_ENUM64 →
      ctf_type_compat (fuel + 1) lfp ltype rfp rtype = some ⟨0, lfp, rfp⟩) := by
  obtain ⟨ll, hll⟩ := ctf_type_kind_lookup_ok hlk
  obtain ⟨rl, hrl⟩ := ctf_type_kind_lookup_ok hrk
  have h := ctf_type_compat_resolved fuel lfp ltype rfp rtype lr rr lk rk hL hR hlp hrp hcmp
    hlr hlv hrr hrv hlk hrk
  obtain ⟨s1, s2, _⟩ := ctf_type_compat_switch_names (ctf_type_compat fuel) fuel lfp lr.val lk
    rfp rr.val rk ll rl hll hrl
  refine ⟨fun hc => ?_, fun hc => ?_, fun hc => ?_⟩
  · rw [h]; exact s1 (Or.inl hc)
  · rw [h]; exact s1 (Or.inr ⟨Or.inl hc.2, hc.1⟩)
  · rw [h]
    apply s2
    · rw [hc.1, hc.2]; decide
    · rw [hc.1, hc.2]; decide

/-- Structs and unions on dicts that pass the guards: let two types pass the checks
at the start of `ctf_type_compat` (no dict without a parent does), be told apart by
`ctf_type_cmp`, and resolve to types of the kinds `lk` and `rk`.  If both kinds are
STRUCT, or both UNION, `ctf_type_compat` returns 1 if the names of the two resolved
types are equal strings and `ctf_type_size` gives the same for both, and 0
otherwise.  If the kinds differ and are not an enum and an integer, it returns 0. -/
theorem ctf_type_compat_sou (fuel : Nat) (lfp : ctf_dict_t) (ltype : Nat)
    (rfp : ctf_dict_t) (rtype : Nat) (lr rr : ctf_ret Nat) (lk rk : ctf_kind)
    (ll rl : ctf_lookup_t)
    (hL : lfp.LCTF_NO_STR = false) (hR : rfp.LCTF_NO_STR = false)
    (hlp : ¬ (ctf_type_isparent lfp ltype ≠ 0 ∧ lfp.ctf_parent = none))
    (hrp : ¬ (ctf_type_isparent rfp rtype ≠ 0 ∧ rfp.ctf_parent = none))
    (hcmp : ctf_type_cmp lfp ltype rfp rtype ≠ 0)
    (hlr : ctf_type_resolve (fuel + 2) lfp ltype = some lr) (hlv : lr.val ≠ CTF_ERR)
    (hrr : ctf_type_resolve (fuel + 2) rfp rtype = some rr) (hrv : rr.val ≠ CTF_ERR)
    (hll : ctf_lookup_by_id lfp lr.val = .ok ll) (hrl : ctf_lookup_by_id rfp rr.val = .ok rl)
    (hlk : (ctf_type_kind lfp lr.val).val = some lk)
    (hrk : (ctf_type_kind rfp rr.val).val = some rk) :
    ((lk = .CTF_K_STRUCT ∧ rk = .CTF_K_STRUCT) ∨ (lk = .CTF_K_UNION ∧ rk = .CTF_K_UNION) →
      ∃ res sl sr, ctf_type_compat (fuel + 3) lfp ltype rfp rtype = some res ∧
        ctf_type_size (fuel + 3) lfp ltype = some sl ∧
        ctf_type_size (fuel + 3) rfp rtype = some sr ∧
        res.ret = (if ll.tp.ctt_name = rl.tp.ctt_name ∧ sl.val = sr.val then 1 else 0) ∧
        sl.val = ll.tp.ctt_size ∧ sr.val = rl.tp.ctt_size) ∧
    (lk ≠ rk →
      ¬ (((lk = .CTF_K_ENUM ∨ lk = .CTF_K_ENUM64) ∧ rk = .CTF_K_INTEGER) ∨
         ((rk = .CTF_K_ENUM ∨ rk = .CTF_K_ENUM64) ∧ lk = .CTF_K_INTEGER)) →
      ctf_type_compat (fuel + 3) lfp ltype rfp rtype = some ⟨0, lfp, rfp⟩) := by
  have h := ctf_type_compat_resolved (fuel + 2) lfp ltype rfp rtype lr rr lk rk hL hR hlp hrp
    hcmp hlr hlv hrr hrv hlk hrk
  obtain ⟨_, s2, s3⟩ := ctf_type_compat_switch_names (ctf_type_compat (fuel + 2)) (fuel + 2)
    lfp lr.val lk rfp rr.val rk ll rl hll hrl
  refine ⟨fun hc => ?_, fun hne hsp => ?_⟩
  · have hkl := (ctf_type_kind_cases hll hlk).2
    have hkr := (ctf_type_kind_cases hrl hrk).2
    have hlkind : ll.tp.kind = .CTF_K_STRUCT ∨ ll.tp.kind = .CTF_K_UNION ∨
        ll.tp.kind = .CTF_K_SLICE := by
      rcases hc with ⟨h1, _⟩ | ⟨h1, _⟩ <;> rcases hkl with h | h
      · exact Or.inl (h.trans h1)
      · exact Or.inr (Or.inr h)
      · exact Or.inr (Or.inl (h.trans h1))
      · exact Or.inr (Or.inr h)
    have hrkind : rl.tp.kind = .CTF_K_STRUCT ∨ rl.tp.kind = .CTF_K_UNION ∨
        rl.tp.kind = .CTF_K_SLICE := by
      rcases hc with ⟨_, h1⟩ | ⟨_, h1⟩ <;> rcases hkr with h | h
      · exact Or.inl (h.trans h1)
      · exact Or.inr (Or.inr h)
      · exact Or.inr (Or.inl (h.trans h1))
      · exact Or.inr (Or.inr h)
    have hsl : ctf_type_size (fuel + 3) lfp ltype = some ⟨ll.tp.ctt_size, lfp⟩ := by
      rw [ctf_type_size_resolved (fuel + 2) lfp ltype lr ll hlr hlv hll]
      rcases hlkind with hk | hk | hk <;> simp only [hk, ctf_get_ctt_size]
    have hsr : ctf_type_size (fuel + 3) rfp rtype = some ⟨rl.tp.ctt_size, rfp⟩ := by
      rw [ctf_type_size_resolved (fuel + 2) rfp rtype rr rl hrr hrv hrl]
      rcases hrkind with hk | hk | hk <;> simp only [hk, ctf_get_ctt_size]
    obtain ⟨n1, n2⟩ := s3 hc
    by_cases hn : ll.tp.ctt_name = rl.tp.ctt_name
    · have b1 := ctf_type_size_native fuel hll hlv hlkind
      have b2 := ctf_type_size_native fuel hrl hrv hrkind
      refine ⟨_, _, _, h.trans (n2 hn _ _ b1 b2), hsl, hsr, ?_, rfl, rfl⟩
      simp only [hn, true_and]
    · refine ⟨_, _, _, h.trans (n1 hn), hsl, hsr, ?_, rfl, rfl⟩
      simp only [hn, false_and, ↓reduceIte]
  · rw [h]
    apply s2 _ hne
    rintro (⟨h1, h2⟩ | ⟨h1 | h1, h2⟩)
    · exact hsp (Or.inl ⟨h1, h2⟩)
    · exact hsp (Or.inr ⟨Or.inl h1, h2⟩)
    · rw [h1] at h2; cases h2

/-- On the two children of `compat_parent`: the typedef 11 of
`struct s` (8 bytes) of one child against `struct s` (8 bytes) of the other child
gives 1, against a `struct s` of 12 bytes and against `struct t` it gives 0, and a
union against a struct gives 0. -/
theorem ctf_type_compat_sou_witness :
    (ctf_type_compat 3 compat_dict 11 compat_dict2 5).map (fun r => r.ret) = some 1 ∧
    (ctf_type_compat 3 compat_dict 8 compat_dict2 5).map (fun r => r.ret) = some 0 ∧
    (ctf_type_compat 3 compat_dict 9 compat_dict2 5).map (fun r => r.ret) = some 0 ∧
    ctf_type_compat 3 compat_dict 10 compat_dict 7 = some ⟨0, compat_dict, compat_dict⟩ ∧
    ∃ res sl sr, ctf_type_compat (0 + 3) compat_dict 11 compat_dict2 5 = some res ∧
      ctf_type_size (0 + 3) compat_dict 11 = some sl ∧
      ctf_type_size (0 + 3) compat_dict2 5 = some sr ∧
      res.ret = (if (LCTF_INDEX_TO_TYPEPTR compat_dict 4).ctt_name
                      = (LCTF_INDEX_TO_TYPEPTR compat_dict2 2).ctt_name ∧ sl.val = sr.val
                 then 1 else 0) ∧
      sl.val = (LCTF_INDEX_TO_TYPEPTR compat_dict 4).ctt_size ∧
      sr.val = (LCTF_INDEX_TO_TYPEPTR compat_dict2 2).ctt_size :=
  ⟨by decide, by decide, by decide,
   (ctf_type_compat_sou 0 compat_dict 10 compat_dict 7 ⟨10, compat_dict⟩ ⟨7, compat_dict⟩
      .CTF_K_UNION .CTF_K_STRUCT ⟨compat_dict, false, LCTF_INDEX_TO_TYPEPTR compat_dict 7⟩
      ⟨compat_dict, false, LCTF_INDEX_TO_TYPEPTR compat_dict 4⟩
      rfl rfl (by decide) (by decide) (by decide) (by decide) (by decide) (by decide)
      (by decide) rfl rfl (by decide) (by decide)).2 (by decide) (by decide),
   (ctf_type_compat_sou 0 compat_dict 11 compat_dict2 5 ⟨7, compat_dict⟩ ⟨5, compat_dict2⟩
      .CTF_K_STRUCT .CTF_K_STRUCT ⟨compat_dict, false, LCTF_INDEX_TO_TYPEPTR compat_dict 4⟩
      ⟨compat_dict2, false, LCTF_INDEX_TO_TYPEPTR compat_dict2 2⟩
      rfl rfl (by decide) (by decide) (by decide) (by decide) (by decide) (by decide)
      (by decide) rfl rfl (by decide) (by decide)).1 (Or.inl ⟨rfl, rfl⟩)⟩

/-- C30: on a root dict `ctf_type_compat` does not compare structs and unions.  The
types 1 and 2 of `sou_dict` are two different records, both of kind `CTF_K_STRUCT`,
with the same name and the same `ctf_type_size`, yet `ctf_type_compat` does not
return 1 but -1 with `ECTF_NOPARENT`; the struct 1 and the union 3, of different
kinds, give -1 and not 0, and so do the structs 1 and 4 of different names.  The
check `ctf_type_isparent (lfp, ltype) && !lfp->ctf_parent` at the start holds for
every type of a dict that is no child.  The same records in two child dicts with
their parent attached give 1. -/
theorem ctf_type_compat_sou_root :
    sou_dict.LCTF_CHILD = false ∧
    ctf_type_cmp sou_dict 1 sou_dict 2 ≠ 0 ∧
    ctf_type_resolve 1 sou_dict 1 = some ⟨1, sou_dict⟩ ∧
    ctf_type_resolve 1 sou_dict 2 = some ⟨2, sou_dict⟩ ∧
    ctf_type_kind sou_dict 1 = ⟨some .CTF_K_STRUCT, sou_dict⟩ ∧
    ctf_type_kind sou_dict 2 = ⟨some .CTF_K_STRUCT, sou_dict⟩ ∧
    (LCTF_INDEX_TO_TYPEPTR sou_dict 1).ctt_name = (LCTF_INDEX_TO_TYPEPTR sou_dict 2).ctt_name ∧
    ctf_type_size 2 sou_dict 1 = some ⟨8, sou_dict⟩ ∧
    ctf_type_size 2 sou_dict 2 = some ⟨8, sou_dict⟩ ∧
    ctf_type_compat 3 sou_dict 1 sou_dict 2
      = some ⟨-1, sou_dict, (ctf_set_errno sou_dict .ECTF_NOPARENT).fp⟩ ∧
    ctf_type_compat 3 sou_dict 1 sou_dict 3
      = some ⟨-1, sou_dict, (ctf_set_errno sou_dict .ECTF_NOPARENT).fp⟩ ∧
    ctf_type_compat 3 sou_dict 1 sou_dict 4
      = some ⟨-1, sou_dict, (ctf_set_errno sou_dict .ECTF_NOPARENT).fp⟩ ∧
    (ctf_type_compat 3 compat_dict 7 compat_dict2 5).map (fun r => r.ret) = some 1 := by
  decide

/-! ## Theorems: declarator rendering -/

theorem ctf_decl_push_succ (fuel : Nat) (cd : ctf_decl_t) (fp : ctf_dict_t) (type : Nat) :
    ctf_decl_push (fuel + 1) cd fp type =
      match ctf_lookup_by_id fp type with
      | .error e => some ({ cd with cd_err := some e }, ctf_lookup_errno fp false e)
      | .ok l =>
        match l.tp.kind with
        | .CTF_K_ARRAY =>
          let a := ctf_array_info l.fp type
          match a.arp with
          | none => none
          | some ar =>
            match ctf_decl_push fuel cd a.fp ar.ctr_contents with
            | none => none
            | some (cd', fp') =>
              some (ctf_decl_push_node cd' type l.tp.kind ar.ctr_nelems CTF_PREC_ARRAY false,
                    ctf_put fp l.up fp')
        | .CTF_K_TYPEDEF =>
          if l.tp.ctt_name = "" then
            match ctf_decl_push fuel cd l.fp l.tp.ctt_type with
            | none => none
            | some (cd', fp') => some (cd', ctf_put fp l.up fp')
          else some (ctf_decl_push_node cd type l.tp.kind 1 CTF_PREC_BASE false, fp)
        | .CTF_K_FUNCTION =>
          match ctf_decl_push fuel cd l.fp l.tp.ctt_type with
          | none => none
          | some (cd', fp') =>
            some (ctf_decl_push_node cd' type l.tp.kind 1 CTF_PREC_FUNCTION false,
                  ctf_put fp l.up fp')
        | .CTF_K_POINTER =>
          match ctf_decl_push fuel cd l.fp l.tp.ctt_type with
          | none => none
          | some (cd', fp') =>
            some (ctf_decl_push_node cd' type l.tp.kind 1 CTF_PREC_POINTER false,
                  ctf_put fp l.up fp')
        | .CTF_K_SLICE =>
          let r := ctf_type_reference l.fp type
          match ctf_decl_push fuel cd r.fp r.val with
          | none => none
          | some (cd', fp') => some (cd', ctf_put fp l.up fp')
        | .CTF_K_VOLATILE | .CTF_K_CONST | .CTF_K_RESTRICT =>
          match ctf_decl_push fuel cd l.fp l.tp.ctt_type with
          | none => none
          | some (cd', fp') =>
            some (ctf_decl_push_node cd' type l.tp.kind 1 cd'.cd_qualp true, ctf_put fp l.up fp')
        | _ => some (ctf_decl_push_node cd type l.tp.kind 1 CTF_PREC_BASE false, fp) := rfl

theorem ctf_type_aname_succ (fuel : Nat) (fp : ctf_dict_t) (type : Nat) :
    ctf_type_aname (fuel + 1) fp type =
      if fp.LCTF_NO_STR then some ⟨none, (ctf_set_errno fp .ECTF_NOPARENT).fp⟩
      else
        match ctf_decl_push fuel ctf_decl_init fp type with
        | none => none
        | some (cd, fp) =>
          match cd.cd_err with
          | some e => some ⟨none, (ctf_set_errno fp e).fp⟩
          | none =>
            let ptr := decide (cd.cd_order.getD CTF_PREC_POINTER 0 > CTF_PREC_POINTER)
            let arr := decide (cd.cd_order.getD CTF_PREC_ARRAY 0 > CTF_PREC_ARRAY)
            let rp := if arr then some CTF_PREC_ARRAY else if ptr then some CTF_PREC_POINTER
                      else none
            let lp := if ptr then some CTF_PREC_POINTER else if arr then some CTF_PREC_ARRAY
                      else none
            match ctf_type_aname_precs (ctf_type_aname fuel) fuel cd rp
                    (List.range' CTF_PREC_BASE (CTF_PREC_MAX - CTF_PREC_BASE))
                    { buf := cd.cd_buf, k := .CTF_K_POINTER, lp := lp, fp := fp } with
            | none => none
            | some (.error fp) => some ⟨none, fp⟩
            | some (.ok st) => some ⟨some st.buf, st.fp⟩ := rfl

/-- Pushing a type of the dict itself that is a base type with a node of its own. -/
theorem ctf_decl_push_base (fuel : Nat) (cd : ctf_decl_t) (fp : ctf_dict_t) (t : Nat)
    (B : ctf_type_t) (hl : ctf_lookup_by_id fp t = .ok ⟨fp, false, B⟩)
    (hk : B.kind = .CTF_K_INTEGER ∨ B.kind = .CTF_K_FLOAT ∨ B.kind = .CTF_K_STRUCT ∨
      (B.kind = .CTF_K_TYPEDEF ∧ B.ctt_name ≠ "")) :
    ctf_decl_push (fuel + 1) cd fp t
      = some (ctf_decl_push_node cd t B.kind 1 CTF_PREC_BASE false, fp) := by
  rw [ctf_decl_push_succ]
  simp only [hl]
  rcases hk with h | h | h | ⟨h, hn⟩
  · simp only [h]
  · simp only [h]
  · simp only [h]
  · simp only [h, if_neg hn]

theorem ctf_decl_push_pointer (fuel : Nat) (cd : ctf_decl_t) (fp : ctf_dict_t) (t : Nat)
    (P : ctf_type_t) (hl : ctf_lookup_by_id fp t = .ok ⟨fp, false, P⟩)
    (hk : P.kind = .CTF_K_POINTER) (cd' : ctf_decl_t)
    (h : ctf_decl_push fuel cd fp P.ctt_type = some (cd', fp)) :
    ctf_decl_push (fuel + 1) cd fp t
      = some (ctf_decl_push_node cd' t .CTF_K_POINTER 1 CTF_PREC_POINTER false, fp) := by
  rw [ctf_decl_push_succ]
  simp only [hl, hk, h, ctf_put, Bool.false_eq_true, ↓reduceIte]

theorem ctf_decl_push_array (fuel : Nat) (cd : ctf_decl_t) (fp : ctf_dict_t) (t : Nat)
    (A : ctf_type_t) (hl : ctf_lookup_by_id fp t = .ok ⟨fp, false, A⟩)
    (hk : A.kind = .CTF_K_ARRAY) (cd' : ctf_decl_t)
    (h : ctf_decl_push fuel cd fp A.array.cta_contents = some (cd', fp)) :
    ctf_decl_push (fuel + 1) cd fp t
      = some (ctf_decl_push_node cd' t .CTF_K_ARRAY A.array.cta_nelems CTF_PREC_ARRAY false,
              fp) := by
  rw [ctf_decl_push_succ]
  simp only [hl, hk, ctf_array_info_array hl hk, h, ctf_put, Bool.false_eq_true, ↓reduceIte]

theorem ctf_type_aname_ptr_array_render (fuel : Nat) (fp : ctf_dict_t) (p : Nat)
    (P A B : ctf_type_t) (hns : fp.LCTF_NO_STR = false)
    (hp : ctf_lookup_by_id fp p = .ok ⟨fp, false, P⟩) (hPk : P.kind = .CTF_K_POINTER)
    (ha : ctf_lookup_by_id fp P.ctt_type = .ok ⟨fp, false, A⟩) (hAk : A.kind = .CTF_K_ARRAY)
    (hb : ctf_lookup_by_id fp A.array.cta_contents = .ok ⟨fp, false, B⟩)
    (hBk : B.kind = .CTF_K_INTEGER ∨ B.kind = .CTF_K_FLOAT ∨
      B.kind = .CTF_K_TYPEDEF)
    (hBn : B.ctt_name ≠ "") :
    ctf_type_aname (fuel + 4) fp p
      = some ⟨some (B.ctt_name ++ " (*)[" ++ toString A.array.cta_nelems ++ "]"), fp⟩ := by
  have hkb : B.kind = .CTF_K_INTEGER ∨ B.kind = .CTF_K_FLOAT ∨ B.kind = .CTF_K_STRUCT ∨
      (B.kind = .CTF_K_TYPEDEF ∧ B.ctt_name ≠ "") := by
    rcases hBk with h | h | h
    · exact Or.inl h
    · exact Or.inr (Or.inl h)
    · exact Or.inr (Or.inr (Or.inr ⟨h, hBn⟩))
  have h1 := ctf_decl_push_base fuel ctf_decl_init fp _ B hb hkb
  have h2 := ctf_decl_push_array (fuel + 1) ctf_decl_init fp _ A ha hAk _ h1
  have h3 := ctf_decl_push_pointer (fuel + 2) ctf_decl_init fp p P hp hPk _ h2
  rw [ctf_type_aname_succ]
  simp only [hns, Bool.false_eq_true, ↓reduceIte, h3]
  simp only [ctf_decl_push_node, ctf_decl_init, CTF_PREC_BASE, CTF_PREC_POINTER, CTF_PREC_ARRAY,
    CTF_PREC_MAX]
  have hstr : "" ++ B.ctt_name ++ " " ++ "(" ++ "*" ++ ")" ++ "[" ++
      toString A.array.cta_nelems ++ "]"
      = B.ctt_name ++ " (*)[" ++ toString A.array.cta_nelems ++ "]" := by
    apply String.ext
    simp only [String.data_append, List.append_assoc]
    rfl
  rcases hBk with h | h | h <;>
  · simp +decide only [List.getD_cons_zero, List.getD_cons_succ,
      List.set_cons_zero, List.set_cons_succ, List.isEmpty_nil, List.nil_append, ↓reduceIte,
      List.isEmpty_cons, List.range', ctf_type_aname_precs, ctf_type_aname_nodes,
      ctf_type_aname_node, hb, hp, ha, h, if_neg hBn, hstr]

theorem ctf_type_aname_ptr_struct_render (fuel : Nat) (fp : ctf_dict_t) (p : Nat)
    (P S : ctf_type_t) (hns : fp.LCTF_NO_STR = false)
    (hp : ctf_lookup_by_id fp p = .ok ⟨fp, false, P⟩) (hPk : P.kind = .CTF_K_POINTER)
    (hs : ctf_lookup_by_id fp P.ctt_type = .ok ⟨fp, false, S⟩) (hSk : S.kind = .CTF_K_STRUCT) :
    ctf_type_aname (fuel + 3) fp p = some ⟨some ("struct " ++ S.ctt_name ++ " *"), fp⟩ := by
  have h1 := ctf_decl_push_base fuel ctf_decl_init fp _ S hs (Or.inr (Or.inr (Or.inl hSk)))
  have h2 := ctf_decl_push_pointer (fuel + 1) ctf_decl_init fp p P hp hPk _ h1
  rw [ctf_type_aname_succ]
  simp only [hns, Bool.false_eq_true, ↓reduceIte, h2]
  simp only [ctf_decl_push_node, ctf_decl_init, CTF_PREC_BASE, CTF_PREC_POINTER, CTF_PREC_ARRAY,
    CTF_PREC_MAX]
  have hstr : "" ++ "struct " ++ S.ctt_name ++ " " ++ "*" = "struct " ++ S.ctt_name ++ " *" := by
    apply String.ext
    simp only [String.data_append, List.append_assoc]
    rfl
  simp +decide only [List.getD_cons_zero, List.getD_cons_succ,
    List.set_cons_zero, List.set_cons_succ, List.isEmpty_nil, List.nil_append, ↓reduceIte,
    List.isEmpty_cons, List.range', ctf_type_aname_precs, ctf_type_aname_nodes,
    ctf_type_aname_node, hs, hp, hSk, hstr]

theorem ctf_string_ne_empty_iff (s : String) : s ≠ "" ↔ s.data ≠ [] := by
  constructor
  · intro h hd
    apply h
    apply String.ext
    rw [hd]
  · intro h hs
    apply h
    rw [hs]

theorem ctf_text_good_append_right (s t : String) (h : ctf_text_good s) :
    ctf_text_good (s ++ t) := by
  obtain ⟨h1, h2⟩ := h
  rw [ctf_string_ne_empty_iff] at h1
  refine ⟨?_, ?_⟩
  · rw [ctf_string_ne_empty_iff, String.data_append]
    intro h
    exact h1 (List.append_eq_nil.1 h).1
  · unfold ctf_leading_space at h2 ⊢
    rw [String.data_append, List.head?_append_of_ne_nil _ h1]
    exact h2

theorem ctf_text_good_append_left (s t : String) (hs : ¬ ctf_leading_space s)
    (ht : ctf_text_good t) : ctf_text_good (s ++ t) := by
  by_cases he : s = ""
  · subst he
    have : ("" : String) ++ t = t := by
      apply String.ext
      rw [String.data_append]
      rfl
    rw [this]
    exact ht
  · exact ctf_text_good_append_right s t ⟨he, hs⟩

theorem ctf_leading_space_append (s t : String) (hs : ¬ ctf_leading_space s)
    (ht : ¬ ctf_leading_space t) : ¬ ctf_leading_space (s ++ t) := by
  by_cases he : t = ""
  · subst he
    have : s ++ ("" : String) = s := by
      apply String.ext
      rw [String.data_append]
      simp
    rw [this]
    exact hs
  · exact (ctf_text_good_append_left s t hs ⟨he, ht⟩).2

theorem ctf_rec_plain_default : ctf_rec_plain {} := by decide

theorem ctf_rec_plain_getD (L : List ctf_type_t) (h : ∀ t ∈ L, ctf_rec_plain t) (i : Nat) :
    ctf_rec_plain (L.getD i {}) := by
  rw [List.getD_eq_getElem?_getD]
  cases hi : L[i]? with
  | none => exact ctf_rec_plain_default
  | some t => exact h t (List.getElem?_mem hi)

/-- The dict a lookup moves to has plain records, and so has the record found. -/
theorem ctf_lookup_plain {fp : ctf_dict_t} {t : Nat} {l : ctf_lookup_t}
    (hp : ctf_dict_plain fp) (h : ctf_lookup_by_id fp t = .ok l) :
    ctf_dict_plain l.fp ∧ ctf_rec_plain l.tp := by
  obtain ⟨hg, idx, _, hl⟩ := ctf_lookup_by_id_get_dict h
  have hd : ctf_dict_plain l.fp := by
    unfold ctf_get_dict at hg
    split_ifs at hg
    · cases hpar : fp.ctf_parent with
      | none => simp [hpar] at hg
      | some p =>
        simp only [hpar, Option.map_some', Option.some.injEq] at hg
        rw [← hg]
        refine ⟨hp.2 p (by simp [hpar]), ?_⟩
        intro q hq
        simp [ctf_dict_core.dict] at hq
    · simp only [Option.some.injEq] at hg
      rw [← hg]
      exact hp
  refine ⟨hd, ?_⟩
  rw [hl]
  exact ctf_rec_plain_getD _ hd.1 idx

theorem ctf_decl_push_node_ok (cd : ctf_decl_t) (type : Nat) (kind : ctf_kind) (n prec : Nat)
    (q : Bool) (h : ctf_decl_nodes_ok cd)
    (hk : kind ≠ .CTF_K_VAR ∧ kind ≠ .CTF_K_SLICE) :
    ctf_decl_nodes_ok (ctf_decl_push_node cd type kind n prec q) ∧
    (ctf_decl_push_node cd type kind n prec q).cd_err = cd.cd_err ∧
    (ctf_decl_push_node cd type kind n prec q).cd_buf = cd.cd_buf := by
  refine ⟨?_, rfl, rfl⟩
  have hget : ∀ x ∈ cd.cd_nodes.getD prec [], x.cd_kind ≠ .CTF_K_VAR ∧ x.cd_kind ≠ .CTF_K_SLICE := by
    intro x hx
    rw [List.getD_eq_getElem?_getD] at hx
    cases hi : cd.cd_nodes[prec]? with
    | none => simp [hi] at hx
    | some L =>
      simp only [hi, Option.getD_some] at hx
      exact h L (List.getElem?_mem hi) x hx
  intro L hL x hx
  simp only [ctf_decl_push_node] at hL
  rcases List.mem_or_eq_of_mem_set hL with h1 | h1
  · exact h L h1 x hx
  · rw [h1] at hx
    split_ifs at hx
    · rcases List.mem_cons.1 hx with rfl | hx'
      · exact hk
      · exact hget x hx'
    · rcases List.mem_append.1 hx with hx' | hx'
      · exact hget x hx'
      · simp only [List.mem_singleton] at hx'
        rw [hx']
        exact hk

theorem ctf_type_reference_slice {fp : ctf_dict_t} {t : Nat} {l : ctf_lookup_t}
    (h : ctf_lookup_by_id fp t = .ok l) (hk : l.tp.kind = .CTF_K_SLICE) :
    (ctf_type_reference fp t).fp = fp := by
  unfold ctf_type_reference
  simp only [h, hk]
  cases ctf_dynamic_type fp t <;> rfl

/-- A `ctf_decl_push` that records no error leaves the dict and the text as they
were, and pushes only nodes of kinds that have a text. -/
theorem ctf_decl_push_ok :
    ∀ (fuel : Nat) (cd : ctf_decl_t) (fp : ctf_dict_t) (t : Nat) (cd' : ctf_decl_t)
      (fp' : ctf_dict_t), ctf_dict_plain fp → ctf_decl_nodes_ok cd →
      ctf_decl_push fuel cd fp t = some (cd', fp') → cd'.cd_err = none →
      fp' = fp ∧ ctf_decl_nodes_ok cd' ∧ cd'.cd_buf = cd.cd_buf := by
  intro fuel
  induction fuel with
  | zero => intro cd fp t cd' fp' _ _ h; cases h
  | succ fuel ih =>
    intro cd fp t cd' fp' hp hn h herr
    rw [ctf_decl_push_succ] at h
    cases hl : ctf_lookup_by_id fp t with
    | error e =>
      simp only [hl, Option.some.injEq, Prod.mk.injEq] at h
      rw [← h.1] at herr
      cases herr
    | ok l =>
      simp only [hl] at h
      obtain ⟨hpl, hrec⟩ := ctf_lookup_plain hp hl
      have hnat := ctf_lookup_by_id_native hl
      have hput : ctf_put fp l.up l.fp = fp := by
        have := ctf_put_cur fp l.up
        rwa [(ctf_cur_lookup hl).2] at this
      -- a node of the kind of the record, after the push of another type
      have hrecur : ∀ (u : Nat) (n prec : Nat) (q : Bool) (cd1 : ctf_decl_t) (fp1 : ctf_dict_t),
          l.tp.kind ≠ .CTF_K_SLICE →
          ctf_decl_push fuel cd l.fp u = some (cd1, fp1) →
          (ctf_decl_push_node cd1 t l.tp.kind n prec q, ctf_put fp l.up fp1) = (cd', fp') →
          fp' = fp ∧ ctf_decl_nodes_ok cd' ∧ cd'.cd_buf = cd.cd_buf := by
        intro u n prec q cd1 fp1 hs h1 h2
        simp only [Prod.mk.injEq] at h2
        obtain ⟨hn1, he1, hb1⟩ := ctf_decl_push_node_ok cd1 t l.tp.kind n prec q
          (by
            have : cd1.cd_err = none := by
              rw [← h2.1] at herr
              exact herr
            exact (ih cd l.fp u cd1 fp1 hpl hn h1 this).2.1) ⟨hrec.1, hs⟩
        have herr1 : cd1.cd_err = none := by
          rw [← h2.1] at herr
          exact herr
        obtain ⟨e1, e2, e3⟩ := ih cd l.fp u cd1 fp1 hpl hn h1 herr1
        refine ⟨?_, ?_, ?_⟩
        · rw [← h2.2, e1, hput]
        · rw [← h2.1]; exact hn1
        · rw [← h2.1, hb1, e3]
      have hnode : ∀ (n prec : Nat) (q : Bool), l.tp.kind ≠ .CTF_K_SLICE →
          (ctf_decl_push_node cd t l.tp.kind n prec q, fp) = (cd', fp') →
          fp' = fp ∧ ctf_decl_nodes_ok cd' ∧ cd'.cd_buf = cd.cd_buf := by
        intro n prec q hs h2
        simp only [Prod.mk.injEq] at h2
        obtain ⟨hn1, _, hb1⟩ := ctf_decl_push_node_ok cd t l.tp.kind n prec q hn ⟨hrec.1, hs⟩
        exact ⟨h2.2.symm, by rw [← h2.1]; exact hn1, by rw [← h2.1, hb1]⟩
      have hthrough : ∀ (d : ctf_dict_t) (u : Nat), d = l.fp →
          (match ctf_decl_push fuel cd d u with
            | none => none
            | some (cd1, fp1) => some (cd1, ctf_put fp l.up fp1)) = some (cd', fp') →
          fp' = fp ∧ ctf_decl_nodes_ok cd' ∧ cd'.cd_buf = cd.cd_buf := by
        intro d u hd h1
        subst hd
        cases hpush : ctf_decl_push fuel cd l.fp u with
        | none => simp [hpush] at h1
        | some x =>
          obtain ⟨cd1, fp1⟩ := x
          simp only [hpush, Option.some.injEq, Prod.mk.injEq] at h1
          have herr1 : cd1.cd_err = none := by rw [h1.1]; exact herr
          obtain ⟨e1, e2, e3⟩ := ih cd l.fp u cd1 fp1 hpl hn hpush herr1
          refine ⟨?_, ?_, ?_⟩
          · rw [← h1.2, e1, hput]
          · rw [← h1.1]; exact e2
          · rw [← h1.1]; exact e3
      cases hk : l.tp.kind <;> simp only [hk] at h hrecur hnode
      case CTF_K_ARRAY =>
        have hk' : (⟨l.fp, false, l.tp⟩ : ctf_lookup_t).tp.kind = .CTF_K_ARRAY := hk
        rw [ctf_array_info_array hnat hk'] at h
        simp only [] at h
        cases hpush : ctf_decl_push fuel cd l.fp l.tp.array.cta_contents with
        | none => simp [hpush] at h
        | some x =>
          obtain ⟨cd1, fp1⟩ := x
          simp only [hpush, Option.some.injEq] at h
          exact hrecur _ _ _ _ cd1 fp1 (by decide) hpush h
      case CTF_K_TYPEDEF =>
        split_ifs at h
        · exact hthrough l.fp _ rfl h
        · simp only [Option.some.injEq] at h
          exact hnode _ _ _ (by decide) h
      case CTF_K_SLICE =>
        have hk' : (⟨l.fp, false, l.tp⟩ : ctf_lookup_t).tp.kind = .CTF_K_SLICE := hk
        exact hthrough _ _ (ctf_type_reference_slice hnat hk') h
      all_goals first
        | (simp only [Option.some.injEq] at h
           exact hnode _ _ _ (by decide) h)
        | (cases hpush : ctf_decl_push fuel cd l.fp l.tp.ctt_type with
           | none => simp [hpush] at h
           | some x =>
             obtain ⟨cd1, fp1⟩ := x
             simp only [hpush, Option.some.injEq] at h
             exact hrecur _ _ _ _ cd1 fp1 (by decide) hpush h)

theorem ctf_func_type_info_ok_fp (fuel : Nat) (fp : ctf_dict_t) (type : Nat)
    (i : ctf_func_type_info_ret) (h : ctf_func_type_info fuel fp type = some i)
    (hret : ¬ i.ret < 0) : i.fp = fp := by
  unfold ctf_func_type_info at h
  cases hr : ctf_type_resolve fuel fp type with
  | none => simp [hr] at h
  | some r =>
    simp only [hr] at h
    by_cases hv : r.val = CTF_ERR
    · rw [if_pos hv] at h
      simp only [Option.some.injEq] at h
      rw [← h] at hret
      exact (hret (show ((-1 : Int) < 0) by norm_num)).elim
    · rw [if_neg hv] at h
      have hfp := ctf_type_resolve_ok_fp fuel fp type r hr hv
      cases hl : ctf_lookup_by_id r.fp r.val with
      | error e =>
        simp only [hl, Option.some.injEq] at h
        rw [← h] at hret
        exact (hret (show ((-1 : Int) < 0) by norm_num)).elim
      | ok l =>
        simp only [hl] at h
        by_cases hk : l.tp.kind ≠ .CTF_K_FUNCTION
        · rw [if_pos hk] at h
          simp only [Option.some.injEq] at h
          rw [← h] at hret
          exact (hret (show ((-1 : Int) < 0) by norm_num)).elim
        · rw [if_neg hk] at h
          cases hd : ctf_dynamic_type l.fp r.val <;> simp only [hd] at h <;>
          (split_ifs at h
           · split at h
             · cases h
             · split_ifs at h <;>
               (simp only [Option.some.injEq] at h
                rw [← h]
                exact hfp)
           · simp only [Option.some.injEq] at h
             rw [← h]
             exact hfp)

theorem ctf_func_type_args_ok_fp (fuel : Nat) (fp : ctf_dict_t) (type argc : Nat)
    (argv : List Nat) (a : ctf_func_type_args_ret)
    (h : ctf_func_type_args fuel fp type argc argv = some a) (hret : ¬ a.ret < 0) :
    a.fp = fp := by
  unfold ctf_func_type_args at h
  cases hi : ctf_func_type_info fuel fp type with
  | none => simp [hi] at h
  | some i =>
    simp only [hi] at h
    by_cases hneg : i.ret < 0
    · rw [if_pos hneg] at h
      simp only [Option.some.injEq] at h
      rw [← h] at hret
      exact (hret (show ((-1 : Int) < 0) by norm_num)).elim
    · rw [if_neg hneg] at h
      have hifp := ctf_func_type_info_ok_fp fuel fp type i hi hneg
      cases hf : i.fip with
      | none => simp [hf] at h
      | some f =>
        simp only [hf] at h
        cases hr : ctf_type_resolve fuel i.fp type with
        | none => simp [hr] at h
        | some r =>
          simp only [hr] at h
          by_cases hv : r.val = CTF_ERR
          · rw [if_pos hv] at h
            simp only [Option.some.injEq] at h
            rw [← h] at hret
            exact (hret (show ((-1 : Int) < 0) by norm_num)).elim
          · rw [if_neg hv] at h
            have hfp := ctf_type_resolve_ok_fp fuel i.fp type r hr hv
            cases hl : ctf_lookup_by_id r.fp r.val with
            | error e =>
              simp only [hl, Option.some.injEq] at h
              rw [← h] at hret
              exact (hret (show ((-1 : Int) < 0) by norm_num)).elim
            | ok l =>
              simp only [hl] at h
              cases hd : ctf_dynamic_type l.fp r.val <;> simp only [hd] at h <;>
              (split at h
               · cases h
               · simp only [Option.some.injEq] at h
                 rw [← h]
                 exact hfp.trans hifp)

theorem ctf_type_kind_forwarded_fp (fp : ctf_dict_t) (type n : Nat)
    (h : (ctf_type_kind_forwarded fp type).val = some n) :
    (ctf_type_kind_forwarded fp type).fp = fp := by
  unfold ctf_type_kind_forwarded at h ⊢
  cases hk : (ctf_type_kind fp type).val with
  | none => simp [hk] at h
  | some kind =>
    obtain ⟨l, hl⟩ := ctf_type_kind_lookup_ok hk
    have hfp := (ctf_type_kind_cases hl hk).1
    simp only [hk] at h ⊢
    split_ifs at h ⊢
    · exact hfp
    · rw [hfp] at h ⊢
      simp only [hl] at h ⊢

/-- The loop over the arguments only appends to the text, and leaves the dict as it
was when no call fails. -/
theorem ctf_type_aname_args_inv (aname : ctf_dict_t → Nat → Option (ctf_ret (Option String)))
    (vararg : Bool)
    (haname : ∀ fp t r s, ctf_dict_plain fp → aname fp t = some r → r.val = some s → r.fp = fp) :
    ∀ (argv : List Nat) (buf : String) (rfp : ctf_dict_t) (buf' : String) (rfp' : ctf_dict_t),
      ctf_dict_plain rfp → ctf_text_good buf →
      ctf_type_aname_args aname vararg argv buf rfp = some (.ok (buf', rfp')) →
      rfp' = rfp ∧ ctf_text_good buf' := by
  intro argv
  induction argv with
  | nil =>
    intro buf rfp buf' rfp' _ hg h
    simp only [ctf_type_aname_args, Option.some.injEq, Except.ok.injEq, Prod.mk.injEq] at h
    exact ⟨h.2.symm, h.1 ▸ hg⟩
  | cons a rest ih =>
    intro buf rfp buf' rfp' hp hg h
    simp only [ctf_type_aname_args] at h
    cases hr : aname rfp a with
    | none => simp [hr] at h
    | some r =>
      simp only [hr] at h
      cases hv : r.val with
      | none => simp [hv] at h
      | some arg =>
        simp only [hv] at h
        have hfp := haname rfp a r arg hp hr hv
        rw [hfp] at h
        refine ih _ rfp buf' rfp' hp ?_ h
        split_ifs
        · exact ctf_text_good_append_right _ _ (ctf_text_good_append_right _ _ hg)
        · exact ctf_text_good_append_right _ _ hg

/-- The text before the text of a node: a space unless the node before was a
pointer or an array, and the opening parenthesis. -/
theorem ctf_type_aname_node_prefix (st : ctf_aname_state) (prec : Nat) (hinv : ctf_aname_inv st) :
    ¬ ctf_leading_space
      (if st.lp = some prec then
        (if st.k ≠ .CTF_K_POINTER ∧ st.k ≠ .CTF_K_ARRAY then st.buf ++ " " else st.buf) ++ "("
       else if st.k ≠ .CTF_K_POINTER ∧ st.k ≠ .CTF_K_ARRAY then st.buf ++ " " else st.buf) := by
  have h1 : ¬ ctf_leading_space
      (if st.k ≠ .CTF_K_POINTER ∧ st.k ≠ .CTF_K_ARRAY then st.buf ++ " " else st.buf) := by
    split_ifs with hk
    · have hne : st.buf ≠ "" := by
        intro he
        rcases hinv.2 he with h | h
        · exact hk.1 h
        · exact hk.2 h
      exact (ctf_text_good_append_right _ _ ⟨hne, hinv.1⟩).2
    · exact hinv.1
  by_cases hl : st.lp = some prec
  · rw [if_pos hl]
    exact (ctf_text_good_append_left _ "(" h1 (by decide)).2
  · rw [if_neg hl]
    exact h1

/-- A node of a kind that has a text leaves a text that is not empty and does not
begin with a space, and the dict as it was. -/
theorem ctf_type_aname_node_inv (aname : ctf_dict_t → Nat → Option (ctf_ret (Option String)))
    (fuel prec : Nat) (st st' : ctf_aname_state) (cdp : ctf_decl_node_t)
    (haname : ∀ fp t r s, ctf_dict_plain fp → aname fp t = some r → r.val = some s → r.fp = fp)
    (hp : ctf_dict_plain st.fp) (hinv : ctf_aname_inv st)
    (hk : cdp.cd_kind ≠ .CTF_K_VAR ∧ cdp.cd_kind ≠ .CTF_K_SLICE)
    (h : ctf_type_aname_node aname fuel prec st cdp = some (.ok st')) :
    st'.fp = st.fp ∧ ctf_text_good st'.buf := by
  have hpre := ctf_type_aname_node_prefix st prec hinv
  unfold ctf_type_aname_node at h
  cases hl : ctf_lookup_by_id st.fp cdp.cd_type with
  | error e => simp [hl] at h
  | ok l =>
    simp only [hl] at h
    obtain ⟨hpl, hrec⟩ := ctf_lookup_plain hp hl
    have hput : ctf_put st.fp l.up l.fp = st.fp := by
      have := ctf_put_cur st.fp l.up
      rwa [(ctf_cur_lookup hl).2] at this
    generalize (if st.lp = some prec then
        (if st.k ≠ .CTF_K_POINTER ∧ st.k ≠ .CTF_K_ARRAY then st.buf ++ " " else st.buf) ++ "("
       else if st.k ≠ .CTF_K_POINTER ∧ st.k ≠ .CTF_K_ARRAY then st.buf ++ " " else st.buf) = B
      at h hpre
    generalize (if st.lp = some prec then none else st.lp) = LP at h
    have hB : ∀ X, ctf_text_good X → ctf_text_good (B ++ X) := fun X hX =>
      ctf_text_good_append_left B X hpre hX
    have hkf : ∀ n, (ctf_type_kind_forwarded st.fp cdp.cd_type).val = some n →
        (ctf_type_kind_forwarded st.fp cdp.cd_type).fp = st.fp :=
      fun n hn => ctf_type_kind_forwarded_fp st.fp cdp.cd_type n hn
    cases hck : cdp.cd_kind <;> simp only [hck] at h hk
    case CTF_K_FUNCTION =>
      cases hi : ctf_func_type_info fuel l.fp cdp.cd_type with
      | none => simp [hi] at h
      | some i =>
        simp only [hi] at h
        by_cases hneg : i.ret < 0
        · simp [hneg] at h
        · rw [if_neg hneg] at h
          have hifp := ctf_func_type_info_ok_fp fuel l.fp cdp.cd_type i hi hneg
          cases hf : i.fip with
          | none => simp [hf] at h
          | some fi =>
            simp only [hf] at h
            cases ha : ctf_func_type_args fuel i.fp cdp.cd_type fi.ctc_argc
                (List.replicate fi.ctc_argc 0) with
            | none => simp [ha] at h
            | some a =>
              simp only [ha] at h
              by_cases hneg2 : a.ret < 0
              · simp [hneg2] at h
              · rw [if_neg hneg2] at h
                have hafp := ctf_func_type_args_ok_fp fuel i.fp cdp.cd_type _ _ a ha hneg2
                rw [hafp, hifp] at h
                cases hargs : ctf_type_aname_args aname
                    (decide (fi.ctc_flags &&& CTF_FUNC_VARARG ≠ 0)) a.argv (B ++ "(*) (") l.fp with
                | none => rw [hargs] at h; simp at h
                | some x =>
                  cases x with
                  | error e => rw [hargs] at h; simp at h
                  | ok y =>
                    obtain ⟨buf, rfp⟩ := y
                    simp only [hargs, Option.some.injEq, Except.ok.injEq] at h
                    obtain ⟨e1, e2⟩ := ctf_type_aname_args_inv aname _ haname a.argv _ l.fp buf rfp
                      hpl (hB _ (by decide)) hargs
                    subst h
                    refine ⟨?_, ?_⟩
                    · show ctf_put st.fp l.up rfp = st.fp
                      rw [e1, hput]
                    · show ctf_text_good (_ ++ ")")
                      apply ctf_text_good_append_right
                      split_ifs
                      · exact ctf_text_good_append_right _ _ e2
                      · exact e2
    case CTF_K_VAR => exact absurd rfl hk.1
    case CTF_K_SLICE => exact absurd rfl hk.2
    case CTF_K_FORWARD =>
      split_ifs at h with h1 h2 h3
      · simp only [Option.some.injEq, Except.ok.injEq] at h
        subst h
        exact ⟨hkf _ h1, ctf_text_good_append_right _ _ (hB _ (by decide))⟩
      · simp only [Option.some.injEq, Except.ok.injEq] at h
        subst h
        exact ⟨hkf _ h2, ctf_text_good_append_right _ _ (hB _ (by decide))⟩
      · simp only [Option.some.injEq, Except.ok.injEq] at h
        subst h
        refine ⟨?_, ctf_text_good_append_right _ _ (hB _ (by decide))⟩
        rcases h3 with h3 | h3
        · exact hkf _ h3
        · exact hkf _ h3
      · simp at h
    all_goals first
      | (simp only [Option.some.injEq, Except.ok.injEq] at h
         subst h
         refine ⟨rfl, ?_⟩
         first
           | exact hB _ (by decide)
           | exact ctf_text_good_append_right _ _ (hB _ (by decide))
           | exact ctf_text_good_append_right _ _ (ctf_text_good_append_right _ _ (hB _ (by decide))))
      | (split_ifs at h with hn
         · simp at h
         · simp only [Option.some.injEq, Except.ok.injEq] at h
           subst h
           exact ⟨rfl, hB _ ⟨hn, hrec.2⟩⟩)
      | (split_ifs at h with hn
         · simp only [Option.some.injEq, Except.ok.injEq] at h
           subst h
           exact ⟨rfl, hB _ (by decide)⟩
         · simp only [Option.some.injEq, Except.ok.injEq] at h
           subst h
           exact ⟨rfl, ctf_text_good_append_right _ _
             (ctf_text_good_append_right _ _ (hB _ (by decide)))⟩)

theorem ctf_aname_inv_of_good (st : ctf_aname_state) (h : ctf_text_good st.buf) :
    ctf_aname_inv st :=
  ⟨h.2, fun he => absurd he h.1⟩

/-- The inner loop keeps the invariant `ctf_aname_inv` and the dict. -/
theorem ctf_type_aname_nodes_inv (aname : ctf_dict_t → Nat → Option (ctf_ret (Option String)))
    (fuel prec : Nat)
    (haname : ∀ fp t r s, ctf_dict_plain fp → aname fp t = some r → r.val = some s → r.fp = fp) :
    ∀ (nodes : List ctf_decl_node_t) (st st' : ctf_aname_state),
      ctf_dict_plain st.fp → ctf_aname_inv st →
      (∀ n ∈ nodes, n.cd_kind ≠ .CTF_K_VAR ∧ n.cd_kind ≠ .CTF_K_SLICE) →
      ctf_type_aname_nodes aname fuel prec nodes st = some (.ok st') →
      st'.fp = st.fp ∧ ctf_aname_inv st' := by
  intro nodes
  induction nodes with
  | nil =>
    intro st st' _ hinv _ h
    simp only [ctf_type_aname_nodes, Option.some.injEq, Except.ok.injEq] at h
    subst h
    exact ⟨rfl, hinv⟩
  | cons cdp rest ih =>
    intro st st' hp hinv hk h
    simp only [ctf_type_aname_nodes] at h
    cases hn : ctf_type_aname_node aname fuel prec st cdp with
    | none => rw [hn] at h; simp at h
    | some x =>
      cases x with
      | error e => rw [hn] at h; simp at h
      | ok st1 =>
        rw [hn] at h
        simp only [] at h
        obtain ⟨e1, e2⟩ := ctf_type_aname_node_inv aname fuel prec st st1 cdp haname hp hinv
          (hk cdp (List.mem_cons_self _ _)) hn
        obtain ⟨e3, e4⟩ := ih st1 st' (e1 ▸ hp) (ctf_aname_inv_of_good st1 e2)
          (fun n hn => hk n (List.mem_cons_of_mem _ hn)) h
        exact ⟨e3.trans e1, e4⟩

/-- The outer loop keeps the invariant `ctf_aname_inv` and the dict. -/
theorem ctf_type_aname_precs_inv (aname : ctf_dict_t → Nat → Option (ctf_ret (Option String)))
    (fuel : Nat) (cd : ctf_decl_t) (rp : Option Nat)
    (haname : ∀ fp t r s, ctf_dict_plain fp → aname fp t = some r → r.val = some s → r.fp = fp)
    (hcd : ctf_decl_nodes_ok cd) :
    ∀ (precs : List Nat) (st st' : ctf_aname_state),
      ctf_dict_plain st.fp → ctf_aname_inv st →
      ctf_type_aname_precs aname fuel cd rp precs st = some (.ok st') →
      st'.fp = st.fp ∧ ctf_aname_inv st' := by
  intro precs
  induction precs with
  | nil =>
    intro st st' _ hinv h
    simp only [ctf_type_aname_precs, Option.some.injEq, Except.ok.injEq] at h
    subst h
    exact ⟨rfl, hinv⟩
  | cons prec rest ih =>
    intro st st' hp hinv h
    simp only [ctf_type_aname_precs] at h
    have hnodes : ∀ n ∈ cd.cd_nodes.getD prec [],
        n.cd_kind ≠ .CTF_K_VAR ∧ n.cd_kind ≠ .CTF_K_SLICE := by
      intro x hx
      rw [List.getD_eq_getElem?_getD] at hx
      cases hi : cd.cd_nodes[prec]? with
      | none => simp [hi] at hx
      | some L =>
        simp only [hi, Option.getD_some] at hx
        exact hcd L (List.getElem?_mem hi) x hx
    cases hn : ctf_type_aname_nodes aname fuel prec (cd.cd_nodes.getD prec []) st with
    | none => rw [hn] at h; simp at h
    | some x =>
      cases x with
      | error e => rw [hn] at h; simp at h
      | ok st1 =>
        rw [hn] at h
        simp only [] at h
        obtain ⟨e1, e2⟩ := ctf_type_aname_nodes_inv aname fuel prec haname _ st st1 hp hinv
          hnodes hn
        by_cases hrp : rp = some prec
        · rw [if_pos hrp] at h
          obtain ⟨e3, e4⟩ := ih { st1 with buf := st1.buf ++ ")" } st'
            (show ctf_dict_plain st1.fp from e1 ▸ hp)
            (ctf_aname_inv_of_good { st1 with buf := st1.buf ++ ")" }
              (show ctf_text_good (st1.buf ++ ")") from
              ctf_text_good_append_left _ _ e2.1 (by decide))) h
          exact ⟨e3.trans e1, e4⟩
        · rw [if_neg hrp] at h
          obtain ⟨e3, e4⟩ := ih st1 st' (e1 ▸ hp) e2 h
          exact ⟨e3.trans e1, e4⟩

theorem ctf_decl_init_nodes_ok : ctf_decl_nodes_ok ctf_decl_init := by
  intro L hL n hn
  simp only [ctf_decl_init, List.mem_cons, List.mem_singleton, List.not_mem_nil, or_false,
    or_self] at hL
  rw [hL] at hn
  cases hn

/-- In a dict whose records are plain, a successful `ctf_type_aname` leaves the dict
as it was and returns a text that does not begin with a space. -/
theorem ctf_type_aname_no_leading_space :
    ∀ (fuel : Nat) (fp : ctf_dict_t) (t : Nat) (r : ctf_ret (Option String)) (s : String),
      ctf_dict_plain fp → ctf_type_aname fuel fp t = some r → r.val = some s →
      r.fp = fp ∧ ¬ ctf_leading_space s := by
  intro fuel
  induction fuel with
  | zero => intro fp t r s _ h; cases h
  | succ fuel ih =>
    intro fp t r s hp h hs
    rw [ctf_type_aname_succ] at h
    by_cases hns : fp.LCTF_NO_STR = true
    · rw [if_pos hns] at h
      simp only [Option.some.injEq] at h
      rw [← h] at hs
      cases hs
    · rw [if_neg hns] at h
      cases hpush : ctf_decl_push fuel ctf_decl_init fp t with
      | none => rw [hpush] at h; simp at h
      | some x =>
        obtain ⟨cd, fp1⟩ := x
        rw [hpush] at h
        simp only [] at h
        cases herr : cd.cd_err with
        | some e =>
          simp only [herr, Option.some.injEq] at h
          rw [← h] at hs
          cases hs
        | none =>
          simp only [herr] at h
          obtain ⟨e1, e2, e3⟩ := ctf_decl_push_ok fuel ctf_decl_init fp t cd fp1 hp
            ctf_decl_init_nodes_ok hpush herr
          have haname : ∀ fp t r s, ctf_dict_plain fp → ctf_type_aname fuel fp t = some r →
              r.val = some s → r.fp = fp := fun fp t r s h1 h2 h3 => (ih fp t r s h1 h2 h3).1
          generalize (if decide (cd.cd_order.getD CTF_PREC_ARRAY 0 > ↑CTF_PREC_ARRAY) = true
            then some CTF_PREC_ARRAY
            else if decide (cd.cd_order.getD CTF_PREC_POINTER 0 > ↑CTF_PREC_POINTER) = true
              then some CTF_PREC_POINTER else none) = rp at h
          generalize (if decide (cd.cd_order.getD CTF_PREC_POINTER 0 > ↑CTF_PREC_POINTER) = true
            then some CTF_PREC_POINTER
            else if decide (cd.cd_order.getD CTF_PREC_ARRAY 0 > ↑CTF_PREC_ARRAY) = true
              then some CTF_PREC_ARRAY else none) = lp at h
          cases hpr : ctf_type_aname_precs (ctf_type_aname fuel) fuel cd rp
              (List.range' CTF_PREC_BASE (CTF_PREC_MAX - CTF_PREC_BASE))
              { buf := cd.cd_buf, k := .CTF_K_POINTER, lp := lp, fp := fp1 } with
          | none => rw [hpr] at h; simp at h
          | some x =>
            cases x with
            | error e =>
              rw [hpr] at h
              simp only [Option.some.injEq] at h
              rw [← h] at hs
              cases hs
            | ok st =>
              rw [hpr] at h
              simp only [Option.some.injEq] at h
              obtain ⟨e4, e5⟩ := ctf_type_aname_precs_inv (ctf_type_aname fuel) fuel cd rp haname
                e2 _ _ st (show ctf_dict_plain fp1 from e1 ▸ hp)
                ⟨by
                  show ¬ ctf_leading_space cd.cd_buf
                  rw [e3]
                  decide, fun _ => Or.inl rfl⟩ hpr
              rw [← h] at hs ⊢
              simp only [Option.some.injEq] at hs
              rw [← hs]
              exact ⟨e4.trans e1, e5.1⟩

theorem ctf_type_aname_name_dict_5 :
    ctf_type_aname 4 name_dict 5 = some ⟨some "int (*)[10]", name_dict⟩ := by
  have h := ctf_type_aname_ptr_array_render 0 name_dict 5
    { kind := .CTF_K_POINTER, ctt_type := 4 }
    { kind := .CTF_K_ARRAY, array := { cta_contents := 1, cta_index := 1, cta_nelems := 10 } }
    { kind := .CTF_K_INTEGER, ctt_name := "int", ctt_size := 4 }
    rfl rfl rfl rfl rfl rfl (Or.inl rfl) (by decide)
  rw [h]
  rfl

/-- Declarator rendering by `ctf_type_aname`, for types of the dict `fp` itself (a
dict with its strings).  A pointer whose record refers to an array of `N`
elements of a named integer, float or typedef `T` renders exactly as `T (*)[N]`:
the pointer comes before the array in graph order, so the pointer class is put in
parentheses.  A pointer to a struct `S` renders exactly as `struct S *`.  And in a
dict with no record of kind `CTF_K_VAR` and no name that begins with a space, a
rendered string never begins with a space (and the dict is left as it was). -/
theorem ctf_type_aname_declarators (fp : ctf_dict_t) (hns : fp.LCTF_NO_STR = false) :
    (∀ (fuel p : Nat) (P A B : ctf_type_t),
      ctf_lookup_by_id fp p = .ok ⟨fp, false, P⟩ → P.kind = .CTF_K_POINTER →
      ctf_lookup_by_id fp P.ctt_type = .ok ⟨fp, false, A⟩ → A.kind = .CTF_K_ARRAY →
      ctf_lookup_by_id fp A.array.cta_contents = .ok ⟨fp, false, B⟩ →
      (B.kind = .CTF_K_INTEGER ∨ B.kind = .CTF_K_FLOAT ∨ B.kind = .CTF_K_TYPEDEF) →
      B.ctt_name ≠ "" →
      ctf_type_aname (fuel + 4) fp p
        = some ⟨some (B.ctt_name ++ " (*)[" ++ toString A.array.cta_nelems ++ "]"), fp⟩) ∧
    (∀ (fuel p : Nat) (P S : ctf_type_t),
      ctf_lookup_by_id fp p = .ok ⟨fp, false, P⟩ → P.kind = .CTF_K_POINTER →
      ctf_lookup_by_id fp P.ctt_type = .ok ⟨fp, false, S⟩ → S.kind = .CTF_K_STRUCT →
      ctf_type_aname (fuel + 3) fp p = some ⟨some ("struct " ++ S.ctt_name ++ " *"), fp⟩) ∧
    (∀ (fuel t : Nat) (r : ctf_ret (Option String)) (s : String),
      ctf_dict_plain fp → ctf_type_aname fuel fp t = some r → r.val = some s →
      r.fp = fp ∧ ¬ ctf_leading_space s) :=
  ⟨fun fuel p P A B hp hPk ha hAk hb hBk hBn =>
      ctf_type_aname_ptr_array_render fuel fp p P A B hns hp hPk ha hAk hb hBk hBn,
   fun fuel p P S hp hPk hs hSk => ctf_type_aname_ptr_struct_render fuel fp p P S hns hp hPk hs hSk,
   fun fuel t r s hpl h hs => ctf_type_aname_no_leading_space fuel fp t r s hpl h hs⟩

theorem ctf_type_aname_declarators_witness :
    name_dict.LCTF_NO_STR = false ∧
    ctf_type_aname 4 name_dict 5 = some ⟨some "int (*)[10]", name_dict⟩ ∧
    ctf_type_aname 3 name_dict 3 = some ⟨some "struct S *", name_dict⟩ ∧
    ctf_dict_plain name_dict ∧
    ctf_type_aname 6 name_dict 6 = some ⟨some "int *(*) (int, int, ...)", name_dict⟩ ∧
    ¬ ctf_leading_space "int *(*) (int, int, ...)" :=
  ⟨rfl,
   (ctf_type_aname_declarators name_dict rfl).1 0 5
      { kind := .CTF_K_POINTER, ctt_type := 4 }
      { kind := .CTF_K_ARRAY, array := { cta_contents := 1, cta_index := 1, cta_nelems := 10 } }
      { kind := .CTF_K_INTEGER, ctt_name := "int", ctt_size := 4 }
      rfl rfl rfl rfl rfl (Or.inl rfl) (by decide),
   (ctf_type_aname_declarators name_dict rfl).2.1 0 3
      { kind := .CTF_K_POINTER, ctt_type := 2 } { kind := .CTF_K_STRUCT, ctt_name := "S" }
      rfl rfl rfl rfl,
   by decide, rfl,
   ((ctf_type_aname_declarators name_dict rfl).2.2 6 6
      ⟨some "int *(*) (int, int, ...)", name_dict⟩ "int *(*) (int, int, ...)"
      (by decide) rfl rfl).2⟩

theorem ctf_snprintf_data (buf s : String) (len : Nat) (h : len ≠ 0) :
    (ctf_snprintf buf len s).data = s.data.take (min s.length (len - 1)) := by
  unfold ctf_snprintf
  rw [if_neg h, String.data_take]
  by_cases hle : s.length ≤ len - 1
  · rw [min_eq_left hle]
    have h1 : s.data.length ≤ len - 1 := hle
    rw [List.take_of_length_le h1]
    exact (List.take_of_length_le (le_refl _)).symm
  · rw [min_eq_right (le_of_not_le hle)]

/-- C26: when `ctf_type_aname` renders the name of the type as the string `s`
(shorter than `2^63`), for every buffer length `len` `ctf_type_lname`
returns the length of `s`, whether or not it fits, sets `ECTF_NAMELEN` exactly when
`length s >= len`, and leaves in the buffer the first `min (length s, len - 1)`
characters of `s` (with `len = 0` nothing is written); `ctf_type_name` returns the
buffer exactly when `length s < len`, and `NULL` otherwise.  When the name cannot be
rendered, `ctf_type_lname` returns -1 and `ctf_type_name` returns `NULL`, and the
buffer is left as it was. -/
theorem ctf_type_lname_length (fuel : Nat) (fp : ctf_dict_t) (type : Nat) (buf : String)
    (len : Nat) (r : ctf_ret (Option String))
    (hr : ctf_type_aname fuel fp type = some r)
    (hs : ∀ s, r.val = some s → s.length < 2 ^ 63) :
    (∀ s, r.val = some s →
      ∃ l n, ctf_type_lname fuel fp type buf len = some l ∧
        ctf_type_name fuel fp type buf len = some n ∧
        l.ret = s.length ∧
        l.fp = (if s.length ≥ len then (ctf_set_errno r.fp .ECTF_NAMELEN).fp else r.fp) ∧
        (len ≠ 0 → l.buf.data = s.data.take (min s.length (len - 1))) ∧
        (len = 0 → l.buf = buf) ∧
        (n.ret = true ↔ s.length < len) ∧ n.buf = l.buf ∧ n.fp = l.fp) ∧
    (r.val = none →
      ctf_type_lname fuel fp type buf len = some { ret := -1, buf := buf, fp := r.fp } ∧
      ctf_type_name fuel fp type buf len = some { ret := false, buf := buf, fp := r.fp }) := by
  refine ⟨fun s hv => ?_, fun hv => ?_⟩
  · have hl : ctf_type_lname fuel fp type buf len
        = some { ret := s.length, buf := ctf_snprintf buf len s,
                 fp := if s.length ≥ len then (ctf_set_errno r.fp .ECTF_NAMELEN).fp else r.fp } := by
      unfold ctf_type_lname
      simp only [hr, hv]
    have hn : ctf_type_name fuel fp type buf len
        = some { ret := decide ((s.length : Int) ≥ 0 ∧ size_t_of (s.length : Int) < len),
                 buf := ctf_snprintf buf len s,
                 fp := if s.length ≥ len then (ctf_set_errno r.fp .ECTF_NAMELEN).fp
                       else r.fp } := by
      unfold ctf_type_name
      rw [hl]
    refine ⟨_, _, hl, hn, rfl, rfl, ?_, ?_, ?_, rfl, rfl⟩
    · intro h0
      exact ctf_snprintf_data buf s len h0
    · intro h0
      unfold ctf_snprintf
      rw [if_pos h0]
    · have hlt := hs s hv
      have hsz : size_t_of (s.length : Int) = s.length := by
        have h63 : (s.length : Int) < 2 ^ 63 := by exact_mod_cast hlt
        have := size_t_of_nonneg (s.length : Int) (by positivity) (by linarith)
        exact_mod_cast this
      simp only [decide_eq_true_eq, hsz]
      constructor
      · intro h
        exact_mod_cast h.2
      · intro h
        exact ⟨by positivity, by exact_mod_cast h⟩
  · have hl : ctf_type_lname fuel fp type buf len = some { ret := -1, buf := buf, fp := r.fp } := by
      unfold ctf_type_lname
      simp only [hr, hv]
    refine ⟨hl, ?_⟩
    unfold ctf_type_name
    rw [hl]
    rfl

theorem ctf_type_lname_length_witness :
    ctf_type_aname 4 name_dict 5 = some ⟨some "int (*)[10]", name_dict⟩ ∧
    (∃ l n, ctf_type_lname 4 name_dict 5 "xxxx" 5 = some l ∧
        ctf_type_name 4 name_dict 5 "xxxx" 5 = some n ∧
        l.ret = 11 ∧ l.fp = (ctf_set_errno name_dict .ECTF_NAMELEN).fp ∧
        l.buf.data = ['i', 'n', 't', ' '] ∧ n.ret = false) :=
  ⟨ctf_type_aname_name_dict_5, by
    obtain ⟨l, n, h1, h2, h3, h4, h5, _, h7, _, _⟩ :=
      (ctf_type_lname_length 4 name_dict 5 "xxxx" 5 ⟨some "int (*)[10]", name_dict⟩
        ctf_type_aname_name_dict_5
        (fun s hs => by
          have : s = "int (*)[10]" := (Option.some.inj hs).symm
          rw [this]
          decide)).1 "int (*)[10]" rfl
    refine ⟨l, n, h1, h2, h3, h4, h5 (by decide), ?_⟩
    cases hn : n.ret with
    | false => rfl
    | true => exact absurd (h7.1 hn) (by decide)⟩

/-! ## Theorems: type comparison -/

theorem ctf_type_cmp_owner_addr (fp : ctf_dict_t) (type : Nat) :
    (if fp.ctf_parent ≠ none then ctf_get_dict_addr fp type else fp.ctf_addr)
      = (ctf_type_owner fp type).ctf_addr := by
  unfold ctf_type_owner ctf_get_dict_addr ctf_get_dict
  cases hp : fp.ctf_parent with
  | none => simp
  | some p =>
    simp only [ne_eq, reduceCtorEq, not_false_eq_true, ↓reduceIte, Option.map_some']
    by_cases hc : fp.LCTF_CHILD = true
    · by_cases hi : ctf_type_isparent fp type = 0
      · simp [hc, hi]
      · simp [hc, hi]
    · simp [hc]

/-- C31: `ctf_type_cmp (lfp, ltype, rfp, rtype)` returns 0 exactly when the two type
IDs are equal and the two types are owned by the same dict, where each handle is
chased to its attached parent when the ID is a type of the parent
(`ctf_type_owner`); in every other case the result is not 0.  Dicts are told apart
by their addresses, so one address stands for one dict. -/
theorem ctf_type_cmp_zero_iff (lfp : ctf_dict_t) (ltype : Nat) (rfp : ctf_dict_t) (rtype : Nat)
    (haddr : lfp.ctf_addr = rfp.ctf_addr → lfp = rfp) :
    ctf_type_cmp lfp ltype rfp rtype = 0 ↔
      ltype = rtype ∧
      (ctf_type_owner lfp ltype).ctf_addr = (ctf_type_owner rfp rtype).ctf_addr := by
  have hrval : (if ltype < rtype then (-1 : Int) else if ltype > rtype then 1 else 0) = 0
      ↔ ltype = rtype := by
    by_cases h1 : ltype < rtype
    · rw [if_pos h1]
      constructor
      · intro h; norm_num at h
      · intro h; omega
    · rw [if_neg h1]
      by_cases h2 : ltype > rtype
      · rw [if_pos h2]
        constructor
        · intro h; norm_num at h
        · intro h; omega
      · rw [if_neg h2]
        constructor
        · intro _; omega
        · intro _; rfl
  unfold ctf_type_cmp
  simp only []
  rw [ctf_type_cmp_owner_addr, ctf_type_cmp_owner_addr]
  by_cases ha : lfp.ctf_addr = rfp.ctf_addr
  · rw [if_pos ha, hrval]
    have he := haddr ha
    constructor
    · intro h
      refine ⟨h, ?_⟩
      rw [he, h]
    · intro h
      exact h.1
  · rw [if_neg ha]
    by_cases h1 : (ctf_type_owner lfp ltype).ctf_addr < (ctf_type_owner rfp rtype).ctf_addr
    · rw [if_pos h1]
      constructor
      · intro h; norm_num at h
      · intro h; omega
    · rw [if_neg h1]
      by_cases h2 : (ctf_type_owner lfp ltype).ctf_addr > (ctf_type_owner rfp rtype).ctf_addr
      · rw [if_pos h2]
        constructor
        · intro h; norm_num at h
        · intro h; omega
      · rw [if_neg h2, hrval]
        constructor
        · intro h
          exact ⟨h, by omega⟩
        · intro h
          exact h.1

theorem ctf_type_cmp_zero_iff_witness :
    (compat_dict.ctf_addr = compat_parent.dict.ctf_addr → compat_dict = compat_parent.dict) ∧
    (ctf_type_cmp compat_dict 2 compat_parent.dict 2 = 0 ↔
      2 = 2 ∧ (ctf_type_owner compat_dict 2).ctf_addr
        = (ctf_type_owner compat_parent.dict 2).ctf_addr) ∧
    ctf_type_cmp compat_dict 2 compat_parent.dict 2 = 0 ∧
    ctf_type_cmp compat_dict 2 compat_dict2 2 = 0 ∧
    ctf_type_cmp compat_dict 4 compat_dict2 4 ≠ 0 :=
  ⟨by decide,
   ctf_type_cmp_zero_iff compat_dict 2 compat_parent.dict 2 (by decide),
   by decide, by decide, by decide⟩

/-- C38: `ctf_type_cmp` is antisymmetric, `ctf_type_cmp (lfp, ltype, rfp, rtype)` is
`- ctf_type_cmp (rfp, rtype, lfp, ltype)` for all dicts and type IDs, and its result
is always one of -1, 0 and 1. -/
theorem ctf_type_cmp_antisymm (lfp : ctf_dict_t) (ltype : Nat) (rfp : ctf_dict_t) (rtype : Nat) :
    ctf_type_cmp lfp ltype rfp rtype = - ctf_type_cmp rfp rtype lfp ltype ∧
    (ctf_type_cmp lfp ltype rfp rtype = -1 ∨ ctf_type_cmp lfp ltype rfp rtype = 0 ∨
      ctf_type_cmp lfp ltype rfp rtype = 1) := by
  have hrval : ∀ (a b : Nat),
      (if a < b then (-1 : Int) else if a > b then 1 else 0)
        = - (if b < a then (-1 : Int) else if b > a then 1 else 0) ∧
      ((if a < b then (-1 : Int) else if a > b then 1 else 0) = -1 ∨
       (if a < b then (-1 : Int) else if a > b then 1 else 0) = 0 ∨
       (if a < b then (-1 : Int) else if a > b then 1 else 0) = 1) := by
    intro a b
    rcases Nat.lt_trichotomy a b with h | h | h
    · rw [if_pos h, if_neg (by omega), if_pos (by omega)]
      exact ⟨by norm_num, Or.inl rfl⟩
    · subst h
      simp
    · rw [if_neg (by omega), if_pos (by omega), if_pos h]
      exact ⟨by norm_num, Or.inr (Or.inr rfl)⟩
  unfold ctf_type_cmp
  simp only []
  generalize (if lfp.ctf_parent ≠ none then ctf_get_dict_addr lfp ltype else lfp.ctf_addr) = la
  generalize (if rfp.ctf_parent ≠ none then ctf_get_dict_addr rfp rtype else rfp.ctf_addr) = ra
  by_cases ha : lfp.ctf_addr = rfp.ctf_addr
  · have ha' : rfp.ctf_addr = lfp.ctf_addr := ha.symm
    rw [if_pos ha, if_pos ha']
    exact hrval ltype rtype
  · have ha' : ¬ rfp.ctf_addr = lfp.ctf_addr := fun h => ha h.symm
    rw [if_neg ha, if_neg ha']
    rcases Nat.lt_trichotomy la ra with h | h | h
    · have h1 : ¬ ra < la := by omega
      have h2 : ra > la := h
      rw [if_pos h, if_neg h1, if_pos h2]
      exact ⟨by norm_num, Or.inl rfl⟩
    · subst h
      simp only [lt_self_iff_false, ↓reduceIte, gt_iff_lt]
      exact hrval ltype rtype
    · have h1 : ¬ la < ra := by omega
      have h2 : la > ra := h
      rw [if_neg h1, if_pos h2, if_pos h]
      exact ⟨by norm_num, Or.inr (Or.inr rfl)⟩

/-! ## Theorems: dict flags -/

theorem LCTF_STRICT_testBit (i : Nat) :
    LCTF_STRICT_NO_DUP_ENUMERATORS.testBit i = decide (i = 2) := by
  have h : LCTF_STRICT_NO_DUP_ENUMERATORS = 2 ^ 2 := rfl
  rw [h, Nat.testBit_two_pow]
  by_cases hi : i = 2
  · simp [hi]
  · have : ¬ 2 = i := fun h => hi h.symm
    simp [hi, this]

theorem ctf_flags_not_testBit (i : Nat) :
    (4294967295 ^^^ LCTF_STRICT_NO_DUP_ENUMERATORS).testBit i = decide (i < 32 ∧ i ≠ 2) := by
  have h : (4294967295 : Nat) = 2 ^ 32 - 1 := by norm_num
  rw [Nat.testBit_xor, LCTF_STRICT_testBit, h, Nat.testBit_two_pow_sub_one]
  by_cases h1 : i < 32 <;> by_cases h2 : i = 2 <;> simp [h1, h2]

theorem ctf_flags_set_land (f : Nat) :
    (f ||| LCTF_STRICT_NO_DUP_ENUMERATORS) &&& LCTF_STRICT_NO_DUP_ENUMERATORS
      = LCTF_STRICT_NO_DUP_ENUMERATORS := by
  apply Nat.eq_of_testBit_eq
  intro i
  rw [Nat.testBit_and, Nat.testBit_or, LCTF_STRICT_testBit]
  by_cases h2 : i = 2 <;> simp [h2]

theorem ctf_flags_clear_land (f : Nat) :
    (f &&& (4294967295 ^^^ LCTF_STRICT_NO_DUP_ENUMERATORS)) &&& LCTF_STRICT_NO_DUP_ENUMERATORS
      = 0 := by
  apply Nat.eq_of_testBit_eq
  intro i
  rw [Nat.testBit_and, Nat.testBit_and, ctf_flags_not_testBit, LCTF_STRICT_testBit]
  by_cases h2 : i = 2 <;> simp [h2]

theorem ctf_flags_testBit_high (f i : Nat) (hf : f < 4294967296) (hi : ¬ i < 32) :
    f.testBit i = false := by
  apply Nat.testBit_eq_false_of_lt
  have h1 : (2 : Nat) ^ 32 ≤ 2 ^ i := Nat.pow_le_pow_right (by norm_num) (by omega)
  have h2 : (2 : Nat) ^ 32 = 4294967296 := by norm_num
  omega

/-- C36: dict flags are strict and round-trip.  For the flag
`CTF_STRICT_NO_DUP_ENUMERATORS` and `set` 0 or 1, `ctf_dict_set_flag` returns 0, a
following `ctf_dict_get_flag` for the flag returns `set` and leaves the dict as it
is, every other bit of `ctf_flags` (a `uint32_t`) is as before, and no other field
of the dict changes.  For any other flag, or a `set` outside 0 and 1,
`ctf_dict_set_flag` returns -1 with `ECTF_BADFLAG` and leaves the flags as they
were; `ctf_dict_get_flag` with an unknown flag returns -1 with `ECTF_BADFLAG`. -/
theorem ctf_dict_flag_round_trip (fp : ctf_dict_t) (hf : fp.ctf_flags < 4294967296) :
    (∀ set : Int, set = 0 ∨ set = 1 →
      (ctf_dict_set_flag fp CTF_STRICT_NO_DUP_ENUMERATORS set).val = 0 ∧
      ctf_dict_get_flag (ctf_dict_set_flag fp CTF_STRICT_NO_DUP_ENUMERATORS set).fp
          CTF_STRICT_NO_DUP_ENUMERATORS
        = ⟨set, (ctf_dict_set_flag fp CTF_STRICT_NO_DUP_ENUMERATORS set).fp⟩ ∧
      (∀ i, LCTF_STRICT_NO_DUP_ENUMERATORS.testBit i = false →
        (ctf_dict_set_flag fp CTF_STRICT_NO_DUP_ENUMERATORS set).fp.ctf_flags.testBit i
          = fp.ctf_flags.testBit i) ∧
      (ctf_dict_set_flag fp CTF_STRICT_NO_DUP_ENUMERATORS set).fp.ctf_flags < 4294967296 ∧
      (ctf_dict_set_flag fp CTF_STRICT_NO_DUP_ENUMERATORS set).fp
        = { fp with ctf_flags :=
              (ctf_dict_set_flag fp CTF_STRICT_NO_DUP_ENUMERATORS set).fp.ctf_flags }) ∧
    (∀ (flag : Nat) (set : Int), flag ≠ CTF_STRICT_NO_DUP_ENUMERATORS ∨ set < 0 ∨ set > 1 →
      ctf_dict_set_flag fp flag set = ⟨-1, { fp with ctf_errno := .ECTF_BADFLAG }⟩) ∧
    (∀ flag : Nat, flag ≠ CTF_STRICT_NO_DUP_ENUMERATORS →
      ctf_dict_get_flag fp flag = ⟨-1, { fp with ctf_errno := .ECTF_BADFLAG }⟩) := by
  refine ⟨?_, ?_, ?_⟩
  · intro set hset
    rcases hset with h | h
    · subst h
      have hs : ctf_dict_set_flag fp CTF_STRICT_NO_DUP_ENUMERATORS 0
          = ⟨0, { fp with ctf_flags :=
                fp.ctf_flags &&& (4294967295 ^^^ LCTF_STRICT_NO_DUP_ENUMERATORS) }⟩ := by
        unfold ctf_dict_set_flag
        simp
      rw [hs]
      refine ⟨rfl, ?_, ?_, ?_, rfl⟩
      · unfold ctf_dict_get_flag
        simp only [↓reduceIte, ctf_flags_clear_land, ne_eq, not_true_eq_false]
      · intro i hi
        show (fp.ctf_flags &&& (4294967295 ^^^ LCTF_STRICT_NO_DUP_ENUMERATORS)).testBit i = _
        rw [LCTF_STRICT_testBit] at hi
        rw [Nat.testBit_and, ctf_flags_not_testBit]
        have h2 : i ≠ 2 := by simpa using hi
        by_cases h1 : i < 32
        · simp [h1, h2]
        · simp [h1, ctf_flags_testBit_high fp.ctf_flags i hf h1]
      · show fp.ctf_flags &&& (4294967295 ^^^ LCTF_STRICT_NO_DUP_ENUMERATORS) < 4294967296
        exact lt_of_le_of_lt Nat.and_le_left hf
    · subst h
      have hs : ctf_dict_set_flag fp CTF_STRICT_NO_DUP_ENUMERATORS 1
          = ⟨0, { fp with ctf_flags := fp.ctf_flags ||| LCTF_STRICT_NO_DUP_ENUMERATORS }⟩ := by
        unfold ctf_dict_set_flag
        simp
      rw [hs]
      refine ⟨rfl, ?_, ?_, ?_, rfl⟩
      · unfold ctf_dict_get_flag
        simp only [↓reduceIte, ctf_flags_set_land]
        rfl
      · intro i hi
        show (fp.ctf_flags ||| LCTF_STRICT_NO_DUP_ENUMERATORS).testBit i = _
        rw [Nat.testBit_or, hi, Bool.or_false]
      · show fp.ctf_flags ||| LCTF_STRICT_NO_DUP_ENUMERATORS < 4294967296
        have h2 : (4294967296 : Nat) = 2 ^ 32 := by norm_num
        rw [h2]
        apply Nat.or_lt_two_pow
        · rw [← h2]; exact hf
        · decide
  · intro flag set h
    unfold ctf_dict_set_flag ctf_set_errno
    by_cases hs : set < 0 ∨ set > 1
    · rw [if_pos hs]
    · rw [if_neg hs]
      have hflag : flag ≠ CTF_STRICT_NO_DUP_ENUMERATORS := by
        rcases h with h | h | h
        · exact h
        · exact absurd (Or.inl h) hs
        · exact absurd (Or.inr h) hs
      rw [if_neg hflag]
  · intro flag h
    unfold ctf_dict_get_flag ctf_set_errno
    rw [if_neg h]

theorem ctf_dict_flag_round_trip_witness :
    flag_dict.ctf_flags < 4294967296 ∧
    ((1 : Int) = 0 ∨ (1 : Int) = 1) ∧
    (ctf_dict_set_flag flag_dict CTF_STRICT_NO_DUP_ENUMERATORS 0).fp.ctf_flags = 18 ∧
    (ctf_dict_set_flag flag_dict CTF_STRICT_NO_DUP_ENUMERATORS 1).val = 0 ∧
    ctf_dict_get_flag (ctf_dict_set_flag flag_dict CTF_STRICT_NO_DUP_ENUMERATORS 1).fp
        CTF_STRICT_NO_DUP_ENUMERATORS
      = ⟨1, (ctf_dict_set_flag flag_dict CTF_STRICT_NO_DUP_ENUMERATORS 1).fp⟩ ∧
    ((2 : Nat) ≠ CTF_STRICT_NO_DUP_ENUMERATORS ∨ (1 : Int) < 0 ∨ (1 : Int) > 1) ∧
    ctf_dict_set_flag flag_dict 2 1 = ⟨-1, { flag_dict with ctf_errno := .ECTF_BADFLAG }⟩ ∧
    (2 : Nat) ≠ CTF_STRICT_NO_DUP_ENUMERATORS ∧
    ctf_dict_get_flag flag_dict 2 = ⟨-1, { flag_dict with ctf_errno := .ECTF_BADFLAG }⟩ :=
  ⟨by decide, Or.inr rfl, by decide,
   ((ctf_dict_flag_round_trip flag_dict (by decide)).1 1 (Or.inr rfl)).1,
   ((ctf_dict_flag_round_trip flag_dict (by decide)).1 1 (Or.inr rfl)).2.1,
   Or.inl (by decide),
   (ctf_dict_flag_round_trip flag_dict (by decide)).2.1 2 1 (Or.inl (by decide)),
   by decide,
   (ctf_dict_flag_round_trip flag_dict (by decide)).2.2 2 (by decide)⟩

/-! ## Theorems: error and warning lists -/

theorem ctf_errwarning_next_any_dict (oe : List ctf_err_warning_t) (fp : ctf_dict_t)
    (it : List ctf_next_t) (has_errp : Bool) :
    (ctf_errwarning_next_any ⟨some fp, oe⟩ it true has_errp true).ret
        = (ctf_errwarning_next fp it has_errp).ret ∧
    (ctf_errwarning_next_any ⟨some fp, oe⟩ it true has_errp true).it
        = (ctf_errwarning_next fp it has_errp).it ∧
    (ctf_errwarning_next_any ⟨some fp, oe⟩ it true has_errp true).is_warning
        = (ctf_errwarning_next fp it has_errp).is_warning ∧
    (ctf_errwarning_next_any ⟨some fp, oe⟩ it true has_errp true).errp
        = (ctf_errwarning_next fp it has_errp).errp ∧
    (ctf_errwarning_next_any ⟨some fp, oe⟩ it true has_errp true).st
        = ⟨some (ctf_errwarning_next fp it has_errp).fp, oe⟩ := by
  unfold ctf_errwarning_next_any ctf_errwarning_next ctf_errwarning_fail ctf_errlist
    ctf_handle_addr
  cases it with
  | nil =>
    cases hl : fp.ctf_errs_warnings <;> cases has_errp <;>
      simp only [hl, Bool.true_eq_false, and_false, ↓reduceIte, ne_eq, not_true_eq_false,
        List.tail_nil, Bool.false_eq_true, and_self]
  | cons i sub =>
    by_cases h1 : i.ctn_iter_fun ≠ .ctf_errwarning_next
    · cases has_errp <;>
        simp only [h1, Bool.true_eq_false, and_false, ↓reduceIte, ne_eq, not_false_eq_true,
          List.tail_cons, Bool.false_eq_true, and_self, reduceCtorEq, false_and]
    · by_cases h2 : fp.ctf_addr ≠ i.ctn_fp
      · cases has_errp <;>
          simp only [h1, h2, Bool.true_eq_false, and_false, ↓reduceIte, ne_eq,
            not_false_eq_true, List.tail_cons, Bool.false_eq_true, and_self, reduceCtorEq,
            false_and]
      · cases hl : fp.ctf_errs_warnings <;> cases has_errp <;>
          simp only [hl, h1, h2, Bool.true_eq_false, and_false, ↓reduceIte, ne_eq,
            not_false_eq_true, List.tail_cons, Bool.false_eq_true, and_self, reduceCtorEq,
            false_and]

theorem ctf_errlist_err_warn_any (s : ctf_errs_t) (w : Bool) (e : ctf_error) (t : String) :
    ctf_err_warn_any s w e t = ctf_errlist_set s (ctf_errlist s ++ [⟨w, t⟩]) := by
  unfold ctf_err_warn_any ctf_errlist_set ctf_errlist ctf_err_warn
  cases s.fp <;> rfl

theorem ctf_errlist_set_set (s : ctf_errs_t) (a b : List ctf_err_warning_t) :
    ctf_errlist_set (ctf_errlist_set s a) b = ctf_errlist_set s b := by
  unfold ctf_errlist_set
  cases s.fp <;> rfl

theorem ctf_errlist_set_get (s : ctf_errs_t) (a : List ctf_err_warning_t) :
    ctf_errlist (ctf_errlist_set s a) = a := by
  unfold ctf_errlist_set ctf_errlist
  cases s.fp <;> rfl

theorem ctf_errlist_set_self (s : ctf_errs_t) : ctf_errlist_set s (ctf_errlist s) = s := by
  unfold ctf_errlist_set ctf_errlist
  cases s with
  | mk fp oe =>
    cases fp <;> rfl

theorem ctf_errlist_set_fp (s : ctf_errs_t) (a : List ctf_err_warning_t) :
    ctf_handle_addr (ctf_errlist_set s a).fp = ctf_handle_addr s.fp := by
  unfold ctf_errlist_set ctf_handle_addr
  cases s.fp <;> rfl

/-- Emitting the records `rs` appends them, in order, to the list. -/
theorem ctf_err_warn_all_append (rs : List ctf_err_warning_t) :
    ∀ s : ctf_errs_t, ctf_err_warn_all s rs = ctf_errlist_set s (ctf_errlist s ++ rs) := by
  induction rs with
  | nil =>
    intro s
    simp only [ctf_err_warn_all, List.foldl_nil, List.append_nil, ctf_errlist_set_self]
  | cons r rs ih =>
    intro s
    have h := ih (ctf_err_warn_any s r.cew_is_warning .OK r.cew_text)
    unfold ctf_err_warn_all at h ⊢
    rw [List.foldl_cons, h, ctf_errlist_err_warn_any, ctf_errlist_set_get, ctf_errlist_set_set,
      List.append_assoc]
    rfl

theorem ctf_errwarning_next_any_pop (s : ctf_errs_t) (it : List ctf_next_t) (he : Bool)
    (c : ctf_err_warning_t) (rest : List ctf_err_warning_t)
    (hit : ctf_errwarning_it_ok s it) (hl : ctf_errlist s = c :: rest) :
    ∃ it', ctf_errwarning_next_any s it true he true
        = { ret := some c.cew_text, it := it', is_warning := some c.cew_is_warning,
            st := ctf_errlist_set s rest } ∧
      ctf_errwarning_it_ok (ctf_errlist_set s rest) it' := by
  have key : ∀ (i : ctf_next_t) (sub : List ctf_next_t),
      i.ctn_iter_fun = .ctf_errwarning_next → i.ctn_fp = ctf_handle_addr s.fp →
      (if i.ctn_iter_fun ≠ .ctf_errwarning_next then
          ctf_errwarning_fail s he .ECTF_NEXT_WRONGFUN (i :: sub)
        else if ctf_handle_addr s.fp ≠ i.ctn_fp then
          ctf_errwarning_fail s he .ECTF_NEXT_WRONGFP (i :: sub)
        else
          ({ ret := some c.cew_text, it := i :: sub, is_warning := some c.cew_is_warning,
             st := ctf_errlist_set s rest } : ctf_errwarning_any_ret))
        = { ret := some c.cew_text, it := i :: sub, is_warning := some c.cew_is_warning,
            st := ctf_errlist_set s rest } := by
    intro i sub h1 h2
    rw [if_neg (by rw [h1]; exact fun h => h rfl), if_neg (by rw [h2]; exact fun h => h rfl)]
  rcases hit with h | ⟨i, sub, h, h1, h2⟩
  · subst h
    refine ⟨[{ ctn_iter_fun := .ctf_errwarning_next, ctn_fp := ctf_handle_addr s.fp }], ?_,
      Or.inr ⟨_, _, rfl, rfl, (ctf_errlist_set_fp s rest).symm⟩⟩
    unfold ctf_errwarning_next_any
    simp only [Bool.true_eq_false, and_false, ↓reduceIte, hl, ne_eq, not_true_eq_false,
      List.tail_nil]
    unfold ctf_errlist_set
    cases s.fp <;> rfl
  · subst h
    refine ⟨i :: sub, ?_, Or.inr ⟨_, _, rfl, h1, by rw [h2, ctf_errlist_set_fp]⟩⟩
    unfold ctf_errwarning_next_any
    simp only [reduceCtorEq, false_and, ↓reduceIte, hl, List.tail_cons, h1, ne_eq,
      not_true_eq_false, h2]
    unfold ctf_errlist_set
    cases s.fp <;> rfl

theorem ctf_errwarning_next_any_end (s : ctf_errs_t) (it : List ctf_next_t) (he : Bool)
    (hit : ctf_errwarning_it_ok s it) (hl : ctf_errlist s = []) :
    ctf_errwarning_next_any s it true he true = ctf_errwarning_fail s he .ECTF_NEXT_END [] := by
  rcases hit with h | ⟨i, sub, h, h1, h2⟩
  · subst h
    unfold ctf_errwarning_next_any
    simp only [Bool.true_eq_false, and_false, ↓reduceIte, hl, ne_eq, not_true_eq_false]
  · subst h
    unfold ctf_errwarning_next_any
    simp only [reduceCtorEq, false_and, ↓reduceIte, hl, h1, ne_eq, not_true_eq_false, h2]

theorem ctf_errwarning_drain_all (he : Bool) :
    ∀ (l : List ctf_err_warning_t) (s : ctf_errs_t) (it : List ctf_next_t),
      ctf_errwarning_it_ok s it → ctf_errlist s = l →
      ctf_errwarning_drain he (l.length + 1) s it
        = some (l.map (fun r => (r.cew_text, r.cew_is_warning)),
                ctf_errwarning_fail (ctf_errlist_set s []) he .ECTF_NEXT_END []) := by
  intro l
  induction l with
  | nil =>
    intro s it hit hl
    have h := ctf_errwarning_next_any_end s it he hit hl
    have hs : ctf_errlist_set s [] = s := by rw [← hl, ctf_errlist_set_self]
    have hret : (ctf_errwarning_fail s he .ECTF_NEXT_END []).ret = none := by
      unfold ctf_errwarning_fail
      cases he <;> cases s.fp <;> rfl
    simp only [ctf_errwarning_drain, List.length_nil, h, hret, List.map_nil, hs]
  | cons c rest ih =>
    intro s it hit hl
    obtain ⟨it', h, hit'⟩ := ctf_errwarning_next_any_pop s it he c rest hit hl
    have h2 := ih (ctf_errlist_set s rest) it' hit' (ctf_errlist_set_get s rest)
    rw [ctf_errlist_set_set] at h2
    show ctf_errwarning_drain he ((rest.length + 1) + 1) s it = _
    rw [ctf_errwarning_drain]
    simp only [h]
    rw [h2]
    rfl

/-- C32: error and warning records drain in order of emission.  After `ctf_err_warn`
has appended the records `rs` to the list of a dict (or, with `fp` `NULL`, to
`open_errors`), the list is what it was followed by `rs`; successive calls of
`ctf_errwarning_next` on the same cursor return the texts of the records of the list
in that order, each with its own `is_warning` flag, and remove them.  The call after
the last record returns `NULL`, clears the cursor slot and leaves the list empty; it
reports `ECTF_NEXT_END` in `*errp`, or in the dict when `errp` is `NULL` (and nowhere
when both are `NULL`). -/
theorem ctf_errwarning_next_drains (s : ctf_errs_t) (rs : List ctf_err_warning_t)
    (has_errp : Bool) :
    ctf_errlist (ctf_err_warn_all s rs) = ctf_errlist s ++ rs ∧
    ∃ last, ctf_errwarning_drain has_errp ((ctf_errlist s ++ rs).length + 1)
          (ctf_err_warn_all s rs) []
        = some ((ctf_errlist s ++ rs).map (fun r => (r.cew_text, r.cew_is_warning)), last) ∧
      last.ret = none ∧ last.it = [] ∧ ctf_errlist last.st = [] ∧
      (has_errp = true → last.errp = some .ECTF_NEXT_END ∧ last.st = ctf_errlist_set s []) ∧
      (has_errp = false → last.errp = none ∧
        (∀ fp, s.fp = some fp →
          last.st.fp = some { fp with ctf_errs_warnings := [], ctf_errno := .ECTF_NEXT_END }) ∧
        (s.fp = none → last.st = ctf_errlist_set s [])) := by
  have hlist : ctf_errlist (ctf_err_warn_all s rs) = ctf_errlist s ++ rs := by
    rw [ctf_err_warn_all_append, ctf_errlist_set_get]
  refine ⟨hlist, ctf_errwarning_fail (ctf_errlist_set s []) has_errp .ECTF_NEXT_END [], ?_, ?_⟩
  · have h := ctf_errwarning_drain_all has_errp (ctf_errlist s ++ rs) (ctf_err_warn_all s rs) []
      (Or.inl rfl) hlist
    rw [ctf_err_warn_all_append, ctf_errlist_set_set] at h
    rw [ctf_err_warn_all_append]
    exact h
  · unfold ctf_errwarning_fail ctf_errlist_set ctf_errlist ctf_set_errno
    cases has_errp <;> cases hs : s.fp <;>
      simp only [Bool.false_eq_true, ↓reduceIte, reduceCtorEq, false_implies, true_implies,
        and_self, true_and, and_true, Option.some.injEq, forall_eq', implies_true]

theorem ctf_errwarning_next_drains_witness :
    ctf_errwarning_drain false 3 ⟨some errs_dict, []⟩ []
      = some ([("first", false), ("second", true)],
              { ret := none, it := [],
                st := ⟨some { errs_dict with ctf_errs_warnings := [],
                                              ctf_errno := .ECTF_NEXT_END }, []⟩ }) ∧
    ctf_errlist (ctf_err_warn_all ⟨none, []⟩ [⟨false, "a"⟩, ⟨true, "b"⟩])
      = [⟨false, "a"⟩, ⟨true, "b"⟩] ∧
    (∃ last, ctf_errwarning_drain true 3 (ctf_err_warn_all ⟨none, []⟩ [⟨false, "a"⟩, ⟨true, "b"⟩]) []
        = some ([("a", false), ("b", true)], last) ∧
      last.ret = none ∧ last.it = [] ∧ ctf_errlist last.st = [] ∧
      last.errp = some .ECTF_NEXT_END) := by
  refine ⟨by decide, (ctf_errwarning_next_drains ⟨none, []⟩ [⟨false, "a"⟩, ⟨true, "b"⟩] true).1, ?_⟩
  obtain ⟨last, h1, h2, h3, h4, h5, _⟩ :=
    (ctf_errwarning_next_drains ⟨none, []⟩ [⟨false, "a"⟩, ⟨true, "b"⟩] true).2
  exact ⟨last, h1, h2, h3, h4, (h5 rfl).1⟩

theorem ctf_errwarning_next_any_cases (s : ctf_errs_t) (it : List ctf_next_t)
    (hw he co : Bool) :
    (∃ e ∈ ctf_errwarning_codes, ∃ it',
      ctf_errwarning_next_any s it hw he co = ctf_errwarning_fail s he e it') ∨
    (∃ c rest it', ctf_errlist s = c :: rest ∧
      ctf_errwarning_next_any s it hw he co
        = { ret := some c.cew_text, it := it',
            is_warning := if hw then some c.cew_is_warning else none,
            st := ctf_errlist_set s rest }) := by
  have hmem1 : ctf_error.ENOMEM ∈ ctf_errwarning_codes := by decide
  have hmem2 : ctf_error.ECTF_NEXT_WRONGFUN ∈ ctf_errwarning_codes := by decide
  have hmem3 : ctf_error.ECTF_NEXT_WRONGFP ∈ ctf_errwarning_codes := by decide
  have hmem4 : ctf_error.ECTF_NEXT_END ∈ ctf_errwarning_codes := by decide
  unfold ctf_errwarning_next_any
  by_cases h0 : it = [] ∧ co = false
  · rw [if_pos h0]
    exact Or.inl ⟨_, hmem1, _, rfl⟩
  · rw [if_neg h0]
    cases it with
    | nil =>
      simp only [ne_eq, not_true_eq_false, ↓reduceIte, List.tail_nil]
      cases hl : ctf_errlist s with
      | nil => exact Or.inl ⟨_, hmem4, _, rfl⟩
      | cons c rest =>
        refine Or.inr ⟨c, rest,
          [{ ctn_iter_fun := .ctf_errwarning_next, ctn_fp := ctf_handle_addr s.fp }], rfl, ?_⟩
        unfold ctf_errlist_set
        cases s.fp <;> rfl
    | cons i sub =>
      simp only [List.tail_cons]
      by_cases h1 : i.ctn_iter_fun ≠ .ctf_errwarning_next
      · rw [if_pos h1]
        exact Or.inl ⟨_, hmem2, _, rfl⟩
      · rw [if_neg h1]
        by_cases h2 : ctf_handle_addr s.fp ≠ i.ctn_fp
        · rw [if_pos h2]
          exact Or.inl ⟨_, hmem3, _, rfl⟩
        · rw [if_neg h2]
          cases hl : ctf_errlist s with
          | nil => exact Or.inl ⟨_, hmem4, _, rfl⟩
          | cons c rest =>
            refine Or.inr ⟨c, rest, i :: sub, rfl, ?_⟩
            unfold ctf_errlist_set
            cases s.fp <;> rfl

/-- C34: `ctf_errwarning_next` never overwrites the error code of the dict when the
caller supplies `errp`: whatever the dict, the cursor and the outcome of
`ctf_next_create`, the error code of the dict is as before, a call that returns
`NULL` reports one of `ENOMEM`, `ECTF_NEXT_WRONGFUN`, `ECTF_NEXT_WRONGFP` and
`ECTF_NEXT_END` in `*errp`, and a call that returns a text writes nothing to `*errp`.
Only when `errp` is `NULL` and `fp` is not does a call that returns `NULL` store one
of these codes in the dict; with both `NULL` nothing is stored anywhere. -/
theorem ctf_errwarning_next_keeps_errno (s : ctf_errs_t) (it : List ctf_next_t)
    (has_is_warning create_ok : Bool) :
    ((ctf_errwarning_next_any s it has_is_warning true create_ok).st.fp.map ctf_errno
        = s.fp.map ctf_errno ∧
      ((ctf_errwarning_next_any s it has_is_warning true create_ok).ret = none →
        ∃ e ∈ ctf_errwarning_codes,
          (ctf_errwarning_next_any s it has_is_warning true create_ok).errp = some e ∧
          (ctf_errwarning_next_any s it has_is_warning true create_ok).st = s) ∧
      ((ctf_errwarning_next_any s it has_is_warning true create_ok).ret ≠ none →
        (ctf_errwarning_next_any s it has_is_warning true create_ok).errp = none)) ∧
    ((ctf_errwarning_next_any s it has_is_warning false create_ok).errp = none ∧
      (∀ fp, s.fp = some fp →
        ((ctf_errwarning_next_any s it has_is_warning false create_ok).ret = none →
          ∃ e ∈ ctf_errwarning_codes,
            (ctf_errwarning_next_any s it has_is_warning false create_ok).st
              = { s with fp := some { fp with ctf_errno := e } }) ∧
        ((ctf_errwarning_next_any s it has_is_warning false create_ok).ret ≠ none →
          (ctf_errwarning_next_any s it has_is_warning false create_ok).st.fp.map ctf_errno
            = some fp.ctf_errno)) ∧
      (s.fp = none →
        (ctf_errwarning_next_any s it has_is_warning false create_ok).st.fp = none)) := by
  have hfail_t : ∀ (e : ctf_error) (it' : List ctf_next_t), e ∈ ctf_errwarning_codes →
      ((ctf_errwarning_fail s true e it').st.fp.map ctf_errno = s.fp.map ctf_errno ∧
        ((ctf_errwarning_fail s true e it').ret = none →
          ∃ e' ∈ ctf_errwarning_codes, (ctf_errwarning_fail s true e it').errp = some e' ∧
            (ctf_errwarning_fail s true e it').st = s) ∧
        ((ctf_errwarning_fail s true e it').ret ≠ none →
          (ctf_errwarning_fail s true e it').errp = none)) := by
    intro e it' he
    refine ⟨rfl, fun _ => ⟨e, he, rfl, rfl⟩, fun h => absurd rfl h⟩
  have hfail_f : ∀ (e : ctf_error) (it' : List ctf_next_t), e ∈ ctf_errwarning_codes →
      ((ctf_errwarning_fail s false e it').errp = none ∧
        (∀ fp, s.fp = some fp →
          ((ctf_errwarning_fail s false e it').ret = none →
            ∃ e' ∈ ctf_errwarning_codes,
              (ctf_errwarning_fail s false e it').st
                = { s with fp := some { fp with ctf_errno := e' } }) ∧
          ((ctf_errwarning_fail s false e it').ret ≠ none →
            (ctf_errwarning_fail s false e it').st.fp.map ctf_errno = some fp.ctf_errno)) ∧
        (s.fp = none → (ctf_errwarning_fail s false e it').st.fp = none)) := by
    intro e it' he
    unfold ctf_errwarning_fail
    cases hs : s.fp with
    | none =>
      refine ⟨rfl, fun fp h => (by cases h), fun _ => ?_⟩
      simp only [Bool.false_eq_true, ↓reduceIte, hs]
    | some d =>
      refine ⟨rfl, fun fp h => ?_, fun h => (by cases h)⟩
      simp only [Option.some.injEq] at h
      subst h
      exact ⟨fun _ => ⟨e, he, rfl⟩, fun h => absurd rfl h⟩
  refine ⟨?_, ?_⟩
  · rcases ctf_errwarning_next_any_cases s it has_is_warning true create_ok with
      ⟨e, he, it', h⟩ | ⟨c, rest, it', hl, h⟩
    · rw [h]
      exact hfail_t e it' he
    · rw [h]
      refine ⟨?_, fun h => (by cases h), fun _ => rfl⟩
      unfold ctf_errlist_set
      cases hs : s.fp <;> rfl
  · rcases ctf_errwarning_next_any_cases s it has_is_warning false create_ok with
      ⟨e, he, it', h⟩ | ⟨c, rest, it', hl, h⟩
    · rw [h]
      exact hfail_f e it' he
    · rw [h]
      refine ⟨rfl, fun fp hs => ⟨fun h => (by cases h), fun _ => ?_⟩, fun hs => ?_⟩
      · unfold ctf_errlist_set
        simp only [hs]
        rfl
      · unfold ctf_errlist_set
        simp only [hs]

theorem ctf_errwarning_next_keeps_errno_witness :
    (ctf_errwarning_next_any ⟨some errs_dict, []⟩ [] true true false).errp = some .ENOMEM ∧
    (ctf_errwarning_next_any ⟨some errs_dict, []⟩ [] true true false).st.fp.map ctf_errno
      = some .ECTF_CORRUPT ∧
    (ctf_errwarning_next_any ⟨some errs_dict, []⟩ [] true false false).st.fp.map ctf_errno
      = some .ENOMEM ∧
    ((ctf_errwarning_next_any ⟨some errs_dict, []⟩
        [{ ctn_iter_fun := .ctf_type_next, ctn_fp := 25 }] true true true).st.fp.map ctf_errno
      = (some errs_dict).map ctf_errno) ∧
    ((ctf_errwarning_next_any ⟨some errs_dict, []⟩
        [{ ctn_iter_fun := .ctf_type_next, ctn_fp := 25 }] true true true).ret = none →
      ∃ e ∈ ctf_errwarning_codes,
        (ctf_errwarning_next_any ⟨some errs_dict, []⟩
          [{ ctn_iter_fun := .ctf_type_next, ctn_fp := 25 }] true true true).errp = some e ∧
        (ctf_errwarning_next_any ⟨some errs_dict, []⟩
          [{ ctn_iter_fun := .ctf_type_next, ctn_fp := 25 }] true true true).st
            = ⟨some errs_dict, []⟩) :=
  ⟨by decide, by decide, by decide,
   (ctf_errwarning_next_keeps_errno ⟨some errs_dict, []⟩
      [{ ctn_iter_fun := .ctf_type_next, ctn_fp := 25 }] true true).1.1,
   (ctf_errwarning_next_keeps_errno ⟨some errs_dict, []⟩
      [{ ctn_iter_fun := .ctf_type_next, ctn_fp := 25 }] true true).1.2.1⟩

theorem ctf_vasprintf_noargs_plain :
    ∀ l : List Char, '%' ∉ l → ctf_vasprintf_noargs l = some l := by
  intro l
  induction l with
  | nil => intro _; rfl
  | cons c rest ih =>
    intro h
    have hc : c ≠ '%' := fun e => h (by rw [e]; exact List.mem_cons_self _ _)
    have hr : '%' ∉ rest := fun e => h (List.mem_cons_of_mem _ e)
    unfold ctf_vasprintf_noargs
    split
    · rename_i heq; cases heq
    · rename_i heq
      simp only [List.cons.injEq] at heq
      exact absurd heq.1 hc
    · rename_i heq
      simp only [List.cons.injEq] at heq
      exact absurd heq.1 hc
    · rename_i c' rest' _ _ heq
      simp only [List.cons.injEq] at heq
      obtain ⟨h1, h2⟩ := heq
      subst h1 h2
      rw [ih hr]
      rfl

theorem ctf_err_copy_loop_plain :
    ∀ (l : List ctf_err_warning_t) (dest : ctf_dict_t),
      (∀ r ∈ l, '%' ∉ r.cew_text.data) →
      ctf_err_copy_loop l dest
        = some { dest with ctf_errs_warnings := dest.ctf_errs_warnings ++ l } := by
  intro l
  induction l with
  | nil =>
    intro dest _
    simp only [ctf_err_copy_loop, List.append_nil]
  | cons c rest ih =>
    intro dest h
    have hc := ctf_vasprintf_noargs_plain _ (h c (List.mem_cons_self _ _))
    simp only [ctf_err_copy_loop, hc]
    rw [ih _ (fun r hr => h r (List.mem_cons_of_mem _ hr))]
    simp only [ctf_err_warn, List.append_assoc, List.singleton_append]

/-- Records whose texts hold no percent sign are copied as they are: the list of
`dest` is what it was followed by the records of `src` in the same order, the error
code of `dest` is that of `src`, and `src` is as before. -/
theorem ctf_err_copy_plain (dest src : ctf_dict_t)
    (h : ∀ r ∈ src.ctf_errs_warnings, '%' ∉ r.cew_text.data) :
    ctf_err_copy dest src
      = some ({ dest with ctf_errs_warnings := dest.ctf_errs_warnings ++ src.ctf_errs_warnings,
                          ctf_errno := src.ctf_errno }, src) := by
  unfold ctf_err_copy
  rw [ctf_err_copy_loop_plain _ _ h]
  rfl

/-- C33: `ctf_err_copy (dest, src)` passes the text of each record of `src` to
`ctf_err_warn` as its format.  The record `50%% of the types` of `percent_dict`
arrives in `dest` as `50% of the types`, so the message text is not the same; a
text with a lone percent sign (`100%`) leaves the behaviour undefined.  The list of
`src`, its error code, the number and order of the records, the `is_warning` flags
and the error code of `dest` are as the claim says. -/
theorem ctf_err_copy_format_string :
    ctf_err_copy errs_dict percent_dict
      = some ({ errs_dict with
                  ctf_errs_warnings := [⟨false, "first"⟩, ⟨true, "second"⟩, ⟨true, "plain"⟩,
                                        ⟨false, "50% of the types"⟩],
                  ctf_errno := .ECTF_BADID }, percent_dict) ∧
    percent_dict.ctf_errs_warnings = [⟨true, "plain"⟩, ⟨false, "50%% of the types"⟩] ∧
    ctf_err_copy errs_dict { percent_dict with ctf_errs_warnings := [⟨false, "100%"⟩] } = none := by
  decide

/-! ## Theorems: member count -/

/-- After a successful resolution: the count of a struct, union or 32-bit enum is
the number of elements of its payload, and every other kind, `CTF_K_ENUM64` among
them, fails with `ECTF_NOTSUE`. -/
theorem ctf_member_count_resolved (fuel : Nat) (fp : ctf_dict_t) (type : Nat) (r : ctf_ret Nat)
    (l : ctf_lookup_t) (hr : ctf_type_resolve fuel fp type = some r) (hv : r.val ≠ CTF_ERR)
    (hl : ctf_lookup_by_id r.fp r.val = .ok l) :
    (l.tp.kind = .CTF_K_ENUM →
      ctf_member_count fuel fp type = some ⟨(l.tp.enumerators.length : Nat), fp⟩) ∧
    (l.tp.kind = .CTF_K_STRUCT ∨ l.tp.kind = .CTF_K_UNION →
      ctf_member_count fuel fp type = some ⟨(l.tp.members.length : Nat), fp⟩) ∧
    (l.tp.kind ≠ .CTF_K_STRUCT → l.tp.kind ≠ .CTF_K_UNION → l.tp.kind ≠ .CTF_K_ENUM →
      ctf_member_count fuel fp type = some ⟨-1, { fp with ctf_errno := .ECTF_NOTSUE }⟩) := by
  have hfp := ctf_type_resolve_ok_fp fuel fp type r hr hv
  refine ⟨fun hk => ?_, fun hk => ?_, fun h1 h2 h3 => ?_⟩
  · unfold ctf_member_count
    simp only [hr, if_neg hv, hl]
    rw [if_neg (fun h => h.2.2 hk), if_pos hk, hfp]
    simp only [LCTF_VLEN_enum, hk, reduceCtorEq, ↓reduceIte]
  · unfold ctf_member_count
    simp only [hr, if_neg hv, hl]
    have hne : l.tp.kind ≠ .CTF_K_ENUM := by
      rcases hk with h | h <;> rw [h] <;> decide
    have hn : ¬ (l.tp.kind ≠ .CTF_K_STRUCT ∧ l.tp.kind ≠ .CTF_K_UNION ∧
        l.tp.kind ≠ .CTF_K_ENUM) := by
      rcases hk with h | h
      · exact fun c => c.1 h
      · exact fun c => c.2.1 h
    rw [if_neg hn, if_neg hne, hfp]
    rfl
  · unfold ctf_member_count
    simp only [hr, if_neg hv, hl]
    rw [if_pos ⟨h1, h2, h3⟩, hfp]
    rfl

/-- For a type whose record is a 32-bit enum, `ctf_member_count` succeeds and
returns the number of enumerators that a full iteration with `ctf_enum_next`
returns. -/
theorem ctf_member_count_enum (fp : ctf_dict_t) (type : Nat) (l : ctf_lookup_t)
    (hns : fp.LCTF_NO_STR = false) (hl : ctf_lookup_by_id fp type = .ok l)
    (hk : l.tp.kind = .CTF_K_ENUM) (ht : type ≠ CTF_ERR) :
    ∃ items fp',
      ctf_enum_next_all (l.tp.enumerators.length + 1) 2 fp type [] = some (items, fp') ∧
      fp'.ctf_errno = .ECTF_NEXT_END ∧
      ctf_member_count 1 fp type = some ⟨(items.length : Nat), fp⟩ := by
  have hv : LCTF_VLEN_enum l.tp = l.tp.enumerators.length := by
    simp only [LCTF_VLEN_enum, hk, reduceCtorEq, ↓reduceIte]
  obtain ⟨fp', ha, herr, _⟩ := ctf_enum_next_all_run 0 fp type l hl (Or.inl hk) ht hns
    (ctf_enum_pairs l.tp) [] fp (l.tp.enumerators.length + 1) rfl rfl
    (by rw [ctf_enum_pairs_length, hv])
  refine ⟨_, fp', ha, herr, ?_⟩
  have href : l.tp.kind.is_ref = false := by rw [hk]; rfl
  have hr := ctf_type_resolve_base 0 fp type l hl href (by rw [hk]; decide)
  have hc := (ctf_member_count_resolved 1 fp type ⟨type, fp⟩ l hr ht hl).1 hk
  rw [hc, ctf_enum_pairs_length, hv]

/-- C39: `ctf_member_count` does not agree with enumerator iteration for a 64-bit
enum.  Type 2 of `enum_dict` is a `CTF_K_ENUM64` with two enumerators: a full
iteration with `ctf_enum_next` returns both, but `ctf_member_count` returns -1 with
`ECTF_NOTSUE`, because its kind test names `CTF_K_STRUCT`, `CTF_K_UNION` and
`CTF_K_ENUM` only.  For the 32-bit enum 1 the count is the number of pairs that the
iteration returns, and `int` (3) fails with `ECTF_NOTSUE`. -/
theorem ctf_member_count_enum64_notsue :
    ctf_enum_next_all 3 2 enum_dict 2 []
      = some ([("BIG", 4294967296), ("ALL", -1)],
              { enum_dict with ctf_errno := .ECTF_NEXT_END }) ∧
    ctf_member_count 1 enum_dict 2
      = some ⟨-1, { enum_dict with ctf_errno := .ECTF_NOTSUE }⟩ ∧
    ctf_enum_next_all 5 2 enum_dict 1 []
      = some ([("RED", 0), ("GREEN", 1), ("LIME", 1), ("NEG", -2)],
              { enum_dict with ctf_errno := .ECTF_NEXT_END }) ∧
    ctf_member_count 1 enum_dict 1 = some ⟨4, enum_dict⟩ ∧
    ctf_member_count 1 enum_dict 3
      = some ⟨-1, { enum_dict with ctf_errno := .ECTF_NOTSUE }⟩ := by
  decide

/-! ## Theorems: callback form of whole-dict iteration -/

theorem ctf_type_next_loop_ok_fp (fp : ctf_dict_t) (wh : Int) (sub : List ctf_next_t) :
    ∀ (k : Nat) (i : ctf_next_t) (r : ctf_type_next_ret),
      ctf_type_next_loop fp wh sub k i = some r → r.ret ≠ CTF_ERR → r.fp = fp := by
  intro k
  induction k with
  | zero => intro i r h; cases h
  | succ k ih =>
    intro i r h hv
    unfold ctf_type_next_loop at h
    by_cases h1 : i.ctn_type ≤ fp.ctf_typemax
    · rw [if_pos h1] at h
      simp only [] at h
      by_cases h2 : wh = 0 ∧ (LCTF_INDEX_TO_TYPEPTR fp i.ctn_type).isroot = false
      · rw [if_pos h2] at h
        exact ih _ r h hv
      · rw [if_neg h2] at h
        simp only [Option.some.injEq] at h
        rw [← h]
    · rw [if_neg h1] at h
      simp only [Option.some.injEq] at h
      rw [← h] at hv
      exact absurd rfl hv

/-- A call of `ctf_type_next` that returns a type leaves the dict as it was. -/
theorem ctf_type_next_ok_fp (fuel : Nat) (fp : ctf_dict_t) (it : List ctf_next_t) (wh : Int)
    (r : ctf_type_next_ret) (h : ctf_type_next fuel fp it wh = some r) (hv : r.ret ≠ CTF_ERR) :
    r.fp = fp := by
  unfold ctf_type_next at h
  simp only [] at h
  split_ifs at h
  · simp only [Option.some.injEq] at h
    rw [← h] at hv
    exact absurd rfl hv
  · simp only [Option.some.injEq] at h
    rw [← h] at hv
    exact absurd rfl hv
  · exact ctf_type_next_loop_ok_fp fp wh _ fuel _ r h hv

/-- The callback form follows the cursor form call by call. -/
theorem ctf_type_iter_loop_eq {σ : Type} (func : Nat → σ → Int × σ) (fuel : Nat) :
    ∀ (n : Nat) (fp : ctf_dict_t) (it : List ctf_next_t) (arg : σ)
      (items : List (Nat × Bool)) (fpEnd : ctf_dict_t),
      ctf_type_next_all n fuel fp it 0 = some (items, fpEnd) →
      ctf_errno fpEnd = .ECTF_NEXT_END →
      ctf_type_iter_loop func n fuel fp it arg
        = some { ret := (ctf_iter_until func (items.map Prod.fst) arg).1,
                 calls := (ctf_iter_until func (items.map Prod.fst) arg).2.1,
                 arg := (ctf_iter_until func (items.map Prod.fst) arg).2.2,
                 fp := if (ctf_iter_until func (items.map Prod.fst) arg).1 ≠ 0 then fp
                       else fpEnd } := by
  intro n
  induction n with
  | zero => intro fp it arg items fpEnd h; cases h
  | succ n ih =>
    intro fp it arg items fpEnd h herr
    unfold ctf_type_next_all at h
    unfold ctf_type_iter_loop
    cases hr : ctf_type_next fuel fp it 0 with
    | none => rw [hr] at h; cases h
    | some r =>
      rw [hr] at h
      simp only [] at h ⊢
      by_cases hv : r.ret = CTF_ERR
      · rw [if_pos hv] at h
        simp only [Option.some.injEq, Prod.mk.injEq] at h
        obtain ⟨h1, h2⟩ := h
        subst h1
        rw [h2]
        simp only [hv, ne_eq, not_true_eq_false, ↓reduceIte, herr, List.map_nil, ctf_iter_until]
      · rw [if_neg hv] at h
        have hfp := ctf_type_next_ok_fp fuel fp it 0 r hr hv
        cases ha : ctf_type_next_all n fuel r.fp r.it 0 with
        | none => rw [ha] at h; cases h
        | some x =>
          obtain ⟨items', fp'⟩ := x
          rw [ha] at h
          simp only [Option.some.injEq, Prod.mk.injEq] at h
          obtain ⟨h1, h2⟩ := h
          subst h1 h2
          simp only [ne_eq, hv, not_false_eq_true, ↓reduceIte, List.map_cons, ctf_iter_until]
          by_cases hrc : (func r.ret arg).1 = 0
          · simp only [hrc, not_true_eq_false, ↓reduceIte]
            rw [ih r.fp r.it _ items' fp' ha herr, hfp]
          · simp only [hrc, not_false_eq_true, ↓reduceIte, hfp]

/-- The same for `ctf_type_iter_all`. -/
theorem ctf_type_iter_all_loop_eq {σ : Type} (func : Nat → Bool → σ → Int × σ) (fuel : Nat) :
    ∀ (n : Nat) (fp : ctf_dict_t) (it : List ctf_next_t) (arg : σ)
      (items : List (Nat × Bool)) (fpEnd : ctf_dict_t),
      ctf_type_next_all n fuel fp it 1 = some (items, fpEnd) →
      ctf_errno fpEnd = .ECTF_NEXT_END →
      ctf_type_iter_all_loop func n fuel fp it arg
        = some { ret := (ctf_iter_until (fun (x : Nat × Bool) => func x.1 x.2) items arg).1,
                 calls := (ctf_iter_until (fun (x : Nat × Bool) => func x.1 x.2) items arg).2.1,
                 arg := (ctf_iter_until (fun (x : Nat × Bool) => func x.1 x.2) items arg).2.2,
                 fp := if (ctf_iter_until (fun (x : Nat × Bool) => func x.1 x.2) items arg).1 ≠ 0
                       then fp else fpEnd } := by
  intro n
  induction n with
  | zero => intro fp it arg items fpEnd h; cases h
  | succ n ih =>
    intro fp it arg items fpEnd h herr
    unfold ctf_type_next_all at h
    unfold ctf_type_iter_all_loop
    cases hr : ctf_type_next fuel fp it 1 with
    | none => rw [hr] at h; cases h
    | some r =>
      rw [hr] at h
      simp only [] at h ⊢
      by_cases hv : r.ret = CTF_ERR
      · rw [if_pos hv] at h
        simp only [Option.some.injEq, Prod.mk.injEq] at h
        obtain ⟨h1, h2⟩ := h
        subst h1
        rw [h2]
        simp only [hv, ne_eq, not_true_eq_false, ↓reduceIte, herr, ctf_iter_until]
      · rw [if_neg hv] at h
        have hfp := ctf_type_next_ok_fp fuel fp it 1 r hr hv
        cases ha : ctf_type_next_all n fuel r.fp r.it 1 with
        | none => rw [ha] at h; cases h
        | some x =>
          obtain ⟨items', fp'⟩ := x
          rw [ha] at h
          simp only [Option.some.injEq, Prod.mk.injEq] at h
          obtain ⟨h1, h2⟩ := h
          subst h1 h2
          simp only [ne_eq, hv, not_false_eq_true, ↓reduceIte, ctf_iter_until]
          by_cases hrc : (func r.ret (r.flag.getD false) arg).1 = 0
          · simp only [hrc, not_true_eq_false, ↓reduceIte]
            rw [ih r.fp r.it _ items' fp' ha herr, hfp]
          · simp only [hrc, not_false_eq_true, ↓reduceIte, hfp]

/-- C40: the callback form equals the cursor form.  For a dict (whose `ctf_typemax`
is a `uint32_t`) and enough calls, repeated calls of `ctf_type_next` with
`want_hidden = 0` return the IDs of `ctf_type_list fp 0 1` and then end with
`ECTF_NEXT_END`; `ctf_type_iter` invokes its callback, whatever it is, on exactly
these IDs in the same order, up to and including the first invocation that returns
non-zero, returns that value and makes no further invocation (the dict is then as
before), or returns 0 when every invocation returned 0 (the dict then holds
`ECTF_NEXT_END`).  Likewise `ctf_type_iter_all` with `want_hidden = 1`, whose
callback also gets the root-visibility flag of each type. -/
theorem ctf_type_iter_eq_next (fp : ctf_dict_t) (hmax : fp.ctf_typemax < 4294967296)
    (n fuel : Nat) (hn : fp.ctf_typemax + 2 ≤ n) (hfuel : fp.ctf_typemax + 1 ≤ fuel) :
    (∀ wh : Int, ctf_type_next_all n fuel fp [] wh
      = some (ctf_type_list fp wh 1, (ctf_set_typed_errno fp .ECTF_NEXT_END).fp)) ∧
    (∀ (σ : Type) (func : Nat → σ → Int × σ) (arg : σ),
      ctf_type_iter n fuel fp func arg
        = some { ret := (ctf_iter_until func ((ctf_type_list fp 0 1).map Prod.fst) arg).1,
                 calls := (ctf_iter_until func ((ctf_type_list fp 0 1).map Prod.fst) arg).2.1,
                 arg := (ctf_iter_until func ((ctf_type_list fp 0 1).map Prod.fst) arg).2.2,
                 fp := if (ctf_iter_until func ((ctf_type_list fp 0 1).map Prod.fst) arg).1 ≠ 0
                       then fp else (ctf_set_typed_errno fp .ECTF_NEXT_END).fp }) ∧
    (∀ (σ : Type) (func : Nat → Bool → σ → Int × σ) (arg : σ),
      ctf_type_iter_all n fuel fp func arg
        = some { ret := (ctf_iter_until (fun (x : Nat × Bool) => func x.1 x.2)
                          (ctf_type_list fp 1 1) arg).1,
                 calls := (ctf_iter_until (fun (x : Nat × Bool) => func x.1 x.2)
                            (ctf_type_list fp 1 1) arg).2.1,
                 arg := (ctf_iter_until (fun (x : Nat × Bool) => func x.1 x.2)
                          (ctf_type_list fp 1 1) arg).2.2,
                 fp := if (ctf_iter_until (fun (x : Nat × Bool) => func x.1 x.2)
                            (ctf_type_list fp 1 1) arg).1 ≠ 0
                       then fp else (ctf_set_typed_errno fp .ECTF_NEXT_END).fp }) := by
  have hall : ∀ wh : Int, ctf_type_next_all n fuel fp [] wh
      = some (ctf_type_list fp wh 1, (ctf_set_typed_errno fp .ECTF_NEXT_END).fp) := by
    intro wh
    have hlen := ctf_type_list_length_le fp wh 1
    exact ctf_type_next_all_eq fp wh hmax fuel hfuel n [] trivial
      (by simp only [ctf_type_it_pos]; omega)
  refine ⟨hall, fun σ func arg => ?_, fun σ func arg => ?_⟩
  · exact ctf_type_iter_loop_eq func fuel n fp [] arg _ _ (hall 0) rfl
  · exact ctf_type_iter_all_loop_eq func fuel n fp [] arg _ _ (hall 1) rfl

theorem ctf_type_iter_eq_next_witness :
    hidden_dict.ctf_typemax < 4294967296 ∧
    ctf_type_next_all 6 5 hidden_dict [] 0
      = some (ctf_type_list hidden_dict 0 1,
              (ctf_set_typed_errno hidden_dict .ECTF_NEXT_END).fp) ∧
    ctf_type_iter 6 5 hidden_dict (fun (t : Nat) (seen : List Nat) =>
        ((if t = 3 then 7 else 0 : Int), t :: seen)) []
      = some { ret := 7, calls := [1, 3], arg := [3, 1], fp := hidden_dict } ∧
    ctf_type_iter 6 5 hidden_dict (fun (t : Nat) (seen : List Nat) => ((0 : Int), t :: seen)) []
      = some { ret := 0, calls := [1, 3, 4], arg := [4, 3, 1],
               fp := { hidden_dict with ctf_errno := .ECTF_NEXT_END } } := by
  have h := ctf_type_iter_eq_next hidden_dict (by decide) 6 5 (by decide) (by decide)
  refine ⟨by decide, h.1 0, ?_, ?_⟩
  · rw [h.2.1]
    decide
  · rw [h.2.1]
    decide

/-! ## Theorems: idempotence of resolution -/

/-- The dict a successful lookup moves to is the dict itself or, from a child, its
attached parent; lookups on the parent stay there. -/
theorem ctf_lookup_by_id_fp {ofp cur : ctf_dict_t} {t : Nat} {l : ctf_lookup_t}
    (hcur : cur = ofp ∨
      ∃ p, ofp.LCTF_CHILD = true ∧ ofp.ctf_parent = some p ∧ cur = p.dict)
    (h : ctf_lookup_by_id cur t = .ok l) :
    l.fp = cur ∨ ∃ p, ofp.LCTF_CHILD = true ∧ ofp.ctf_parent = some p ∧ l.fp = p.dict := by
  obtain ⟨hup, hc⟩ := ctf_cur_lookup h
  rcases hcur with rfl | ⟨p, h1, h2, rfl⟩
  · cases hu : l.up with
    | false =>
      rw [hu] at hc
      exact Or.inl hc.symm
    | true =>
      rw [hu] at hc hup
      have hchild : cur.LCTF_CHILD = true := by
        cases hcl : cur.LCTF_CHILD with
        | true => rfl
        | false => rw [hcl] at hup; simp at hup
      cases hp : cur.ctf_parent with
      | none =>
        unfold ctf_cur at hc
        simp only [↓reduceIte, hp] at hc
        exact Or.inl hc.symm
      | some p =>
        unfold ctf_cur at hc
        simp only [↓reduceIte, hp] at hc
        exact Or.inr ⟨p, hchild, rfl, hc.symm⟩
  · left
    have : ctf_cur p.dict l.up = p.dict := by
      unfold ctf_cur
      cases l.up <;> rfl
    rw [← hc, this]

/-- A successful resolution ends at a type whose record, looked up from the dict or
from its attached parent, is neither a link nor of unknown kind. -/
theorem ctf_type_resolve_loop_final (ofp : ctf_dict_t) (otype : Nat) :
    ∀ (fuel : Nat) (cur : ctf_dict_t) (up : Bool) (type prev : Nat) (r : ctf_ret Nat),
      ctf_type_resolve_loop false ofp otype fuel cur up type prev = some r →
      r.val ≠ CTF_ERR →
      (cur = ofp ∨ ∃ p, ofp.LCTF_CHILD = true ∧ ofp.ctf_parent = some p ∧ cur = p.dict) →
      ∃ l, (ctf_lookup_by_id ofp r.val = .ok l ∨
          ∃ p, ofp.LCTF_CHILD = true ∧ ofp.ctf_parent = some p ∧
            ctf_lookup_by_id p.dict r.val = .ok l) ∧
        l.tp.kind.is_ref = false ∧ l.tp.kind ≠ .CTF_K_UNKNOWN := by
  intro fuel
  induction fuel with
  | zero => intro cur up type prev r h; cases h
  | succ fuel ih =>
    intro cur up type prev r h hv hcur
    rw [ctf_type_resolve_loop_succ] at h
    cases hl : ctf_lookup_by_id cur type with
    | error e =>
      simp only [hl, Option.some.injEq] at h
      subst h
      exact absurd rfl hv
    | ok l =>
      simp only [hl] at h
      by_cases href : l.tp.kind.is_ref = true
      · rw [if_pos href] at h
        by_cases hcyc : l.tp.ctt_type = type ∨ l.tp.ctt_type = otype ∨ l.tp.ctt_type = prev
        · rw [if_pos hcyc] at h
          simp only [Option.some.injEq] at h
          subst h
          exact absurd rfl hv
        · rw [if_neg hcyc] at h
          by_cases hz : l.tp.ctt_type = 0
          · rw [if_pos hz] at h
            simp only [Bool.false_eq_true, ↓reduceIte, Option.some.injEq] at h
            subst h
            exact absurd rfl hv
          · rw [if_neg hz] at h
            refine ih l.fp _ _ _ r h hv ?_
            rcases ctf_lookup_by_id_fp hcur hl with h1 | h1
            · rw [h1]; exact hcur
            · exact Or.inr h1
      · rw [if_neg href] at h
        by_cases hu : l.tp.kind = .CTF_K_UNKNOWN
        · rw [if_pos hu] at h
          simp only [Option.some.injEq] at h
          subst h
          exact absurd rfl hv
        · rw [if_neg hu] at h
          simp only [Option.some.injEq] at h
          subst h
          refine ⟨l, ?_, by simpa using href, hu⟩
          rcases hcur with rfl | ⟨p, h1, h2, rfl⟩
          · exact Or.inl hl
          · exact Or.inr ⟨p, h1, h2, hl⟩

/-- A type that the attached parent holds, and that the child sees as a type of the
parent, is found from the child in the parent, with the same record. -/
theorem ctf_lookup_by_id_parent {fp : ctf_dict_t} {p : ctf_dict_core} {t : Nat}
    {l : ctf_lookup_t} (hc : fp.LCTF_CHILD = true) (hp : fp.ctf_parent = some p)
    (hl : ctf_lookup_by_id p.dict t = .ok l) (hsee : ctf_type_isparent fp t ≠ 0) :
    ctf_lookup_by_id fp t = .ok ⟨p.dict, true, l.tp⟩ := by
  have hfp : l.fp = p.dict := by
    have := (ctf_cur_lookup hl).2
    rw [← this]
    unfold ctf_cur
    cases l.up <;> rfl
  have hn := ctf_lookup_by_id_native hl
  rw [hfp] at hn
  obtain ⟨hg, idx, hi, htp⟩ := ctf_lookup_by_id_get_dict hn
  simp only [] at hg hi htp
  have hgf : ctf_get_dict fp t = some p.dict := by
    unfold ctf_get_dict
    simp only [hc, Bool.true_and, bne_iff_ne, ne_eq, hsee, not_false_eq_true, ↓reduceIte, hp,
      Option.map_some']
  unfold ctf_lookup_by_id at hn ⊢
  simp only [hg, hi] at hn
  simp only [hgf, hi]
  split_ifs at hn ⊢ with hcond
  simp only [Except.ok.injEq, ctf_lookup_t.mk.injEq] at hn ⊢
  refine ⟨trivial, ?_, hn.2.2⟩
  simp only [hc, Bool.true_and, bne_iff_ne, ne_eq, hsee, not_false_eq_true, decide_True]

/-- C37: `ctf_type_resolve` is idempotent.  If `ctf_type_resolve (fp, t)` succeeds
with the result `r`, then `ctf_type_resolve (fp, r)` succeeds and returns `r`, and
neither call changes the dict.  When the chain has led into the attached parent,
this needs that `fp` sees the result as a type of the parent (`ctf_type_isparent`),
as it does for every ID up to the parent's `ctf_idmax`. -/
theorem ctf_type_resolve_idempotent (fuel : Nat) (fp : ctf_dict_t) (t : Nat) (r : ctf_ret Nat)
    (hr : ctf_type_resolve fuel fp t = some r) (hv : r.val ≠ CTF_ERR)
    (hsee : ∀ p l, fp.LCTF_CHILD = true → fp.ctf_parent = some p →
      ctf_lookup_by_id p.dict r.val = .ok l → ctf_type_isparent fp r.val ≠ 0) :
    r.fp = fp ∧ ∀ fuel', ctf_type_resolve (fuel' + 1) fp r.val = some ⟨r.val, fp⟩ := by
  refine ⟨ctf_type_resolve_ok_fp fuel fp t r hr hv, fun fuel' => ?_⟩
  have hloop : ctf_type_resolve_loop false fp t fuel fp false t t = some r := by
    unfold ctf_type_resolve ctf_type_resolve_nonrepresentable at hr
    by_cases h0 : t = 0
    · rw [if_pos h0] at hr
      simp only [Bool.false_eq_true, ↓reduceIte, Option.some.injEq] at hr
      subst hr
      exact absurd rfl hv
    · rw [if_neg h0] at hr
      exact hr
  obtain ⟨l, hl, href, hu⟩ := ctf_type_resolve_loop_final fp t fuel fp false t t r hloop hv
    (Or.inl rfl)
  rcases hl with hl | ⟨p, hc, hp, hl⟩
  · exact ctf_type_resolve_base fuel' fp r.val l hl href hu
  · have hl2 := ctf_lookup_by_id_parent hc hp hl (hsee p l hc hp hl)
    exact ctf_type_resolve_base fuel' fp r.val ⟨p.dict, true, l.tp⟩ hl2 href hu

theorem ctf_type_resolve_idempotent_witness :
    ctf_type_resolve 3 alias_dict 5 = some ⟨3, alias_dict⟩ ∧
    (3 : Nat) ≠ CTF_ERR ∧
    ctf_type_isparent alias_dict 3 ≠ 0 ∧
    ctf_type_resolve 1 alias_dict 3 = some ⟨3, alias_dict⟩ ∧
    ctf_type_resolve 3 chain_dict 3 = some ⟨1, chain_dict⟩ ∧
    ctf_type_resolve 1 chain_dict 1 = some ⟨1, chain_dict⟩ :=
  ⟨by decide, by decide, by decide,
   (ctf_type_resolve_idempotent 3 alias_dict 5 ⟨3, alias_dict⟩ (by decide) (by decide)
      (fun _ _ _ _ _ => by decide)).2 0,
   by decide,
   (ctf_type_resolve_idempotent 3 chain_dict 3 ⟨1, chain_dict⟩ (by decide) (by decide)
      (fun _ _ h _ _ => absurd h (by decide))).2 0⟩

/-! ## Theorems: recursive visit -/

theorem ctf_lookup_by_id_error_code {fp : ctf_dict_t} {t : Nat} {e : ctf_error}
    (h : ctf_lookup_by_id fp t = .error e) : e = .ECTF_NOPARENT ∨ e = .ECTF_BADID := by
  unfold ctf_lookup_by_id at h
  cases hg : ctf_get_dict fp t with
  | none =>
    simp only [hg, Except.error.injEq] at h
    exact Or.inl h.symm
  | some d =>
    simp only [hg] at h
    cases hi : ctf_type_to_index d t with
    | none =>
      simp only [hi, Except.error.injEq] at h
      exact Or.inr h.symm
    | some idx =>
      simp only [hi] at h
      split_ifs at h
      simp only [Except.error.injEq] at h
      exact Or.inr h.symm

/-- The resolution of a type on a dict follows that on the dict without its error
state: same result, and a failure that is `ECTF_NONREPRESENTABLE` there is stored
as such in the dict. -/
theorem ctf_type_resolve_loop_nonrep (az : Bool) (a : ctf_dict_t) (otype : Nat) :
    ∀ (fuel : Nat) (cur : ctf_dict_t) (up : Bool) (type prev : Nat) (r0 : ctf_ret Nat),
      ctf_type_resolve_loop az (ctf_noerr a) otype fuel (ctf_noerr cur) up type prev = some r0 →
      ∃ r, ctf_type_resolve_loop az a otype fuel cur up type prev = some r ∧
        r.val = r0.val ∧
        (r0.val = CTF_ERR → ctf_errno r0.fp = .ECTF_NONREPRESENTABLE →
          ctf_errno r.fp = .ECTF_NONREPRESENTABLE) := by
  intro fuel
  induction fuel with
  | zero => intro cur up type prev r0 h; cases h
  | succ fuel ih =>
    intro cur up type prev r0 h
    rw [ctf_type_resolve_loop_succ] at h ⊢
    rw [ctf_lookup_by_id_noerr] at h
    cases hl : ctf_lookup_by_id cur type with
    | error e =>
      simp only [hl, Option.some.injEq] at h
      subst h
      refine ⟨_, rfl, rfl, fun _ herr => ?_⟩
      exfalso
      cases up with
      | true =>
        simp only [ctf_errno, ctf_lookup_errno, ↓reduceIte, ctf_noerr] at herr
        cases herr
      | false =>
        simp only [ctf_errno, ctf_lookup_errno, Bool.false_eq_true, ↓reduceIte] at herr
        rcases ctf_lookup_by_id_error_code hl with h1 | h1 <;> rw [h1] at herr <;> cases herr
    | ok l =>
      simp only [hl] at h ⊢
      by_cases href : l.tp.kind.is_ref = true
      · simp only [href, ↓reduceIte] at h ⊢
        by_cases hcyc : l.tp.ctt_type = type ∨ l.tp.ctt_type = otype ∨ l.tp.ctt_type = prev
        · simp only [if_pos hcyc, Option.some.injEq] at h ⊢
          subst h
          refine ⟨_, rfl, rfl, fun _ herr => ?_⟩
          exfalso
          simp only [ctf_errno, ctf_cycle_detected, ctf_set_typed_errno] at herr
          cases herr
        · simp only [if_neg hcyc] at h ⊢
          by_cases hz : l.tp.ctt_type = 0
          · simp only [if_pos hz] at h ⊢
            cases az with
            | true =>
              simp only [↓reduceIte, Option.some.injEq] at h ⊢
              subst h
              exact ⟨_, rfl, rfl, fun hv => absurd hv (show (0 : Nat) ≠ CTF_ERR by decide)⟩
            | false =>
              simp only [Bool.false_eq_true, ↓reduceIte, Option.some.injEq] at h ⊢
              subst h
              exact ⟨_, rfl, rfl, fun _ _ => rfl⟩
          · simp only [if_neg hz] at h ⊢
            exact ih l.fp _ _ _ r0 h
      · simp only [href, Bool.false_eq_true, ↓reduceIte] at h ⊢
        by_cases hu : l.tp.kind = .CTF_K_UNKNOWN
        · simp only [if_pos hu, Option.some.injEq] at h ⊢
          subst h
          exact ⟨_, rfl, rfl, fun _ _ => rfl⟩
        · simp only [if_neg hu, Option.some.injEq] at h ⊢
          subst h
          exact ⟨_, rfl, rfl, fun hv herr => by
            simp only [ctf_errno, ctf_noerr] at herr
            cases herr⟩

theorem ctf_type_resolve_nonrep (fuel : Nat) (a : ctf_dict_t) (t : Nat) (r0 : ctf_ret Nat)
    (h : ctf_type_resolve fuel (ctf_noerr a) t = some r0) :
    ∃ r, ctf_type_resolve fuel a t = some r ∧ r.val = r0.val ∧
      (r0.val = CTF_ERR → ctf_errno r0.fp = .ECTF_NONREPRESENTABLE →
        ctf_errno r.fp = .ECTF_NONREPRESENTABLE) := by
  unfold ctf_type_resolve ctf_type_resolve_nonrepresentable at h ⊢
  by_cases h0 : t = 0
  · simp only [if_pos h0, Bool.false_eq_true, ↓reduceIte, Option.some.injEq] at h ⊢
    subst h
    exact ⟨_, rfl, rfl, fun _ _ => rfl⟩
  · simp only [if_neg h0] at h ⊢
    exact ctf_type_resolve_loop_nonrep false a t fuel a false t t r0 h

/-- The callback form over a list made of two parts: the second part is reached
only when no invocation on the first returned non-zero. -/
theorem ctf_iter_until_append {α σ : Type} (func : α → σ → Int × σ) :
    ∀ (xs ys : List α) (arg : σ),
      ctf_iter_until func (xs ++ ys) arg
        = if (ctf_iter_until func xs arg).1 ≠ 0 then ctf_iter_until func xs arg
          else ((ctf_iter_until func ys (ctf_iter_until func xs arg).2.2).1,
                (ctf_iter_until func xs arg).2.1
                  ++ (ctf_iter_until func ys (ctf_iter_until func xs arg).2.2).2.1,
                (ctf_iter_until func ys (ctf_iter_until func xs arg).2.2).2.2) := by
  intro xs
  induction xs with
  | nil =>
    intro ys arg
    simp only [List.nil_append, ctf_iter_until, ne_eq, not_true_eq_false, ↓reduceIte]
  | cons x xs ih =>
    intro ys arg
    have hcons : (x :: xs) ++ ys = x :: (xs ++ ys) := rfl
    rw [hcons]
    simp only [ctf_iter_until]
    by_cases hrc : (func x arg).1 = 0
    · simp only [hrc, ne_eq, not_true_eq_false, ↓reduceIte]
      rw [ih ys (func x arg).2]
      by_cases h2 : (ctf_iter_until func xs (func x arg).2).1 = 0
      · simp only [h2, ne_eq, not_true_eq_false, ↓reduceIte, List.cons_append]
      · simp only [h2, ne_eq, not_false_eq_true, ↓reduceIte]
    · simp only [hrc, ne_eq, not_false_eq_true, ↓reduceIte]

/-- The member loop follows the walk over the members, given that the recursive
call follows the walk of each member. -/
theorem ctf_type_rvisit_loop_walk {σ : Type} (func : ctf_visit_call → σ → Int × σ)
    (rvisit : ctf_dict_t → Nat → σ → String → Nat → Int → Option (ctf_visit_ret σ))
    (sub : ctf_dict_t → Nat → String → Nat → Int → Option (List ctf_visit_call))
    (hsub : ∀ (fp : ctf_dict_t) (type : Nat) (name : String) (offset : Nat) (depth : Int)
      (calls : List ctf_visit_call), sub (ctf_noerr fp) type name offset depth = some calls →
      ∀ arg, ∃ fp', rvisit fp type arg name offset depth
          = some (ctf_visit_result func calls arg fp') ∧ ctf_noerr fp' = ctf_noerr fp)
    (ofp : ctf_dict_t) (up : Bool) (D : ctf_dict_t) (offset : Nat) (depth : Int) :
    ∀ (suffix pre : List ctf_member_t) (d : ctf_dict_t) (cs : List ctf_visit_call) (arg : σ),
      ctf_noerr d = D →
      ctf_visit_members sub D offset depth suffix = some cs →
      ∃ d', ctf_type_rvisit_loop rvisit ofp up (pre ++ suffix) offset depth suffix.length
          pre.length d arg = some (ctf_visit_result func cs arg (ctf_put ofp up d')) ∧
        ctf_noerr d' = D := by
  intro suffix
  induction suffix with
  | nil =>
    intro pre d cs arg hd h
    simp only [ctf_visit_members, Option.some.injEq] at h
    subst h
    exact ⟨d, rfl, hd⟩
  | cons m rest ih =>
    intro pre d cs arg hd h
    simp only [ctf_visit_members] at h
    cases h1 : sub D m.ctm_type m.ctm_name (add64 offset m.ctm_offset) (depth + 1) with
    | none => rw [h1] at h; cases h
    | some c1 =>
      rw [h1] at h
      simp only [] at h
      cases h2 : ctf_visit_members sub D offset depth rest with
      | none => rw [h2] at h; cases h
      | some c2 =>
        rw [h2] at h
        simp only [Option.some.injEq] at h
        subst h
        have hget : ctf_struct_member (pre ++ m :: rest) pre.length = some m := by
          unfold ctf_struct_member
          rw [List.get?_eq_getElem?, List.getElem?_append_right (le_refl _)]
          simp
        rw [← hd] at h1
        obtain ⟨fp1, hr1, hn1⟩ := hsub d m.ctm_type m.ctm_name (add64 offset m.ctm_offset)
          (depth + 1) c1 h1 arg
        show ∃ d', ctf_type_rvisit_loop rvisit ofp up (pre ++ m :: rest) offset depth
          (rest.length + 1) pre.length d arg = _ ∧ _
        rw [ctf_type_rvisit_loop]
        simp only [hget, hr1]
        by_cases hrc : (ctf_iter_until func c1 arg).1 = 0
        · have hrc' : ¬ (ctf_visit_result func c1 arg fp1).ret ≠ 0 := by
            simpa [ctf_visit_result] using hrc
          rw [if_neg hrc']
          have hpre : pre ++ m :: rest = (pre ++ [m]) ++ rest := by simp
          have hlen : pre.length + 1 = (pre ++ [m]).length := by simp
          obtain ⟨d', hl, hn⟩ := ih (pre ++ [m]) fp1 c2 (ctf_iter_until func c1 arg).2.2
            (hn1.trans hd) h2
          rw [hpre, hlen]
          refine ⟨d', ?_, hn⟩
          have harg : (ctf_visit_result func c1 arg fp1).arg = (ctf_iter_until func c1 arg).2.2 :=
            rfl
          have hfp : (ctf_visit_result func c1 arg fp1).fp = fp1 := rfl
          rw [harg, hfp, hl]
          simp only [ctf_visit_result, ctf_iter_until_append, hrc, ne_eq, not_true_eq_false,
            ↓reduceIte]
        · have hrc' : (ctf_visit_result func c1 arg fp1).ret ≠ 0 := by
            simpa [ctf_visit_result] using hrc
          rw [if_pos hrc']
          refine ⟨fp1, ?_, hn1.trans hd⟩
          simp only [ctf_visit_result, ctf_iter_until_append, hrc, ne_eq, not_false_eq_true,
            ↓reduceIte]

theorem ctf_visit_preorder_succ (fuel : Nat) (fp : ctf_dict_t) (type : Nat) (name : String)
    (offset : Nat) (depth : Int) :
    ctf_visit_preorder (fuel + 1) fp type name offset depth =
      if fp.LCTF_NO_STR then none
      else
        match ctf_type_resolve fuel fp type with
        | none => none
        | some r =>
          if r.val = CTF_ERR then
            if ctf_errno r.fp = .ECTF_NONREPRESENTABLE then some [⟨name, type, offset, depth⟩]
            else none
          else
            match ctf_lookup_by_id fp r.val with
            | .error _ => none
            | .ok l =>
              if l.tp.kind = .CTF_K_STRUCT ∨ l.tp.kind = .CTF_K_UNION then
                match ctf_visit_members (ctf_visit_preorder fuel) l.fp offset depth
                        l.tp.members with
                | none => none
                | some cs => some (⟨name, type, offset, depth⟩ :: cs)
              else some [⟨name, type, offset, depth⟩] := rfl

theorem ctf_type_rvisit_succ {σ : Type} (func : ctf_visit_call → σ → Int × σ) (fuel : Nat)
    (ofp : ctf_dict_t) (otype : Nat) (arg : σ) (name : String) (offset : Nat) (depth : Int) :
    ctf_type_rvisit func (fuel + 1) ofp otype arg name offset depth =
      if ofp.LCTF_NO_STR then
        some { ret := (ctf_set_errno ofp .ECTF_NOPARENT).val, calls := [], arg := arg,
               fp := (ctf_set_errno ofp .ECTF_NOPARENT).fp }
      else
        match ctf_type_resolve fuel ofp otype with
        | none => none
        | some r =>
          if r.val = CTF_ERR ∧ ctf_errno r.fp ≠ .ECTF_NONREPRESENTABLE then
            some { ret := -1, calls := [], arg := arg, fp := r.fp }
          else if r.val = CTF_ERR then
            some { ret := (func ⟨name, otype, offset, depth⟩ arg).1,
                   calls := [⟨name, otype, offset, depth⟩],
                   arg := (func ⟨name, otype, offset, depth⟩ arg).2, fp := r.fp }
          else
            match ctf_lookup_by_id r.fp r.val with
            | .error e =>
              some { ret := -1, calls := [], arg := arg, fp := ctf_lookup_errno r.fp false e }
            | .ok l =>
              if (func ⟨name, otype, offset, depth⟩ arg).1 ≠ 0 then
                some { ret := (func ⟨name, otype, offset, depth⟩ arg).1,
                       calls := [⟨name, otype, offset, depth⟩],
                       arg := (func ⟨name, otype, offset, depth⟩ arg).2, fp := r.fp }
              else if l.tp.kind ≠ .CTF_K_STRUCT ∧ l.tp.kind ≠ .CTF_K_UNION then
                some { ret := 0, calls := [⟨name, otype, offset, depth⟩],
                       arg := (func ⟨name, otype, offset, depth⟩ arg).2, fp := r.fp }
              else
                let vlen := match ctf_dynamic_type l.fp r.val with
                  | some dtd => dtd.members
                  | none => l.tp.members
                match ctf_type_rvisit_loop (ctf_type_rvisit func fuel) r.fp l.up vlen offset
                        depth (LCTF_VLEN l.tp) 0 l.fp (func ⟨name, otype, offset, depth⟩ arg).2 with
                | none => none
                | some x => some { x with calls := ⟨name, otype, offset, depth⟩ :: x.calls } :=
  rfl

theorem ctf_visit_result_single {σ : Type} (func : ctf_visit_call → σ → Int × σ)
    (c : ctf_visit_call) (arg : σ) (fp : ctf_dict_t) :
    ctf_visit_result func [c] arg fp
      = { ret := (func c arg).1, calls := [c], arg := (func c arg).2, fp := fp } := by
  unfold ctf_visit_result
  simp only [ctf_iter_until]
  by_cases h : (func c arg).1 = 0
  · simp only [h, ne_eq, not_true_eq_false, ↓reduceIte]
  · simp only [h, ne_eq, not_false_eq_true, ↓reduceIte]

theorem ctf_visit_result_cons {σ : Type} (func : ctf_visit_call → σ → Int × σ)
    (c : ctf_visit_call) (cs : List ctf_visit_call) (arg : σ) (fp : ctf_dict_t)
    (h : (func c arg).1 = 0) :
    ctf_visit_result func (c :: cs) arg fp
      = { ctf_visit_result func cs (func c arg).2 fp with
          calls := c :: (ctf_visit_result func cs (func c arg).2 fp).calls } := by
  unfold ctf_visit_result
  simp only [ctf_iter_until, h, ne_eq, not_true_eq_false, ↓reduceIte]

/-- The visitor follows the pre-order walk of the dict without its error state:
whatever the callback, it is invoked on the invocations of the walk in order, up to
and including the first that returns non-zero; the types of the dict are left as
they were. -/
theorem ctf_type_rvisit_walk {σ : Type} (func : ctf_visit_call → σ → Int × σ) :
    ∀ (fuel : Nat) (fp : ctf_dict_t) (type : Nat) (name : String) (offset : Nat) (depth : Int)
      (calls : List ctf_visit_call),
      ctf_visit_preorder fuel (ctf_noerr fp) type name offset depth = some calls →
      ∀ arg, ∃ fp', ctf_type_rvisit func fuel fp type arg name offset depth
          = some (ctf_visit_result func calls arg fp') ∧ ctf_noerr fp' = ctf_noerr fp := by
  intro fuel
  induction fuel with
  | zero => intro fp type name offset depth calls h; cases h
  | succ fuel ih =>
    intro fp type name offset depth calls h arg
    rw [ctf_visit_preorder_succ] at h
    rw [ctf_type_rvisit_succ]
    have hns : (ctf_noerr fp).LCTF_NO_STR = fp.LCTF_NO_STR := rfl
    rw [hns] at h
    by_cases hstr : fp.LCTF_NO_STR = true
    · rw [if_pos hstr] at h
      cases h
    · rw [if_neg hstr] at h ⊢
      cases hr0 : ctf_type_resolve fuel (ctf_noerr fp) type with
      | none => rw [hr0] at h; cases h
      | some r0 =>
        rw [hr0] at h
        simp only [] at h
        obtain ⟨r, hr, hval, hnon⟩ := ctf_type_resolve_nonrep fuel fp type r0 hr0
        have hnr := ctf_type_resolve_noerr fuel fp type r hr
        rw [hr]
        simp only []
        by_cases hv0 : r0.val = CTF_ERR
        · rw [if_pos hv0] at h
          by_cases he0 : ctf_errno r0.fp = .ECTF_NONREPRESENTABLE
          · rw [if_pos he0] at h
            simp only [Option.some.injEq] at h
            subst h
            have hv : r.val = CTF_ERR := hval.trans hv0
            have he : ctf_errno r.fp = .ECTF_NONREPRESENTABLE := hnon hv0 he0
            rw [if_neg (fun c => c.2 he), if_pos hv]
            exact ⟨r.fp, by rw [ctf_visit_result_single], hnr⟩
          · rw [if_neg he0] at h
            cases h
        · rw [if_neg hv0] at h
          have hv : r.val ≠ CTF_ERR := by rw [hval]; exact hv0
          have hfp : r.fp = fp := ctf_type_resolve_ok_fp fuel fp type r hr hv
          rw [if_neg (fun c => hv c.1), if_neg hv, hfp]
          rw [ctf_lookup_by_id_noerr, ← hval] at h
          cases hl : ctf_lookup_by_id fp r.val with
          | error e => rw [hl] at h; cases h
          | ok l =>
            rw [hl] at h
            simp only [] at h ⊢
            by_cases hk : l.tp.kind = .CTF_K_STRUCT ∨ l.tp.kind = .CTF_K_UNION
            · rw [if_pos hk] at h
              cases hm : ctf_visit_members (ctf_visit_preorder fuel) (ctf_noerr l.fp) offset depth
                  l.tp.members with
              | none => rw [hm] at h; cases h
              | some cs =>
                rw [hm] at h
                simp only [Option.some.injEq] at h
                subst h
                by_cases hrc : (func ⟨name, type, offset, depth⟩ arg).1 = 0
                · rw [if_neg (fun c => c hrc)]
                  have hk' : ¬ (l.tp.kind ≠ .CTF_K_STRUCT ∧ l.tp.kind ≠ .CTF_K_UNION) := by
                    rcases hk with h1 | h1
                    · exact fun c => c.1 h1
                    · exact fun c => c.2 h1
                  rw [if_neg hk']
                  have hvlen : (match ctf_dynamic_type l.fp r.val with
                      | some dtd => dtd.members
                      | none => l.tp.members) = l.tp.members := by
                    cases hd : ctf_dynamic_type l.fp r.val with
                    | none => rfl
                    | some dtd =>
                      simp only []
                      rw [ctf_dynamic_type_lookup hl hd]
                  obtain ⟨d', hloop, hd'⟩ := ctf_type_rvisit_loop_walk func
                    (ctf_type_rvisit func fuel) (ctf_visit_preorder fuel)
                    (fun fp type name offset depth calls hc arg =>
                      ih fp type name offset depth calls hc arg)
                    fp l.up (ctf_noerr l.fp) offset depth l.tp.members [] l.fp cs
                    (func ⟨name, type, offset, depth⟩ arg).2 rfl hm
                  simp only [List.nil_append, List.length_nil] at hloop
                  simp only [hvlen]
                  have hlen : LCTF_VLEN l.tp = l.tp.members.length := rfl
                  rw [hlen, hloop]
                  refine ⟨ctf_put fp l.up d', ?_, ?_⟩
                  · rw [ctf_visit_result_cons func _ cs arg _ hrc]
                  · apply ctf_noerr_put
                    rw [hd', (ctf_cur_lookup hl).2]
                · rw [if_pos hrc]
                  refine ⟨fp, ?_, rfl⟩
                  unfold ctf_visit_result
                  simp only [ctf_iter_until, hrc, ne_eq, not_false_eq_true, ↓reduceIte]
            · rw [if_neg hk] at h
              simp only [Option.some.injEq] at h
              subst h
              have hk' : l.tp.kind ≠ .CTF_K_STRUCT ∧ l.tp.kind ≠ .CTF_K_UNION :=
                ⟨fun c => hk (Or.inl c), fun c => hk (Or.inr c)⟩
              rw [if_pos hk']
              refine ⟨fp, ?_, rfl⟩
              rw [ctf_visit_result_single]
              by_cases hrc : (func ⟨name, type, offset, depth⟩ arg).1 = 0
              · rw [if_neg (fun c => c hrc), hrc]
              · rw [if_pos hrc]

/-- C35: `ctf_type_visit` performs a depth-first pre-order walk.  When the pre-order
walk `ctf_visit_preorder` of the type (on the types of the dict, whatever its error
state) is `calls`, then for every callback `ctf_type_visit` invokes it on the
invocations of `calls` in order, up to and including the first that returns
non-zero, and returns that value, or 0 if there is none; the types of the dict are
left as they were.  The walk begins with the given type, under the ID it was given
by, with name `""`, offset 0 and depth 0; for a type whose resolution fails as
non-representable, or that does not resolve to a struct or union, that is the whole
walk; for a struct or union it is followed by the walks of the raw direct members
in declaration order (`ctf_visit_members`: each with the name and type of the
member, the offset of the member added, one level deeper, and its whole subtree
before the next member). -/
theorem ctf_type_visit_preorder (fuel : Nat) (fp : ctf_dict_t) (type : Nat)
    (calls : List ctf_visit_call)
    (hwalk : ctf_visit_preorder (fuel + 1) (ctf_noerr fp) type "" 0 0 = some calls) :
    (∀ (σ : Type) (func : ctf_visit_call → σ → Int × σ) (arg : σ),
      ∃ fp', ctf_type_visit func (fuel + 1) fp type arg
          = some { ret := (ctf_iter_until func calls arg).1,
                   calls := (ctf_iter_until func calls arg).2.1,
                   arg := (ctf_iter_until func calls arg).2.2, fp := fp' } ∧
        ctf_noerr fp' = ctf_noerr fp) ∧
    calls.head? = some ⟨"", type, 0, 0⟩ ∧
    (∀ r, ctf_type_resolve fuel (ctf_noerr fp) type = some r → r.val = CTF_ERR →
      ctf_errno r.fp = .ECTF_NONREPRESENTABLE ∧ calls = [⟨"", type, 0, 0⟩]) ∧
    (∀ r l, ctf_type_resolve fuel (ctf_noerr fp) type = some r → r.val ≠ CTF_ERR →
      ctf_lookup_by_id (ctf_noerr fp) r.val = .ok l →
      (l.tp.kind ≠ .CTF_K_STRUCT → l.tp.kind ≠ .CTF_K_UNION → calls = [⟨"", type, 0, 0⟩]) ∧
      (l.tp.kind = .CTF_K_STRUCT ∨ l.tp.kind = .CTF_K_UNION →
        ∃ cs, ctf_visit_members (ctf_visit_preorder fuel) l.fp 0 0 l.tp.members = some cs ∧
          calls = ⟨"", type, 0, 0⟩ :: cs)) := by
  have hmain : ∀ (σ : Type) (func : ctf_visit_call → σ → Int × σ) (arg : σ),
      ∃ fp', ctf_type_visit func (fuel + 1) fp type arg
          = some { ret := (ctf_iter_until func calls arg).1,
                   calls := (ctf_iter_until func calls arg).2.1,
                   arg := (ctf_iter_until func calls arg).2.2, fp := fp' } ∧
        ctf_noerr fp' = ctf_noerr fp := by
    intro σ func arg
    exact ctf_type_rvisit_walk func (fuel + 1) fp type "" 0 0 calls hwalk arg
  rw [ctf_visit_preorder_succ] at hwalk
  by_cases hstr : (ctf_noerr fp).LCTF_NO_STR = true
  · rw [if_pos hstr] at hwalk
    cases hwalk
  · rw [if_neg hstr] at hwalk
    cases hr0 : ctf_type_resolve fuel (ctf_noerr fp) type with
    | none => rw [hr0] at hwalk; cases hwalk
    | some r0 =>
      rw [hr0] at hwalk
      simp only [] at hwalk
      by_cases hv0 : r0.val = CTF_ERR
      · rw [if_pos hv0] at hwalk
        by_cases he0 : ctf_errno r0.fp = .ECTF_NONREPRESENTABLE
        · rw [if_pos he0] at hwalk
          simp only [Option.some.injEq] at hwalk
          subst hwalk
          refine ⟨hmain, rfl, ?_, ?_⟩
          · intro r hr _
            simp only [Option.some.injEq] at hr
            subst hr
            exact ⟨he0, rfl⟩
          · intro r l hr hv _
            simp only [Option.some.injEq] at hr
            subst hr
            exact absurd hv0 hv
        · rw [if_neg he0] at hwalk
          cases hwalk
      · rw [if_neg hv0] at hwalk
        cases hl0 : ctf_lookup_by_id (ctf_noerr fp) r0.val with
        | error e => rw [hl0] at hwalk; cases hwalk
        | ok l0 =>
          rw [hl0] at hwalk
          simp only [] at hwalk
          by_cases hk : l0.tp.kind = .CTF_K_STRUCT ∨ l0.tp.kind = .CTF_K_UNION
          · rw [if_pos hk] at hwalk
            cases hm : ctf_visit_members (ctf_visit_preorder fuel) l0.fp 0 0 l0.tp.members with
            | none => rw [hm] at hwalk; cases hwalk
            | some cs =>
              rw [hm] at hwalk
              simp only [Option.some.injEq] at hwalk
              subst hwalk
              refine ⟨hmain, rfl, ?_, ?_⟩
              · intro r hr hv
                simp only [Option.some.injEq] at hr
                subst hr
                exact absurd hv hv0
              · intro r l hr _ hl
                simp only [Option.some.injEq] at hr
                subst hr
                rw [hl0] at hl
                simp only [Except.ok.injEq] at hl
                subst hl
                refine ⟨fun h1 h2 => ?_, fun _ => ⟨cs, hm, rfl⟩⟩
                rcases hk with h | h
                · exact absurd h h1
                · exact absurd h h2
          · rw [if_neg hk] at hwalk
            simp only [Option.some.injEq] at hwalk
            subst hwalk
            refine ⟨hmain, rfl, ?_, ?_⟩
            · intro r hr hv
              simp only [Option.some.injEq] at hr
              subst hr
              exact absurd hv hv0
            · intro r l hr _ hl
              simp only [Option.some.injEq] at hr
              subst hr
              rw [hl0] at hl
              simp only [Except.ok.injEq] at hl
              subst hl
              exact ⟨fun _ _ => rfl, fun h => absurd h hk⟩

theorem ctf_type_visit_preorder_witness :
    ctf_visit_preorder 4 (ctf_noerr visit_dict) 5 "" 0 0
      = some [⟨"", 5, 0, 0⟩, ⟨"a", 1, 0, 1⟩, ⟨"in", 2, 64, 1⟩, ⟨"x", 1, 64, 2⟩,
              ⟨"y", 1, 96, 2⟩, ⟨"v", 3, 128, 1⟩, ⟨"z", 1, 160, 1⟩] ∧
    (∃ fp', ctf_type_visit (fun (c : ctf_visit_call) (seen : List String) =>
          ((if c.name = "y" then 9 else 0 : Int), c.name :: seen)) 4 visit_dict 5 []
        = some { ret := 9,
                 calls := [⟨"", 5, 0, 0⟩, ⟨"a", 1, 0, 1⟩, ⟨"in", 2, 64, 1⟩, ⟨"x", 1, 64, 2⟩,
                           ⟨"y", 1, 96, 2⟩],
                 arg := ["y", "x", "in", "a", ""], fp := fp' } ∧
      ctf_noerr fp' = ctf_noerr visit_dict) ∧
    ctf_type_visit (fun (_ : ctf_visit_call) (n : Nat) => ((0 : Int), n + 1)) 4 visit_dict 3 0
      = some { ret := 0, calls := [⟨"", 3, 0, 0⟩], arg := 1,
               fp := { visit_dict with ctf_errno := .ECTF_NONREPRESENTABLE } } := by
  have hw : ctf_visit_preorder 4 (ctf_noerr visit_dict) 5 "" 0 0
      = some [⟨"", 5, 0, 0⟩, ⟨"a", 1, 0, 1⟩, ⟨"in", 2, 64, 1⟩, ⟨"x", 1, 64, 2⟩,
              ⟨"y", 1, 96, 2⟩, ⟨"v", 3, 128, 1⟩, ⟨"z", 1, 160, 1⟩] := by decide
  refine ⟨hw, ?_, by decide⟩
  obtain ⟨fp', h1, h2⟩ := (ctf_type_visit_preorder 3 visit_dict 5 _ hw).1 (List String)
    (fun c seen => ((if c.name = "y" then 9 else 0 : Int), c.name :: seen)) []
  exact ⟨fp', h1, h2⟩

end Ctf
